import Mathlib

/-!
# drm-cursor: the per-output cursor controller

A shallow embedding of `src/drm_cursor.c` and the statements of its
specification that are settled against it.

Modelling conventions.

* A C `int` is an `Int`.  Signed overflow is undefined in C, so the model
  describes the executions in which no signed operation overflows.  A
  `uint32_t` / `uint64_t` is a `Nat`; the conversions between the unsigned and
  the signed types that the source performs implicitly are explicit here
  (`int_of_uint32`, `uint32_of_int`, `uint64_of_int`), and the bit operators
  on `int` work on the 32-bit two's complement patterns (`int_or`, `int_and`,
  `int_not`).
* A C `int` that is only ever assigned `0` or `1` and only ever tested for
  truth is a `Bool`; the configuration integers of `drm_ctx` stay `Int`.
* Every call that leaves the program (libdrm, the kernel, the GPU backend of
  `drm_egl.c`, the clock) is answered by a `Kernel`: a deterministic
  environment whose answers may depend on everything that happened before.
  Each such call is recorded in a log, newest entry first.  The entry
  `Event.drm_set_plane` marks an invocation of the commit layer itself.
* A pointer into `ctx->crtcs` is an index; a function that receives
  `drm_crtc *crtc` works on a `World`, which holds the context, a copy of the
  output and the plane object `crtc->plane` points to.
-/

namespace DrmCursor

/-! ## Machine integers -/

/-- Conversion of a `uint32_t` value to `int` (two's complement). -/
def int_of_uint32 (v : Nat) : Int :=
  if v % 4294967296 < 2147483648 then ((v % 4294967296 : Nat) : Int)
  else ((v % 4294967296 : Nat) : Int) - 4294967296

/-- Conversion of an `int` value to `uint32_t`. -/
def uint32_of_int (v : Int) : Nat := (v % 4294967296).toNat

/-- Conversion of an `int` value to `uint64_t`. -/
def uint64_of_int (v : Int) : Nat := (v % 18446744073709551616).toNat

/-- The C operator `|` on two `int` values, through their 32-bit patterns. -/
def int_or (a b : Int) : Int := int_of_uint32 (Nat.lor (uint32_of_int a) (uint32_of_int b))

/-- The C operator `&` on two `int` values, through their 32-bit patterns. -/
def int_and (a b : Int) : Int := int_of_uint32 (Nat.land (uint32_of_int a) (uint32_of_int b))

/-- The C operator `~` on an `int` value, through its 32-bit pattern. -/
def int_not (a : Int) : Int := int_of_uint32 (Nat.xor 4294967295 (uint32_of_int a))

/-! ## Data model -/

/-- Request flag `REQ_SET_CURSOR`, which is `1 << 0`. -/
def REQ_SET_CURSOR : Int := 1

/-- Request flag `REQ_MOVE_CURSOR`, which is `1 << 1`. -/
def REQ_MOVE_CURSOR : Int := 2

/-- The struct `drm_cursor_state`. -/
structure drm_cursor_state where
  handle : Nat
  fb : Nat
  width : Int
  height : Int
  x : Int
  y : Int
  off_x : Int
  off_y : Int
  request : Int
deriving DecidableEq

/-- The all-zero cursor state, as left by `memset` and by static storage. -/
def drm_cursor_state.zero : drm_cursor_state :=
  { handle := 0, fb := 0, width := 0, height := 0, x := 0, y := 0,
    off_x := 0, off_y := 0, request := 0 }

/-- The enum `drm_thread_state`. -/
inductive drm_thread_state where
  | IDLE
  | ERROR
  | PENDING
deriving DecidableEq

/-- The enum `drm_plane_prop`; `PLANE_PROP_MAX` is the number of constructors. -/
inductive drm_plane_prop where
  | type
  | IN_FORMATS
  | zpos
  | ZPOS
  | ASYNC_COMMIT
  | CRTC_ID
  | FB_ID
  | SRC_X
  | SRC_Y
  | SRC_W
  | SRC_H
  | CRTC_X
  | CRTC_Y
  | CRTC_W
  | CRTC_H
deriving DecidableEq

/-- Numeric value of a `drm_plane_prop`, its index in `prop_ids`. -/
def drm_plane_prop.idx : drm_plane_prop → Nat
  | .type => 0
  | .IN_FORMATS => 1
  | .zpos => 2
  | .ZPOS => 3
  | .ASYNC_COMMIT => 4
  | .CRTC_ID => 5
  | .FB_ID => 6
  | .SRC_X => 7
  | .SRC_Y => 8
  | .SRC_W => 9
  | .SRC_H => 10
  | .CRTC_X => 11
  | .CRTC_Y => 12
  | .CRTC_W => 13
  | .CRTC_H => 14

/-- The table `drm_plane_prop_names`. -/
def drm_plane_prop_names : drm_plane_prop → String
  | .type => "type"
  | .IN_FORMATS => "IN_FORMATS"
  | .zpos => "zpos"
  | .ZPOS => "ZPOS"
  | .ASYNC_COMMIT => "ASYNC_COMMIT"
  | .CRTC_ID => "CRTC_ID"
  | .FB_ID => "FB_ID"
  | .SRC_X => "SRC_X"
  | .SRC_Y => "SRC_Y"
  | .SRC_W => "SRC_W"
  | .SRC_H => "SRC_H"
  | .CRTC_X => "CRTC_X"
  | .CRTC_Y => "CRTC_Y"
  | .CRTC_W => "CRTC_W"
  | .CRTC_H => "CRTC_H"

/-- The libdrm object `drmModeObjectProperties`: property ids and values. -/
structure drmModeObjectProperties where
  props : List Nat
  prop_values : List Nat
deriving DecidableEq

/-- One entry of the modifier table of an `IN_FORMATS` blob
(`struct drm_format_modifier`). -/
structure drm_format_modifier where
  formats : Nat
  offset : Nat
  modifier : Nat
deriving DecidableEq

/-- The parts of the libdrm object `drmModePlane` the program reads. -/
structure drmModePlane where
  formats : List Nat
  possible_crtcs : Nat
deriving DecidableEq

/-- The struct `drm_plane`. -/
structure drm_plane where
  plane_id : Nat
  cursor_plane : Bool
  can_afbc : Bool
  can_linear : Bool
  plane : drmModePlane
  props : drmModeObjectProperties
  prop_ids : List Int
deriving DecidableEq

/-- Life cycle of the worker of an output (the `pthread_t thread` field):
not created, created by `pthread_create` and not yet in its loop, in its
loop, returned. -/
inductive thread_status where
  | absent
  | created
  | looping
  | returned
deriving DecidableEq

/-- The struct `drm_crtc`.  `egl_ctx` records whether the pointer is set. -/
structure drm_crtc where
  crtc_id : Nat
  crtc_pipe : Nat
  width : Int
  height : Int
  plane : Option drm_plane
  prefer_plane_id : Nat
  cursor_next : drm_cursor_state
  cursor_curr : drm_cursor_state
  thread : thread_status
  state : drm_thread_state
  egl_ctx : Bool
  verified : Bool
  use_afbc_modifier : Bool
  blocked : Bool
  async_commit : Bool
  last_update_time : Nat
deriving DecidableEq

/-- The struct `drm_ctx` after initialisation; `num_crtcs` is the length of
`crtcs` and `planes` is `pres->planes`. -/
structure drm_ctx where
  crtcs : List drm_crtc
  planes : List Nat
  prefer_afbc_modifier : Int
  allow_overlay : Int
  num_surfaces : Int
  atomic : Int
  hide : Int
  min_interval : Nat
deriving DecidableEq

/-! ## The producer/consumer handoff -/

/-- The update of `cursor_next` made by `drm_set_cursor` under the mutex
(`drm_cursor.c` 1098-1106). -/
def drm_set_cursor_enqueue (crtc : drm_crtc) (handle width height : Nat) : drm_crtc :=
  { crtc with
    cursor_next :=
      { crtc.cursor_next with
        request := int_or crtc.cursor_next.request REQ_SET_CURSOR
        fb := 0
        handle := handle
        width := int_of_uint32 width
        height := int_of_uint32 height }
    state := drm_thread_state.PENDING }

/-- The update of `cursor_next` made by `drm_move_cursor` under the mutex
(`drm_cursor.c` 1154-1161). -/
def drm_move_cursor_enqueue (crtc : drm_crtc) (x y : Int) : drm_crtc :=
  { crtc with
    cursor_next :=
      { crtc.cursor_next with
        request := int_or crtc.cursor_next.request REQ_MOVE_CURSOR
        fb := 0
        x := x
        y := y }
    state := drm_thread_state.PENDING }

/-- The head of the worker loop (`drm_cursor.c` 896-903): the worker waits
until the state is `PENDING`, then copies `cursor_next`, clears its request
flags and sets the state to `IDLE`.  `none` means the worker stays blocked. -/
def drm_crtc_thread_drain (crtc : drm_crtc) : Option (drm_cursor_state × drm_crtc) :=
  if crtc.state = drm_thread_state.PENDING then
    some (crtc.cursor_next,
      { crtc with
        cursor_next := { crtc.cursor_next with request := 0 }
        state := drm_thread_state.IDLE })
  else none

/-- A request that reached the locked section of one of the two public
operations. -/
inductive enqueue_op where
  | set (handle width height : Nat)
  | move (x y : Int)
deriving DecidableEq

/-- The flag an enqueue merges into `cursor_next.request`. -/
def enqueue_op.flag : enqueue_op → Int
  | .set _ _ _ => REQ_SET_CURSOR
  | .move _ _ => REQ_MOVE_CURSOR

/-- One enqueue applied to an output. -/
def enqueue_op.apply (crtc : drm_crtc) : enqueue_op → drm_crtc
  | .set handle width height => drm_set_cursor_enqueue crtc handle width height
  | .move x y => drm_move_cursor_enqueue crtc x y

/-- A sequence of enqueues, oldest first, with no drain in between. -/
def enqueue_all (crtc : drm_crtc) (ops : List enqueue_op) : drm_crtc :=
  ops.foldl enqueue_op.apply crtc

/-- Bitwise OR of the flags of a sequence of enqueues. -/
def or_flags (ops : List enqueue_op) : Int :=
  ops.foldl (fun acc op => int_or acc op.flag) 0

/-! ## The environment -/

/-- A call that leaves the program, or (`drm_set_plane`) an invocation of the
commit layer.  Arguments are the values passed. -/
inductive Event where
  | drmModeGetCrtc (crtc_id : Nat)
  | drmModeGetPlane (plane_id : Nat)
  | drmModeObjectGetProperties (plane_id : Nat)
  | drmModeGetProperty (prop_id : Nat)
  | drmModeGetPropertyBlob (blob_id : Nat)
  | drmModeObjectSetProperty (plane_id prop_id value : Nat)
  | drmSetClientCap_ATOMIC
  | drm_set_plane (plane_id fb : Nat) (x y w h : Int)
  | drmModeAtomicAlloc
  | drmModeAtomicAddProperty (plane_id prop_id value : Nat)
  | drmModeAtomicCommit
  | drmModeSetPlane (plane_id crtc_id fb : Nat) (crtc_x crtc_y : Int)
      (crtc_w crtc_h src_x src_y src_w src_h : Nat)
  | drmModeRmFB (fb : Nat)
  | egl_init_ctx (num_surfaces width height : Int) (format modifier : Nat)
  | egl_convert_fb (handle : Nat) (width height x y : Int)
  | egl_free_ctx
  | gettimeofday
  | usleep (usec : Nat)
  | pthread_create (crtc_id : Nat)
deriving DecidableEq

/-- The libdrm object `drmModePropertyRes`: name and value table. -/
structure drmModeProperty where
  name : String
  values : List Nat
deriving DecidableEq

/-- The contents of an `IN_FORMATS` blob (`struct drm_format_modifier_blob`):
`count_formats` and `count_modifiers` are the lengths of the two tables. -/
structure drm_format_modifier_blob where
  formats : List Nat
  modifiers : List drm_format_modifier
deriving DecidableEq

/-- The environment.  Every answer is a function of the log at the time of the
call and of the arguments.  `drmModeGetCrtc` answers the resolution
`(width, height)` of an output, `egl_convert_fb` the new display buffer or `0`,
`gettimeofday` the pair `(tv_sec, tv_usec)`. -/
structure Kernel where
  drmModeGetCrtc : List Event → Nat → Option (Nat × Nat)
  drmModeGetPlane : List Event → Nat → Option drmModePlane
  drmModeObjectGetProperties : List Event → Nat → Option drmModeObjectProperties
  drmModeGetProperty : List Event → Nat → Option drmModeProperty
  drmModeGetPropertyBlob : List Event → Nat → Option drm_format_modifier_blob
  drmModeAtomicAlloc : List Event → Bool
  drmModeAtomicAddProperty : List Event → Nat → Nat → Nat → Int
  drmModeAtomicCommit : List Event → Int
  drmModeSetPlane :
    List Event → Nat → Nat → Nat → Int → Int → Nat → Nat → Nat → Nat → Nat → Nat → Int
  egl_init_ctx : List Event → Int → Int → Int → Nat → Nat → Bool
  egl_convert_fb : List Event → Nat → Int → Int → Int → Int → Nat
  gettimeofday : List Event → Nat × Nat

/-- What a function that receives `drm_ctx *ctx` and `drm_crtc *crtc` can
reach: the context, the output, the plane object `crtc->plane` points to while
the worker of the output exists, and the log. -/
structure World where
  ctx : drm_ctx
  crtc : drm_crtc
  plane : drm_plane
  log : List Event
deriving DecidableEq

/-! ## Plane properties and the commit layer -/

/-- The loop of `drm_plane_get_prop`: the first index, from `i` on, of a
property whose name is `name`. -/
def drm_plane_get_prop_scan (K : Kernel) (name : String) :
    List Nat → Nat → List Event → Option Nat × List Event
  | [], _, log => (none, log)
  | id :: rest, i, log =>
    match K.drmModeGetProperty log id with
    | some prop =>
      if prop.name = name then (some i, Event.drmModeGetProperty id :: log)
      else drm_plane_get_prop_scan K name rest (i + 1) (Event.drmModeGetProperty id :: log)
    | none => drm_plane_get_prop_scan K name rest (i + 1) (Event.drmModeGetProperty id :: log)

/-- The function `drm_plane_get_prop`: the cached index if it is non-zero,
else the index found by the scan (which is then cached), else `-1`. -/
def drm_plane_get_prop (K : Kernel) (plane : drm_plane) (p : drm_plane_prop)
    (log : List Event) : Int × drm_plane × List Event :=
  if plane.prop_ids.getD p.idx 0 ≠ 0 then (plane.prop_ids.getD p.idx 0, plane, log)
  else
    match drm_plane_get_prop_scan K (drm_plane_prop_names p) plane.props.props 0 log with
    | (some i, log1) => ((i : Int), { plane with prop_ids := plane.prop_ids.set p.idx (i : Int) }, log1)
    | (none, log1) => (-1, plane, log1)

/-- The function `drm_atomic_add_plane_prop`. -/
def drm_atomic_add_plane_prop (K : Kernel) (plane : drm_plane) (p : drm_plane_prop)
    (value : Nat) (log : List Event) : Int × drm_plane × List Event :=
  match drm_plane_get_prop K plane p log with
  | (prop_idx, plane1, log1) =>
    if prop_idx < 0 then (-1, plane1, log1)
    else
      (K.drmModeAtomicAddProperty log1 plane1.plane_id
          (plane1.props.props.getD prop_idx.toNat 0) value,
        plane1,
        Event.drmModeAtomicAddProperty plane1.plane_id
          (plane1.props.props.getD prop_idx.toNat 0) value :: log1)

/-- A run of statements `ret |= drm_atomic_add_plane_prop(...)`, in order. -/
def drm_atomic_add_plane_props (K : Kernel) :
    List (drm_plane_prop × Nat) → Int → drm_plane → List Event → Int × drm_plane × List Event
  | [], ret, plane, log => (ret, plane, log)
  | (p, value) :: rest, ret, plane, log =>
    match drm_atomic_add_plane_prop K plane p value log with
    | (r, plane1, log1) => drm_atomic_add_plane_props K rest (int_or ret r) plane1 log1

/-- The properties `drm_set_plane` puts in its atomic request, with their
values converted to `uint64_t`. -/
def drm_set_plane_props (crtc_id fb : Nat) (x y w h : Int) : List (drm_plane_prop × Nat) :=
  if fb = 0 then
    [(drm_plane_prop.CRTC_ID, 0), (drm_plane_prop.FB_ID, 0)]
  else
    [(drm_plane_prop.CRTC_ID, crtc_id), (drm_plane_prop.FB_ID, fb),
     (drm_plane_prop.SRC_X, 0), (drm_plane_prop.SRC_Y, 0),
     (drm_plane_prop.SRC_W, uint64_of_int (w * 65536)),
     (drm_plane_prop.SRC_H, uint64_of_int (h * 65536)),
     (drm_plane_prop.CRTC_X, uint64_of_int x), (drm_plane_prop.CRTC_Y, uint64_of_int y),
     (drm_plane_prop.CRTC_W, uint64_of_int w), (drm_plane_prop.CRTC_H, uint64_of_int h)]

/-- The label `legacy` of `drm_set_plane`: a failed atomic attempt clears
`ctx->atomic`, then the legacy call is made and its result returned. -/
def drm_set_plane_legacy (K : Kernel) (s : World) (ret : Int) (fb : Nat) (x y w h : Int) :
    Int × World :=
  (K.drmModeSetPlane s.log s.plane.plane_id s.crtc.crtc_id fb x y
      (uint32_of_int w) (uint32_of_int h) 0 0
      (uint32_of_int (w * 65536)) (uint32_of_int (h * 65536)),
    { s with
      ctx := if ret < 0 ∧ s.ctx.atomic ≠ 0 then { s.ctx with atomic := 0 } else s.ctx
      log := Event.drmModeSetPlane s.plane.plane_id s.crtc.crtc_id fb x y
        (uint32_of_int w) (uint32_of_int h) 0 0
        (uint32_of_int (w * 65536)) (uint32_of_int (h * 65536)) :: s.log })

/-- The atomic attempt of `drm_set_plane` after a request was allocated: the
properties are added, the request is committed, and a negative accumulated
result leads to the label `legacy`. -/
def drm_set_plane_atomic (K : Kernel) (s : World) (fb : Nat) (x y w h : Int) : Int × World :=
  match drm_atomic_add_plane_props K (drm_set_plane_props s.crtc.crtc_id fb x y w h) 0
      s.plane s.log with
  | (ret, plane1, log1) =>
    if int_or ret (K.drmModeAtomicCommit log1) ≥ 0 then
      (0, { s with plane := plane1, log := Event.drmModeAtomicCommit :: log1 })
    else
      drm_set_plane_legacy K
        { s with plane := plane1, log := Event.drmModeAtomicCommit :: log1 }
        (int_or ret (K.drmModeAtomicCommit log1)) fb x y w h

/-- The function `drm_set_plane`, the commit layer. -/
def drm_set_plane (K : Kernel) (s : World) (fb : Nat) (x y w h : Int) : Int × World :=
  if s.plane.cursor_plane = true ∨ s.crtc.async_commit = true ∨ s.ctx.atomic = 0 then
    drm_set_plane_legacy K
      { s with log := Event.drm_set_plane s.plane.plane_id fb x y w h :: s.log } 0 fb x y w h
  else if K.drmModeAtomicAlloc (Event.drm_set_plane s.plane.plane_id fb x y w h :: s.log)
      = false then
    drm_set_plane_legacy K
      { s with log := Event.drmModeAtomicAlloc ::
          Event.drm_set_plane s.plane.plane_id fb x y w h :: s.log } 0 fb x y w h
  else
    drm_set_plane_atomic K
      { s with log := Event.drmModeAtomicAlloc ::
          Event.drm_set_plane s.plane.plane_id fb x y w h :: s.log } fb x y w h

/-! ## Resolution and clipping offsets -/

/-- The function `drm_update_crtc` on one output: the resolution is queried
again and stored; the result is `0` only for a positive width and height. -/
def drm_update_crtc (K : Kernel) (crtc : drm_crtc) (log : List Event) :
    Int × drm_crtc × List Event :=
  match K.drmModeGetCrtc log crtc.crtc_id with
  | none => (-1, crtc, Event.drmModeGetCrtc crtc.crtc_id :: log)
  | some (w, h) =>
    if int_of_uint32 w > 0 ∧ int_of_uint32 h > 0 then
      (0, { crtc with width := int_of_uint32 w, height := int_of_uint32 h },
        Event.drmModeGetCrtc crtc.crtc_id :: log)
    else
      (-1, { crtc with width := int_of_uint32 w, height := int_of_uint32 h },
        Event.drmModeGetCrtc crtc.crtc_id :: log)

/-- The assignments of `drm_crtc_update_offsets` after a successful query, for
an output of `crtc_width` by `crtc_height` (`drm_cursor.c` 734-749). -/
def drm_crtc_clip_offsets (crtc_width crtc_height : Int) (cs : drm_cursor_state) :
    drm_cursor_state :=
  let width := crtc_width - cs.width
  let height := crtc_height - cs.height
  let cs0 := { cs with off_x := 0, off_y := 0 }
  let cs1 := if cs0.x < 0 then { cs0 with off_x := cs0.x } else cs0
  let cs2 := if cs1.y < 0 then { cs1 with off_y := cs1.y } else cs1
  let cs3 := if cs2.x > width then { cs2 with off_x := cs2.x - width } else cs2
  if cs3.y > height then { cs3 with off_y := cs3.y - height } else cs3

/-- The function `drm_crtc_update_offsets`. -/
def drm_crtc_update_offsets (K : Kernel) (s : World) (cs : drm_cursor_state) :
    Int × World × drm_cursor_state :=
  match drm_update_crtc K s.crtc s.log with
  | (r, crtc1, log1) =>
    if r < 0 then (-1, { s with crtc := crtc1, log := log1 }, cs)
    else (0, { s with crtc := crtc1, log := log1 },
      drm_crtc_clip_offsets crtc1.width crtc1.height cs)

/-! ## The worker -/

/-- The function `drm_crtc_update_cursor`; `none` is the `NULL` state passed by
`drm_crtc_disable_cursor`. -/
def drm_crtc_update_cursor (K : Kernel) (s : World) : Option drm_cursor_state → Int × World
  | none =>
    if s.crtc.cursor_curr.fb ≠ 0 then
      match drm_set_plane K s 0 0 0 0 0 with
      | (_, s1) =>
        (0, { s1 with
          crtc := { s1.crtc with cursor_curr := drm_cursor_state.zero }
          log := Event.drmModeRmFB s.crtc.cursor_curr.fb :: s1.log })
    else
      (0, { s with crtc := { s.crtc with cursor_curr := drm_cursor_state.zero } })
  | some cs =>
    if s.crtc.cursor_curr.fb = cs.fb ∧ s.crtc.cursor_curr.x = cs.x ∧
        s.crtc.cursor_curr.y = cs.y ∧ s.crtc.cursor_curr.off_x = cs.off_x ∧
        s.crtc.cursor_curr.off_y = cs.off_y then
      (0, { s with crtc := { s.crtc with cursor_curr := cs } })
    else
      match drm_set_plane K s cs.fb (cs.x - cs.off_x) (cs.y - cs.off_y) cs.width cs.height with
      | (ret, s1) =>
        if s.crtc.cursor_curr.fb ≠ 0 ∧ s.crtc.cursor_curr.fb ≠ cs.fb then
          (ret, { s1 with
            crtc := { s1.crtc with cursor_curr := cs }
            log := Event.drmModeRmFB s.crtc.cursor_curr.fb :: s1.log })
        else
          (ret, { s1 with crtc := { s1.crtc with cursor_curr := cs } })

/-- The macro `drm_crtc_disable_cursor`. -/
def drm_crtc_disable_cursor (K : Kernel) (s : World) : Int × World :=
  drm_crtc_update_cursor K s none

/-- The constant `GBM_FORMAT_ABGR8888` of `gbm.h` (fourcc `AB24`). -/
def GBM_FORMAT_ABGR8888 : Nat := 0x34324241

/-- The constant `GBM_FORMAT_ARGB8888` of `gbm.h` (fourcc `AR24`). -/
def GBM_FORMAT_ARGB8888 : Nat := 0x34325241

/-- The constant `DRM_AFBC_MODIFIER` of `drm_common.h`: the ARM vendor code
in the top byte, `AFBC_FORMAT_MOD_SPARSE` and `AFBC_FORMAT_MOD_BLOCK_SIZE_16x16`. -/
def DRM_AFBC_MODIFIER : Nat := 0x0800000000000041

/-- The function `drm_crtc_create_fb`: the GPU backend is created on first
use, then asked to convert the source buffer; the result is stored in
`cursor_state->fb`. -/
def drm_crtc_create_fb (K : Kernel) (s : World) (cs : drm_cursor_state) :
    Int × World × drm_cursor_state :=
  if s.crtc.egl_ctx = false then
    let format := if s.crtc.use_afbc_modifier then GBM_FORMAT_ABGR8888 else GBM_FORMAT_ARGB8888
    let modifier := if s.crtc.use_afbc_modifier then DRM_AFBC_MODIFIER else 0
    let log1 := Event.egl_init_ctx s.ctx.num_surfaces cs.width cs.height format modifier :: s.log
    if K.egl_init_ctx s.log s.ctx.num_surfaces cs.width cs.height format modifier = false then
      (-1, { s with log := log1 }, cs)
    else
      let fb := K.egl_convert_fb log1 cs.handle cs.width cs.height cs.off_x cs.off_y
      (if fb = 0 then -1 else 0,
        { s with
          crtc := { s.crtc with egl_ctx := true }
          log := Event.egl_convert_fb cs.handle cs.width cs.height cs.off_x cs.off_y :: log1 },
        { cs with fb := fb })
  else
    let fb := K.egl_convert_fb s.log cs.handle cs.width cs.height cs.off_x cs.off_y
    (if fb = 0 then -1 else 0,
      { s with
        log := Event.egl_convert_fb cs.handle cs.width cs.height cs.off_x cs.off_y :: s.log },
      { cs with fb := fb })

/-- Where a block of the worker loop hands control: on to the next block with
the local `cursor_state`, to the label `next`, or to the label `error`. -/
inductive flow where
  | fallthrough (s : World) (cs : drm_cursor_state)
  | goto_next (s : World)
  | goto_error (s : World)
deriving DecidableEq

/-- The block `if (cursor_state.request & REQ_SET_CURSOR)` of the worker loop
(`drm_cursor.c` 916-936). -/
def drm_crtc_thread_handle_set (K : Kernel) (s : World) (cs : drm_cursor_state) : flow :=
  if int_and cs.request REQ_SET_CURSOR ≠ 0 then
    let cs1 := { cs with request := int_and cs.request (int_not REQ_SET_CURSOR) }
    if cs1.handle = 0 then
      flow.goto_next (drm_crtc_disable_cursor K s).2
    else
      match drm_crtc_create_fb K s cs1 with
      | (r, s1, cs2) =>
        if r < 0 then flow.goto_error s1
        else
          match drm_crtc_update_cursor K s1 (some cs2) with
          | (r2, s2) => if r2 < 0 then flow.goto_error s2 else flow.fallthrough s2 cs2
  else flow.fallthrough s cs

/-- The block `if (cursor_state.request & REQ_MOVE_CURSOR)` of the worker loop
(`drm_cursor.c` 938-964). -/
def drm_crtc_thread_handle_move (K : Kernel) (s : World) (cs : drm_cursor_state) : flow :=
  if int_and cs.request REQ_MOVE_CURSOR ≠ 0 then
    let cs1 := { cs with request := int_and cs.request (int_not REQ_MOVE_CURSOR) }
    if s.crtc.cursor_curr.handle = 0 then
      flow.goto_next { s with crtc := { s.crtc with cursor_curr := cs1 } }
    else if s.crtc.cursor_curr.off_x ≠ cs1.off_x ∨ s.crtc.cursor_curr.off_y ≠ cs1.off_y then
      match drm_crtc_create_fb K s cs1 with
      | (r, s1, cs2) =>
        if r < 0 then flow.goto_error s1
        else
          match drm_crtc_update_cursor K s1 (some cs2) with
          | (r2, s2) => if r2 < 0 then flow.goto_error s2 else flow.fallthrough s2 cs2
    else
      match drm_crtc_update_cursor K s (some { cs1 with fb := s.crtc.cursor_curr.fb }) with
      | (r2, s2) =>
        if r2 < 0 then flow.goto_error s2
        else flow.fallthrough s2 { cs1 with fb := s.crtc.cursor_curr.fb }
  else flow.fallthrough s cs

/-- The block `if (!crtc->verified && crtc->cursor_curr.fb)` of the worker
loop (`drm_cursor.c` 966-972). -/
def drm_crtc_thread_verify (s : World) : World :=
  if s.crtc.verified = false ∧ s.crtc.cursor_curr.fb ≠ 0 then
    { s with crtc := { s.crtc with verified := true } }
  else s

/-- The worker loop from the clipping offsets to the jump to `next` or `error`
(`drm_cursor.c` 905-972), for the drained snapshot `cs`. -/
def drm_crtc_thread_body (K : Kernel) (s : World) (cs : drm_cursor_state) : flow :=
  match drm_crtc_update_offsets K s cs with
  | (r, s1, cs1) =>
    if r < 0 then
      match drm_crtc_disable_cursor K s1 with
      | (_, s2) => flow.goto_next { s2 with crtc := { s2.crtc with cursor_curr := cs1 } }
    else
      match drm_crtc_thread_handle_set K s1 cs1 with
      | flow.fallthrough s2 cs2 =>
        (match drm_crtc_thread_handle_move K s2 cs2 with
         | flow.fallthrough s3 _ => flow.goto_next (drm_crtc_thread_verify s3)
         | f => f)
      | f => f

/-- The function `drm_curr_time`: `tv.tv_sec + tv.tv_usec / 1000` as a
`uint64_t`. -/
def drm_curr_time (K : Kernel) (log : List Event) : Nat :=
  ((K.gettimeofday log).1 + (K.gettimeofday log).2 / 1000) % 18446744073709551616

/-- The label `next` of the worker loop (`drm_cursor.c` 974-978): the rest of
the minimum interval is slept, then the time of the update is recorded.  The
subtractions are those of `uint64_t`, the argument of `usleep` is an
`unsigned int`. -/
def drm_crtc_thread_next (K : Kernel) (s : World) : World :=
  let duration := (drm_curr_time K s.log + (18446744073709551616 - s.crtc.last_update_time))
    % 18446744073709551616
  let log1 := Event.gettimeofday :: s.log
  let log2 :=
    if duration < s.ctx.min_interval then
      Event.usleep (((s.ctx.min_interval - duration) * 1000) % 18446744073709551616
        % 4294967296) :: log1
    else log1
  { s with
    crtc := { s.crtc with last_update_time := drm_curr_time K log2 }
    log := Event.gettimeofday :: log2 }

/-- The label `error` of the worker (`drm_cursor.c` 981-999): the GPU backend
is freed, the cursor disabled, the state set to `ERROR`, the plane released,
and the thread returns. -/
def drm_crtc_thread_error (K : Kernel) (s : World) : World :=
  let s1 := if s.crtc.egl_ctx = true then { s with log := Event.egl_free_ctx :: s.log } else s
  let s2 := (drm_crtc_disable_cursor K s1).2
  { s2 with
    crtc := { s2.crtc with
      state := drm_thread_state.ERROR
      plane := none
      thread := thread_status.returned } }

/-- One turn of the worker loop up to the point where it reaches the label
`next` or jumps to `error` (`drm_cursor.c` 894-972).  `none` means the worker
stays blocked on the condition variable. -/
def drm_crtc_thread_turn (K : Kernel) (s : World) : Option flow :=
  match drm_crtc_thread_drain s.crtc with
  | none => none
  | some (cs, crtc1) => some (drm_crtc_thread_body K { s with crtc := crtc1 } cs)

/-- One turn of the worker loop with what follows it: the label `next`
(`drm_cursor.c` 974-978), or the label `error` and the end of the thread
(`drm_cursor.c` 981-999). -/
def drm_crtc_thread_iter (K : Kernel) (s : World) : Option World :=
  match drm_crtc_thread_turn K s with
  | none => none
  | some (flow.goto_error s1) => some (drm_crtc_thread_error K s1)
  | some (flow.goto_next s1) => some (drm_crtc_thread_next K s1)
  | some (flow.fallthrough s1 _) => some (drm_crtc_thread_next K s1)

/-- The world a block hands on. -/
def flow.world : flow → World
  | .fallthrough s _ => s
  | .goto_next s => s
  | .goto_error s => s

/-- The output is connected: the resolution query of `drm_update_crtc`, made
now, succeeds with a positive width and height. -/
def connected (K : Kernel) (s : World) : Bool :=
  match K.drmModeGetCrtc s.log s.crtc.crtc_id with
  | some (w, h) => decide (int_of_uint32 w > 0 ∧ int_of_uint32 h > 0)
  | none => false

/-- The resolution the query of `drm_update_crtc`, made now, stores in the
output (the stored one is kept when the query has no answer). -/
def resolution (K : Kernel) (s : World) : Int × Int :=
  match K.drmModeGetCrtc s.log s.crtc.crtc_id with
  | some (w, h) => (int_of_uint32 w, int_of_uint32 h)
  | none => (s.crtc.width, s.crtc.height)

/-- The snapshot of a turn with its clipping offsets recomputed for the
current resolution. -/
def clipped (K : Kernel) (s : World) : drm_cursor_state :=
  drm_crtc_clip_offsets (resolution K s).1 (resolution K s).2 s.crtc.cursor_next

/-- The position and the buffer of `cs` are those last committed on the
output: the test `Unchanged` of `drm_crtc_update_cursor`. -/
def cursor_unchanged (crtc : drm_crtc) (cs : drm_cursor_state) : Bool :=
  decide (crtc.cursor_curr.fb = cs.fb ∧ crtc.cursor_curr.x = cs.x ∧ crtc.cursor_curr.y = cs.y ∧
    crtc.cursor_curr.off_x = cs.off_x ∧ crtc.cursor_curr.off_y = cs.off_y)

/-- The world of a turn of a connected output when it reaches the block of
`REQ_SET_CURSOR` (`drm_cursor.c` 916): the request flags of `cursor_next` are
cleared, the state is `IDLE`, the resolution has been queried and stored. -/
def turn_start (K : Kernel) (s : World) : World :=
  { s with
    crtc := { s.crtc with
      cursor_next := { s.crtc.cursor_next with request := 0 }
      state := drm_thread_state.IDLE
      width := (resolution K s).1
      height := (resolution K s).2 }
    log := Event.drmModeGetCrtc s.crtc.crtc_id :: s.log }

/-- The log at the time `drm_crtc_create_fb` calls `egl_convert_fb`: the GPU
backend has been created first if the output had none. -/
def create_fb_log (s : World) (cs : drm_cursor_state) : List Event :=
  if s.crtc.egl_ctx = false then
    Event.egl_init_ctx s.ctx.num_surfaces cs.width cs.height
      (if s.crtc.use_afbc_modifier then GBM_FORMAT_ABGR8888 else GBM_FORMAT_ARGB8888)
      (if s.crtc.use_afbc_modifier then DRM_AFBC_MODIFIER else 0) :: s.log
  else s.log

/-- The display buffer `egl_convert_fb` answers when `drm_crtc_create_fb`
calls it for `cs` (`0` is its failure). -/
def converted (K : Kernel) (s : World) (cs : drm_cursor_state) : Nat :=
  K.egl_convert_fb (create_fb_log s cs) cs.handle cs.width cs.height cs.off_x cs.off_y

/-- The output has no GPU backend and `egl_init_ctx`, called now for the size
of `cs`, fails. -/
def create_fb_init_fails (K : Kernel) (s : World) (cs : drm_cursor_state) : Bool :=
  !s.crtc.egl_ctx &&
    !K.egl_init_ctx s.log s.ctx.num_surfaces cs.width cs.height
      (if s.crtc.use_afbc_modifier then GBM_FORMAT_ABGR8888 else GBM_FORMAT_ARGB8888)
      (if s.crtc.use_afbc_modifier then DRM_AFBC_MODIFIER else 0)

/-! ## Plane discovery and binding -/

/-- The constant `DRM_FORMAT_ARGB8888` of `drm_fourcc.h` (fourcc `AR24`). -/
def DRM_FORMAT_ARGB8888 : Nat := 0x34325241

/-- The constant `DRM_FORMAT_MOD_LINEAR` of `drm_fourcc.h`. -/
def DRM_FORMAT_MOD_LINEAR : Nat := 0

/-- The constant `DRM_PLANE_TYPE_OVERLAY` of `xf86drmMode.h`. -/
def DRM_PLANE_TYPE_OVERLAY : Nat := 0

/-- The constant `DRM_PLANE_TYPE_PRIMARY` of `xf86drmMode.h`. -/
def DRM_PLANE_TYPE_PRIMARY : Nat := 1

/-- The constant `DRM_PLANE_TYPE_CURSOR` of `xf86drmMode.h`. -/
def DRM_PLANE_TYPE_CURSOR : Nat := 2

/-- The function `drm_plane_get_prop_value`. -/
def drm_plane_get_prop_value (K : Kernel) (plane : drm_plane) (p : drm_plane_prop)
    (log : List Event) : Int × Nat × drm_plane × List Event :=
  match drm_plane_get_prop K plane p log with
  | (prop_idx, plane1, log1) =>
    if prop_idx < 0 then (-1, 0, plane1, log1)
    else (0, plane1.props.prop_values.getD prop_idx.toNat 0, plane1, log1)

/-- The C expression `1 << n` on `int`.  C defines it for `n ≤ 30`, where it
is `2 ^ n`.  For a larger count the model takes what the 32-bit shift
instruction of x86-64 and AArch64 computes: the count is taken modulo 32 and
the 32-bit pattern is read as an `int`. -/
def int_shl_one (n : Nat) : Int := int_of_uint32 (2 ^ (n % 32))

/-- The body of the loop over the modifier table in
`drm_plane_update_format`, for the format index `i`. -/
def drm_plane_check_modifier (i : Nat) (plane : drm_plane) (mod : drm_format_modifier) :
    drm_plane :=
  if i < mod.offset ∨ i > (mod.offset + 63) % 4294967296 then plane
  else if Nat.land mod.formats (uint64_of_int (int_shl_one ((i + (4294967296 - mod.offset))
      % 4294967296))) = 0 then plane
  else
    let plane1 := if mod.modifier = DRM_AFBC_MODIFIER then { plane with can_afbc := true } else plane
    if mod.modifier = DRM_FORMAT_MOD_LINEAR then { plane1 with can_linear := true } else plane1

/-- The function `drm_plane_update_format`. -/
def drm_plane_update_format (K : Kernel) (plane0 : drm_plane) (log : List Event) :
    drm_plane × List Event :=
  let plane := { plane0 with can_afbc := false, can_linear := false }
  if plane.plane.formats.indexOf DRM_FORMAT_ARGB8888 = plane.plane.formats.length then
    (plane, log)
  else
    match drm_plane_get_prop_value K plane drm_plane_prop.IN_FORMATS log with
    | (r, value, plane1, log1) =>
      if r < 0 then ({ plane1 with can_linear := true }, log1)
      else
        match K.drmModeGetPropertyBlob log1 (value % 4294967296) with
        | none => (plane1, Event.drmModeGetPropertyBlob (value % 4294967296) :: log1)
        | some header =>
          if header.formats.indexOf DRM_FORMAT_ARGB8888 = header.formats.length then
            (plane1, Event.drmModeGetPropertyBlob (value % 4294967296) :: log1)
          else if header.modifiers.length = 0 then
            ({ plane1 with can_linear := true },
              Event.drmModeGetPropertyBlob (value % 4294967296) :: log1)
          else
            (header.modifiers.foldl
                (drm_plane_check_modifier (header.formats.indexOf DRM_FORMAT_ARGB8888)) plane1,
              Event.drmModeGetPropertyBlob (value % 4294967296) :: log1)

/-- The function `drm_get_plane`; memory allocation is taken to succeed. -/
def drm_get_plane (K : Kernel) (plane_id : Nat) (log : List Event) :
    Option drm_plane × List Event :=
  match K.drmModeGetPlane log plane_id with
  | none => (none, Event.drmModeGetPlane plane_id :: log)
  | some pl =>
    match K.drmModeObjectGetProperties (Event.drmModeGetPlane plane_id :: log) plane_id with
    | none => (none, Event.drmModeObjectGetProperties plane_id :: Event.drmModeGetPlane plane_id :: log)
    | some props =>
      match drm_plane_update_format K
          { plane_id := plane_id, cursor_plane := false, can_afbc := false, can_linear := false,
            plane := pl, props := props, prop_ids := List.replicate 15 0 }
          (Event.drmModeObjectGetProperties plane_id :: Event.drmModeGetPlane plane_id :: log) with
      | (plane, log1) => (some plane, log1)

/-- The state of the whole program: the global context and the log. -/
structure Sys where
  ctx : drm_ctx
  log : List Event
deriving DecidableEq

/-- An all-zero `drm_crtc`, the content of an unused slot of `ctx->crtcs`. -/
def drm_crtc.zero : drm_crtc :=
  { crtc_id := 0, crtc_pipe := 0, width := 0, height := 0, plane := none, prefer_plane_id := 0,
    cursor_next := drm_cursor_state.zero, cursor_curr := drm_cursor_state.zero,
    thread := thread_status.absent, state := drm_thread_state.IDLE, egl_ctx := false,
    verified := false, use_afbc_modifier := false, blocked := false, async_commit := false,
    last_update_time := 0 }

/-- Read of `ctx->crtcs[i]`. -/
def Sys.crtc (sys : Sys) (i : Nat) : drm_crtc := sys.ctx.crtcs.getD i drm_crtc.zero

/-- Write of `ctx->crtcs[i]`. -/
def Sys.set_crtc (sys : Sys) (i : Nat) (crtc : drm_crtc) : Sys :=
  { sys with ctx := { sys.ctx with crtcs := sys.ctx.crtcs.set i crtc } }

/-- The test `ctx->crtcs[i].plane && ctx->crtcs[i].plane->plane_id == plane_id`
of `drm_crtc_bind_plane`. -/
def drm_crtc.has_plane_id (crtc : drm_crtc) (plane_id : Nat) : Bool :=
  match crtc.plane with
  | some plane => plane.plane_id = plane_id
  | none => false

/-- The function `drm_crtc_bind_plane` for the output `ctx->crtcs[i]`. -/
def drm_crtc_bind_plane (K : Kernel) (sys : Sys) (i : Nat) (plane_id : Nat)
    (allow_overlay : Bool) : Int × Sys :=
  if (sys.crtc i).plane.isSome then (1, sys)
  else if sys.ctx.crtcs.any (fun c => c.has_plane_id plane_id) then (-1, sys)
  else
    match drm_get_plane K plane_id sys.log with
    | (none, log1) => (-1, { sys with log := log1 })
    | (some plane, log1) =>
      if plane.can_afbc = false ∧ plane.can_linear = false then (-1, { sys with log := log1 })
      else if Nat.land plane.plane.possible_crtcs (1 <<< (sys.crtc i).crtc_pipe) = 0 then
        (-1, { sys with log := log1 })
      else
        match drm_plane_get_prop_value K plane drm_plane_prop.type log1 with
        | (r, value, plane1, log2) =>
          if r < 0 then (-1, { sys with log := log2 })
          else if value = DRM_PLANE_TYPE_PRIMARY then (-1, { sys with log := log2 })
          else if allow_overlay = false ∧ value = DRM_PLANE_TYPE_OVERLAY then
            (-1, { sys with log := log2 })
          else
            (0, ({ sys with log := log2 }).set_crtc i
              { sys.crtc i with
                plane := some { plane1 with cursor_plane := decide (value = DRM_PLANE_TYPE_CURSOR) }
                use_afbc_modifier :=
                  if sys.ctx.prefer_afbc_modifier ≠ 0 ∧ plane1.can_afbc = true then true
                  else if plane1.can_linear = false then true
                  else (sys.crtc i).use_afbc_modifier })

/-- One turn of a binding loop of `drm_crtc_prepare`: the loop condition
`!crtc->plane` and the call. -/
def drm_crtc_prepare_try (K : Kernel) (i : Nat) (allow_overlay : Bool) (sys : Sys)
    (plane_id : Nat) : Sys :=
  if (sys.crtc i).plane.isSome then sys
  else (drm_crtc_bind_plane K sys i plane_id allow_overlay).2

/-- The function `drm_crtc_prepare` for the output `ctx->crtcs[i]`. -/
def drm_crtc_prepare (K : Kernel) (sys : Sys) (i : Nat) : Int × Sys :=
  let sys1 :=
    if (sys.crtc i).width ≤ 0 ∨ (sys.crtc i).height ≤ 0 then
      match drm_update_crtc K (sys.crtc i) sys.log with
      | (_, crtc1, log1) => ({ sys with log := log1 }).set_crtc i crtc1
    else sys
  if (sys1.crtc i).plane.isSome then (1, sys1)
  else
    let sys2 :=
      if (sys1.crtc i).prefer_plane_id ≠ 0 then
        (drm_crtc_bind_plane K sys1 i (sys1.crtc i).prefer_plane_id true).2
      else sys1
    let sys3 := sys2.ctx.planes.foldl (drm_crtc_prepare_try K i false) sys2
    let sys4 :=
      if sys3.ctx.allow_overlay ≠ 0 then
        sys3.ctx.planes.reverse.foldl (drm_crtc_prepare_try K i true) sys3
      else sys3
    if (sys4.crtc i).plane.isNone then (-1, sys4)
    else
      (0, ({ sys4 with log := Event.pthread_create (sys4.crtc i).crtc_id :: sys4.log }).set_crtc i
        { sys4.crtc i with state := drm_thread_state.IDLE, thread := thread_status.created })

/-! ## The public operations -/

/-- The loop of `drm_get_crtc` from index `i` on, with `n` outputs left. -/
def drm_get_crtc_loop (K : Kernel) (crtc_id : Nat) : Nat → Nat → Sys → Option Nat × Sys
  | 0, _, sys => (none, sys)
  | n + 1, i, sys =>
    if crtc_id = 0 then
      match drm_update_crtc K (sys.crtc i) sys.log with
      | (r, crtc1, log1) =>
        if r < 0 then
          drm_get_crtc_loop K crtc_id n (i + 1) (({ sys with log := log1 }).set_crtc i crtc1)
        else if crtc1.blocked = true then
          drm_get_crtc_loop K crtc_id n (i + 1) (({ sys with log := log1 }).set_crtc i crtc1)
        else (some i, ({ sys with log := log1 }).set_crtc i crtc1)
    else if (sys.crtc i).blocked = true then drm_get_crtc_loop K crtc_id n (i + 1) sys
    else if (sys.crtc i).crtc_id = crtc_id then (some i, sys)
    else drm_get_crtc_loop K crtc_id n (i + 1) sys

/-- The function `drm_get_crtc`: the index of the output found, if any. -/
def drm_get_crtc (K : Kernel) (sys : Sys) (crtc_id : Nat) : Option Nat × Sys :=
  drm_get_crtc_loop K crtc_id sys.ctx.crtcs.length 0 sys

/-- The function `drm_move_cursor` on an initialised context. -/
def drm_move_cursor (K : Kernel) (sys : Sys) (crtc_id : Nat) (x y : Int) : Int × Sys :=
  if sys.ctx.hide ≠ 0 then (0, sys)
  else
    match drm_get_crtc K sys crtc_id with
    | (none, sys1) => (-1, sys1)
    | (some i, sys1) =>
      if (sys1.crtc i).state = drm_thread_state.ERROR then (-1, sys1)
      else
        match drm_crtc_prepare K sys1 i with
        | (r, sys2) =>
          if r < 0 then (-1, sys2)
          else if (sys2.crtc i).width ≤ 0 ∨ (sys2.crtc i).height ≤ 0 then (-1, sys2)
          else if (sys2.crtc i).state = drm_thread_state.ERROR then (-1, sys2)
          else (0, sys2.set_crtc i (drm_move_cursor_enqueue (sys2.crtc i) x y))

/-- Where `drm_set_cursor` stands after its locked section: it has returned a
value, or it has enqueued its request on `ctx->crtcs[i]` and is at the wait
loop. -/
inductive set_cursor_point where
  | returned (r : Int)
  | enqueued (i : Nat)
deriving DecidableEq

/-- The function `drm_set_cursor` on an initialised context, up to and
including `pthread_cond_signal` (`drm_cursor.c` 1067-1107). -/
def drm_set_cursor (K : Kernel) (sys : Sys) (crtc_id handle width height : Nat) :
    set_cursor_point × Sys :=
  if sys.ctx.hide ≠ 0 then (set_cursor_point.returned 0, sys)
  else
    match drm_get_crtc K sys crtc_id with
    | (none, sys1) => (set_cursor_point.returned (-1), sys1)
    | (some i, sys1) =>
      if (sys1.crtc i).state = drm_thread_state.ERROR then (set_cursor_point.returned (-1), sys1)
      else
        match drm_crtc_prepare K sys1 i with
        | (r, sys2) =>
          if r < 0 then (set_cursor_point.returned (-1), sys2)
          else if (sys2.crtc i).state = drm_thread_state.ERROR then
            (set_cursor_point.returned (-1), sys2)
          else
            (set_cursor_point.enqueued i,
              sys2.set_crtc i (drm_set_cursor_enqueue (sys2.crtc i) handle width height))

/-- The condition of the wait loop of `drm_set_cursor` (`drm_cursor.c` 1109). -/
def drm_set_cursor_waits (crtc : drm_crtc) (handle : Nat) : Bool :=
  decide (handle ≠ 0) && !crtc.verified && decide (crtc.state ≠ drm_thread_state.ERROR)

/-- The value `drm_set_cursor` returns once its wait loop is left
(`drm_cursor.c` 1114-1119). -/
def drm_set_cursor_result (crtc : drm_crtc) : Int :=
  if crtc.state = drm_thread_state.ERROR then -1 else 0

/-! ## The worker thread and the interleaving of the program -/

/-- The function `drm_plane_set_prop_max`.  The source uses the answer of
`drmModeGetProperty` without a `NULL` test; the model makes no
`drmModeObjectSetProperty` call when there is no answer. -/
def drm_plane_set_prop_max (K : Kernel) (plane : drm_plane) (p : drm_plane_prop)
    (log : List Event) : Int × drm_plane × List Event :=
  match drm_plane_get_prop K plane p log with
  | (prop_idx, plane1, log1) =>
    if prop_idx < 0 then (-1, plane1, log1)
    else
      match K.drmModeGetProperty log1 (plane1.props.props.getD prop_idx.toNat 0) with
      | none =>
        (0, plane1, Event.drmModeGetProperty (plane1.props.props.getD prop_idx.toNat 0) :: log1)
      | some prop =>
        (0, plane1,
          Event.drmModeObjectSetProperty plane1.plane_id
            (plane1.props.props.getD prop_idx.toNat 0) (prop.values.getLastD 0) ::
          Event.drmModeGetProperty (plane1.props.props.getD prop_idx.toNat 0) :: log1)

/-- The start of `drm_crtc_thread_fn`, before its loop (`drm_cursor.c`
871-892): for a plane that is not a cursor plane the atomic capability is
requested, the properties are read again (a failure leads to `error`), the
z-position is raised and asynchronous commits are probed. -/
def drm_crtc_thread_start (K : Kernel) (s : World) : World :=
  if s.plane.cursor_plane = false then
    match K.drmModeObjectGetProperties (Event.drmSetClientCap_ATOMIC :: s.log) s.plane.plane_id with
    | none =>
      drm_crtc_thread_error K
        { s with log := Event.drmModeObjectGetProperties s.plane.plane_id ::
            Event.drmSetClientCap_ATOMIC :: s.log }
    | some props =>
      match drm_plane_set_prop_max K { s.plane with props := props } drm_plane_prop.zpos
          (Event.drmModeObjectGetProperties s.plane.plane_id ::
            Event.drmSetClientCap_ATOMIC :: s.log) with
      | (_, plane1, log1) =>
        match drm_plane_set_prop_max K plane1 drm_plane_prop.ZPOS log1 with
        | (_, plane2, log2) =>
          match drm_plane_set_prop_max K plane2 drm_plane_prop.ASYNC_COMMIT log2 with
          | (r, plane3, log3) =>
            { s with
              plane := plane3
              crtc := { s.crtc with
                async_commit := decide (r = 0)
                last_update_time := drm_curr_time K log3
                thread := thread_status.looping }
              log := Event.gettimeofday :: log3 }
  else
    { s with
      crtc := { s.crtc with
        last_update_time := drm_curr_time K s.log
        thread := thread_status.looping }
      log := Event.gettimeofday :: s.log }

/-- The world of the worker of `ctx->crtcs[i]`, whose plane is `plane`. -/
def Sys.world (sys : Sys) (i : Nat) (plane : drm_plane) : World :=
  { ctx := sys.ctx, crtc := sys.crtc i, plane := plane, log := sys.log }

/-- The program state after the worker of `ctx->crtcs[i]` has run to `s`: the
output is written back, with its plane object unless the worker released it. -/
def World.sys (s : World) (i : Nat) : Sys :=
  ({ ctx := s.ctx, log := s.log } : Sys).set_crtc i
    { s.crtc with plane := s.crtc.plane.map (fun _ => s.plane) }

/-- One scheduling of the worker of `ctx->crtcs[i]`: a created thread runs to
its loop (or to `error`), a looping thread makes one turn if a request is
pending, and nothing happens otherwise. -/
def drm_crtc_thread_step (K : Kernel) (sys : Sys) (i : Nat) : Sys :=
  match (sys.crtc i).plane with
  | none => sys
  | some plane =>
    match (sys.crtc i).thread with
    | thread_status.created => (drm_crtc_thread_start K (sys.world i plane)).sys i
    | thread_status.looping =>
      (match drm_crtc_thread_iter K (sys.world i plane) with
       | none => sys
       | some s => s.sys i)
    | _ => sys

/-- What can happen next in the program: a caller runs one of the two public
operations (up to the wait loop, for `SetCursor`), or the worker of an output
is scheduled. -/
inductive Action where
  | SetCursor (crtc_id handle width height : Nat)
  | MoveCursor (crtc_id : Nat) (x y : Int)
  | Worker (i : Nat)
deriving DecidableEq

/-- The effect of one action.  A public call is one step, from its entry to
the end of its locked section: no worker is scheduled between its first test
of `crtc->state`, made without the mutex, and `drm_crtc_prepare`.  The two
halves of a call around that test are `drm_move_cursor_begin` and
`drm_move_cursor_resume`, `drm_set_cursor_begin` and `drm_set_cursor_resume`. -/
def Action.step (K : Kernel) (sys : Sys) : Action → Sys
  | .SetCursor crtc_id handle width height => (drm_set_cursor K sys crtc_id handle width height).2
  | .MoveCursor crtc_id x y => (drm_move_cursor K sys crtc_id x y).2
  | .Worker i => drm_crtc_thread_step K sys i

/-- The effect of a sequence of actions, oldest first. -/
def run (K : Kernel) (sys : Sys) (actions : List Action) : Sys :=
  actions.foldl (Action.step K) sys

/-- An output as `drm_get_ctx` leaves it: identifier, pipe, preferred plane and
blocked flag are set, everything else is zero. -/
def drm_crtc.fresh (crtc : drm_crtc) : Bool :=
  decide (crtc = { drm_crtc.zero with
    crtc_id := crtc.crtc_id, crtc_pipe := crtc.crtc_pipe,
    prefer_plane_id := crtc.prefer_plane_id, blocked := crtc.blocked })

/-- The program state right after a successful `drm_get_ctx`: every output is
fresh. -/
def Sys.initial (sys : Sys) : Bool :=
  sys.ctx.crtcs.all drm_crtc.fresh

/-- The states the program can reach from an initial state. -/
def Sys.reachable (K : Kernel) (sys : Sys) : Prop :=
  ∃ sys0 actions, Sys.initial sys0 = true ∧ sys = run K sys0 actions

/-! ## What the log shows -/

/-- A call of the GPU conversion `egl_convert_fb`. -/
def Event.is_convert : Event → Bool
  | .egl_convert_fb _ _ _ _ _ => true
  | _ => false

/-- An invocation of the commit layer `drm_set_plane`. -/
def Event.is_commit : Event → Bool
  | .drm_set_plane _ _ _ _ _ _ => true
  | _ => false

/-- An invocation of the commit layer with a non-zero buffer. -/
def Event.is_enable : Event → Bool
  | .drm_set_plane _ fb _ _ _ _ => decide (fb ≠ 0)
  | _ => false

/-- The conversions and plane commits of a log, newest first. -/
def observe (log : List Event) : List Event :=
  log.filter (fun e => e.is_convert || e.is_commit)

/-- The conversions of a log, newest first. -/
def converts (log : List Event) : List Event :=
  log.filter Event.is_convert

/-- The enabling plane commits of a log, newest first. -/
def enables (log : List Event) : List Event :=
  log.filter Event.is_enable

/-- The last `SetCursor` arguments of a sequence of enqueues, if there is one. -/
def last_set : List enqueue_op → Option (Nat × Nat × Nat)
  | [] => none
  | .set handle width height :: ops =>
    (match last_set ops with
     | some r => some r
     | none => some (handle, width, height))
  | .move _ _ :: ops => last_set ops

/-- The last `MoveCursor` arguments of a sequence of enqueues, if there is one. -/
def last_move : List enqueue_op → Option (Int × Int)
  | [] => none
  | .move x y :: ops =>
    (match last_move ops with
     | some r => some r
     | none => some (x, y))
  | .set _ _ _ :: ops => last_move ops

/-! ## Sample values -/

/-- A sample environment: every output is 1920 by 1080, every plane is a
cursor plane for the first output that lists ARGB8888, every call succeeds,
and `egl_convert_fb` answers a buffer numbered after the length of the log. -/
def sample_kernel : Kernel :=
  { drmModeGetCrtc := fun _ _ => some (1920, 1080)
    drmModeGetPlane := fun _ _ => some { formats := [DRM_FORMAT_ARGB8888], possible_crtcs := 1 }
    drmModeObjectGetProperties := fun _ _ => some { props := [8, 9], prop_values := [0, 2] }
    drmModeGetProperty := fun _ id =>
      if id = 9 then some { name := "type", values := [0, 1, 2] }
      else some { name := "other", values := [0] }
    drmModeGetPropertyBlob := fun _ _ => none
    drmModeAtomicAlloc := fun _ => true
    drmModeAtomicAddProperty := fun _ _ _ _ => 1
    drmModeAtomicCommit := fun _ => 0
    drmModeSetPlane := fun _ _ _ _ _ _ _ _ _ _ _ _ => 0
    egl_init_ctx := fun _ _ _ _ _ _ => true
    egl_convert_fb := fun log _ _ _ _ _ => log.length + 1
    gettimeofday := fun _ => (0, 0) }

/-- The sample environment with a GPU backend that cannot be created. -/
def sample_kernel_no_gpu : Kernel :=
  { sample_kernel with egl_init_ctx := fun _ _ _ _ _ _ => false }

/-- A sample context: no outputs listed, one candidate plane. -/
def sample_ctx : drm_ctx :=
  { crtcs := [], planes := [31], prefer_afbc_modifier := 0, allow_overlay := 0,
    num_surfaces := 8, atomic := 1, hide := 0, min_interval := 15 }

/-- A sample cursor plane. -/
def sample_plane : drm_plane :=
  { plane_id := 31, cursor_plane := true, can_afbc := false, can_linear := true,
    plane := { formats := [DRM_FORMAT_ARGB8888], possible_crtcs := 1 },
    props := { props := [8, 9], prop_values := [0, 2] }, prop_ids := List.replicate 15 0 }

/-- A sample output with a bound plane, a running worker and nothing shown. -/
def sample_crtc : drm_crtc :=
  { drm_crtc.zero with
    crtc_id := 50, plane := some sample_plane, thread := thread_status.looping }

/-- The sample output after `SetCursor` with a null handle. -/
def sample_world_set_null : World :=
  { ctx := sample_ctx, crtc := drm_set_cursor_enqueue sample_crtc 0 64 64,
    plane := sample_plane, log := [] }

/-- The sample output after `MoveCursor` to `(-10, 0)`, no image set. -/
def sample_world_move : World :=
  { ctx := sample_ctx, crtc := drm_move_cursor_enqueue sample_crtc (-10) 0,
    plane := sample_plane, log := [] }

/-- A cursor state as committed: a 64 by 64 image from handle 5, shown as
display buffer 7 at `(100, 100)`. -/
def sample_shown : drm_cursor_state :=
  { handle := 5, fb := 7, width := 64, height := 64, x := 100, y := 100,
    off_x := 0, off_y := 0, request := 0 }

/-- The sample output showing a cursor, with a GPU backend. -/
def sample_crtc_shown : drm_crtc :=
  { sample_crtc with
    cursor_curr := sample_shown
    cursor_next := sample_shown
    egl_ctx := true, verified := true, width := 1920, height := 1080 }

/-- The sample output showing a cursor, after `SetCursor` with a null handle. -/
def sample_world_shown_set_null : World :=
  { ctx := sample_ctx, crtc := drm_set_cursor_enqueue sample_crtc_shown 0 64 64,
    plane := sample_plane, log := [] }

/-- The local `cursor_state` of a turn inside the block of `REQ_MOVE_CURSOR`
when no `SET` was pending: the snapshot with its clipping offsets recomputed
and the `MOVE` flag cleared. -/
def move_state (K : Kernel) (s : World) : drm_cursor_state :=
  { clipped K s with
    request := int_and s.crtc.cursor_next.request (int_not REQ_MOVE_CURSOR) }

/-- A sample environment of an output that is unplugged at first: resolution
queries have no answer until the worker has started (three entries logged
after the first query), and the GPU backend cannot be created. -/
def sample_kernel_replug : Kernel :=
  { sample_kernel with
    drmModeGetCrtc := fun log _ => if log.length < 12 then none else some (1920, 1080)
    egl_init_ctx := fun _ _ _ _ _ _ => false }

/-- A sample program state right after `drm_get_ctx`: one output, one plane. -/
def sample_sys : Sys :=
  { ctx := { sample_ctx with crtcs := [{ drm_crtc.zero with crtc_id := 50 }] }, log := [] }

/-- The sample program after `SetCursor(50, 5, 64, 64)` on the unplugged
output, the start of its worker, the turn that adopts the snapshot, and
`MoveCursor(50, -10, 0)` once the output answers. -/
def sample_sys_edge : Sys :=
  run sample_kernel_replug sample_sys
    [Action.SetCursor 50 5 64 64, Action.Worker 0, Action.Worker 0, Action.MoveCursor 50 (-10) 0]

/-- The world of the worker of the sample output in `sample_sys_edge`. -/
def sample_world_edge : World :=
  sample_sys_edge.world 0 ((sample_sys_edge.crtc 0).plane.getD sample_plane)

/-- The sample output showing a cursor, after `MoveCursor(-10, 0)`. -/
def sample_world_shown_move : World :=
  { ctx := sample_ctx, crtc := drm_move_cursor_enqueue sample_crtc_shown (-10) 0,
    plane := sample_plane, log := [] }

/-- The local `cursor_state` of a turn inside the block of `REQ_SET_CURSOR`:
the snapshot with its clipping offsets recomputed and the `SET` flag cleared. -/
def set_state (K : Kernel) (s : World) : drm_cursor_state :=
  { clipped K s with
    request := int_and s.crtc.cursor_next.request (int_not REQ_SET_CURSOR) }

/-- The sample output showing a cursor, after `SetCursor(5, 64, 64)` and
`MoveCursor(300, 200)` with no drain in between. -/
def sample_world_set_move : World :=
  { ctx := sample_ctx,
    crtc := enqueue_all sample_crtc_shown [enqueue_op.set 5 64 64, enqueue_op.move 300 200],
    plane := sample_plane, log := [] }

/-- A 64 by 64 cursor state at `(x, y)`, as `cursor_next` holds it. -/
def sample_cursor_at (x y : Int) : drm_cursor_state :=
  { handle := 5, fb := 0, width := 64, height := 64, x := x, y := y,
    off_x := 0, off_y := 0, request := REQ_MOVE_CURSOR }

/-- Plane-binding exclusivity: no two distinct outputs have bound planes with
the same plane id. -/
def plane_exclusive (sys : Sys) : Prop :=
  ∀ j k p q, j ≠ k → (sys.crtc j).plane = some p → (sys.crtc k).plane = some q →
    p.plane_id ≠ q.plane_id

/-- What `drm_set_plane` may change: of the context only `atomic` (which it
can only clear), of the plane only the property cache, of the output nothing;
and what it adds to the conversions and commits of the log is its own entry. -/
structure commit_frame (s : World) (fb : Nat) (x y w h : Int) (s1 : World) : Prop where
  crtc : s1.crtc = s.crtc
  plane_id : s1.plane.plane_id = s.plane.plane_id
  cursor_plane : s1.plane.cursor_plane = s.plane.cursor_plane
  props : s1.plane.props = s.plane.props
  ctx : s1.ctx = s.ctx ∨ s1.ctx = { s.ctx with atomic := 0 }
  log : observe s1.log = Event.drm_set_plane s.plane.plane_id fb x y w h :: observe s.log

/-- What a function on the caller side (`drm_get_crtc`, `drm_crtc_bind_plane`,
`drm_crtc_prepare`) may do when it works for the output `ctx->crtcs[i]`: of the
context it changes outputs only; of another output only the stored
resolution; of the output `i` only resolution, plane, layout flag, state and
thread; a bound plane stays, the state stays or becomes `IDLE`, exclusivity
of the plane bindings is kept, and nothing is converted or committed. -/
structure caller_step (i : Nat) (sys sys1 : Sys) : Prop where
  ctx : sys1.ctx = { sys.ctx with crtcs := sys1.ctx.crtcs }
  len : sys1.ctx.crtcs.length = sys.ctx.crtcs.length
  obs : observe sys1.log = observe sys.log
  others : ∀ j, j ≠ i →
    sys1.crtc j = { sys.crtc j with width := (sys1.crtc j).width, height := (sys1.crtc j).height }
  at_i : sys1.crtc i =
    { sys.crtc i with
      width := (sys1.crtc i).width, height := (sys1.crtc i).height,
      plane := (sys1.crtc i).plane, use_afbc_modifier := (sys1.crtc i).use_afbc_modifier,
      state := (sys1.crtc i).state, thread := (sys1.crtc i).thread }
  excl : plane_exclusive sys → plane_exclusive sys1
  state : (sys1.crtc i).state = (sys.crtc i).state ∨ (sys1.crtc i).state = drm_thread_state.IDLE
  bound : ∀ p, (sys.crtc i).plane = some p → (sys1.crtc i).plane = some p

/-- What the blocks of the worker loop leave alone: of the context everything
but `atomic`, the identity of the plane, and of the output the state, the
plane pointer, `cursor_next`, the thread and the fields set at discovery. -/
structure worker_frame (s s1 : World) : Prop where
  ctx : s1.ctx = { s.ctx with atomic := s1.ctx.atomic }
  plane_id : s1.plane.plane_id = s.plane.plane_id
  state : s1.crtc.state = s.crtc.state
  plane : s1.crtc.plane = s.crtc.plane
  next : s1.crtc.cursor_next = s.crtc.cursor_next
  thread : s1.crtc.thread = s.crtc.thread
  crtc_id : s1.crtc.crtc_id = s.crtc.crtc_id
  blocked : s1.crtc.blocked = s.crtc.blocked

/-- What one scheduling of a worker does to its world: the context changes in
`atomic` only, the plane keeps its id, `cursor_next` is kept or has its
request flags cleared, and either the plane pointer is kept and the state is
kept or `IDLE`, or the worker has ended in `error`: the plane is released and
the state is `ERROR`. -/
structure thread_frame (s s1 : World) : Prop where
  ctx : s1.ctx = { s.ctx with atomic := s1.ctx.atomic }
  plane_id : s1.plane.plane_id = s.plane.plane_id
  next : s1.crtc.cursor_next = s.crtc.cursor_next ∨
    s1.crtc.cursor_next = { s.crtc.cursor_next with request := 0 }
  fate : (s1.crtc.plane = s.crtc.plane ∧
      (s1.crtc.state = s.crtc.state ∨ s1.crtc.state = drm_thread_state.IDLE)) ∨
    (s1.crtc.plane = none ∧ s1.crtc.state = drm_thread_state.ERROR)

/-- What one scheduling of the worker of `ctx->crtcs[i]` does to the program:
only that output and `ctx->atomic` can change; an output without a plane has
no worker to schedule; exclusivity of the plane bindings is kept; the output's
`cursor_next` is kept or has its request flags cleared; and if outputs in
`ERROR` had no plane before, this one has none when it is in `ERROR`. -/
structure worker_step (i : Nat) (sys sys1 : Sys) : Prop where
  ctx : sys1.ctx = { sys.ctx with crtcs := sys1.ctx.crtcs, atomic := sys1.ctx.atomic }
  len : sys1.ctx.crtcs.length = sys.ctx.crtcs.length
  others : ∀ j, j ≠ i → sys1.crtc j = sys.crtc j
  idle : (sys.crtc i).plane = none → sys1 = sys
  excl : plane_exclusive sys → plane_exclusive sys1
  next : (sys1.crtc i).cursor_next = (sys.crtc i).cursor_next ∨
    (sys1.crtc i).cursor_next = { (sys.crtc i).cursor_next with request := 0 }
  released : ((sys.crtc i).state = drm_thread_state.ERROR → (sys.crtc i).plane = none) →
    (sys1.crtc i).state = drm_thread_state.ERROR → (sys1.crtc i).plane = none

/-- The conditions under which `drm_move_cursor` fails on a context that does
not hide the cursor: `drm_get_crtc` finds no output (the identifier is
unknown, or the output is blocked, or with identifier 0 no output is
available), or the output found is in `ERROR`, or `drm_crtc_prepare` can bind
no plane, or the width or height of the output is still `<= 0` after
`drm_crtc_prepare`. -/
def move_cursor_fails (K : Kernel) (sys : Sys) (crtc_id : Nat) : Bool :=
  match drm_get_crtc K sys crtc_id with
  | (none, _) => true
  | (some i, sys1) =>
    decide ((sys1.crtc i).state = drm_thread_state.ERROR) ||
      decide ((drm_crtc_prepare K sys1 i).1 < 0) ||
      decide (((drm_crtc_prepare K sys1 i).2.crtc i).width ≤ 0 ∨
        ((drm_crtc_prepare K sys1 i).2.crtc i).height ≤ 0)

/-- An operation on plane bindings: `drm_crtc_prepare` for an output,
`drm_crtc_bind_plane` for an output and a candidate plane, or a scheduling of
the worker of an output, which is where the `error` path releases a plane. -/
inductive plane_op where
  | prepare (i : Nat)
  | bind (i plane_id : Nat) (allow_overlay : Bool)
  | worker (i : Nat)
deriving DecidableEq

/-- The effect of one operation on plane bindings. -/
def plane_op.apply (K : Kernel) (sys : Sys) : plane_op → Sys
  | .prepare i => (drm_crtc_prepare K sys i).2
  | .bind i plane_id allow_overlay => (drm_crtc_bind_plane K sys i plane_id allow_overlay).2
  | .worker i => drm_crtc_thread_step K sys i

/-- The effect of a sequence of operations on plane bindings, oldest first. -/
def plane_ops (K : Kernel) (sys : Sys) (ops : List plane_op) : Sys :=
  ops.foldl (plane_op.apply K) sys

/-- The sample program with the cursor hidden by configuration. -/
def sample_sys_hidden : Sys :=
  { sample_sys with ctx := { sample_sys.ctx with hide := 1 } }

/-- A sample program with two outputs and the candidate planes 31 and 32. -/
def sample_sys_two : Sys :=
  { ctx := { sample_ctx with
      crtcs := [{ drm_crtc.zero with crtc_id := 50 }, { drm_crtc.zero with crtc_id := 51 }]
      planes := [31, 32] },
    log := [] }

/-- What a public operation does to the program as a whole: of the context it
changes outputs only; it keeps exclusivity of the plane bindings; an output
in `ERROR` is frozen but for its stored resolution; no output enters
`ERROR`; and nothing is converted or committed. -/
structure call_step (sys sys1 : Sys) : Prop where
  ctx : sys1.ctx = { sys.ctx with crtcs := sys1.ctx.crtcs }
  len : sys1.ctx.crtcs.length = sys.ctx.crtcs.length
  obs : observe sys1.log = observe sys.log
  excl : plane_exclusive sys → plane_exclusive sys1
  frozen : ∀ j, (sys.crtc j).state = drm_thread_state.ERROR →
    sys1.crtc j = { sys.crtc j with width := (sys1.crtc j).width, height := (sys1.crtc j).height }
  entered : ∀ j, (sys1.crtc j).state = drm_thread_state.ERROR →
    (sys.crtc j).state = drm_thread_state.ERROR

/-- Two facts that hold in every reachable state: an output in `ERROR` has no
plane, and when the context hides the cursor no output has a plane or has
left `IDLE`. -/
def Sys.sound (sys : Sys) : Prop :=
  (∀ j, (sys.crtc j).state = drm_thread_state.ERROR → (sys.crtc j).plane = none) ∧
  (sys.ctx.hide ≠ 0 →
    ∀ j, (sys.crtc j).plane = none ∧ (sys.crtc j).state = drm_thread_state.IDLE)

/-- The sample program of `sample_sys_edge` after the turn of the worker that
ends in `error`. -/
def sample_sys_error : Sys :=
  run sample_kernel_replug sample_sys_edge [Action.Worker 0]

/-! ## Output lookup, as the specification words it -/

/-- The log at the moment the lookup of `drm_get_crtc`, called with the
identifier 0, comes to the output `i`: the resolution of every output before
it has been queried. -/
def lookup_log (sys : Sys) : Nat → List Event
  | 0 => sys.log
  | i + 1 => Event.drmModeGetCrtc (sys.crtc i).crtc_id :: lookup_log sys i

/-- An output is available to a lookup with the identifier 0 when it is not
blocked and its resolution query, made when the lookup comes to it, succeeds
with a positive width and height. -/
def available (K : Kernel) (sys : Sys) (i : Nat) : Bool :=
  !(sys.crtc i).blocked &&
    match K.drmModeGetCrtc (lookup_log sys i) (sys.crtc i).crtc_id with
    | none => false
    | some (w, h) => decide (int_of_uint32 w > 0 ∧ int_of_uint32 h > 0)

/-- An output answers a lookup with a non-zero identifier when it has that
identifier and is not blocked. -/
def answers (sys : Sys) (crtc_id : Nat) (i : Nat) : Bool :=
  decide ((sys.crtc i).crtc_id = crtc_id) && !(sys.crtc i).blocked

/-- A kernel in which the first output has no resolution and the second is
1920 by 1080. -/
def sample_kernel_second : Kernel :=
  { sample_kernel with
    drmModeGetCrtc := fun _ crtc_id => if crtc_id = 51 then some (1920, 1080) else none }

/-! ## What the log shows of the two commit paths -/

/-- A call of the legacy plane update `drmModeSetPlane`. -/
def Event.is_legacy : Event → Bool
  | .drmModeSetPlane _ _ _ _ _ _ _ _ _ _ _ => true
  | _ => false

/-- A call that builds or commits an atomic transaction:
`drmModeAtomicAddProperty` or `drmModeAtomicCommit`. -/
def Event.is_transaction : Event → Bool
  | .drmModeAtomicAddProperty _ _ _ => true
  | .drmModeAtomicCommit => true
  | _ => false

/-- The legacy plane updates of a log, newest first. -/
def legacy_calls (log : List Event) : List Event := log.filter Event.is_legacy

/-- The calls of a log that build or commit an atomic transaction, newest
first. -/
def transaction_calls (log : List Event) : List Event := log.filter Event.is_transaction

/-- The arguments `(plane_id, prop_id, value)` of a `drmModeAtomicAddProperty`
call. -/
def Event.atomic_add : Event → Option (Nat × Nat × Nat)
  | .drmModeAtomicAddProperty plane_id prop_id value => some (plane_id, prop_id, value)
  | _ => none

/-- The property writes put into atomic requests, newest first. -/
def atomic_adds (log : List Event) : List (Nat × Nat × Nat) := log.filterMap Event.atomic_add

/-- Some statement `ret |= drm_atomic_add_plane_prop(...)` of a run has a
negative result: the property is not found, or `drmModeAtomicAddProperty`
fails. -/
def drm_atomic_add_fails (K : Kernel) :
    List (drm_plane_prop × Nat) → drm_plane → List Event → Bool
  | [], _, _ => false
  | (p, value) :: rest, plane, log =>
    match drm_atomic_add_plane_prop K plane p value log with
    | (r, plane1, log1) => decide (r < 0) || drm_atomic_add_fails K rest plane1 log1

/-- The answers of the environment that are C `int` values lie in the range
of `int`. -/
def Kernel.returns_int (K : Kernel) : Prop :=
  (∀ log plane_id prop_id value,
    -2147483648 ≤ K.drmModeAtomicAddProperty log plane_id prop_id value ∧
      K.drmModeAtomicAddProperty log plane_id prop_id value < 2147483648) ∧
  (∀ log, -2147483648 ≤ K.drmModeAtomicCommit log ∧ K.drmModeAtomicCommit log < 2147483648)

/-- The first test of `drm_set_plane`: the plane is a cursor plane, or the
output has `async_commit`, or `ctx->atomic` is 0. -/
def drm_set_plane_direct (s : World) : Bool :=
  decide (s.plane.cursor_plane = true ∨ s.crtc.async_commit = true ∨ s.ctx.atomic = 0)

/-- The test `if (!req)` of `drm_set_plane`: `drmModeAtomicAlloc` gives no
request. -/
def drm_set_plane_alloc_fails (K : Kernel) (s : World) (fb : Nat) (x y w h : Int) : Bool :=
  K.drmModeAtomicAlloc (Event.drm_set_plane s.plane.plane_id fb x y w h :: s.log) = false

/-- The log of `drm_set_plane` once its atomic request is allocated. -/
def drm_set_plane_alloc_log (s : World) (fb : Nat) (x y w h : Int) : List Event :=
  Event.drmModeAtomicAlloc :: Event.drm_set_plane s.plane.plane_id fb x y w h :: s.log

/-- The atomic attempt of `drm_set_plane` fails: adding some property fails,
or `drmModeAtomicCommit` fails. -/
def drm_set_plane_attempt_fails (K : Kernel) (s : World) (fb : Nat) (x y w h : Int) : Bool :=
  drm_atomic_add_fails K (drm_set_plane_props s.crtc.crtc_id fb x y w h) s.plane
      (drm_set_plane_alloc_log s fb x y w h) ||
    decide (K.drmModeAtomicCommit
      (drm_atomic_add_plane_props K (drm_set_plane_props s.crtc.crtc_id fb x y w h) 0 s.plane
        (drm_set_plane_alloc_log s fb x y w h)).2.2 < 0)

/-- The legacy call `drm_set_plane` makes at its label `legacy`. -/
def drm_set_plane_legacy_call (s : World) (fb : Nat) (x y w h : Int) : Event :=
  Event.drmModeSetPlane s.plane.plane_id s.crtc.crtc_id fb x y
    (uint32_of_int w) (uint32_of_int h) 0 0
    (uint32_of_int (w * 65536)) (uint32_of_int (h * 65536))

/-- The answer of the environment to a legacy call made when the log is
`log`. -/
def drm_set_plane_legacy_answer (K : Kernel) (s : World) (fb : Nat) (x y w h : Int)
    (log : List Event) : Int :=
  K.drmModeSetPlane log s.plane.plane_id s.crtc.crtc_id fb x y
    (uint32_of_int w) (uint32_of_int h) 0 0
    (uint32_of_int (w * 65536)) (uint32_of_int (h * 65536))

/-- A sample environment of an overlay plane with the properties of an atomic
client: the property `100 + k` has the name of the `drm_plane_prop` number `k`
when that is `type` or one of `CRTC_ID` .. `CRTC_H`. -/
def sample_kernel_atomic : Kernel :=
  { sample_kernel with
    drmModeObjectGetProperties := fun _ _ =>
      some { props := [100, 105, 106, 107, 108, 109, 110, 111, 112, 113, 114],
             prop_values := [0, 0, 0, 0, 0, 0, 0, 0, 0, 0, 0] }
    drmModeGetProperty := fun _ id =>
      if id = 100 then some { name := "type", values := [0, 1, 2] }
      else if id = 105 then some { name := "CRTC_ID", values := [0] }
      else if id = 106 then some { name := "FB_ID", values := [0] }
      else if id = 107 then some { name := "SRC_X", values := [0] }
      else if id = 108 then some { name := "SRC_Y", values := [0] }
      else if id = 109 then some { name := "SRC_W", values := [0] }
      else if id = 110 then some { name := "SRC_H", values := [0] }
      else if id = 111 then some { name := "CRTC_X", values := [0] }
      else if id = 112 then some { name := "CRTC_Y", values := [0] }
      else if id = 113 then some { name := "CRTC_W", values := [0] }
      else if id = 114 then some { name := "CRTC_H", values := [0] }
      else none }

/-- A sample overlay plane with the properties of `sample_kernel_atomic`. -/
def sample_plane_overlay : drm_plane :=
  { plane_id := 33, cursor_plane := false, can_afbc := false, can_linear := true,
    plane := { formats := [DRM_FORMAT_ARGB8888], possible_crtcs := 1 },
    props := { props := [100, 105, 106, 107, 108, 109, 110, 111, 112, 113, 114],
               prop_values := [0, 0, 0, 0, 0, 0, 0, 0, 0, 0, 0] },
    prop_ids := List.replicate 15 0 }

/-- A sample world of an output on the overlay plane, showing nothing. -/
def sample_world_overlay : World :=
  { ctx := sample_ctx, crtc := { sample_crtc with plane := some sample_plane_overlay },
    plane := sample_plane_overlay, log := [] }

/-- The sample atomic environment without memory for an atomic request. -/
def sample_kernel_no_request : Kernel :=
  { sample_kernel_atomic with drmModeAtomicAlloc := fun _ => false }

/-- The sample atomic environment in which every atomic commit and every
legacy call fails. -/
def sample_kernel_commit_fails : Kernel :=
  { sample_kernel_atomic with
    drmModeAtomicCommit := fun _ => -22
    drmModeSetPlane := fun _ _ _ _ _ _ _ _ _ _ _ _ => -22 }

/-! ## What the worker and the callers keep -/

/-- What the blocks of the worker loop other than the readiness block keep:
the `verified` flag is unchanged, and a cleared `ctx->atomic` stays cleared. -/
def worker_keeps (s s1 : World) : Prop :=
  s1.crtc.verified = s.crtc.verified ∧ (s.ctx.atomic = 0 → s1.ctx.atomic = 0)

/-- What the public operations keep: `ctx->atomic` and the `verified` flag of
every output. -/
def caller_keeps (sys sys1 : Sys) : Prop :=
  sys1.ctx.atomic = sys.ctx.atomic ∧ ∀ j, (sys1.crtc j).verified = (sys.crtc j).verified

/-- What every action keeps: a cleared `ctx->atomic` stays cleared, and a set
`verified` flag stays set. -/
def Sys.keeps (sys sys1 : Sys) : Prop :=
  (sys.ctx.atomic = 0 → sys1.ctx.atomic = 0) ∧
    ∀ j, (sys.crtc j).verified = true → (sys1.crtc j).verified = true

/-- The readiness block set the `verified` flag in this turn: the flag was
clear, the turn reached the end of the loop body without a jump to `error`,
and it leaves a display buffer (`cursor_curr.fb != 0`). -/
def verified_by (s : World) (f : flow) : Prop :=
  s.crtc.verified = false ∧ f.world.crtc.verified = true ∧
    f.world.crtc.cursor_curr.fb ≠ 0 ∧ ∃ s1, f = flow.goto_next s1

/-- With `ctx->atomic` cleared, a step of the worker leaves it cleared and
makes no call that builds or commits an atomic transaction. -/
def legacy_only (s s1 : World) : Prop :=
  s.ctx.atomic = 0 → s1.ctx.atomic = 0 ∧ transaction_calls s1.log = transaction_calls s.log

/-! ## The contents of an atomic request -/

/-- The property id `drm_atomic_add_plane_prop` passes on for the property `p`:
the entry of the plane's property table at the index `drm_plane_get_prop`
finds for the name of `p`, if it finds one. -/
def drm_plane_prop_id (K : Kernel) (plane : drm_plane) (p : drm_plane_prop)
    (log : List Event) : Option Nat :=
  if (drm_plane_get_prop K plane p log).1 < 0 then none
  else
    some ((drm_plane_get_prop K plane p log).2.1.props.props.getD
      (drm_plane_get_prop K plane p log).1.toNat 0)

/-- The property write the statement number `k` of a run of statements
`ret |= drm_atomic_add_plane_prop(...)` puts into the request: plane, property
id and value; none when the property is not found. -/
def drm_atomic_add_write (K : Kernel) (items : List (drm_plane_prop × Nat)) (plane : drm_plane)
    (log : List Event) (k : Nat) : Option (Nat × Nat × Nat) :=
  match items[k]? with
  | none => none
  | some (p, value) =>
    (drm_plane_prop_id K (drm_atomic_add_plane_props K (items.take k) 0 plane log).2.1 p
        (drm_atomic_add_plane_props K (items.take k) 0 plane log).2.2).map
      (fun id => (plane.plane_id, id, value))

/-- The property writes of the atomic attempt of `drm_set_plane`, in the order
in which they are added. -/
def drm_set_plane_writes (K : Kernel) (s : World) (fb : Nat) (x y w h : Int) :
    List (Nat × Nat × Nat) :=
  (List.range (drm_set_plane_props s.crtc.crtc_id fb x y w h).length).filterMap
    (drm_atomic_add_write K (drm_set_plane_props s.crtc.crtc_id fb x y w h) s.plane
      (drm_set_plane_alloc_log s fb x y w h))

/-! ## Display buffers removed -/

/-- The buffer a `drmModeRmFB` call removes. -/
def Event.removal : Event → Option Nat
  | .drmModeRmFB fb => some fb
  | _ => none

/-- The display buffers removed with `drmModeRmFB`, newest first. -/
def removals (log : List Event) : List Nat := log.filterMap Event.removal

/-- The condition under which `drm_crtc_update_cursor` removes the display
buffer committed before (`old_fb`): it is not 0 and either the cursor is
disabled, or the state passed differs from the one committed and carries
another buffer. -/
def drm_crtc_update_cursor_removes (s : World) : Option drm_cursor_state → Bool
  | none => decide (s.crtc.cursor_curr.fb ≠ 0)
  | some cs =>
    !cursor_unchanged s.crtc cs &&
      decide (s.crtc.cursor_curr.fb ≠ 0 ∧ s.crtc.cursor_curr.fb ≠ cs.fb)

/-- The commit `drm_crtc_update_cursor` makes, if it makes one: the disable
commit for a non-zero `old_fb`, or the commit of a state that differs from
the one committed. -/
def drm_crtc_update_cursor_commit (K : Kernel) (s : World) :
    Option drm_cursor_state → Option (Int × World)
  | none => if s.crtc.cursor_curr.fb ≠ 0 then some (drm_set_plane K s 0 0 0 0 0) else none
  | some cs =>
    if cursor_unchanged s.crtc cs = true then none
    else some (drm_set_plane K s cs.fb (cs.x - cs.off_x) (cs.y - cs.off_y) cs.width cs.height)

/-- The sample world of an output that shows the buffer 7. -/
def sample_world_shown : World :=
  { ctx := sample_ctx, crtc := sample_crtc_shown, plane := sample_plane, log := [] }

/-! ## The update-rate cap -/

/-- The function `drm_get_config_int`; `config` is the value `atoi` reads from
the option when the option is present. -/
def drm_get_config_int (config : Option Int) (dflt : Int) : Int :=
  match config with
  | some v => v
  | none => dflt

/-- The local `max_fps` of `drm_get_ctx` (`drm_cursor.c` 510-512), a
`uint32_t`: the option `max-fps`, or 60 when it is absent or 0. -/
def drm_get_ctx_max_fps (config : Option Int) : Nat :=
  if uint32_of_int (drm_get_config_int config 0) ≤ 0 then 60
  else uint32_of_int (drm_get_config_int config 0)

/-- The field `ctx->min_interval` as `drm_get_ctx` sets it (`drm_cursor.c`
514-516): `1000 / max_fps`, decremented when it is not 0. -/
def drm_get_ctx_min_interval (config : Option Int) : Nat :=
  if 1000 / drm_get_ctx_max_fps config ≠ 0 then 1000 / drm_get_ctx_max_fps config - 1
  else 1000 / drm_get_ctx_max_fps config

/-- The local `duration` of the worker at its label `next`: the reading of
`drm_curr_time` minus `last_update_time`, as `uint64_t`. -/
def drm_crtc_thread_duration (K : Kernel) (s : World) : Nat :=
  (drm_curr_time K s.log + (18446744073709551616 - s.crtc.last_update_time))
    % 18446744073709551616

/-- The sample environment with a clock that reads 15 ms. -/
def sample_kernel_clock : Kernel :=
  { sample_kernel with gettimeofday := fun _ => (0, 15000) }

/-- A display buffer shown after a step of the worker was shown before it or
was committed by it: the enabling commits of the log do not decrease, and
when `cursor_curr.fb` is not 0 afterwards it is the buffer of before or an
enabling commit was made. -/
def shows_by_commit (s s1 : World) : Prop :=
  (enables s.log).length ≤ (enables s1.log).length ∧
    (s1.crtc.cursor_curr.fb ≠ 0 →
      s1.crtc.cursor_curr.fb = s.crtc.cursor_curr.fb ∨
        (enables s.log).length < (enables s1.log).length)

/-- The sample output, showing nothing, after `SetCursor(5, 64, 64)`. -/
def sample_world_set : World :=
  { ctx := sample_ctx, crtc := drm_set_cursor_enqueue sample_crtc 5 64 64,
    plane := sample_plane, log := [] }

/-- The flow of the turn of the worker of `sample_world_set`. -/
def sample_flow_set : flow :=
  (drm_crtc_thread_turn sample_kernel sample_world_set).getD (flow.goto_error sample_world_set)

/-! ## Plane eligibility, as the specification words it -/

/-- The plane object `drm_crtc_bind_plane` examines for a plane id, and the
value of its `type` property, when the plane and that property can be read. -/
def drm_crtc_bind_plane_candidate (K : Kernel) (sys : Sys) (plane_id : Nat) :
    Option (drm_plane × Nat) :=
  match drm_get_plane K plane_id sys.log with
  | (none, _) => none
  | (some plane, log1) =>
    if (drm_plane_get_prop_value K plane drm_plane_prop.type log1).1 < 0 then none
    else
      some ((drm_plane_get_prop_value K plane drm_plane_prop.type log1).2.2.1,
        (drm_plane_get_prop_value K plane drm_plane_prop.type log1).2.1)

/-- A candidate plane is eligible for the output `ctx->crtcs[i]`: it supports
the linear or the compressed layout for the required format, bit `crtc_pipe`
of its mask of possible outputs is set, its type is not primary, and its type
is not overlay unless overlay is allowed. -/
def plane_eligible (K : Kernel) (sys : Sys) (i plane_id : Nat) (allow_overlay : Bool) : Bool :=
  match drm_crtc_bind_plane_candidate K sys plane_id with
  | none => false
  | some (plane, value) =>
    (plane.can_linear || plane.can_afbc) &&
      plane.plane.possible_crtcs.testBit (sys.crtc i).crtc_pipe &&
      decide (value ≠ DRM_PLANE_TYPE_PRIMARY) &&
      (allow_overlay || decide (value ≠ DRM_PLANE_TYPE_OVERLAY))

/-- The layout an output gets when the plane `plane` is bound to it: the
compressed (AFBC) layout if that is preferred and the plane supports it, or if
the plane does not support linear; else the layout flag is kept. -/
def drm_crtc_bind_plane_afbc (sys : Sys) (i : Nat) (plane : drm_plane) : Bool :=
  if sys.ctx.prefer_afbc_modifier ≠ 0 ∧ plane.can_afbc = true then true
  else if plane.can_linear = false then true
  else (sys.crtc i).use_afbc_modifier

/-- The loop body of `drm_plane_update_format` reaches its two assignments for
the entry `mod` and the format index `i`: neither `continue` is taken. -/
def drm_plane_modifier_hit (i : Nat) (mod : drm_format_modifier) : Bool :=
  !(decide (i < mod.offset ∨ i > (mod.offset + 63) % 4294967296)) &&
  !(decide (Nat.land mod.formats (uint64_of_int (int_shl_one ((i + (4294967296 - mod.offset))
      % 4294967296))) = 0))

/-- A sample `IN_FORMATS` blob: 33 formats with ARGB8888 last, at index 32,
and one entry for the linear layout whose mask starts at format 0 and has
bit 32 set and no other. -/
def sample_blob_wide : drm_format_modifier_blob :=
  { formats := (List.range 32).map (fun k => 0x30303030 + k) ++ [DRM_FORMAT_ARGB8888],
    modifiers := [{ formats := 4294967296, offset := 0, modifier := DRM_FORMAT_MOD_LINEAR }] }

/-- A sample environment whose planes have the property `IN_FORMATS`, whose
blob is `sample_blob_wide`. -/
def sample_kernel_wide : Kernel :=
  { sample_kernel with
    drmModeGetProperty := fun _ id =>
      if id = 9 then some { name := "type", values := [0, 1, 2] }
      else some { name := "IN_FORMATS", values := [] }
    drmModeGetPropertyBlob := fun _ id => if id = 77 then some sample_blob_wide else none }

/-- A sample plane as `drm_get_plane` hands it to `drm_plane_update_format`:
its property 8 has the value 77. -/
def sample_plane_wide : drm_plane :=
  { plane_id := 31, cursor_plane := false, can_afbc := false, can_linear := false,
    plane := { formats := [DRM_FORMAT_ARGB8888], possible_crtcs := 1 },
    props := { props := [8, 9], prop_values := [77, 2] }, prop_ids := List.replicate 15 0 }

/-- The constant `MAX_NUM_SURFACES` of `drm_egl.c`. -/
def MAX_NUM_SURFACES : Int := 64

/-- The fields of the struct `egl_ctx` of `drm_egl.c` that its control flow
reads.  A surface is named by its index in the arrays `gbm_surfaces` and
`egl_surfaces`. -/
structure egl_ctx where
  width : Int
  height : Int
  format : Int
  modifier : Nat
  current_surface : Int
  num_surfaces : Int
deriving DecidableEq

/-- The answers of the GPU stack to the calls of `drm_egl.c` during one call
of `egl_init_ctx` or `egl_convert_fb`.  The two surface creations are asked
per index. -/
structure Egl where
  eglGetProcAddress : Bool
  calloc : Bool
  dup : Int
  gbm_create_device : Bool
  get_platform_display : Bool
  eglInitialize : Bool
  eglBindAPI : Bool
  eglChooseConfig : Option Int
  eglCreateContext : Bool
  gbm_surface_create : Nat → Bool
  eglCreateWindowSurface : Nat → Bool
  vertex_shader_status : Bool
  fragment_shader_status : Bool
  link_status : Bool
  egl_handle_to_fd : Nat → Int
  egl_attach_dmabuf : Int → Int
  gbm_surface_lock_front_buffer : Int → Bool
  egl_bo_to_fb : Int → Nat

/-- The function `egl_flush_surfaces`: the loops run over the indices below
`num_surfaces` (none when it is not positive); a failed creation returns -1,
else `current_surface` is reset. -/
def egl_flush_surfaces (E : Egl) (ctx : egl_ctx) : Int × egl_ctx :=
  if (List.range ctx.num_surfaces.toNat).all
      (fun i => E.gbm_surface_create i && E.eglCreateWindowSurface i) then
    (0, { ctx with current_surface := 0 })
  else (-1, ctx)

/-- The function `egl_init_ctx`: the new context, or `none` for `NULL`. -/
def egl_init_ctx (E : Egl) (num_surfaces width height format : Int) (modifier : Nat) :
    Option egl_ctx :=
  if num_surfaces > MAX_NUM_SURFACES then none
  else if E.eglGetProcAddress = false then none
  else if E.calloc = false then none
  else if E.dup < 0 then none
  else if E.gbm_create_device = false then none
  else if E.get_platform_display = false then none
  else if E.eglInitialize = false then none
  else if E.eglBindAPI = false then none
  else
    match E.eglChooseConfig with
    | none => none
    | some num_configs =>
      if num_configs < 1 then none
      else if E.eglCreateContext = false then none
      else
        match egl_flush_surfaces E
          { width := width, height := height, format := format, modifier := modifier,
            current_surface := 0, num_surfaces := num_surfaces } with
        | (r, ctx) =>
          if r < 0 then none
          else if E.vertex_shader_status = false then none
          else if E.fragment_shader_status = false then none
          else if E.link_status = false then none
          else some ctx

/-- The statement `ctx->current_surface = (ctx->current_surface + 1) %
ctx->num_surfaces` of `egl_convert_fb`.  The operator `%` of C truncates
towards zero and is not defined for a zero divisor: `none`. -/
def egl_next_surface (ctx : egl_ctx) : Option egl_ctx :=
  if ctx.num_surfaces = 0 then none
  else some { ctx with current_surface := Int.tmod (ctx.current_surface + 1) ctx.num_surfaces }

/-- The outcome of one call of `egl_convert_fb`: the value returned, the
context afterwards, and the surface made current, if the call got that far. -/
structure egl_convert_result where
  fb : Nat
  ctx : egl_ctx
  selected : Option Int
deriving DecidableEq

/-- The function `egl_convert_fb`; `none` when the call divides by zero.  The
vertex arithmetic, which only feeds the draw call, is left out. -/
def egl_convert_fb (E : Egl) (ctx0 : egl_ctx) (handle : Nat) (width height : Int) :
    Option egl_convert_result :=
  let flushed : Int × egl_ctx :=
    if width ≠ ctx0.width ∨ height ≠ ctx0.height then
      egl_flush_surfaces E { ctx0 with width := width, height := height }
    else (0, ctx0)
  if flushed.1 < 0 then some { fb := 0, ctx := flushed.2, selected := none }
  else if E.egl_handle_to_fd handle < 0 then some { fb := 0, ctx := flushed.2, selected := none }
  else
    match egl_next_surface flushed.2 with
    | none => none
    | some ctx =>
      if E.egl_attach_dmabuf (E.egl_handle_to_fd handle) < 0 then
        some { fb := 0, ctx := ctx, selected := some ctx.current_surface }
      else if E.gbm_surface_lock_front_buffer ctx.current_surface = false then
        some { fb := 0, ctx := ctx, selected := some ctx.current_surface }
      else
        some { fb := E.egl_bo_to_fb ctx.current_surface, ctx := ctx,
               selected := some ctx.current_surface }

/-- A GPU stack that answers every call with success, and display buffer
`100 + i` for surface `i`. -/
def sample_egl : Egl :=
  { eglGetProcAddress := true, calloc := true, dup := 3, gbm_create_device := true,
    get_platform_display := true, eglInitialize := true, eglBindAPI := true,
    eglChooseConfig := some 1, eglCreateContext := true,
    gbm_surface_create := fun _ => true, eglCreateWindowSurface := fun _ => true,
    vertex_shader_status := true, fragment_shader_status := true, link_status := true,
    egl_handle_to_fd := fun _ => 4, egl_attach_dmabuf := fun _ => 0,
    gbm_surface_lock_front_buffer := fun _ => true,
    egl_bo_to_fb := fun i => 100 + i.toNat }

/-- Consecutive calls of `egl_convert_fb` for one image size, each with the
answers the GPU stack gives at that time and its handle: the surfaces made
current, oldest first; `none` when a call divides by zero. -/
def egl_convert_run (ctx : egl_ctx) (width height : Int) : List (Egl × Nat) → Option (List Int)
  | [] => some []
  | (E, handle) :: rest =>
    match egl_convert_fb E ctx handle width height with
    | none => none
    | some r =>
      match egl_convert_run r.ctx width height rest with
      | none => none
      | some l =>
        some (match r.selected with
          | some i => i :: l
          | none => l)

/-- The sample environment with a clock that stands at `tv_sec = sec`,
`tv_usec = usec`. -/
def sample_kernel_at (sec usec : Nat) : Kernel :=
  { sample_kernel with gettimeofday := fun _ => (sec, usec) }

/-- The world of the worker of the sample output, whose last update was
recorded when the clock stood at `(sec, usec)`. -/
def sample_world_updated_at (sec usec : Nat) : World :=
  { ctx := sample_ctx,
    crtc := { sample_crtc with last_update_time := drm_curr_time (sample_kernel_at sec usec) [] },
    plane := sample_plane, log := [] }

/-- The destination rectangle `drm_crtc_update_cursor` hands to the commit
layer for a cursor state (`drm_cursor.c` 787-796): position
`(x - off_x, y - off_y)`, then width and height. -/
def drm_cursor_state.rect (cs : drm_cursor_state) : Int × Int × Int × Int :=
  (cs.x - cs.off_x, cs.y - cs.off_y, cs.width, cs.height)

/-- An entry of the log that is no plane commit, or the disabling commit
`drm_set_plane(ctx, crtc, plane, 0, 0, 0, 0, 0)`, or a commit of the
rectangle `r`. -/
def Event.commit_at (r : Int × Int × Int × Int) : Event → Bool
  | .drm_set_plane _ fb x y w h =>
    decide ((fb = 0 ∧ x = 0 ∧ y = 0 ∧ w = 0 ∧ h = 0) ∨ (x, y, w, h) = r)
  | _ => true

/-- Between the worlds `a` and `b` conversions and commits were added to the
log only, and every plane commit added is the disabling one or commits the
rectangle `r`. -/
def commits_at (r : Int × Int × Int × Int) (a b : World) : Prop :=
  ∃ added, observe b.log = added ++ observe a.log ∧ added.all (Event.commit_at r) = true

/-- The flow of the turn of the worker of `sample_world_shown_move`. -/
def sample_flow_shown_move : flow :=
  (drm_crtc_thread_turn sample_kernel sample_world_shown_move).getD
    (flow.goto_error sample_world_shown_move)

/-- The display buffers `egl_convert_fb` has created and `drmModeRmFB` has not
removed since, for a log (newest entry first) and the answers of the
environment: a conversion that answered a non-zero buffer adds it, a removal
takes its buffer out. -/
def live_buffers (K : Kernel) : List Event → List Nat
  | [] => []
  | e :: log =>
    match e with
    | Event.egl_convert_fb handle width height x y =>
      if K.egl_convert_fb log handle width height x y = 0 then live_buffers K log
      else K.egl_convert_fb log handle width height x y :: live_buffers K log
    | Event.drmModeRmFB fb => (live_buffers K log).filter (fun b => b ≠ fb)
    | _ => live_buffers K log

/-- Every successful conversion answers a fresh buffer: one that is not among
the buffers created and not yet removed. -/
def Kernel.fresh_buffers (K : Kernel) : Prop :=
  ∀ log handle width height x y, K.egl_convert_fb log handle width height x y ≠ 0 →
    K.egl_convert_fb log handle width height x y ∉ live_buffers K log

/-- The ledger of display buffers of an output: the buffers created and not
yet removed are the non-zero ones among `cursor_curr.fb` and `held` (a buffer
the worker has created and not committed yet), and the buffers `others` of
the other outputs, which are neither of the two. -/
def ledger (K : Kernel) (others : List Nat) (held : Nat) (s : World) : Prop :=
  (∀ fb, fb ∈ live_buffers K s.log ↔
    (fb ≠ 0 ∧ (fb = s.crtc.cursor_curr.fb ∨ fb = held)) ∨ fb ∈ others) ∧
  s.crtc.cursor_curr.fb ∉ others ∧ held ∉ others

/-- The invariant of an output between two turns of its worker: the buffers
created and not yet removed are `cursor_curr.fb`, if it is not 0, and those of
the other outputs; `cursor_next.fb` is 0; a buffer is shown only for a
non-zero handle; and unless a `SET` request is pending, `cursor_next` carries a
handle whenever `cursor_curr` does. -/
def no_leak (K : Kernel) (others : List Nat) (s : World) : Prop :=
  ledger K others 0 s ∧ s.crtc.cursor_next.fb = 0 ∧
  (s.crtc.cursor_curr.fb ≠ 0 → s.crtc.cursor_curr.handle ≠ 0) ∧
  (int_and s.crtc.cursor_next.request REQ_SET_CURSOR = 0 →
    s.crtc.cursor_curr.handle ≠ 0 → s.crtc.cursor_next.handle ≠ 0)

/-- The ledger at the end of a block of the worker loop, for the handle of the
snapshot: the ledger holds with nothing held, a buffer is shown only for a
non-zero handle, and `cursor_curr` carries a handle only if the snapshot
does. -/
def ledger_end (K : Kernel) (others : List Nat) (handle : Nat) (s : World) : Prop :=
  ledger K others 0 s ∧
  (s.crtc.cursor_curr.fb ≠ 0 → s.crtc.cursor_curr.handle ≠ 0) ∧
  (s.crtc.cursor_curr.handle ≠ 0 → handle ≠ 0)

/-- What a block of the worker loop hands on, under the ledger: to the next
block a world at `ledger_end` and a cursor state with the handle of the
snapshot, whose buffer is 0 if `cursor_curr` has no handle; to `next` a world
at `ledger_end`; to `error` a world whose ledger holds. -/
def flow.ledger_ok (K : Kernel) (others : List Nat) (handle : Nat) : flow → Prop
  | .fallthrough s cs =>
    ledger_end K others handle s ∧ cs.handle = handle ∧
      (s.crtc.cursor_curr.handle = 0 → cs.fb = 0)
  | .goto_next s => ledger_end K others handle s
  | .goto_error s => ledger K others 0 s

/-- What the loop body hands on, under the ledger: to `error` a world whose
ledger holds, else a world at `ledger_end`. -/
def flow.ledger_done (K : Kernel) (others : List Nat) (handle : Nat) : flow → Prop
  | .goto_error s => ledger K others 0 s
  | .fallthrough s _ => ledger_end K others handle s
  | .goto_next s => ledger_end K others handle s

/-- The non-zero buffers shown on the outputs other than `ctx->crtcs[i]`. -/
def Sys.other_buffers (sys : Sys) (i : Nat) : List Nat :=
  (((List.range sys.ctx.crtcs.length).filter (fun j => j ≠ i)).map
    (fun j => (sys.crtc j).cursor_curr.fb)).filter (fun fb => fb ≠ 0)

/-- The part of the invariant that concerns one output alone: `cursor_next.fb`
is 0; a buffer is shown only for a non-zero handle; unless a `SET` request is
pending, `cursor_next` carries a handle whenever `cursor_curr` does; and an
output in `ERROR` has an all-zero `cursor_curr`. -/
def drm_crtc.no_leak (c : drm_crtc) : Prop :=
  c.cursor_next.fb = 0 ∧
  (c.cursor_curr.fb ≠ 0 → c.cursor_curr.handle ≠ 0) ∧
  (int_and c.cursor_next.request REQ_SET_CURSOR = 0 → c.cursor_curr.handle ≠ 0 →
    c.cursor_next.handle ≠ 0) ∧
  (c.state = drm_thread_state.ERROR → c.cursor_curr = drm_cursor_state.zero)

/-- The invariant of the program: the display buffers created and not yet
removed are exactly the non-zero `cursor_curr.fb` of the outputs, no two
outputs show the same buffer, and every output satisfies its own part. -/
def Sys.no_leak (K : Kernel) (sys : Sys) : Prop :=
  (∀ fb, fb ∈ live_buffers K sys.log ↔ fb ≠ 0 ∧ ∃ j, (sys.crtc j).cursor_curr.fb = fb) ∧
  (∀ i j, i ≠ j → (sys.crtc i).cursor_curr.fb ≠ 0 →
    (sys.crtc i).cursor_curr.fb ≠ (sys.crtc j).cursor_curr.fb) ∧
  ∀ j, (sys.crtc j).no_leak

/-- What a public operation keeps of the ledger before its locked section:
the buffers created and not yet removed, `cursor_curr` and `cursor_next` of
every output, and no output enters `ERROR`. -/
def ledger_kept (K : Kernel) (sys sys1 : Sys) : Prop :=
  live_buffers K sys1.log = live_buffers K sys.log ∧
  ∀ j, (sys1.crtc j).cursor_curr = (sys.crtc j).cursor_curr ∧
    (sys1.crtc j).cursor_next = (sys.crtc j).cursor_next ∧
    ((sys1.crtc j).state = drm_thread_state.ERROR → (sys.crtc j).state = drm_thread_state.ERROR)

/-- The sample program after `SetCursor(50, 5, 64, 64)` and the start of the
worker of its output: the request is pending. -/
def sample_sys_set : Sys :=
  run sample_kernel sample_sys [Action.SetCursor 50 5 64 64, Action.Worker 0]

/-- The world of the worker of the sample output in `sample_sys_set`. -/
def sample_world_pending : World :=
  sample_sys_set.world 0 ((sample_sys_set.crtc 0).plane.getD sample_plane)

/-- The world of the worker of the sample output after the iteration that
handles the pending request of `sample_sys_set`. -/
def sample_iter_set : World :=
  (drm_crtc_thread_iter sample_kernel sample_world_pending).getD sample_world_pending

/-! ## The block of `REQ_SET_CURSOR` for a non-null handle -/

/-- The local `cursor_state` of a turn once `drm_crtc_create_fb` of the block
of `REQ_SET_CURSOR` has stored the converted buffer in it. -/
def set_shown (K : Kernel) (s : World) : drm_cursor_state :=
  { set_state K s with fb := converted K (turn_start K s) (set_state K s) }

/-- The world of a turn after `drm_crtc_create_fb` of the block of
`REQ_SET_CURSOR` (`drm_cursor.c` 925). -/
def set_created (K : Kernel) (s : World) : World :=
  (drm_crtc_create_fb K (turn_start K s) (set_state K s)).2.1

/-- The value `drm_crtc_update_cursor` returns in the block of
`REQ_SET_CURSOR` (`drm_cursor.c` 930), called after a conversion that went
through. -/
def set_commit (K : Kernel) (s : World) : Int :=
  (drm_crtc_update_cursor K (set_created K s) (some (set_shown K s))).1

/-! ## A public call split at its unlocked test of `ERROR` -/

/-- Where a public call stands after its first test of `crtc->state`
(`drm_cursor.c` 1085 and 1139), which it makes without holding the mutex of
the output: it has returned a value, or it found `ctx->crtcs[i]` not in
`ERROR` and goes on to `drm_crtc_prepare`. -/
inductive call_point where
  | returned (r : Int)
  | passed (i : Nat)
deriving DecidableEq

/-- The start of `drm_move_cursor` (`drm_cursor.c` 1122-1139), up to and
including the test `crtc->state == ERROR` made before the mutex is taken. -/
def drm_move_cursor_begin (K : Kernel) (sys : Sys) (crtc_id : Nat) : call_point × Sys :=
  if sys.ctx.hide ≠ 0 then (call_point.returned 0, sys)
  else
    match drm_get_crtc K sys crtc_id with
    | (none, sys1) => (call_point.returned (-1), sys1)
    | (some i, sys1) =>
      if (sys1.crtc i).state = drm_thread_state.ERROR then (call_point.returned (-1), sys1)
      else (call_point.passed i, sys1)

/-- The rest of `drm_move_cursor` after its first test of `crtc->state`
(`drm_cursor.c` 1139-1166): `drm_crtc_prepare`, still without the mutex, the
test of the resolution, and the locked section with the second test of
`ERROR`. -/
def drm_move_cursor_resume (K : Kernel) (sys : Sys) (i : Nat) (x y : Int) : Int × Sys :=
  match drm_crtc_prepare K sys i with
  | (r, sys2) =>
    if r < 0 then (-1, sys2)
    else if (sys2.crtc i).width ≤ 0 ∨ (sys2.crtc i).height ≤ 0 then (-1, sys2)
    else if (sys2.crtc i).state = drm_thread_state.ERROR then (-1, sys2)
    else (0, sys2.set_crtc i (drm_move_cursor_enqueue (sys2.crtc i) x y))

/-- The start of `drm_set_cursor` (`drm_cursor.c` 1067-1085), up to and
including the test `crtc->state == ERROR` made before the mutex is taken. -/
def drm_set_cursor_begin (K : Kernel) (sys : Sys) (crtc_id : Nat) : call_point × Sys :=
  if sys.ctx.hide ≠ 0 then (call_point.returned 0, sys)
  else
    match drm_get_crtc K sys crtc_id with
    | (none, sys1) => (call_point.returned (-1), sys1)
    | (some i, sys1) =>
      if (sys1.crtc i).state = drm_thread_state.ERROR then (call_point.returned (-1), sys1)
      else (call_point.passed i, sys1)

/-- The rest of `drm_set_cursor` after its first test of `crtc->state`
(`drm_cursor.c` 1085-1107): `drm_crtc_prepare`, still without the mutex, and
the locked section with the second test of `ERROR`, up to and including
`pthread_cond_signal`. -/
def drm_set_cursor_resume (K : Kernel) (sys : Sys) (i : Nat) (handle width height : Nat) :
    set_cursor_point × Sys :=
  match drm_crtc_prepare K sys i with
  | (r, sys2) =>
    if r < 0 then (set_cursor_point.returned (-1), sys2)
    else if (sys2.crtc i).state = drm_thread_state.ERROR then
      (set_cursor_point.returned (-1), sys2)
    else
      (set_cursor_point.enqueued i,
        sys2.set_crtc i (drm_set_cursor_enqueue (sys2.crtc i) handle width height))

/-- A sample environment like `sample_kernel_replug`, whose GPU backend can be
created once twenty entries are logged: a first `egl_init_ctx` fails, a later
one succeeds. -/
def sample_kernel_recover : Kernel :=
  { sample_kernel_replug with
    egl_init_ctx := fun log _ _ _ _ _ => decide (20 ≤ log.length) }

/-- The sample program after the rest of a `MoveCursor(50, 7, 7)` call has run
on `sample_sys_error`: the call made its first test of `crtc->state` in
`sample_sys_edge`, before the worker went through `error`. -/
def sample_sys_raced : Sys :=
  (drm_move_cursor_resume sample_kernel_recover sample_sys_error 0 7 7).2

/-! ## Coalescing of requests (C1, C2) -/

theorem enqueue_all_request (ops : List enqueue_op) (crtc : drm_crtc) :
    (enqueue_all crtc ops).cursor_next.request =
      ops.foldl (fun acc op => int_or acc op.flag) crtc.cursor_next.request := by
  induction ops generalizing crtc with
  | nil => rfl
  | cons op ops ih =>
    simp only [enqueue_all, List.foldl_cons] at ih ⊢
    rw [ih]
    cases op <;> rfl

theorem enqueue_all_state (op : enqueue_op) (ops : List enqueue_op) (crtc : drm_crtc) :
    (enqueue_all crtc (op :: ops)).state = drm_thread_state.PENDING := by
  induction ops using List.reverseRecOn with
  | nil => cases op <;> rfl
  | append_singleton ops last _ =>
    rw [enqueue_all, ← List.cons_append, List.foldl_append]
    cases last <;> rfl

theorem drain_request {crtc crtc1 : drm_crtc} {cs : drm_cursor_state}
    (h : drm_crtc_thread_drain crtc = some (cs, crtc1)) :
    cs = crtc.cursor_next ∧ crtc1.cursor_next = { crtc.cursor_next with request := 0 } ∧
      crtc1.state = drm_thread_state.IDLE := by
  unfold drm_crtc_thread_drain at h
  split at h
  · simp only [Option.some.injEq, Prod.mk.injEq] at h
    obtain ⟨h1, h2⟩ := h
    subst h1 h2
    exact ⟨rfl, rfl, rfl⟩
  · exact absurd h (by simp)

/-- C1: after a drain, whatever non-empty sequence of `SetCursor` /
`MoveCursor` enqueues is made on the output, the next drain takes place, the
request flags it snapshots are the bitwise OR of the flags of exactly these
enqueues, and it leaves `cursor_next.request` equal to 0. -/
theorem C1_drained_flags_are_or_of_enqueued (crtc crtc1 : drm_crtc) (cs0 : drm_cursor_state)
    (hdrain : drm_crtc_thread_drain crtc = some (cs0, crtc1))
    (op : enqueue_op) (ops : List enqueue_op) :
    ∃ cs crtc2,
      drm_crtc_thread_drain (enqueue_all crtc1 (op :: ops)) = some (cs, crtc2) ∧
      cs.request = or_flags (op :: ops) ∧
      crtc2.cursor_next.request = 0 ∧
      crtc1.cursor_next.request = 0 := by
  obtain ⟨_, h1, _⟩ := drain_request hdrain
  have hreq : crtc1.cursor_next.request = 0 := by rw [h1]
  refine ⟨(enqueue_all crtc1 (op :: ops)).cursor_next,
    { enqueue_all crtc1 (op :: ops) with
      cursor_next := { (enqueue_all crtc1 (op :: ops)).cursor_next with request := 0 }
      state := drm_thread_state.IDLE }, ?_, ?_, rfl, hreq⟩
  · unfold drm_crtc_thread_drain
    rw [if_pos (enqueue_all_state op ops crtc1)]
  · rw [enqueue_all_request, hreq]
    rfl

/-- C1, witness: the sample output, drained, then a `SetCursor` and a
`MoveCursor`. -/
theorem C1_witness :
    drm_crtc_thread_drain sample_world_move.crtc =
      some (sample_world_move.crtc.cursor_next,
        { sample_world_move.crtc with
          cursor_next := { sample_world_move.crtc.cursor_next with request := 0 }
          state := drm_thread_state.IDLE }) ∧
    ∃ cs crtc2,
      drm_crtc_thread_drain
        (enqueue_all
          { sample_world_move.crtc with
            cursor_next := { sample_world_move.crtc.cursor_next with request := 0 }
            state := drm_thread_state.IDLE }
          [enqueue_op.set 5 64 64, enqueue_op.move 100 100]) = some (cs, crtc2) ∧
      cs.request = or_flags [enqueue_op.set 5 64 64, enqueue_op.move 100 100] ∧
      crtc2.cursor_next.request = 0 ∧
      ({ sample_world_move.crtc with
          cursor_next := { sample_world_move.crtc.cursor_next with request := 0 }
          state := drm_thread_state.IDLE } : drm_crtc).cursor_next.request = 0 :=
  ⟨rfl, C1_drained_flags_are_or_of_enqueued sample_world_move.crtc _ _ rfl
    (enqueue_op.set 5 64 64) [enqueue_op.move 100 100]⟩

theorem enqueue_all_cons (crtc : drm_crtc) (op : enqueue_op) (ops : List enqueue_op) :
    enqueue_all crtc (op :: ops) = enqueue_all (op.apply crtc) ops := rfl

theorem enqueue_all_set_fields (ops : List enqueue_op) (crtc : drm_crtc) :
    match last_set ops with
    | some (handle, width, height) =>
      (enqueue_all crtc ops).cursor_next.handle = handle ∧
      (enqueue_all crtc ops).cursor_next.width = int_of_uint32 width ∧
      (enqueue_all crtc ops).cursor_next.height = int_of_uint32 height
    | none =>
      (enqueue_all crtc ops).cursor_next.handle = crtc.cursor_next.handle ∧
      (enqueue_all crtc ops).cursor_next.width = crtc.cursor_next.width ∧
      (enqueue_all crtc ops).cursor_next.height = crtc.cursor_next.height := by
  induction ops generalizing crtc with
  | nil => exact ⟨rfl, rfl, rfl⟩
  | cons op ops ih =>
    rw [enqueue_all_cons]
    have h := ih (op.apply crtc)
    cases op with
    | set handle width height =>
      simp only [last_set]
      cases hl : last_set ops with
      | none => rw [hl] at h; exact h
      | some r => rw [hl] at h; exact h
    | move x y =>
      simp only [last_set]
      cases hl : last_set ops with
      | none => rw [hl] at h; exact h
      | some r => rw [hl] at h; exact h

theorem enqueue_all_move_fields (ops : List enqueue_op) (crtc : drm_crtc) :
    match last_move ops with
    | some (x, y) =>
      (enqueue_all crtc ops).cursor_next.x = x ∧ (enqueue_all crtc ops).cursor_next.y = y
    | none =>
      (enqueue_all crtc ops).cursor_next.x = crtc.cursor_next.x ∧
      (enqueue_all crtc ops).cursor_next.y = crtc.cursor_next.y := by
  induction ops generalizing crtc with
  | nil => exact ⟨rfl, rfl⟩
  | cons op ops ih =>
    rw [enqueue_all_cons]
    have h := ih (op.apply crtc)
    cases op with
    | set handle width height =>
      simp only [last_move]
      cases hl : last_move ops with
      | none => rw [hl] at h; exact h
      | some r => rw [hl] at h; exact h
    | move x y =>
      simp only [last_move]
      cases hl : last_move ops with
      | none => rw [hl] at h; exact h
      | some r => rw [hl] at h; exact h

/-- C2: after any sequence of enqueues with no drain in between,
`cursor_next.handle/width/height` hold the arguments of the last `SetCursor`
of the sequence (stored in the `int` fields, so converted by `int_of_uint32`),
or their prior values if there was none, and `cursor_next.x/y` hold the
arguments of the last `MoveCursor`, or their prior values; a `SetCursor`
enqueue leaves `x` and `y` alone, a `MoveCursor` enqueue leaves `handle`,
`width` and `height` alone, and a drain snapshots `cursor_next` and changes
nothing of it but `request`. -/
theorem C2_last_enqueue_wins (crtc : drm_crtc) (ops : List enqueue_op) :
    (match last_set ops with
      | some (handle, width, height) =>
        (enqueue_all crtc ops).cursor_next.handle = handle ∧
        (enqueue_all crtc ops).cursor_next.width = int_of_uint32 width ∧
        (enqueue_all crtc ops).cursor_next.height = int_of_uint32 height
      | none =>
        (enqueue_all crtc ops).cursor_next.handle = crtc.cursor_next.handle ∧
        (enqueue_all crtc ops).cursor_next.width = crtc.cursor_next.width ∧
        (enqueue_all crtc ops).cursor_next.height = crtc.cursor_next.height) ∧
    (match last_move ops with
      | some (x, y) =>
        (enqueue_all crtc ops).cursor_next.x = x ∧ (enqueue_all crtc ops).cursor_next.y = y
      | none =>
        (enqueue_all crtc ops).cursor_next.x = crtc.cursor_next.x ∧
        (enqueue_all crtc ops).cursor_next.y = crtc.cursor_next.y) ∧
    (∀ handle width height : Nat,
      (drm_set_cursor_enqueue crtc handle width height).cursor_next.x = crtc.cursor_next.x ∧
      (drm_set_cursor_enqueue crtc handle width height).cursor_next.y = crtc.cursor_next.y) ∧
    (∀ x y : Int,
      (drm_move_cursor_enqueue crtc x y).cursor_next.handle = crtc.cursor_next.handle ∧
      (drm_move_cursor_enqueue crtc x y).cursor_next.width = crtc.cursor_next.width ∧
      (drm_move_cursor_enqueue crtc x y).cursor_next.height = crtc.cursor_next.height) ∧
    (drm_crtc_thread_drain crtc = none ∨
      ∃ crtc1, drm_crtc_thread_drain crtc = some (crtc.cursor_next, crtc1) ∧
        crtc1.cursor_next = { crtc.cursor_next with request := 0 }) := by
  refine ⟨enqueue_all_set_fields ops crtc, enqueue_all_move_fields ops crtc,
    fun _ _ _ => ⟨rfl, rfl⟩, fun _ _ => ⟨rfl, rfl, rfl⟩, ?_⟩
  unfold drm_crtc_thread_drain
  by_cases h : crtc.state = drm_thread_state.PENDING
  · rw [if_pos h]
    exact Or.inr ⟨_, rfl, rfl⟩
  · rw [if_neg h]
    exact Or.inl rfl

/-! ## What the commit layer does to the world and to the log -/

theorem observe_cons_convert (handle : Nat) (w h x y : Int) (log : List Event) :
    observe (Event.egl_convert_fb handle w h x y :: log) =
      Event.egl_convert_fb handle w h x y :: observe log := rfl

theorem observe_cons_commit (plane_id fb : Nat) (x y w h : Int) (log : List Event) :
    observe (Event.drm_set_plane plane_id fb x y w h :: log) =
      Event.drm_set_plane plane_id fb x y w h :: observe log := rfl

theorem observe_cons_other (e : Event) (log : List Event)
    (he : (e.is_convert || e.is_commit) = false) : observe (e :: log) = observe log := by
  unfold observe
  rw [List.filter_cons]
  simp only [he, Bool.false_eq_true, if_false]

theorem drm_plane_get_prop_scan_observe (K : Kernel) (name : String) (props : List Nat) (i : Nat)
    (log : List Event) :
    observe (drm_plane_get_prop_scan K name props i log).2 = observe log := by
  induction props generalizing i log with
  | nil => rfl
  | cons id rest ih =>
    unfold drm_plane_get_prop_scan
    cases hq : K.drmModeGetProperty log id with
    | none =>
      simp only []
      rw [ih]
      exact observe_cons_other _ _ rfl
    | some prop =>
      simp only []
      by_cases hn : prop.name = name
      · rw [if_pos hn]
        exact observe_cons_other _ _ rfl
      · rw [if_neg hn, ih]
        exact observe_cons_other _ _ rfl

theorem drm_plane_get_prop_frame (K : Kernel) (plane : drm_plane) (p : drm_plane_prop)
    (log : List Event) :
    observe (drm_plane_get_prop K plane p log).2.2 = observe log ∧
    (drm_plane_get_prop K plane p log).2.1.plane_id = plane.plane_id ∧
    (drm_plane_get_prop K plane p log).2.1.cursor_plane = plane.cursor_plane ∧
    (drm_plane_get_prop K plane p log).2.1.props = plane.props := by
  unfold drm_plane_get_prop
  by_cases hc : plane.prop_ids.getD p.idx 0 ≠ 0
  · rw [if_pos hc]
    exact ⟨rfl, rfl, rfl, rfl⟩
  · rw [if_neg hc]
    have h := drm_plane_get_prop_scan_observe K (drm_plane_prop_names p) plane.props.props 0 log
    rcases hs : drm_plane_get_prop_scan K (drm_plane_prop_names p) plane.props.props 0 log
      with ⟨r, log1⟩
    rw [hs] at h
    cases r with
    | none => exact ⟨h, rfl, rfl, rfl⟩
    | some i => exact ⟨h, rfl, rfl, rfl⟩

theorem drm_atomic_add_plane_prop_frame (K : Kernel) (plane : drm_plane) (p : drm_plane_prop)
    (value : Nat) (log : List Event) :
    observe (drm_atomic_add_plane_prop K plane p value log).2.2 = observe log ∧
    (drm_atomic_add_plane_prop K plane p value log).2.1.plane_id = plane.plane_id ∧
    (drm_atomic_add_plane_prop K plane p value log).2.1.cursor_plane = plane.cursor_plane ∧
    (drm_atomic_add_plane_prop K plane p value log).2.1.props = plane.props := by
  unfold drm_atomic_add_plane_prop
  have h := drm_plane_get_prop_frame K plane p log
  rcases hs : drm_plane_get_prop K plane p log with ⟨idx, plane1, log1⟩
  rw [hs] at h
  simp only []
  by_cases hi : idx < 0
  · rw [if_pos hi]
    exact h
  · rw [if_neg hi]
    refine ⟨?_, h.2.1, h.2.2.1, h.2.2.2⟩
    simp only []
    rw [observe_cons_other _ _ (by rfl)]
    exact h.1

theorem drm_atomic_add_plane_props_frame (K : Kernel) (items : List (drm_plane_prop × Nat))
    (ret : Int) (plane : drm_plane) (log : List Event) :
    observe (drm_atomic_add_plane_props K items ret plane log).2.2 = observe log ∧
    (drm_atomic_add_plane_props K items ret plane log).2.1.plane_id = plane.plane_id ∧
    (drm_atomic_add_plane_props K items ret plane log).2.1.cursor_plane = plane.cursor_plane ∧
    (drm_atomic_add_plane_props K items ret plane log).2.1.props = plane.props := by
  induction items generalizing ret plane log with
  | nil => exact ⟨rfl, rfl, rfl, rfl⟩
  | cons item rest ih =>
    obtain ⟨p, value⟩ := item
    unfold drm_atomic_add_plane_props
    have h := drm_atomic_add_plane_prop_frame K plane p value log
    rcases hs : drm_atomic_add_plane_prop K plane p value log with ⟨r, plane1, log1⟩
    rw [hs] at h
    simp only []
    have h2 := ih (int_or ret r) plane1 log1
    exact ⟨h2.1.trans h.1, h2.2.1.trans h.2.1, h2.2.2.1.trans h.2.2.1, h2.2.2.2.trans h.2.2.2⟩

theorem drm_set_plane_legacy_frame (K : Kernel) (s : World) (ret : Int) (fb : Nat)
    (x y w h : Int) :
    (drm_set_plane_legacy K s ret fb x y w h).2.crtc = s.crtc ∧
    (drm_set_plane_legacy K s ret fb x y w h).2.plane = s.plane ∧
    ((drm_set_plane_legacy K s ret fb x y w h).2.ctx = s.ctx ∨
      (drm_set_plane_legacy K s ret fb x y w h).2.ctx = { s.ctx with atomic := 0 }) ∧
    observe (drm_set_plane_legacy K s ret fb x y w h).2.log = observe s.log := by
  unfold drm_set_plane_legacy
  refine ⟨rfl, rfl, ?_, ?_⟩
  swap
  · show observe (_ :: s.log) = observe s.log
    exact observe_cons_other _ _ rfl
  simp only []
  by_cases hc : ret < 0 ∧ s.ctx.atomic ≠ 0
  · rw [if_pos hc]
    exact Or.inr rfl
  · rw [if_neg hc]
    exact Or.inl rfl

theorem drm_set_plane_atomic_frame (K : Kernel) (s : World) (fb : Nat) (x y w h : Int) :
    (drm_set_plane_atomic K s fb x y w h).2.crtc = s.crtc ∧
    (drm_set_plane_atomic K s fb x y w h).2.plane.plane_id = s.plane.plane_id ∧
    (drm_set_plane_atomic K s fb x y w h).2.plane.cursor_plane = s.plane.cursor_plane ∧
    (drm_set_plane_atomic K s fb x y w h).2.plane.props = s.plane.props ∧
    ((drm_set_plane_atomic K s fb x y w h).2.ctx = s.ctx ∨
      (drm_set_plane_atomic K s fb x y w h).2.ctx = { s.ctx with atomic := 0 }) ∧
    observe (drm_set_plane_atomic K s fb x y w h).2.log = observe s.log := by
  unfold drm_set_plane_atomic
  have hf := drm_atomic_add_plane_props_frame K
    (drm_set_plane_props s.crtc.crtc_id fb x y w h) 0 s.plane s.log
  rcases hs : drm_atomic_add_plane_props K (drm_set_plane_props s.crtc.crtc_id fb x y w h) 0
    s.plane s.log with ⟨ret, plane1, log1⟩
  rw [hs] at hf
  simp only []
  by_cases hc : int_or ret (K.drmModeAtomicCommit log1) ≥ 0
  · rw [if_pos hc]
    refine ⟨rfl, hf.2.1, hf.2.2.1, hf.2.2.2, Or.inl rfl, ?_⟩
    simp only []
    rw [observe_cons_other _ _ (by rfl)]
    exact hf.1
  · rw [if_neg hc]
    have hl := drm_set_plane_legacy_frame K
      { s with plane := plane1, log := Event.drmModeAtomicCommit :: log1 }
      (int_or ret (K.drmModeAtomicCommit log1)) fb x y w h
    refine ⟨hl.1, ?_, ?_, ?_, hl.2.2.1, ?_⟩
    · rw [hl.2.1]; exact hf.2.1
    · rw [hl.2.1]; exact hf.2.2.1
    · rw [hl.2.1]; exact hf.2.2.2
    · rw [hl.2.2.2]
      simp only []
      rw [observe_cons_other _ _ (by rfl)]
      exact hf.1

theorem drm_set_plane_frame (K : Kernel) (s : World) (fb : Nat) (x y w h : Int) :
    commit_frame s fb x y w h (drm_set_plane K s fb x y w h).2 := by
  unfold drm_set_plane
  by_cases h1 : s.plane.cursor_plane = true ∨ s.crtc.async_commit = true ∨ s.ctx.atomic = 0
  · rw [if_pos h1]
    have hl := drm_set_plane_legacy_frame K
      { s with log := Event.drm_set_plane s.plane.plane_id fb x y w h :: s.log } 0 fb x y w h
    exact ⟨hl.1, by rw [hl.2.1], by rw [hl.2.1], by rw [hl.2.1], hl.2.2.1, by rw [hl.2.2.2]; rfl⟩
  · rw [if_neg h1]
    by_cases h2 : K.drmModeAtomicAlloc
        (Event.drm_set_plane s.plane.plane_id fb x y w h :: s.log) = false
    · rw [if_pos h2]
      have hl := drm_set_plane_legacy_frame K
        { s with log := Event.drmModeAtomicAlloc ::
            Event.drm_set_plane s.plane.plane_id fb x y w h :: s.log } 0 fb x y w h
      exact ⟨hl.1, by rw [hl.2.1], by rw [hl.2.1], by rw [hl.2.1], hl.2.2.1,
        by rw [hl.2.2.2]; rfl⟩
    · rw [if_neg h2]
      have ha := drm_set_plane_atomic_frame K
        { s with log := Event.drmModeAtomicAlloc ::
            Event.drm_set_plane s.plane.plane_id fb x y w h :: s.log } fb x y w h
      exact ⟨ha.1, ha.2.1, ha.2.2.1, ha.2.2.2.1, ha.2.2.2.2.1, by rw [ha.2.2.2.2.2]; rfl⟩

/-! ## The blocks of the worker loop -/

theorem drm_update_crtc_spec (K : Kernel) (crtc : drm_crtc) (log : List Event) :
    (drm_update_crtc K crtc log).2.2 = Event.drmModeGetCrtc crtc.crtc_id :: log ∧
    (drm_update_crtc K crtc log).2.1 =
      { crtc with
        width := (drm_update_crtc K crtc log).2.1.width
        height := (drm_update_crtc K crtc log).2.1.height } ∧
    ((drm_update_crtc K crtc log).1 = 0 ∨ (drm_update_crtc K crtc log).1 = -1) := by
  unfold drm_update_crtc
  cases hq : K.drmModeGetCrtc log crtc.crtc_id with
  | none => exact ⟨rfl, rfl, Or.inr rfl⟩
  | some r =>
    obtain ⟨w, h⟩ := r
    simp only []
    by_cases hc : int_of_uint32 w > 0 ∧ int_of_uint32 h > 0
    · rw [if_pos hc]
      exact ⟨rfl, rfl, Or.inl rfl⟩
    · rw [if_neg hc]
      exact ⟨rfl, rfl, Or.inr rfl⟩

theorem drm_crtc_update_offsets_connected (K : Kernel) (s : World) (cs : drm_cursor_state)
    (hc : connected K s = true) :
    drm_crtc_update_offsets K s cs =
      (0, { s with
          crtc := { s.crtc with width := (resolution K s).1, height := (resolution K s).2 }
          log := Event.drmModeGetCrtc s.crtc.crtc_id :: s.log },
        drm_crtc_clip_offsets (resolution K s).1 (resolution K s).2 cs) := by
  unfold connected at hc
  unfold drm_crtc_update_offsets drm_update_crtc resolution
  cases hq : K.drmModeGetCrtc s.log s.crtc.crtc_id with
  | none => rw [hq] at hc; exact absurd hc (by simp)
  | some r =>
    obtain ⟨w, h⟩ := r
    rw [hq] at hc
    simp only [decide_eq_true_eq] at hc
    simp only [if_pos hc]
    rfl

theorem drm_crtc_update_offsets_disconnected (K : Kernel) (s : World) (cs : drm_cursor_state)
    (hc : connected K s = false) :
    drm_crtc_update_offsets K s cs =
      (-1, { s with
          crtc := { s.crtc with width := (resolution K s).1, height := (resolution K s).2 }
          log := Event.drmModeGetCrtc s.crtc.crtc_id :: s.log }, cs) := by
  unfold connected at hc
  unfold drm_crtc_update_offsets drm_update_crtc resolution
  cases hq : K.drmModeGetCrtc s.log s.crtc.crtc_id with
  | none => rfl
  | some r =>
    obtain ⟨w, h⟩ := r
    rw [hq] at hc
    simp only [decide_eq_false_iff_not] at hc
    simp only [if_neg hc]
    rfl

/-- The effect of `drm_crtc_disable_cursor`. -/
theorem drm_crtc_disable_cursor_spec (K : Kernel) (s : World) :
    (drm_crtc_disable_cursor K s).2.crtc = { s.crtc with cursor_curr := drm_cursor_state.zero } ∧
    (drm_crtc_disable_cursor K s).2.plane.plane_id = s.plane.plane_id ∧
    ((drm_crtc_disable_cursor K s).2.ctx = s.ctx ∨
      (drm_crtc_disable_cursor K s).2.ctx = { s.ctx with atomic := 0 }) ∧
    observe (drm_crtc_disable_cursor K s).2.log =
      (if s.crtc.cursor_curr.fb ≠ 0 then [Event.drm_set_plane s.plane.plane_id 0 0 0 0 0]
        else []) ++ observe s.log := by
  unfold drm_crtc_disable_cursor drm_crtc_update_cursor
  by_cases hfb : s.crtc.cursor_curr.fb ≠ 0
  · simp only [if_pos hfb]
    have hf := drm_set_plane_frame K s 0 0 0 0 0
    rcases hs : drm_set_plane K s 0 0 0 0 0 with ⟨ret, s1⟩
    rw [hs] at hf
    simp only []
    refine ⟨?_, hf.plane_id, hf.ctx, ?_⟩
    · rw [hf.crtc]
    · rw [observe_cons_other _ _ (by rfl), hf.log]
      rfl
  · simp only [if_neg hfb]
    simp

/-- The effect of `drm_crtc_update_cursor` for a cursor state. -/
theorem drm_crtc_update_cursor_spec (K : Kernel) (s : World) (cs : drm_cursor_state) :
    (drm_crtc_update_cursor K s (some cs)).2.crtc = { s.crtc with cursor_curr := cs } ∧
    (drm_crtc_update_cursor K s (some cs)).2.plane.plane_id = s.plane.plane_id ∧
    ((drm_crtc_update_cursor K s (some cs)).2.ctx = s.ctx ∨
      (drm_crtc_update_cursor K s (some cs)).2.ctx = { s.ctx with atomic := 0 }) ∧
    observe (drm_crtc_update_cursor K s (some cs)).2.log =
      (if cursor_unchanged s.crtc cs = true then []
        else [Event.drm_set_plane s.plane.plane_id cs.fb (cs.x - cs.off_x) (cs.y - cs.off_y)
          cs.width cs.height]) ++ observe s.log := by
  unfold drm_crtc_update_cursor cursor_unchanged
  by_cases hu : s.crtc.cursor_curr.fb = cs.fb ∧ s.crtc.cursor_curr.x = cs.x ∧
      s.crtc.cursor_curr.y = cs.y ∧ s.crtc.cursor_curr.off_x = cs.off_x ∧
      s.crtc.cursor_curr.off_y = cs.off_y
  · simp only [if_pos hu, decide_eq_true_eq]
    simp
  · simp only [if_neg hu, decide_eq_true_eq]
    have hf := drm_set_plane_frame K s cs.fb (cs.x - cs.off_x) (cs.y - cs.off_y) cs.width cs.height
    rcases hs : drm_set_plane K s cs.fb (cs.x - cs.off_x) (cs.y - cs.off_y) cs.width cs.height
      with ⟨ret, s1⟩
    rw [hs] at hf
    simp only []
    by_cases hr : s.crtc.cursor_curr.fb ≠ 0 ∧ s.crtc.cursor_curr.fb ≠ cs.fb
    · simp only [if_pos hr]
      refine ⟨by rw [hf.crtc], hf.plane_id, hf.ctx, ?_⟩
      rw [observe_cons_other _ _ (by rfl), hf.log]
      rfl
    · simp only [if_neg hr]
      refine ⟨by rw [hf.crtc], hf.plane_id, hf.ctx, ?_⟩
      rw [hf.log]
      rfl

theorem drm_crtc_egl_ctx_true (crtc : drm_crtc) (h : crtc.egl_ctx = true) :
    { crtc with egl_ctx := true } = crtc := by
  cases crtc
  simp only [] at h
  subst h
  rfl

/-- The effect of `drm_crtc_create_fb` when the GPU backend cannot be created. -/
theorem drm_crtc_create_fb_init_fails (K : Kernel) (s : World) (cs : drm_cursor_state)
    (hi : create_fb_init_fails K s cs = true) :
    drm_crtc_create_fb K s cs = (-1, { s with log := create_fb_log s cs }, cs) := by
  unfold create_fb_init_fails at hi
  simp only [Bool.and_eq_true, Bool.not_eq_true'] at hi
  unfold drm_crtc_create_fb create_fb_log
  simp only [hi.1, hi.2, if_true]

/-- The effect of `drm_crtc_create_fb` otherwise: `egl_convert_fb` is called
once and its answer stored in `cursor_state->fb`. -/
theorem drm_crtc_create_fb_converts (K : Kernel) (s : World) (cs : drm_cursor_state)
    (hi : create_fb_init_fails K s cs = false) :
    drm_crtc_create_fb K s cs =
      (if converted K s cs = 0 then -1 else 0,
        { s with
          crtc := { s.crtc with egl_ctx := true }
          log := Event.egl_convert_fb cs.handle cs.width cs.height cs.off_x cs.off_y ::
            create_fb_log s cs },
        { cs with fb := converted K s cs }) := by
  unfold create_fb_init_fails at hi
  unfold drm_crtc_create_fb converted create_fb_log
  by_cases he : s.crtc.egl_ctx = false
  · simp only [he, Bool.not_false, Bool.true_and, Bool.not_eq_false'] at hi
    simp only [he, hi, if_true]
    simp
  · simp only [Bool.not_eq_false] at he
    simp only [he, Bool.true_eq_false, if_false]
    rw [drm_crtc_egl_ctx_true s.crtc he]

theorem drm_crtc_clip_offsets_eq (W H : Int) (cs : drm_cursor_state) :
    drm_crtc_clip_offsets W H cs =
      { cs with
        off_x := if cs.x > W - cs.width then cs.x - (W - cs.width) else if cs.x < 0 then cs.x else 0
        off_y := if cs.y > H - cs.height then cs.y - (H - cs.height)
          else if cs.y < 0 then cs.y else 0 } := by
  unfold drm_crtc_clip_offsets
  simp only []
  split_ifs <;> rfl

theorem converts_of_observe (log : List Event) :
    converts log = (observe log).filter Event.is_convert := by
  unfold converts observe
  rw [List.filter_filter]
  congr 1
  funext e
  cases e <;> rfl

theorem enables_of_observe (log : List Event) :
    enables log = (observe log).filter Event.is_enable := by
  unfold enables observe
  rw [List.filter_filter]
  congr 1
  funext e
  cases e <;> simp [Event.is_enable, Event.is_convert, Event.is_commit]

theorem drm_crtc_thread_body_connected (K : Kernel) (w : World) (cs : drm_cursor_state)
    (hc : connected K w = true) :
    drm_crtc_thread_body K w cs =
      (match drm_crtc_thread_handle_set K
          { w with
            crtc := { w.crtc with width := (resolution K w).1, height := (resolution K w).2 }
            log := Event.drmModeGetCrtc w.crtc.crtc_id :: w.log }
          (drm_crtc_clip_offsets (resolution K w).1 (resolution K w).2 cs) with
        | flow.fallthrough s2 cs2 =>
          (match drm_crtc_thread_handle_move K s2 cs2 with
           | flow.fallthrough s3 _ => flow.goto_next (drm_crtc_thread_verify s3)
           | f => f)
        | f => f) := by
  unfold drm_crtc_thread_body
  rw [drm_crtc_update_offsets_connected K w cs hc]
  simp only [Int.lt_irrefl, if_false]

theorem drm_crtc_thread_turn_connected (K : Kernel) (s : World)
    (hp : s.crtc.state = drm_thread_state.PENDING) (hc : connected K s = true) :
    drm_crtc_thread_turn K s = some
      (match drm_crtc_thread_handle_set K (turn_start K s) (clipped K s) with
        | flow.fallthrough s2 cs2 =>
          (match drm_crtc_thread_handle_move K s2 cs2 with
           | flow.fallthrough s3 _ => flow.goto_next (drm_crtc_thread_verify s3)
           | f => f)
        | f => f) := by
  unfold drm_crtc_thread_turn drm_crtc_thread_drain
  rw [if_pos hp]
  simp only []
  rw [drm_crtc_thread_body_connected K _ _ (by exact hc)]
  rfl

theorem clipped_eq (K : Kernel) (s : World) :
    clipped K s =
      { s.crtc.cursor_next with
        off_x := if s.crtc.cursor_next.x > (resolution K s).1 - s.crtc.cursor_next.width then
            s.crtc.cursor_next.x - ((resolution K s).1 - s.crtc.cursor_next.width)
          else if s.crtc.cursor_next.x < 0 then s.crtc.cursor_next.x else 0
        off_y := if s.crtc.cursor_next.y > (resolution K s).2 - s.crtc.cursor_next.height then
            s.crtc.cursor_next.y - ((resolution K s).2 - s.crtc.cursor_next.height)
          else if s.crtc.cursor_next.y < 0 then s.crtc.cursor_next.y else 0 } := by
  unfold clipped
  rw [drm_crtc_clip_offsets_eq]

theorem clipped_fields (K : Kernel) (s : World) :
    (clipped K s).request = s.crtc.cursor_next.request ∧
    (clipped K s).handle = s.crtc.cursor_next.handle ∧
    (clipped K s).fb = s.crtc.cursor_next.fb ∧
    (clipped K s).width = s.crtc.cursor_next.width ∧
    (clipped K s).height = s.crtc.cursor_next.height ∧
    (clipped K s).x = s.crtc.cursor_next.x ∧
    (clipped K s).y = s.crtc.cursor_next.y := by
  rw [clipped_eq]
  exact ⟨rfl, rfl, rfl, rfl, rfl, rfl, rfl⟩

/-- C4 (as amended): in a turn of the worker of a connected output whose
drained snapshot has `SET` pending and a null handle (whether or not `MOVE` is
pending too), `egl_convert_fb` is not called, the turn ends at `next` with
`cursor_curr` all zero (so `cursor_curr.handle == 0`), and the commit layer is
invoked exactly when a display buffer was committed before
(`cursor_curr.fb != 0`): then once, with buffer 0. -/
theorem C4_set_null_disables (K : Kernel) (s : World)
    (hp : s.crtc.state = drm_thread_state.PENDING) (hc : connected K s = true)
    (hset : int_and s.crtc.cursor_next.request REQ_SET_CURSOR ≠ 0)
    (hh : s.crtc.cursor_next.handle = 0) :
    ∃ s1, drm_crtc_thread_turn K s = some (flow.goto_next s1) ∧
      converts s1.log = converts s.log ∧
      observe s1.log =
        (if s.crtc.cursor_curr.fb ≠ 0 then [Event.drm_set_plane s.plane.plane_id 0 0 0 0 0]
          else []) ++ observe s.log ∧
      s1.crtc.cursor_curr = drm_cursor_state.zero ∧
      s1.crtc.cursor_curr.handle = 0 := by
  rw [drm_crtc_thread_turn_connected K s hp hc]
  obtain ⟨hreq, hhandle, -⟩ := clipped_fields K s
  have hd := drm_crtc_disable_cursor_spec K (turn_start K s)
  have hset1 : drm_crtc_thread_handle_set K (turn_start K s) (clipped K s) =
      flow.goto_next (drm_crtc_disable_cursor K (turn_start K s)).2 := by
    unfold drm_crtc_thread_handle_set
    rw [if_pos (by rw [hreq]; exact hset)]
    simp only []
    rw [if_pos (by rw [hhandle]; exact hh)]
  rw [hset1]
  refine ⟨_, rfl, ?_, ?_, ?_, ?_⟩
  · rw [converts_of_observe, hd.2.2.2, converts_of_observe]
    show List.filter Event.is_convert (_ ++ observe (Event.drmModeGetCrtc _ :: s.log)) = _
    rw [observe_cons_other _ _ (by rfl), List.filter_append]
    split_ifs <;> rfl
  · rw [hd.2.2.2]
    rfl
  · rw [hd.1]
  · rw [hd.1]
    rfl

/-- C4, counterexample to the claim as stated: on the sample output, which
shows nothing, a turn (and the whole iteration) for a snapshot with `SET`
pending and a null handle invokes the commit layer not at all. -/
theorem C4_counterexample :
    sample_world_set_null.crtc.state = drm_thread_state.PENDING ∧
    connected sample_kernel sample_world_set_null = true ∧
    int_and sample_world_set_null.crtc.cursor_next.request REQ_SET_CURSOR ≠ 0 ∧
    sample_world_set_null.crtc.cursor_next.handle = 0 ∧
    (∃ s, drm_crtc_thread_turn sample_kernel sample_world_set_null = some (flow.goto_next s) ∧
      s.log.filter Event.is_commit = []) ∧
    (drm_crtc_thread_iter sample_kernel sample_world_set_null).map
      (fun s => s.log.filter Event.is_commit) = some [] :=
  ⟨by decide, by decide, by decide, by decide, ⟨_, rfl, by decide⟩, by decide⟩

/-- C4, witness: the sample output showing a cursor meets the hypotheses. -/
theorem C4_witness :
    sample_world_shown_set_null.crtc.state = drm_thread_state.PENDING ∧
    connected sample_kernel sample_world_shown_set_null = true ∧
    ∃ s1, drm_crtc_thread_turn sample_kernel sample_world_shown_set_null =
        some (flow.goto_next s1) ∧
      converts s1.log = converts sample_world_shown_set_null.log ∧
      observe s1.log =
        (if sample_world_shown_set_null.crtc.cursor_curr.fb ≠ 0 then
            [Event.drm_set_plane sample_world_shown_set_null.plane.plane_id 0 0 0 0 0]
          else []) ++ observe sample_world_shown_set_null.log ∧
      s1.crtc.cursor_curr = drm_cursor_state.zero ∧
      s1.crtc.cursor_curr.handle = 0 :=
  ⟨by decide, by decide,
    C4_set_null_disables sample_kernel sample_world_shown_set_null (by decide) (by decide)
      (by decide) (by decide)⟩

theorem drm_crtc_thread_handle_set_skip (K : Kernel) (s : World) (cs : drm_cursor_state)
    (h : int_and cs.request REQ_SET_CURSOR = 0) :
    drm_crtc_thread_handle_set K s cs = flow.fallthrough s cs := by
  unfold drm_crtc_thread_handle_set
  rw [if_neg (by rw [h]; exact fun hne => hne rfl)]

/-- C5 (as amended): in a turn of the worker of a connected output that
processes a `MOVE` (no `SET` pending) while `cursor_curr.handle == 0`, neither
the commit layer nor `egl_convert_fb` is invoked, the turn ends at `next`, and
`cursor_curr` becomes the drained snapshot with its clipping offsets
recomputed and the `MOVE` flag cleared: `handle`, `fb`, `width`, `height`, `x`
and `y` are those of the snapshot. -/
theorem C5_pre_move_absorbed (K : Kernel) (s : World)
    (hp : s.crtc.state = drm_thread_state.PENDING) (hc : connected K s = true)
    (hset : int_and s.crtc.cursor_next.request REQ_SET_CURSOR = 0)
    (hmove : int_and s.crtc.cursor_next.request REQ_MOVE_CURSOR ≠ 0)
    (hh : s.crtc.cursor_curr.handle = 0) :
    ∃ s1, drm_crtc_thread_turn K s = some (flow.goto_next s1) ∧
      observe s1.log = observe s.log ∧
      s1.crtc.cursor_curr =
        { clipped K s with
          request := int_and s.crtc.cursor_next.request (int_not REQ_MOVE_CURSOR) } ∧
      s1.crtc.cursor_curr.x = s.crtc.cursor_next.x ∧
      s1.crtc.cursor_curr.y = s.crtc.cursor_next.y ∧
      s1.crtc.cursor_curr.handle = s.crtc.cursor_next.handle ∧
      s1.crtc.cursor_curr.fb = s.crtc.cursor_next.fb ∧
      s1.crtc.cursor_curr.width = s.crtc.cursor_next.width ∧
      s1.crtc.cursor_curr.height = s.crtc.cursor_next.height := by
  rw [drm_crtc_thread_turn_connected K s hp hc]
  obtain ⟨hreq, hhandle, hfb, hw, hht, hx, hy⟩ := clipped_fields K s
  rw [drm_crtc_thread_handle_set_skip K _ _ (by rw [hreq]; exact hset)]
  simp only []
  have hmv : drm_crtc_thread_handle_move K (turn_start K s) (clipped K s) =
      flow.goto_next { turn_start K s with
        crtc := { (turn_start K s).crtc with
          cursor_curr := { clipped K s with
            request := int_and (clipped K s).request (int_not REQ_MOVE_CURSOR) } } } := by
    unfold drm_crtc_thread_handle_move
    rw [if_pos (by rw [hreq]; exact hmove)]
    simp only []
    rw [if_pos (show (turn_start K s).crtc.cursor_curr.handle = 0 from hh)]
  rw [hmv]
  refine ⟨_, rfl, ?_, ?_, hx, hy, hhandle, hfb, hw, hht⟩
  · exact observe_cons_other _ _ rfl
  · show ({ clipped K s with
        request := int_and (clipped K s).request (int_not REQ_MOVE_CURSOR) } : drm_cursor_state) = _
    rw [hreq]

/-- C5, witness: the sample output after a `MoveCursor` and no `SetCursor`. -/
theorem C5_witness :
    sample_world_move.crtc.state = drm_thread_state.PENDING ∧
    connected sample_kernel sample_world_move = true ∧
    ∃ s1, drm_crtc_thread_turn sample_kernel sample_world_move = some (flow.goto_next s1) ∧
      observe s1.log = observe sample_world_move.log ∧
      s1.crtc.cursor_curr =
        { clipped sample_kernel sample_world_move with
          request := int_and sample_world_move.crtc.cursor_next.request
            (int_not REQ_MOVE_CURSOR) } ∧
      s1.crtc.cursor_curr.x = sample_world_move.crtc.cursor_next.x ∧
      s1.crtc.cursor_curr.y = sample_world_move.crtc.cursor_next.y ∧
      s1.crtc.cursor_curr.handle = sample_world_move.crtc.cursor_next.handle ∧
      s1.crtc.cursor_curr.fb = sample_world_move.crtc.cursor_next.fb ∧
      s1.crtc.cursor_curr.width = sample_world_move.crtc.cursor_next.width ∧
      s1.crtc.cursor_curr.height = sample_world_move.crtc.cursor_next.height :=
  ⟨by decide, by decide,
    C5_pre_move_absorbed sample_kernel sample_world_move (by decide) (by decide) (by decide)
      (by decide) (by decide)⟩

/-- C5, counterexample to the claim as stated: on the sample output, with no
image set, a turn for the snapshot of `MoveCursor(-10, 0)` ends at `next` with
a `cursor_curr` that is not the drained snapshot: its `request` is 0 where the
snapshot has the `MOVE` flag, and its `off_x` is -10 where the snapshot has 0. -/
theorem C5_counterexample :
    sample_world_move.crtc.state = drm_thread_state.PENDING ∧
    connected sample_kernel sample_world_move = true ∧
    int_and sample_world_move.crtc.cursor_next.request REQ_MOVE_CURSOR ≠ 0 ∧
    sample_world_move.crtc.cursor_curr.handle = 0 ∧
    sample_world_move.crtc.cursor_next =
      { handle := 0, fb := 0, width := 0, height := 0, x := -10, y := 0,
        off_x := 0, off_y := 0, request := 2 } ∧
    (drm_crtc_thread_turn sample_kernel sample_world_move).map
        (fun f => (f.world.crtc.cursor_curr, f.world.log.filter Event.is_commit)) =
      some
        ({ handle := 0, fb := 0, width := 0, height := 0, x := -10, y := 0,
            off_x := -10, off_y := 0, request := 0 }, []) ∧
    (drm_crtc_thread_turn sample_kernel sample_world_move).map
        (fun f => decide (f.world.crtc.cursor_curr = sample_world_move.crtc.cursor_next)) =
      some false :=
  ⟨by decide, by decide, by decide, by decide, by decide, by decide, by decide⟩

theorem create_fb_log_observe (s : World) (cs : drm_cursor_state) :
    observe (create_fb_log s cs) = observe s.log := by
  unfold create_fb_log
  by_cases h : s.crtc.egl_ctx = false
  · rw [if_pos h]
    exact observe_cons_other _ _ rfl
  · rw [if_neg h]

theorem drm_crtc_thread_finish_log (g : flow) :
    (match g with
      | flow.fallthrough s3 _ => flow.goto_next (drm_crtc_thread_verify s3)
      | f => f).world.log = g.world.log := by
  cases g with
  | fallthrough s3 cs =>
    show (drm_crtc_thread_verify s3).log = s3.log
    unfold drm_crtc_thread_verify
    split_ifs <;> rfl
  | goto_next s3 => rfl
  | goto_error s3 => rfl

/-- The turn of a connected output with `MOVE` pending and no `SET` pending is
the block of `REQ_MOVE_CURSOR` run on the snapshot. -/
theorem drm_crtc_thread_turn_move_only (K : Kernel) (s : World)
    (hp : s.crtc.state = drm_thread_state.PENDING) (hc : connected K s = true)
    (hset : int_and s.crtc.cursor_next.request REQ_SET_CURSOR = 0) :
    drm_crtc_thread_turn K s = some
      (match drm_crtc_thread_handle_move K (turn_start K s) (clipped K s) with
        | flow.fallthrough s3 _ => flow.goto_next (drm_crtc_thread_verify s3)
        | f => f) := by
  rw [drm_crtc_thread_turn_connected K s hp hc]
  rw [drm_crtc_thread_handle_set_skip K _ _ (by rw [(clipped_fields K s).1]; exact hset)]

/-- The three ways the block of `REQ_MOVE_CURSOR` goes for an output that has
a cursor: a normal move, an edge move whose GPU backend cannot be created, an
edge move with a conversion. -/
theorem drm_crtc_thread_handle_move_shown (K : Kernel) (s : World)
    (hmove : int_and s.crtc.cursor_next.request REQ_MOVE_CURSOR ≠ 0)
    (hh : s.crtc.cursor_curr.handle ≠ 0) :
    (((clipped K s).off_x = s.crtc.cursor_curr.off_x ∧
        (clipped K s).off_y = s.crtc.cursor_curr.off_y) →
      observe (drm_crtc_thread_handle_move K (turn_start K s) (clipped K s)).world.log =
        (if s.crtc.cursor_curr.x = s.crtc.cursor_next.x ∧
            s.crtc.cursor_curr.y = s.crtc.cursor_next.y then []
          else [Event.drm_set_plane s.plane.plane_id s.crtc.cursor_curr.fb
            (s.crtc.cursor_next.x - (clipped K s).off_x)
            (s.crtc.cursor_next.y - (clipped K s).off_y)
            s.crtc.cursor_next.width s.crtc.cursor_next.height]) ++ observe s.log) ∧
    (¬((clipped K s).off_x = s.crtc.cursor_curr.off_x ∧
        (clipped K s).off_y = s.crtc.cursor_curr.off_y) →
      create_fb_init_fails K (turn_start K s) (move_state K s) = true →
      drm_crtc_thread_handle_move K (turn_start K s) (clipped K s) =
        flow.goto_error { turn_start K s with
          log := create_fb_log (turn_start K s) (move_state K s) } ∧
      observe (drm_crtc_thread_handle_move K (turn_start K s) (clipped K s)).world.log =
        observe s.log) ∧
    (¬((clipped K s).off_x = s.crtc.cursor_curr.off_x ∧
        (clipped K s).off_y = s.crtc.cursor_curr.off_y) →
      create_fb_init_fails K (turn_start K s) (move_state K s) = false →
      observe (drm_crtc_thread_handle_move K (turn_start K s) (clipped K s)).world.log =
        (if converted K (turn_start K s) (move_state K s) = 0 then []
          else [Event.drm_set_plane s.plane.plane_id (converted K (turn_start K s) (move_state K s))
            (s.crtc.cursor_next.x - (clipped K s).off_x)
            (s.crtc.cursor_next.y - (clipped K s).off_y)
            s.crtc.cursor_next.width s.crtc.cursor_next.height]) ++
        Event.egl_convert_fb s.crtc.cursor_next.handle s.crtc.cursor_next.width
          s.crtc.cursor_next.height (clipped K s).off_x (clipped K s).off_y ::
        observe s.log) := by
  obtain ⟨hreq, hhandle, hfb, hw, hht, hx, hy⟩ := clipped_fields K s
  have hlog0 : observe (turn_start K s).log = observe s.log := observe_cons_other _ _ rfl
  have hunf : drm_crtc_thread_handle_move K (turn_start K s) (clipped K s) =
      if s.crtc.cursor_curr.off_x ≠ (move_state K s).off_x ∨
          s.crtc.cursor_curr.off_y ≠ (move_state K s).off_y then
        (match drm_crtc_create_fb K (turn_start K s) (move_state K s) with
          | (r, s1, cs2) =>
            if r < 0 then flow.goto_error s1
            else
              match drm_crtc_update_cursor K s1 (some cs2) with
              | (r2, s2) => if r2 < 0 then flow.goto_error s2 else flow.fallthrough s2 cs2)
      else
        (match drm_crtc_update_cursor K (turn_start K s)
            (some { move_state K s with fb := s.crtc.cursor_curr.fb }) with
          | (r2, s2) =>
            if r2 < 0 then flow.goto_error s2
            else flow.fallthrough s2 { move_state K s with fb := s.crtc.cursor_curr.fb }) := by
    unfold drm_crtc_thread_handle_move
    rw [if_pos (by rw [hreq]; exact hmove)]
    simp only []
    rw [if_neg (show ¬ (turn_start K s).crtc.cursor_curr.handle = 0 from hh)]
    unfold move_state
    rw [hreq]
    rfl
  have hoffx : (move_state K s).off_x = (clipped K s).off_x := rfl
  have hoffy : (move_state K s).off_y = (clipped K s).off_y := rfl
  refine ⟨?_, ?_, ?_⟩
  · intro heq
    rw [hunf, if_neg (by rw [hoffx, hoffy, heq.1, heq.2]; simp)]
    have hu := drm_crtc_update_cursor_spec K (turn_start K s)
      { move_state K s with fb := s.crtc.cursor_curr.fb }
    rcases hr : drm_crtc_update_cursor K (turn_start K s)
      (some { move_state K s with fb := s.crtc.cursor_curr.fb }) with ⟨r2, s2⟩
    rw [hr] at hu
    have hl : (if r2 < 0 then flow.goto_error s2
        else flow.fallthrough s2 { move_state K s with fb := s.crtc.cursor_curr.fb }).world.log
        = s2.log := by
      split_ifs <;> rfl
    simp only []
    rw [hl, hu.2.2.2, hlog0]
    have hcu : (cursor_unchanged (turn_start K s).crtc
        { move_state K s with fb := s.crtc.cursor_curr.fb } = true) ↔
        (s.crtc.cursor_curr.x = s.crtc.cursor_next.x ∧
          s.crtc.cursor_curr.y = s.crtc.cursor_next.y) := by
      unfold cursor_unchanged
      simp only [decide_eq_true_eq]
      show (s.crtc.cursor_curr.fb = s.crtc.cursor_curr.fb ∧
        s.crtc.cursor_curr.x = (clipped K s).x ∧ s.crtc.cursor_curr.y = (clipped K s).y ∧
        s.crtc.cursor_curr.off_x = (clipped K s).off_x ∧
        s.crtc.cursor_curr.off_y = (clipped K s).off_y) ↔ _
      rw [hx, hy, heq.1, heq.2]
      simp
    by_cases hpos : s.crtc.cursor_curr.x = s.crtc.cursor_next.x ∧
        s.crtc.cursor_curr.y = s.crtc.cursor_next.y
    · rw [if_pos (hcu.2 hpos), if_pos hpos]
    · rw [if_neg (fun h => hpos (hcu.1 h)), if_neg hpos]
      show [Event.drm_set_plane s.plane.plane_id s.crtc.cursor_curr.fb
        ((clipped K s).x - (clipped K s).off_x) ((clipped K s).y - (clipped K s).off_y)
        (clipped K s).width (clipped K s).height] ++ _ = _
      rw [hx, hy, hw, hht]
  · intro hne hfail
    have hcond : s.crtc.cursor_curr.off_x ≠ (move_state K s).off_x ∨
        s.crtc.cursor_curr.off_y ≠ (move_state K s).off_y := by
      rw [hoffx, hoffy]
      by_contra hcon
      push_neg at hcon
      exact hne ⟨hcon.1.symm, hcon.2.symm⟩
    rw [hunf, if_pos hcond, drm_crtc_create_fb_init_fails K _ _ hfail]
    simp only [show ((-1 : Int) < 0) from by decide, if_true, true_and]
    show observe (create_fb_log (turn_start K s) (move_state K s)) = _
    rw [create_fb_log_observe, hlog0]
  · intro hne hok
    have hcond : s.crtc.cursor_curr.off_x ≠ (move_state K s).off_x ∨
        s.crtc.cursor_curr.off_y ≠ (move_state K s).off_y := by
      rw [hoffx, hoffy]
      by_contra hcon
      push_neg at hcon
      exact hne ⟨hcon.1.symm, hcon.2.symm⟩
    have hclog : observe (create_fb_log (turn_start K s) (move_state K s)) = observe s.log := by
      rw [create_fb_log_observe, hlog0]
    rw [hunf, if_pos hcond, drm_crtc_create_fb_converts K _ _ hok]
    simp only []
    by_cases hz : converted K (turn_start K s) (move_state K s) = 0
    · simp only [hz, if_true, show ((-1 : Int) < 0) from by decide, List.nil_append]
      show observe (Event.egl_convert_fb (clipped K s).handle (clipped K s).width
        (clipped K s).height (clipped K s).off_x (clipped K s).off_y :: _) = _
      rw [observe_cons_convert, hclog, hhandle, hw, hht]
    · simp only [hz, if_false, Int.lt_irrefl]
      have hu := drm_crtc_update_cursor_spec K
        { turn_start K s with
          crtc := { (turn_start K s).crtc with egl_ctx := true }
          log := Event.egl_convert_fb (move_state K s).handle (move_state K s).width
            (move_state K s).height (move_state K s).off_x (move_state K s).off_y ::
            create_fb_log (turn_start K s) (move_state K s) }
        { move_state K s with fb := converted K (turn_start K s) (move_state K s) }
      rcases hr : drm_crtc_update_cursor K
        { turn_start K s with
          crtc := { (turn_start K s).crtc with egl_ctx := true }
          log := Event.egl_convert_fb (move_state K s).handle (move_state K s).width
            (move_state K s).height (move_state K s).off_x (move_state K s).off_y ::
            create_fb_log (turn_start K s) (move_state K s) }
        (some { move_state K s with fb := converted K (turn_start K s) (move_state K s) })
        with ⟨r2, s2⟩
      rw [hr] at hu
      have hl : (if r2 < 0 then flow.goto_error s2
          else flow.fallthrough s2
            { move_state K s with fb := converted K (turn_start K s) (move_state K s) }).world.log
          = s2.log := by
        split_ifs <;> rfl
      simp only []
      rw [hl, hu.2.2.2]
      have hnu : ¬ (cursor_unchanged
          ({ turn_start K s with
            crtc := { (turn_start K s).crtc with egl_ctx := true }
            log := Event.egl_convert_fb (move_state K s).handle (move_state K s).width
              (move_state K s).height (move_state K s).off_x (move_state K s).off_y ::
              create_fb_log (turn_start K s) (move_state K s) } : World).crtc
          { move_state K s with fb := converted K (turn_start K s) (move_state K s) } = true) := by
        unfold cursor_unchanged
        simp only [decide_eq_true_eq]
        intro hcu
        exact hne ⟨hcu.2.2.2.1.symm, hcu.2.2.2.2.symm⟩
      rw [if_neg hnu]
      show [Event.drm_set_plane s.plane.plane_id _ ((clipped K s).x - (clipped K s).off_x)
        ((clipped K s).y - (clipped K s).off_y) (clipped K s).width (clipped K s).height] ++
        observe (Event.egl_convert_fb (clipped K s).handle (clipped K s).width
          (clipped K s).height (clipped K s).off_x (clipped K s).off_y :: _) = _
      rw [observe_cons_convert, hclog, hhandle, hw, hht, hx, hy]

/-- C6, counterexample to the claim as stated: the sample output was unplugged
when its first `SetCursor` was drained, so it holds a handle and has no GPU
backend; the `MoveCursor(-10, 0)` that follows changes the clipping offsets,
the backend cannot be created, and the turn jumps to `error` with no call of
`egl_convert_fb` at all. -/
theorem C6_counterexample :
    Sys.initial sample_sys = true ∧
    (sample_sys_edge.crtc 0).plane = some sample_world_edge.plane ∧
    sample_world_edge.crtc.state = drm_thread_state.PENDING ∧
    connected sample_kernel_replug sample_world_edge = true ∧
    int_and sample_world_edge.crtc.cursor_next.request REQ_SET_CURSOR = 0 ∧
    int_and sample_world_edge.crtc.cursor_next.request REQ_MOVE_CURSOR ≠ 0 ∧
    sample_world_edge.crtc.cursor_curr.handle = 5 ∧
    sample_world_edge.crtc.cursor_curr.off_x = 0 ∧
    (clipped sample_kernel_replug sample_world_edge).off_x = -10 ∧
    (drm_crtc_thread_turn sample_kernel_replug sample_world_edge).map
        (fun f => (decide (f = flow.goto_error f.world), converts f.world.log)) =
      some (true, []) :=
  ⟨by decide, by decide, by decide, by decide, by decide, by decide, by decide, by decide,
    by decide, by decide⟩

/-- C6 (as amended): in a turn of the worker of a connected output that
processes a `MOVE` (no `SET` pending) while `cursor_curr` has a handle:
if the recomputed clipping offsets equal those of `cursor_curr`,
`egl_convert_fb` is not called and the commit layer is invoked only if the
position changed, then once and with the buffer `cursor_curr.fb`; if they
differ and the output has no GPU backend and none can be created,
`egl_convert_fb` is not called and the turn jumps to `error`; if they differ
otherwise, `egl_convert_fb` is called exactly once, for the snapshot's image
and the new offsets, and the commit layer is invoked after it, once with the
converted buffer at the clipped position (not at all when the conversion
fails). -/
theorem C6_move_converts_iff_offsets_change (K : Kernel) (s : World)
    (hp : s.crtc.state = drm_thread_state.PENDING) (hc : connected K s = true)
    (hset : int_and s.crtc.cursor_next.request REQ_SET_CURSOR = 0)
    (hmove : int_and s.crtc.cursor_next.request REQ_MOVE_CURSOR ≠ 0)
    (hh : s.crtc.cursor_curr.handle ≠ 0) :
    ∃ f, drm_crtc_thread_turn K s = some f ∧
      (((clipped K s).off_x = s.crtc.cursor_curr.off_x ∧
          (clipped K s).off_y = s.crtc.cursor_curr.off_y) →
        observe f.world.log =
          (if s.crtc.cursor_curr.x = s.crtc.cursor_next.x ∧
              s.crtc.cursor_curr.y = s.crtc.cursor_next.y then []
            else [Event.drm_set_plane s.plane.plane_id s.crtc.cursor_curr.fb
              (s.crtc.cursor_next.x - (clipped K s).off_x)
              (s.crtc.cursor_next.y - (clipped K s).off_y)
              s.crtc.cursor_next.width s.crtc.cursor_next.height]) ++ observe s.log) ∧
      (¬((clipped K s).off_x = s.crtc.cursor_curr.off_x ∧
          (clipped K s).off_y = s.crtc.cursor_curr.off_y) →
        create_fb_init_fails K (turn_start K s) (move_state K s) = true →
        f = flow.goto_error { turn_start K s with
            log := create_fb_log (turn_start K s) (move_state K s) } ∧
          observe f.world.log = observe s.log) ∧
      (¬((clipped K s).off_x = s.crtc.cursor_curr.off_x ∧
          (clipped K s).off_y = s.crtc.cursor_curr.off_y) →
        create_fb_init_fails K (turn_start K s) (move_state K s) = false →
        observe f.world.log =
          (if converted K (turn_start K s) (move_state K s) = 0 then []
            else [Event.drm_set_plane s.plane.plane_id
              (converted K (turn_start K s) (move_state K s))
              (s.crtc.cursor_next.x - (clipped K s).off_x)
              (s.crtc.cursor_next.y - (clipped K s).off_y)
              s.crtc.cursor_next.width s.crtc.cursor_next.height]) ++
          Event.egl_convert_fb s.crtc.cursor_next.handle s.crtc.cursor_next.width
            s.crtc.cursor_next.height (clipped K s).off_x (clipped K s).off_y ::
          observe s.log) := by
  obtain ⟨h1, h2, h3⟩ := drm_crtc_thread_handle_move_shown K s hmove hh
  refine ⟨_, drm_crtc_thread_turn_move_only K s hp hc hset, ?_, ?_, ?_⟩
  · intro heq
    rw [drm_crtc_thread_finish_log]
    exact h1 heq
  · intro hne hfail
    rw [drm_crtc_thread_finish_log]
    refine ⟨?_, (h2 hne hfail).2⟩
    rw [(h2 hne hfail).1]
  · intro hne hok
    rw [drm_crtc_thread_finish_log]
    exact h3 hne hok

/-- C6, witness: the sample output showing a cursor, after `MoveCursor(-10, 0)`. -/
theorem C6_witness :
    sample_world_shown_move.crtc.state = drm_thread_state.PENDING ∧
    connected sample_kernel sample_world_shown_move = true ∧
    int_and sample_world_shown_move.crtc.cursor_next.request REQ_SET_CURSOR = 0 ∧
    int_and sample_world_shown_move.crtc.cursor_next.request REQ_MOVE_CURSOR ≠ 0 ∧
    sample_world_shown_move.crtc.cursor_curr.handle ≠ 0 ∧
    ∃ f, drm_crtc_thread_turn sample_kernel sample_world_shown_move = some f ∧
      (((clipped sample_kernel sample_world_shown_move).off_x = sample_world_shown_move.crtc.cursor_curr.off_x ∧
          (clipped sample_kernel sample_world_shown_move).off_y = sample_world_shown_move.crtc.cursor_curr.off_y) →
        observe f.world.log =
          (if sample_world_shown_move.crtc.cursor_curr.x = sample_world_shown_move.crtc.cursor_next.x ∧
              sample_world_shown_move.crtc.cursor_curr.y = sample_world_shown_move.crtc.cursor_next.y then []
            else [Event.drm_set_plane sample_world_shown_move.plane.plane_id sample_world_shown_move.crtc.cursor_curr.fb
              (sample_world_shown_move.crtc.cursor_next.x - (clipped sample_kernel sample_world_shown_move).off_x)
              (sample_world_shown_move.crtc.cursor_next.y - (clipped sample_kernel sample_world_shown_move).off_y)
              sample_world_shown_move.crtc.cursor_next.width sample_world_shown_move.crtc.cursor_next.height]) ++ observe sample_world_shown_move.log) ∧
      (¬((clipped sample_kernel sample_world_shown_move).off_x = sample_world_shown_move.crtc.cursor_curr.off_x ∧
          (clipped sample_kernel sample_world_shown_move).off_y = sample_world_shown_move.crtc.cursor_curr.off_y) →
        create_fb_init_fails sample_kernel (turn_start sample_kernel sample_world_shown_move) (move_state sample_kernel sample_world_shown_move) = true →
        f = flow.goto_error { turn_start sample_kernel sample_world_shown_move with
            log := create_fb_log (turn_start sample_kernel sample_world_shown_move) (move_state sample_kernel sample_world_shown_move) } ∧
          observe f.world.log = observe sample_world_shown_move.log) ∧
      (¬((clipped sample_kernel sample_world_shown_move).off_x = sample_world_shown_move.crtc.cursor_curr.off_x ∧
          (clipped sample_kernel sample_world_shown_move).off_y = sample_world_shown_move.crtc.cursor_curr.off_y) →
        create_fb_init_fails sample_kernel (turn_start sample_kernel sample_world_shown_move) (move_state sample_kernel sample_world_shown_move) = false →
        observe f.world.log =
          (if converted sample_kernel (turn_start sample_kernel sample_world_shown_move) (move_state sample_kernel sample_world_shown_move) = 0 then []
            else [Event.drm_set_plane sample_world_shown_move.plane.plane_id
              (converted sample_kernel (turn_start sample_kernel sample_world_shown_move) (move_state sample_kernel sample_world_shown_move))
              (sample_world_shown_move.crtc.cursor_next.x - (clipped sample_kernel sample_world_shown_move).off_x)
              (sample_world_shown_move.crtc.cursor_next.y - (clipped sample_kernel sample_world_shown_move).off_y)
              sample_world_shown_move.crtc.cursor_next.width sample_world_shown_move.crtc.cursor_next.height]) ++
          Event.egl_convert_fb sample_world_shown_move.crtc.cursor_next.handle sample_world_shown_move.crtc.cursor_next.width
            sample_world_shown_move.crtc.cursor_next.height (clipped sample_kernel sample_world_shown_move).off_x (clipped sample_kernel sample_world_shown_move).off_y ::
          observe sample_world_shown_move.log) :=
  ⟨by decide, by decide, by decide, by decide, by decide,
    C6_move_converts_iff_offsets_change sample_kernel sample_world_shown_move (by decide)
      (by decide) (by decide) (by decide) (by decide)⟩

theorem converts_cons_other (e : Event) (log : List Event) (he : e.is_convert = false) :
    converts (e :: log) = converts log := by
  unfold converts
  rw [List.filter_cons]
  simp only [he, Bool.false_eq_true, if_false]

theorem drm_crtc_update_cursor_converts (K : Kernel) (s : World) (o : Option drm_cursor_state) :
    converts (drm_crtc_update_cursor K s o).2.log = converts s.log := by
  cases o with
  | none =>
    have h := (drm_crtc_disable_cursor_spec K s).2.2.2
    unfold drm_crtc_disable_cursor at h
    rw [converts_of_observe, h, List.filter_append, ← converts_of_observe]
    split_ifs <;> rfl
  | some cs =>
    have h := (drm_crtc_update_cursor_spec K s cs).2.2.2
    rw [converts_of_observe, h, List.filter_append, ← converts_of_observe]
    split_ifs <;> rfl

theorem create_fb_log_converts (s : World) (cs : drm_cursor_state) :
    converts (create_fb_log s cs) = converts s.log := by
  rw [converts_of_observe, create_fb_log_observe, ← converts_of_observe]

theorem drm_crtc_create_fb_count (K : Kernel) (s : World) (cs : drm_cursor_state) :
    (converts (drm_crtc_create_fb K s cs).2.1.log).length ≤ (converts s.log).length + 1 := by
  by_cases hi : create_fb_init_fails K s cs = true
  · rw [drm_crtc_create_fb_init_fails K s cs hi]
    show (converts (create_fb_log s cs)).length ≤ _
    rw [create_fb_log_converts]
    exact Nat.le_succ _
  · rw [drm_crtc_create_fb_converts K s cs (by simpa using hi)]
    show (converts (Event.egl_convert_fb _ _ _ _ _ :: create_fb_log s cs)).length ≤ _
    show (Event.egl_convert_fb _ _ _ _ _ :: converts (create_fb_log s cs)).length ≤ _
    rw [create_fb_log_converts]
    exact Nat.le_refl _

/-- The common tail of the two request blocks: the buffer is created, then
committed. -/
theorem create_then_update_count (K : Kernel) (s : World) (cs : drm_cursor_state) :
    (converts
      (match drm_crtc_create_fb K s cs with
        | (r, s1, cs2) =>
          if r < 0 then flow.goto_error s1
          else
            match drm_crtc_update_cursor K s1 (some cs2) with
            | (r2, s2) => if r2 < 0 then flow.goto_error s2
              else flow.fallthrough s2 cs2).world.log).length ≤
      (converts s.log).length + 1 := by
  have hc := drm_crtc_create_fb_count K s cs
  rcases hr : drm_crtc_create_fb K s cs with ⟨r, s1, cs2⟩
  rw [hr] at hc
  simp only []
  by_cases hneg : r < 0
  · rw [if_pos hneg]
    exact hc
  · rw [if_neg hneg]
    have hu := drm_crtc_update_cursor_converts K s1 (some cs2)
    rcases hr2 : drm_crtc_update_cursor K s1 (some cs2) with ⟨r2, s2⟩
    rw [hr2] at hu
    simp only []
    have hl : (if r2 < 0 then flow.goto_error s2 else flow.fallthrough s2 cs2).world.log
        = s2.log := by
      split_ifs <;> rfl
    rw [hl, hu]
    exact hc

theorem flow_branch_log (r2 : Int) (s2 : World) (c : drm_cursor_state) :
    (if r2 < 0 then flow.goto_error s2 else flow.fallthrough s2 c).world.log = s2.log := by
  split_ifs <;> rfl

theorem drm_crtc_thread_handle_move_count (K : Kernel) (s : World) (cs : drm_cursor_state) :
    (converts (drm_crtc_thread_handle_move K s cs).world.log).length ≤
      (converts s.log).length + 1 := by
  unfold drm_crtc_thread_handle_move
  by_cases hm : int_and cs.request REQ_MOVE_CURSOR ≠ 0
  · rw [if_pos hm]
    simp only []
    by_cases hh : s.crtc.cursor_curr.handle = 0
    · rw [if_pos hh]
      exact Nat.le_succ _
    · rw [if_neg hh]
      by_cases hoff : s.crtc.cursor_curr.off_x ≠ cs.off_x ∨ s.crtc.cursor_curr.off_y ≠ cs.off_y
      · rw [if_pos hoff]
        exact create_then_update_count K s _
      · rw [if_neg hoff]
        have hu := drm_crtc_update_cursor_converts K s
          (some { cs with request := int_and cs.request (int_not REQ_MOVE_CURSOR),
                          fb := s.crtc.cursor_curr.fb })
        rcases hr2 : drm_crtc_update_cursor K s
          (some { cs with request := int_and cs.request (int_not REQ_MOVE_CURSOR),
                          fb := s.crtc.cursor_curr.fb }) with ⟨r2, s2⟩
        rw [hr2] at hu
        simp only []
        rw [flow_branch_log, hu]
        exact Nat.le_succ _
  · rw [if_neg hm]
    exact Nat.le_succ _

/-- After a `SET` that went through, `cursor_curr` is the local `cursor_state`,
so the block of `REQ_MOVE_CURSOR` neither converts nor commits. -/
theorem drm_crtc_thread_handle_move_after_set (K : Kernel) (s : World) (cs : drm_cursor_state)
    (hcurr : s.crtc.cursor_curr = cs) :
    observe (drm_crtc_thread_handle_move K s cs).world.log = observe s.log := by
  unfold drm_crtc_thread_handle_move
  by_cases hm : int_and cs.request REQ_MOVE_CURSOR ≠ 0
  · rw [if_pos hm]
    simp only []
    by_cases hh : s.crtc.cursor_curr.handle = 0
    · rw [if_pos hh]
      rfl
    · rw [if_neg hh]
      rw [if_neg (by rw [hcurr]; simp)]
      have hu := drm_crtc_update_cursor_spec K s
        { cs with request := int_and cs.request (int_not REQ_MOVE_CURSOR),
                  fb := s.crtc.cursor_curr.fb }
      rcases hr2 : drm_crtc_update_cursor K s
        (some { cs with request := int_and cs.request (int_not REQ_MOVE_CURSOR),
                        fb := s.crtc.cursor_curr.fb }) with ⟨r2, s2⟩
      rw [hr2] at hu
      simp only []
      rw [flow_branch_log, hu.2.2.2]
      have hun : cursor_unchanged s.crtc
          { cs with request := int_and cs.request (int_not REQ_MOVE_CURSOR),
                    fb := s.crtc.cursor_curr.fb } = true := by
        unfold cursor_unchanged
        rw [hcurr]
        simp
      rw [if_pos hun]
      rfl
  · rw [if_neg hm]
    rfl

theorem drm_crtc_thread_handle_set_count (K : Kernel) (s : World) (cs : drm_cursor_state) :
    (converts (drm_crtc_thread_handle_set K s cs).world.log).length ≤
        (converts s.log).length + 1 ∧
      ∀ s2 cs2, drm_crtc_thread_handle_set K s cs = flow.fallthrough s2 cs2 →
        (s2 = s ∧ cs2 = cs) ∨ s2.crtc.cursor_curr = cs2 := by
  unfold drm_crtc_thread_handle_set
  by_cases hm : int_and cs.request REQ_SET_CURSOR ≠ 0
  · rw [if_pos hm]
    simp only []
    by_cases hh : cs.handle = 0
    · rw [if_pos hh]
      refine ⟨?_, fun s2 cs2 h => by cases h⟩
      show (converts (drm_crtc_disable_cursor K s).2.log).length ≤ _
      unfold drm_crtc_disable_cursor
      rw [drm_crtc_update_cursor_converts]
      exact Nat.le_succ _
    · rw [if_neg hh]
      refine ⟨create_then_update_count K s _, ?_⟩
      intro s2 cs2 heq
      rcases hr : drm_crtc_create_fb K s
        { cs with request := int_and cs.request (int_not REQ_SET_CURSOR) } with ⟨r, s1, cs3⟩
      rw [hr] at heq
      simp only [] at heq
      by_cases hneg : r < 0
      · rw [if_pos hneg] at heq
        cases heq
      · rw [if_neg hneg] at heq
        have hu := (drm_crtc_update_cursor_spec K s1 cs3).1
        rcases hr2 : drm_crtc_update_cursor K s1 (some cs3) with ⟨r2, s3⟩
        rw [hr2] at heq hu
        simp only [] at heq
        by_cases hneg2 : r2 < 0
        · rw [if_pos hneg2] at heq
          cases heq
        · rw [if_neg hneg2] at heq
          simp only [flow.fallthrough.injEq] at heq
          obtain ⟨h1, h2⟩ := heq
          subst h1 h2
          right
          rw [hu]
  · rw [if_neg hm]
    refine ⟨Nat.le_succ _, ?_⟩
    intro s2 cs2 heq
    simp only [flow.fallthrough.injEq] at heq
    exact Or.inl ⟨heq.1.symm, heq.2.symm⟩

theorem converts_le_of_observe_eq {a b : List Event} (h : observe a = observe b) :
    converts a = converts b := by
  rw [converts_of_observe, h, ← converts_of_observe]

/-- No turn of the worker loop calls `egl_convert_fb` more than once. -/
theorem drm_crtc_thread_body_count (K : Kernel) (s : World) (cs : drm_cursor_state) :
    (converts (drm_crtc_thread_body K s cs).world.log).length ≤ (converts s.log).length + 1 := by
  by_cases hc : connected K s = true
  · rw [drm_crtc_thread_body_connected K s cs hc]
    have hs := drm_crtc_thread_handle_set_count K
      { s with
        crtc := { s.crtc with width := (resolution K s).1, height := (resolution K s).2 }
        log := Event.drmModeGetCrtc s.crtc.crtc_id :: s.log }
      (drm_crtc_clip_offsets (resolution K s).1 (resolution K s).2 cs)
    have h0 : converts (Event.drmModeGetCrtc s.crtc.crtc_id :: s.log) = converts s.log :=
      converts_cons_other _ _ rfl
    rcases hr : drm_crtc_thread_handle_set K
      { s with
        crtc := { s.crtc with width := (resolution K s).1, height := (resolution K s).2 }
        log := Event.drmModeGetCrtc s.crtc.crtc_id :: s.log }
      (drm_crtc_clip_offsets (resolution K s).1 (resolution K s).2 cs) with ⟨s2, cs2⟩ | s2 | s2
    · rw [hr] at hs
      simp only []
      rw [drm_crtc_thread_finish_log]
      rcases hs.2 s2 cs2 rfl with ⟨h1, h2⟩ | hcurr
      · have hm := drm_crtc_thread_handle_move_count K s2 cs2
        rw [h1] at hm ⊢
        rw [h0] at hm
        exact hm
      · rw [converts_le_of_observe_eq (drm_crtc_thread_handle_move_after_set K s2 cs2 hcurr)]
        have h1 := hs.1
        rw [h0] at h1
        exact h1
    · rw [hr] at hs
      have h1 := hs.1
      rw [h0] at h1
      exact h1
    · rw [hr] at hs
      have h1 := hs.1
      rw [h0] at h1
      exact h1
  · have hd : connected K s = false := by simpa using hc
    unfold drm_crtc_thread_body
    rw [drm_crtc_update_offsets_disconnected K s cs hd]
    simp only [show ((-1 : Int) < 0) from by decide, if_true]
    have hu := drm_crtc_update_cursor_converts K
      { s with
        crtc := { s.crtc with width := (resolution K s).1, height := (resolution K s).2 }
        log := Event.drmModeGetCrtc s.crtc.crtc_id :: s.log } none
    unfold drm_crtc_disable_cursor
    rcases hr : drm_crtc_update_cursor K
      { s with
        crtc := { s.crtc with width := (resolution K s).1, height := (resolution K s).2 }
        log := Event.drmModeGetCrtc s.crtc.crtc_id :: s.log } none with ⟨r, s2⟩
    rw [hr] at hu
    simp only []
    show (converts s2.log).length ≤ _
    rw [hu, converts_cons_other _ _ (by rfl)]
    exact Nat.le_succ _

theorem drm_crtc_thread_turn_pending (K : Kernel) (s : World) (f : flow)
    (hturn : drm_crtc_thread_turn K s = some f) :
    s.crtc.state = drm_thread_state.PENDING ∧
      f = drm_crtc_thread_body K
        { s with crtc := { s.crtc with
            cursor_next := { s.crtc.cursor_next with request := 0 }
            state := drm_thread_state.IDLE } } s.crtc.cursor_next := by
  unfold drm_crtc_thread_turn drm_crtc_thread_drain at hturn
  by_cases hp : s.crtc.state = drm_thread_state.PENDING
  · rw [if_pos hp] at hturn
    simp only [Option.some.injEq] at hturn
    exact ⟨hp, hturn.symm⟩
  · rw [if_neg hp] at hturn
    cases hturn

/-- C8: for an output whose resolution query answers `w` by `h`, both
positive, `drm_crtc_update_offsets` succeeds and yields
`off_x = x - (w - width)` if `x > w - width`, else `x` if `x < 0`, else `0`,
and likewise `off_y`; so the offsets are `(0, 0)` exactly when
`0 <= x <= w - width` and `0 <= y <= h - height`; nothing else of the cursor
state changes.  On 1920 by 1080 a 64 by 64 cursor at `(100, 100)` gets offsets
`(0, 0)` and at `(-10, 0)` gets `off_x = -10`, and the turn that moves the
shown sample cursor there calls `egl_convert_fb` with these offsets. -/
theorem C8_clip_offsets (K : Kernel) (s : World) (cs : drm_cursor_state) (w h : Nat)
    (hq : K.drmModeGetCrtc s.log s.crtc.crtc_id = some (w, h))
    (hw : 0 < int_of_uint32 w) (hh : 0 < int_of_uint32 h) :
    (∃ s1 cs1, drm_crtc_update_offsets K s cs = (0, s1, cs1) ∧
      s1.crtc.width = int_of_uint32 w ∧ s1.crtc.height = int_of_uint32 h ∧
      cs1.off_x =
        (if cs.x > int_of_uint32 w - cs.width then cs.x - (int_of_uint32 w - cs.width)
          else if cs.x < 0 then cs.x else 0) ∧
      cs1.off_y =
        (if cs.y > int_of_uint32 h - cs.height then cs.y - (int_of_uint32 h - cs.height)
          else if cs.y < 0 then cs.y else 0) ∧
      ((cs1.off_x = 0 ∧ cs1.off_y = 0) ↔
        (0 ≤ cs.x ∧ cs.x ≤ int_of_uint32 w - cs.width ∧
          0 ≤ cs.y ∧ cs.y ≤ int_of_uint32 h - cs.height)) ∧
      cs1 = { cs with off_x := cs1.off_x, off_y := cs1.off_y }) ∧
      (drm_crtc_update_offsets sample_kernel sample_world_shown_move
          (sample_cursor_at 100 100)).2.2 = sample_cursor_at 100 100 ∧
      (drm_crtc_update_offsets sample_kernel sample_world_shown_move
          (sample_cursor_at (-10) 0)).2.2 = { sample_cursor_at (-10) 0 with off_x := -10 } ∧
      (drm_crtc_thread_turn sample_kernel sample_world_shown_move).map
          (fun f => converts f.world.log) = some [Event.egl_convert_fb 5 64 64 (-10) 0] := by
  have hc : connected K s = true := by
    unfold connected
    rw [hq]
    simp only [decide_eq_true_eq]
    exact ⟨hw, hh⟩
  have hres : resolution K s = (int_of_uint32 w, int_of_uint32 h) := by
    unfold resolution
    rw [hq]
  refine ⟨⟨_, _, drm_crtc_update_offsets_connected K s cs hc, ?_, ?_, ?_, ?_, ?_, ?_⟩,
    by decide, by decide, by decide⟩
  · rw [hres]
  · rw [hres]
  · rw [drm_crtc_clip_offsets_eq, hres]
  · rw [drm_crtc_clip_offsets_eq, hres]
  · rw [drm_crtc_clip_offsets_eq, hres]
    simp only []
    constructor
    · rintro ⟨hx, hy⟩
      split_ifs at hx hy <;> omega
    · rintro ⟨hx1, hx2, hy1, hy2⟩
      constructor
      · rw [if_neg (by omega), if_neg (by omega)]
      · rw [if_neg (by omega), if_neg (by omega)]
  · rw [drm_crtc_clip_offsets_eq]

/-- C8, witness: the sample output, whose resolution is 1920 by 1080, and a
64 by 64 cursor at `(2000, 1100)`. -/
theorem C8_witness :
    sample_kernel.drmModeGetCrtc sample_world_move.log sample_world_move.crtc.crtc_id =
      some (1920, 1080) ∧
    ((∃ s1 cs1, drm_crtc_update_offsets sample_kernel sample_world_move (sample_cursor_at 2000 1100) = (0, s1, cs1) ∧
      s1.crtc.width = int_of_uint32 1920 ∧ s1.crtc.height = int_of_uint32 1080 ∧
      cs1.off_x =
        (if (sample_cursor_at 2000 1100).x > int_of_uint32 1920 - (sample_cursor_at 2000 1100).width then (sample_cursor_at 2000 1100).x - (int_of_uint32 1920 - (sample_cursor_at 2000 1100).width)
          else if (sample_cursor_at 2000 1100).x < 0 then (sample_cursor_at 2000 1100).x else 0) ∧
      cs1.off_y =
        (if (sample_cursor_at 2000 1100).y > int_of_uint32 1080 - (sample_cursor_at 2000 1100).height then (sample_cursor_at 2000 1100).y - (int_of_uint32 1080 - (sample_cursor_at 2000 1100).height)
          else if (sample_cursor_at 2000 1100).y < 0 then (sample_cursor_at 2000 1100).y else 0) ∧
      ((cs1.off_x = 0 ∧ cs1.off_y = 0) ↔
        (0 ≤ (sample_cursor_at 2000 1100).x ∧ (sample_cursor_at 2000 1100).x ≤ int_of_uint32 1920 - (sample_cursor_at 2000 1100).width ∧
          0 ≤ (sample_cursor_at 2000 1100).y ∧ (sample_cursor_at 2000 1100).y ≤ int_of_uint32 1080 - (sample_cursor_at 2000 1100).height)) ∧
      cs1 = { (sample_cursor_at 2000 1100) with off_x := cs1.off_x, off_y := cs1.off_y }) ∧
      (drm_crtc_update_offsets sample_kernel sample_world_shown_move
          (sample_cursor_at 100 100)).2.2 = sample_cursor_at 100 100 ∧
      (drm_crtc_update_offsets sample_kernel sample_world_shown_move
          (sample_cursor_at (-10) 0)).2.2 = { sample_cursor_at (-10) 0 with off_x := -10 } ∧
      (drm_crtc_thread_turn sample_kernel sample_world_shown_move).map
          (fun f => converts f.world.log) = some [Event.egl_convert_fb 5 64 64 (-10) 0]) :=
  ⟨rfl, C8_clip_offsets sample_kernel sample_world_move (sample_cursor_at 2000 1100) 1920 1080
    rfl (by decide) (by decide)⟩

/-! ## Reads and writes of `ctx->crtcs` -/

theorem Sys.crtc_set_crtc (sys : Sys) (i j : Nat) (c : drm_crtc) :
    (sys.set_crtc i c).crtc j = if j = i ∧ i < sys.ctx.crtcs.length then c else sys.crtc j := by
  unfold Sys.crtc Sys.set_crtc
  simp only [List.getD_eq_getElem?_getD, List.getElem?_set]
  by_cases hji : j = i
  · subst hji
    by_cases hl : j < sys.ctx.crtcs.length
    · simp [hl]
    · have hn : sys.ctx.crtcs[j]? = none := List.getElem?_eq_none (by omega)
      simp [hl, hn]
  · have : ¬ i = j := fun h => hji h.symm
    simp [hji, this]

theorem Sys.crtc_of_ge (sys : Sys) (j : Nat) (h : sys.ctx.crtcs.length ≤ j) :
    sys.crtc j = drm_crtc.zero := by
  unfold Sys.crtc
  rw [List.getD_eq_getElem?_getD, List.getElem?_eq_none h]
  rfl

theorem Sys.crtc_mem (sys : Sys) (j : Nat) (h : j < sys.ctx.crtcs.length) :
    sys.crtc j ∈ sys.ctx.crtcs := by
  unfold Sys.crtc
  rw [List.getD_eq_getElem?_getD, List.getElem?_eq_getElem h]
  exact List.getElem_mem h

theorem Sys.set_crtc_length (sys : Sys) (i : Nat) (c : drm_crtc) :
    (sys.set_crtc i c).ctx.crtcs.length = sys.ctx.crtcs.length := by
  unfold Sys.set_crtc
  exact List.length_set _ _ _

/-! ## The caller side: lookup and plane binding -/

theorem caller_step.caller_refl (i : Nat) (sys : Sys) : caller_step i sys sys :=
  ⟨rfl, rfl, rfl, fun _ _ => rfl, rfl, fun h => h, Or.inl rfl, fun _ h => h⟩

theorem caller_step.caller_trans {i : Nat} {a b c : Sys} (h1 : caller_step i a b)
    (h2 : caller_step i b c) : caller_step i a c := by
  refine ⟨?_, h2.len.trans h1.len, h2.obs.trans h1.obs, ?_, ?_, fun h => h2.excl (h1.excl h), ?_,
    fun p hp => h2.bound p (h1.bound p hp)⟩
  · rw [h2.ctx, h1.ctx]
  · intro j hj
    rw [h2.others j hj, h1.others j hj]
  · rw [h2.at_i, h1.at_i]
  · rcases h2.state with h | h
    · rw [h]
      exact h1.state
    · exact Or.inr h

/-- A change of the log alone, by calls that neither convert nor commit. -/
theorem caller_step.of_log (i : Nat) (sys : Sys) (log : List Event)
    (h : observe log = observe sys.log) : caller_step i sys { sys with log := log } :=
  ⟨rfl, rfl, h, fun _ _ => rfl, rfl, fun h => h, Or.inl rfl, fun _ h => h⟩

theorem plane_exclusive_of_planes {a b : Sys}
    (h : ∀ j, (b.crtc j).plane = (a.crtc j).plane) (ha : plane_exclusive a) :
    plane_exclusive b := by
  intro j k p q hjk hp hq
  rw [h j] at hp
  rw [h k] at hq
  exact ha j k p q hjk hp hq

/-- A write of a new resolution into one output. -/
theorem caller_step.of_resolution (i k : Nat) (sys : Sys) (log : List Event) (c : drm_crtc)
    (h : observe log = observe sys.log)
    (hc : c = { sys.crtc k with width := c.width, height := c.height }) :
    caller_step i sys (({ sys with log := log } : Sys).set_crtc k c) := by
  have hget : ∀ j, ((({ sys with log := log } : Sys).set_crtc k c).crtc j) =
      { sys.crtc j with
        width := ((({ sys with log := log } : Sys).set_crtc k c).crtc j).width
        height := ((({ sys with log := log } : Sys).set_crtc k c).crtc j).height } := by
    intro j
    rw [Sys.crtc_set_crtc]
    by_cases hj : j = k ∧ k < ({ sys with log := log } : Sys).ctx.crtcs.length
    · rw [if_pos hj, hj.1]
      exact hc
    · rw [if_neg hj]
      rfl
  refine ⟨rfl, Sys.set_crtc_length _ _ _, h, fun j _ => hget j, ?_, ?_, ?_, ?_⟩
  · rw [hget i]
  · apply plane_exclusive_of_planes
    intro j
    rw [hget j]
  · left
    rw [hget i]
  · intro p hp
    rw [hget i]
    exact hp

theorem drm_update_crtc_observe (K : Kernel) (crtc : drm_crtc) (log : List Event) :
    observe (drm_update_crtc K crtc log).2.2 = observe log := by
  rw [(drm_update_crtc_spec K crtc log).1]
  exact observe_cons_other _ _ rfl

/-- The lookup loop changes stored resolutions only. -/
theorem drm_get_crtc_loop_step (K : Kernel) (crtc_id : Nat) (k : Nat) (n i : Nat) (sys : Sys) :
    caller_step k sys (drm_get_crtc_loop K crtc_id n i sys).2 := by
  induction n generalizing i sys with
  | zero => exact caller_step.caller_refl k sys
  | succ n ih =>
    unfold drm_get_crtc_loop
    by_cases hid : crtc_id = 0
    · rw [if_pos hid]
      have hs := drm_update_crtc_spec K (sys.crtc i) sys.log
      have ho := drm_update_crtc_observe K (sys.crtc i) sys.log
      rcases hr : drm_update_crtc K (sys.crtc i) sys.log with ⟨r, crtc1, log1⟩
      rw [hr] at hs ho
      simp only [] at hs ho ⊢
      have hstep : caller_step k sys (({ sys with log := log1 } : Sys).set_crtc i crtc1) :=
        caller_step.of_resolution k i sys log1 crtc1 ho hs.2.1
      by_cases hneg : r < 0
      · rw [if_pos hneg]
        exact hstep.caller_trans (ih _ _)
      · rw [if_neg hneg]
        by_cases hb : crtc1.blocked = true
        · rw [if_pos hb]
          exact hstep.caller_trans (ih _ _)
        · rw [if_neg hb]
          exact hstep
    · rw [if_neg hid]
      by_cases hb : (sys.crtc i).blocked = true
      · rw [if_pos hb]
        exact ih _ _
      · rw [if_neg hb]
        by_cases he : (sys.crtc i).crtc_id = crtc_id
        · rw [if_pos he]
          exact caller_step.caller_refl k sys
        · rw [if_neg he]
          exact ih _ _

/-- An output the lookup finds is in range and is not blocked; for a non-zero
identifier it has that identifier. -/
theorem drm_get_crtc_loop_found (K : Kernel) (crtc_id : Nat) (n i : Nat) (sys : Sys) :
    ∀ r, (drm_get_crtc_loop K crtc_id n i sys).1 = some r →
      i ≤ r ∧ r < i + n ∧
      ((drm_get_crtc_loop K crtc_id n i sys).2.crtc r).blocked = false ∧
      (crtc_id ≠ 0 → ((drm_get_crtc_loop K crtc_id n i sys).2.crtc r).crtc_id = crtc_id) := by
  induction n generalizing i sys with
  | zero =>
    intro r h
    unfold drm_get_crtc_loop at h
    cases h
  | succ n ih =>
    unfold drm_get_crtc_loop
    by_cases hid : crtc_id = 0
    · rw [if_pos hid]
      rcases hr : drm_update_crtc K (sys.crtc i) sys.log with ⟨r1, crtc1, log1⟩
      simp only []
      by_cases hneg : r1 < 0
      · rw [if_pos hneg]
        intro r h
        have := ih (i + 1) _ r h
        exact ⟨by omega, by omega, this.2.2.1, this.2.2.2⟩
      · rw [if_neg hneg]
        by_cases hb : crtc1.blocked = true
        · rw [if_pos hb]
          intro r h
          have := ih (i + 1) _ r h
          exact ⟨by omega, by omega, this.2.2.1, this.2.2.2⟩
        · rw [if_neg hb]
          intro r h
          simp only [Option.some.injEq] at h
          subst h
          refine ⟨Nat.le_refl _, by omega, ?_, fun hne => absurd hid hne⟩
          simp only []
          rw [Sys.crtc_set_crtc]
          by_cases hl : i < sys.ctx.crtcs.length
          · rw [if_pos ⟨rfl, hl⟩]
            simpa using hb
          · rw [if_neg (fun hc => hl hc.2), Sys.crtc_of_ge _ _ (by
              show sys.ctx.crtcs.length ≤ i
              omega)]
            rfl
    · rw [if_neg hid]
      by_cases hb : (sys.crtc i).blocked = true
      · rw [if_pos hb]
        intro r h
        have := ih (i + 1) _ r h
        exact ⟨by omega, by omega, this.2.2.1, this.2.2.2⟩
      · rw [if_neg hb]
        by_cases he : (sys.crtc i).crtc_id = crtc_id
        · rw [if_pos he]
          intro r h
          simp only [Option.some.injEq] at h
          subst h
          exact ⟨Nat.le_refl _, by omega, by simpa using hb, fun _ => he⟩
        · rw [if_neg he]
          intro r h
          have := ih (i + 1) _ r h
          exact ⟨by omega, by omega, this.2.2.1, this.2.2.2⟩

/-- For a non-zero identifier the lookup changes nothing, and it finds no
output exactly when every output with that identifier is blocked. -/
theorem drm_get_crtc_loop_nonzero (K : Kernel) (crtc_id : Nat) (hid : crtc_id ≠ 0)
    (n i : Nat) (sys : Sys) :
    (drm_get_crtc_loop K crtc_id n i sys).2 = sys ∧
      ((drm_get_crtc_loop K crtc_id n i sys).1 = none ↔
        ∀ j, i ≤ j → j < i + n → (sys.crtc j).crtc_id = crtc_id → (sys.crtc j).blocked = true) := by
  induction n generalizing i with
  | zero =>
    unfold drm_get_crtc_loop
    exact ⟨rfl, ⟨fun _ j h1 h2 => by omega, fun _ => rfl⟩⟩
  | succ n ih =>
    unfold drm_get_crtc_loop
    rw [if_neg hid]
    by_cases hb : (sys.crtc i).blocked = true
    · rw [if_pos hb]
      refine ⟨(ih (i + 1)).1, ?_⟩
      rw [(ih (i + 1)).2]
      constructor
      · intro h j h1 h2 h3
        by_cases hji : j = i
        · rw [hji]; exact hb
        · exact h j (by omega) (by omega) h3
      · intro h j h1 h2 h3
        exact h j (by omega) (by omega) h3
    · rw [if_neg hb]
      by_cases he : (sys.crtc i).crtc_id = crtc_id
      · rw [if_pos he]
        exact ⟨rfl, ⟨fun h => Option.noConfusion h,
          fun h => absurd (h i (Nat.le_refl _) (by omega) he) hb⟩⟩
      · rw [if_neg he]
        refine ⟨(ih (i + 1)).1, ?_⟩
        rw [(ih (i + 1)).2]
        constructor
        · intro h j h1 h2 h3
          by_cases hji : j = i
          · rw [hji] at h3; exact absurd h3 he
          · exact h j (by omega) (by omega) h3
        · intro h j h1 h2 h3
          exact h j (by omega) (by omega) h3

theorem drm_plane_get_prop_value_frame (K : Kernel) (plane : drm_plane) (p : drm_plane_prop)
    (log : List Event) :
    observe (drm_plane_get_prop_value K plane p log).2.2.2 = observe log ∧
    (drm_plane_get_prop_value K plane p log).2.2.1.plane_id = plane.plane_id := by
  unfold drm_plane_get_prop_value
  have hf := drm_plane_get_prop_frame K plane p log
  rcases hs : drm_plane_get_prop K plane p log with ⟨idx, plane1, log1⟩
  rw [hs] at hf
  simp only []
  by_cases hi : idx < 0
  · rw [if_pos hi]
    exact ⟨hf.1, hf.2.1⟩
  · rw [if_neg hi]
    exact ⟨hf.1, hf.2.1⟩

theorem drm_plane_check_modifier_plane_id (i : Nat) (plane : drm_plane)
    (mod : drm_format_modifier) :
    (drm_plane_check_modifier i plane mod).plane_id = plane.plane_id := by
  unfold drm_plane_check_modifier
  simp only []
  split_ifs <;> rfl

theorem drm_plane_check_modifiers_plane_id (i : Nat) (mods : List drm_format_modifier)
    (plane : drm_plane) :
    (mods.foldl (drm_plane_check_modifier i) plane).plane_id = plane.plane_id := by
  induction mods generalizing plane with
  | nil => rfl
  | cons mod rest ih =>
    rw [List.foldl_cons, ih, drm_plane_check_modifier_plane_id]

theorem drm_plane_update_format_frame (K : Kernel) (plane : drm_plane) (log : List Event) :
    observe (drm_plane_update_format K plane log).2 = observe log ∧
    (drm_plane_update_format K plane log).1.plane_id = plane.plane_id := by
  unfold drm_plane_update_format
  simp only []
  by_cases hf : plane.plane.formats.indexOf DRM_FORMAT_ARGB8888 = plane.plane.formats.length
  · rw [if_pos hf]
    exact ⟨rfl, rfl⟩
  · rw [if_neg hf]
    have hv := drm_plane_get_prop_value_frame K
      { plane with can_afbc := false, can_linear := false } drm_plane_prop.IN_FORMATS log
    rcases hs : drm_plane_get_prop_value K
      { plane with can_afbc := false, can_linear := false } drm_plane_prop.IN_FORMATS log
      with ⟨r, value, plane1, log1⟩
    rw [hs] at hv
    simp only [] at hv ⊢
    by_cases hr : r < 0
    · rw [if_pos hr]
      exact ⟨hv.1, hv.2⟩
    · rw [if_neg hr]
      cases hb : K.drmModeGetPropertyBlob log1 (value % 4294967296) with
      | none =>
        simp only []
        exact ⟨(observe_cons_other _ _ (by rfl)).trans hv.1, hv.2⟩
      | some header =>
        simp only []
        split_ifs
        · exact ⟨(observe_cons_other _ _ (by rfl)).trans hv.1, hv.2⟩
        · exact ⟨(observe_cons_other _ _ (by rfl)).trans hv.1, hv.2⟩
        · exact ⟨(observe_cons_other _ _ (by rfl)).trans hv.1,
            (drm_plane_check_modifiers_plane_id _ _ _).trans hv.2⟩

theorem drm_get_plane_frame (K : Kernel) (plane_id : Nat) (log : List Event) :
    observe (drm_get_plane K plane_id log).2 = observe log ∧
    ∀ plane, (drm_get_plane K plane_id log).1 = some plane → plane.plane_id = plane_id := by
  unfold drm_get_plane
  cases hp : K.drmModeGetPlane log plane_id with
  | none =>
    simp only []
    exact ⟨observe_cons_other _ _ rfl, fun _ h => Option.noConfusion h⟩
  | some pl =>
    simp only []
    cases hq : K.drmModeObjectGetProperties (Event.drmModeGetPlane plane_id :: log) plane_id with
    | none =>
      simp only []
      refine ⟨?_, fun _ h => Option.noConfusion h⟩
      rw [observe_cons_other _ _ (by rfl), observe_cons_other _ _ (by rfl)]
    | some props =>
      simp only []
      have hu := drm_plane_update_format_frame K
        { plane_id := plane_id, cursor_plane := false, can_afbc := false, can_linear := false,
          plane := pl, props := props, prop_ids := List.replicate 15 0 }
        (Event.drmModeObjectGetProperties plane_id :: Event.drmModeGetPlane plane_id :: log)
      rcases hr : drm_plane_update_format K
        { plane_id := plane_id, cursor_plane := false, can_afbc := false, can_linear := false,
          plane := pl, props := props, prop_ids := List.replicate 15 0 }
        (Event.drmModeObjectGetProperties plane_id :: Event.drmModeGetPlane plane_id :: log)
        with ⟨plane, log1⟩
      rw [hr] at hu
      simp only [] at hu ⊢
      refine ⟨?_, ?_⟩
      · rw [hu.1, observe_cons_other _ _ (by rfl), observe_cons_other _ _ (by rfl)]
      · intro plane2 h
        simp only [Option.some.injEq] at h
        rw [← h]
        exact hu.2

/-- A successful binding: a plane whose id no output holds is stored in an
output that has none. -/
theorem caller_step.of_bind (i : Nat) (sys : Sys) (log : List Event) (p : drm_plane)
    (afbc : Bool) (h : observe log = observe sys.log) (hnone : (sys.crtc i).plane = none)
    (hfree : sys.ctx.crtcs.any (fun c => c.has_plane_id p.plane_id) = false) :
    caller_step i sys (({ sys with log := log } : Sys).set_crtc i
      { sys.crtc i with plane := some p, use_afbc_modifier := afbc }) := by
  have hget : ∀ j, j ≠ i → ((({ sys with log := log } : Sys).set_crtc i
      { sys.crtc i with plane := some p, use_afbc_modifier := afbc }).crtc j) = sys.crtc j := by
    intro j hj
    rw [Sys.crtc_set_crtc, if_neg (fun hc => hj hc.1)]
    rfl
  have hfree2 : ∀ k q, (sys.crtc k).plane = some q → q.plane_id ≠ p.plane_id := by
    intro k q hq heq
    have hk : k < sys.ctx.crtcs.length := by
      by_contra hk
      rw [Sys.crtc_of_ge _ _ (by omega)] at hq
      cases hq
    have hmem := Sys.crtc_mem sys k hk
    rw [List.any_eq_false] at hfree
    have := hfree _ hmem
    unfold drm_crtc.has_plane_id at this
    rw [hq] at this
    simp only [decide_eq_true_eq] at this
    exact this heq
  refine ⟨rfl, Sys.set_crtc_length _ _ _, h, ?_, ?_, ?_, ?_, ?_⟩
  · intro j hj
    rw [hget j hj]
  · rw [Sys.crtc_set_crtc]
    by_cases hl : i = i ∧ i < ({ sys with log := log } : Sys).ctx.crtcs.length
    · rw [if_pos hl]
    · rw [if_neg hl]
      rfl
  · intro hex j k a b hjk ha hb
    by_cases hl : i < sys.ctx.crtcs.length
    · by_cases hj : j = i
      · have hk : k ≠ i := fun hk => hjk (hj.trans hk.symm)
        rw [hget k hk] at hb
        rw [hj, Sys.crtc_set_crtc, if_pos ⟨rfl, hl⟩] at ha
        simp only [Option.some.injEq] at ha
        rw [← ha]
        exact fun heq => hfree2 k b hb heq.symm
      · rw [hget j hj] at ha
        by_cases hk : k = i
        · rw [hk, Sys.crtc_set_crtc, if_pos ⟨rfl, hl⟩] at hb
          simp only [Option.some.injEq] at hb
          rw [← hb]
          exact hfree2 j a ha
        · rw [hget k hk] at hb
          exact hex j k a b hjk ha hb
    · have hsame : ∀ m, ((({ sys with log := log } : Sys).set_crtc i
          { sys.crtc i with plane := some p, use_afbc_modifier := afbc }).crtc m) = sys.crtc m := by
        intro m
        rw [Sys.crtc_set_crtc, if_neg (fun hc => hl hc.2)]
        rfl
      rw [hsame j] at ha
      rw [hsame k] at hb
      exact hex j k a b hjk ha hb
  · left
    rw [Sys.crtc_set_crtc]
    by_cases hl : i = i ∧ i < ({ sys with log := log } : Sys).ctx.crtcs.length
    · rw [if_pos hl]
    · rw [if_neg hl]
      rfl
  · intro q hq
    rw [hnone] at hq
    cases hq

theorem drm_crtc_bind_plane_step (K : Kernel) (sys : Sys) (i plane_id : Nat)
    (allow_overlay : Bool) :
    caller_step i sys (drm_crtc_bind_plane K sys i plane_id allow_overlay).2 := by
  unfold drm_crtc_bind_plane
  by_cases hb : (sys.crtc i).plane.isSome = true
  · rw [if_pos hb]
    exact caller_step.caller_refl i sys
  · rw [if_neg hb]
    have hnone : (sys.crtc i).plane = none := by
      cases hp : (sys.crtc i).plane with
      | none => rfl
      | some p => rw [hp] at hb; exact absurd rfl hb
    by_cases hany : sys.ctx.crtcs.any (fun c => c.has_plane_id plane_id) = true
    · rw [if_pos hany]
      exact caller_step.caller_refl i sys
    · rw [if_neg hany]
      have hg := drm_get_plane_frame K plane_id sys.log
      rcases hr : drm_get_plane K plane_id sys.log with ⟨o, log1⟩
      rw [hr] at hg
      simp only [] at hg
      cases o with
      | none => exact caller_step.of_log i sys log1 hg.1
      | some plane =>
        simp only []
        have hid := hg.2 plane rfl
        by_cases h1 : plane.can_afbc = false ∧ plane.can_linear = false
        · rw [if_pos h1]
          exact caller_step.of_log i sys log1 hg.1
        · rw [if_neg h1]
          by_cases h2 : Nat.land plane.plane.possible_crtcs (1 <<< (sys.crtc i).crtc_pipe) = 0
          · rw [if_pos h2]
            exact caller_step.of_log i sys log1 hg.1
          · rw [if_neg h2]
            have hv := drm_plane_get_prop_value_frame K plane drm_plane_prop.type log1
            rcases hr2 : drm_plane_get_prop_value K plane drm_plane_prop.type log1
              with ⟨r, value, plane1, log2⟩
            rw [hr2] at hv
            simp only [] at hv ⊢
            have hobs : observe log2 = observe sys.log := hv.1.trans hg.1
            by_cases h3 : r < 0
            · rw [if_pos h3]
              exact caller_step.of_log i sys log2 hobs
            · rw [if_neg h3]
              by_cases h4 : value = DRM_PLANE_TYPE_PRIMARY
              · rw [if_pos h4]
                exact caller_step.of_log i sys log2 hobs
              · rw [if_neg h4]
                by_cases h5 : allow_overlay = false ∧ value = DRM_PLANE_TYPE_OVERLAY
                · rw [if_pos h5]
                  exact caller_step.of_log i sys log2 hobs
                · rw [if_neg h5]
                  apply caller_step.of_bind i sys log2 _ _ hobs hnone
                  show sys.ctx.crtcs.any (fun c => c.has_plane_id plane1.plane_id) = false
                  rw [hv.2, hid]
                  simpa using hany

theorem drm_crtc_prepare_try_step (K : Kernel) (i : Nat) (allow_overlay : Bool) (sys : Sys)
    (plane_id : Nat) :
    caller_step i sys (drm_crtc_prepare_try K i allow_overlay sys plane_id) := by
  unfold drm_crtc_prepare_try
  split_ifs
  · exact caller_step.caller_refl i sys
  · exact drm_crtc_bind_plane_step K sys i plane_id allow_overlay

theorem drm_crtc_prepare_tries_step (K : Kernel) (i : Nat) (allow_overlay : Bool)
    (planes : List Nat) (sys : Sys) :
    caller_step i sys (planes.foldl (drm_crtc_prepare_try K i allow_overlay) sys) := by
  induction planes generalizing sys with
  | nil => exact caller_step.caller_refl i sys
  | cons plane_id rest ih =>
    rw [List.foldl_cons]
    exact (drm_crtc_prepare_try_step K i allow_overlay sys plane_id).caller_trans (ih _)

/-- The start of a worker by `drm_crtc_prepare`. -/
theorem caller_step.caller_of_thread (i : Nat) (sys : Sys) (log : List Event)
    (h : observe log = observe sys.log) :
    caller_step i sys (({ sys with log := log } : Sys).set_crtc i
      { sys.crtc i with state := drm_thread_state.IDLE, thread := thread_status.created }) := by
  have hget : ∀ j, j ≠ i → ((({ sys with log := log } : Sys).set_crtc i
      { sys.crtc i with state := drm_thread_state.IDLE,
                        thread := thread_status.created }).crtc j) = sys.crtc j := by
    intro j hj
    rw [Sys.crtc_set_crtc, if_neg (fun hc => hj hc.1)]
    rfl
  have hplane : ∀ j, ((({ sys with log := log } : Sys).set_crtc i
      { sys.crtc i with state := drm_thread_state.IDLE,
                        thread := thread_status.created }).crtc j).plane = (sys.crtc j).plane := by
    intro j
    rw [Sys.crtc_set_crtc]
    split_ifs with hc
    · rw [hc.1]
    · rfl
  refine ⟨rfl, Sys.set_crtc_length _ _ _, h, ?_, ?_, plane_exclusive_of_planes hplane, ?_, ?_⟩
  · intro j hj
    rw [hget j hj]
  · rw [Sys.crtc_set_crtc]
    split_ifs
    · rfl
    · rfl
  · rw [Sys.crtc_set_crtc]
    split_ifs
    · exact Or.inr rfl
    · exact Or.inl rfl
  · intro p hp
    rw [hplane i]
    exact hp

/-- The effect of `drm_crtc_prepare`: a `caller_step`; its result is `1`, `0`
or `-1`, negative exactly when the output has no plane afterwards; and an
output whose plane was bound before keeps state and thread. -/
theorem drm_crtc_prepare_step (K : Kernel) (sys : Sys) (i : Nat) :
    caller_step i sys (drm_crtc_prepare K sys i).2 ∧
    ((drm_crtc_prepare K sys i).1 < 0 ↔ ((drm_crtc_prepare K sys i).2.crtc i).plane = none) ∧
    ((drm_crtc_prepare K sys i).1 = 1 ∨ (drm_crtc_prepare K sys i).1 = 0 ∨
      (drm_crtc_prepare K sys i).1 = -1) := by
  unfold drm_crtc_prepare
  simp only []
  have h1 : caller_step i sys
      (if (sys.crtc i).width ≤ 0 ∨ (sys.crtc i).height ≤ 0 then
        match drm_update_crtc K (sys.crtc i) sys.log with
        | (_, crtc1, log1) => ({ sys with log := log1 } : Sys).set_crtc i crtc1
      else sys) := by
    split_ifs
    · have hs := drm_update_crtc_spec K (sys.crtc i) sys.log
      have ho := drm_update_crtc_observe K (sys.crtc i) sys.log
      rcases hr : drm_update_crtc K (sys.crtc i) sys.log with ⟨r, crtc1, log1⟩
      rw [hr] at hs ho
      exact caller_step.of_resolution i i sys log1 crtc1 ho hs.2.1
    · exact caller_step.caller_refl i sys
  generalize (if (sys.crtc i).width ≤ 0 ∨ (sys.crtc i).height ≤ 0 then
        match drm_update_crtc K (sys.crtc i) sys.log with
        | (_, crtc1, log1) => ({ sys with log := log1 } : Sys).set_crtc i crtc1
      else sys) = sys1 at h1 ⊢
  by_cases hb : (sys1.crtc i).plane.isSome = true
  · rw [if_pos hb]
    refine ⟨h1, ?_, Or.inl rfl⟩
    simp only []
    constructor
    · intro h
      exact absurd h (by decide)
    · intro h
      rw [h] at hb
      exact absurd hb (by simp)
  · rw [if_neg hb]
    have h2 : caller_step i sys1
        (if (sys1.crtc i).prefer_plane_id ≠ 0 then
          (drm_crtc_bind_plane K sys1 i (sys1.crtc i).prefer_plane_id true).2
        else sys1) := by
      split_ifs
      · exact drm_crtc_bind_plane_step K sys1 i _ true
      · exact caller_step.caller_refl i sys1
    generalize (if (sys1.crtc i).prefer_plane_id ≠ 0 then
          (drm_crtc_bind_plane K sys1 i (sys1.crtc i).prefer_plane_id true).2
        else sys1) = sys2 at h2 ⊢
    have h3 := drm_crtc_prepare_tries_step K i false sys2.ctx.planes sys2
    generalize sys2.ctx.planes.foldl (drm_crtc_prepare_try K i false) sys2 = sys3 at h3 ⊢
    have h4 : caller_step i sys3
        (if sys3.ctx.allow_overlay ≠ 0 then
          sys3.ctx.planes.reverse.foldl (drm_crtc_prepare_try K i true) sys3
        else sys3) := by
      split_ifs
      · exact drm_crtc_prepare_tries_step K i true _ sys3
      · exact caller_step.caller_refl i sys3
    generalize (if sys3.ctx.allow_overlay ≠ 0 then
          sys3.ctx.planes.reverse.foldl (drm_crtc_prepare_try K i true) sys3
        else sys3) = sys4 at h4 ⊢
    have h14 := ((h1.caller_trans h2).caller_trans h3).caller_trans h4
    by_cases hn : (sys4.crtc i).plane.isNone = true
    · rw [if_pos hn]
      refine ⟨h14, ?_, Or.inr (Or.inr rfl)⟩
      simp only []
      constructor
      · intro _
        cases hp : (sys4.crtc i).plane with
        | none => rfl
        | some p => rw [hp] at hn; exact absurd hn (by simp)
      · intro _
        decide
    · rw [if_neg hn]
      have h5 := caller_step.caller_of_thread i sys4
        (Event.pthread_create (sys4.crtc i).crtc_id :: sys4.log) (observe_cons_other _ _ rfl)
      refine ⟨h14.caller_trans h5, ?_, Or.inr (Or.inl rfl)⟩
      simp only []
      constructor
      · intro h
        exact absurd h (by decide)
      · intro h
        have hp := h5.at_i
        rw [h] at hp
        have hp2 : (sys4.crtc i).plane = none := by
          have := congrArg drm_crtc.plane hp
          simp only [] at this
          rw [Sys.crtc_set_crtc] at this
          split_ifs at this with hc
          · exact this
          · exact this
        rw [hp2] at hn
        exact absurd rfl hn

/-! ## The worker side: what a scheduling of a worker changes -/

theorem worker_frame.frame_refl (s : World) : worker_frame s s :=
  ⟨rfl, rfl, rfl, rfl, rfl, rfl, rfl, rfl⟩

theorem worker_frame.frame_trans {a b c : World} (h1 : worker_frame a b) (h2 : worker_frame b c) :
    worker_frame a c := by
  refine ⟨?_, h2.plane_id.trans h1.plane_id, h2.state.trans h1.state, h2.plane.trans h1.plane,
    h2.next.trans h1.next, h2.thread.trans h1.thread, h2.crtc_id.trans h1.crtc_id,
    h2.blocked.trans h1.blocked⟩
  rw [h2.ctx, h1.ctx]

theorem worker_frame.of_commit {s s1 : World} {fb : Nat} {x y w h : Int}
    (hf : commit_frame s fb x y w h s1) : worker_frame s s1 := by
  refine ⟨?_, hf.plane_id, by rw [hf.crtc], by rw [hf.crtc], by rw [hf.crtc], by rw [hf.crtc],
    by rw [hf.crtc], by rw [hf.crtc]⟩
  rcases hf.ctx with h1 | h1 <;> rw [h1]

theorem drm_crtc_update_cursor_frame (K : Kernel) (s : World) (o : Option drm_cursor_state) :
    worker_frame s (drm_crtc_update_cursor K s o).2 := by
  cases o with
  | none =>
    have h := drm_crtc_disable_cursor_spec K s
    unfold drm_crtc_disable_cursor at h
    refine ⟨?_, h.2.1, by rw [h.1], by rw [h.1], by rw [h.1], by rw [h.1], by rw [h.1],
      by rw [h.1]⟩
    rcases h.2.2.1 with h1 | h1 <;> rw [h1]
  | some cs =>
    have h := drm_crtc_update_cursor_spec K s cs
    refine ⟨?_, h.2.1, by rw [h.1], by rw [h.1], by rw [h.1], by rw [h.1], by rw [h.1],
      by rw [h.1]⟩
    rcases h.2.2.1 with h1 | h1 <;> rw [h1]

theorem drm_crtc_create_fb_frame (K : Kernel) (s : World) (cs : drm_cursor_state) :
    worker_frame s (drm_crtc_create_fb K s cs).2.1 := by
  by_cases hi : create_fb_init_fails K s cs = true
  · rw [drm_crtc_create_fb_init_fails K s cs hi]
    exact ⟨rfl, rfl, rfl, rfl, rfl, rfl, rfl, rfl⟩
  · rw [drm_crtc_create_fb_converts K s cs (by simpa using hi)]
    exact ⟨rfl, rfl, rfl, rfl, rfl, rfl, rfl, rfl⟩

theorem create_then_update_frame (K : Kernel) (s : World) (cs : drm_cursor_state) :
    worker_frame s
      (match drm_crtc_create_fb K s cs with
        | (r, s1, cs2) =>
          if r < 0 then flow.goto_error s1
          else
            match drm_crtc_update_cursor K s1 (some cs2) with
            | (r2, s2) => if r2 < 0 then flow.goto_error s2
              else flow.fallthrough s2 cs2).world := by
  have hc := drm_crtc_create_fb_frame K s cs
  rcases hr : drm_crtc_create_fb K s cs with ⟨r, s1, cs2⟩
  rw [hr] at hc
  simp only [] at hc ⊢
  by_cases hneg : r < 0
  · rw [if_pos hneg]
    exact hc
  · rw [if_neg hneg]
    have hu := drm_crtc_update_cursor_frame K s1 (some cs2)
    rcases hr2 : drm_crtc_update_cursor K s1 (some cs2) with ⟨r2, s2⟩
    rw [hr2] at hu
    simp only [] at hu ⊢
    have hw : (if r2 < 0 then flow.goto_error s2 else flow.fallthrough s2 cs2).world = s2 := by
      split_ifs <;> rfl
    rw [hw]
    exact hc.frame_trans hu

theorem flow_branch_world (r2 : Int) (s2 : World) (c : drm_cursor_state) :
    (if r2 < 0 then flow.goto_error s2 else flow.fallthrough s2 c).world = s2 := by
  split_ifs <;> rfl

theorem drm_crtc_thread_handle_set_frame (K : Kernel) (s : World) (cs : drm_cursor_state) :
    worker_frame s (drm_crtc_thread_handle_set K s cs).world := by
  unfold drm_crtc_thread_handle_set
  by_cases hm : int_and cs.request REQ_SET_CURSOR ≠ 0
  · rw [if_pos hm]
    simp only []
    by_cases hh : cs.handle = 0
    · rw [if_pos hh]
      exact drm_crtc_update_cursor_frame K s none
    · rw [if_neg hh]
      exact create_then_update_frame K s _
  · rw [if_neg hm]
    exact worker_frame.frame_refl s

theorem drm_crtc_thread_handle_move_frame (K : Kernel) (s : World) (cs : drm_cursor_state) :
    worker_frame s (drm_crtc_thread_handle_move K s cs).world := by
  unfold drm_crtc_thread_handle_move
  by_cases hm : int_and cs.request REQ_MOVE_CURSOR ≠ 0
  · rw [if_pos hm]
    simp only []
    by_cases hh : s.crtc.cursor_curr.handle = 0
    · rw [if_pos hh]
      exact ⟨rfl, rfl, rfl, rfl, rfl, rfl, rfl, rfl⟩
    · rw [if_neg hh]
      by_cases hoff : s.crtc.cursor_curr.off_x ≠ cs.off_x ∨ s.crtc.cursor_curr.off_y ≠ cs.off_y
      · rw [if_pos hoff]
        exact create_then_update_frame K s _
      · rw [if_neg hoff]
        have hu := drm_crtc_update_cursor_frame K s
          (some { cs with request := int_and cs.request (int_not REQ_MOVE_CURSOR),
                          fb := s.crtc.cursor_curr.fb })
        rcases hr2 : drm_crtc_update_cursor K s
          (some { cs with request := int_and cs.request (int_not REQ_MOVE_CURSOR),
                          fb := s.crtc.cursor_curr.fb }) with ⟨r2, s2⟩
        rw [hr2] at hu
        simp only []
        rw [flow_branch_world]
        exact hu
  · rw [if_neg hm]
    exact worker_frame.frame_refl s

theorem drm_crtc_thread_verify_frame (s : World) : worker_frame s (drm_crtc_thread_verify s) := by
  unfold drm_crtc_thread_verify
  split_ifs
  · exact ⟨rfl, rfl, rfl, rfl, rfl, rfl, rfl, rfl⟩
  · exact worker_frame.frame_refl s

theorem drm_crtc_thread_body_frame (K : Kernel) (s : World) (cs : drm_cursor_state) :
    worker_frame s (drm_crtc_thread_body K s cs).world := by
  by_cases hc : connected K s = true
  · rw [drm_crtc_thread_body_connected K s cs hc]
    have h0 : worker_frame s
        { s with
          crtc := { s.crtc with width := (resolution K s).1, height := (resolution K s).2 }
          log := Event.drmModeGetCrtc s.crtc.crtc_id :: s.log } :=
      ⟨rfl, rfl, rfl, rfl, rfl, rfl, rfl, rfl⟩
    have hs := drm_crtc_thread_handle_set_frame K
      { s with
        crtc := { s.crtc with width := (resolution K s).1, height := (resolution K s).2 }
        log := Event.drmModeGetCrtc s.crtc.crtc_id :: s.log }
      (drm_crtc_clip_offsets (resolution K s).1 (resolution K s).2 cs)
    rcases hr : drm_crtc_thread_handle_set K
      { s with
        crtc := { s.crtc with width := (resolution K s).1, height := (resolution K s).2 }
        log := Event.drmModeGetCrtc s.crtc.crtc_id :: s.log }
      (drm_crtc_clip_offsets (resolution K s).1 (resolution K s).2 cs) with ⟨s2, cs2⟩ | s2 | s2
    · rw [hr] at hs
      simp only []
      have hm := drm_crtc_thread_handle_move_frame K s2 cs2
      rcases hr2 : drm_crtc_thread_handle_move K s2 cs2 with ⟨s3, cs3⟩ | s3 | s3
      · rw [hr2] at hm
        exact ((h0.frame_trans hs).frame_trans hm).frame_trans (drm_crtc_thread_verify_frame s3)
      · rw [hr2] at hm
        exact (h0.frame_trans hs).frame_trans hm
      · rw [hr2] at hm
        exact (h0.frame_trans hs).frame_trans hm
    · rw [hr] at hs
      exact h0.frame_trans hs
    · rw [hr] at hs
      exact h0.frame_trans hs
  · have hd : connected K s = false := by simpa using hc
    unfold drm_crtc_thread_body
    rw [drm_crtc_update_offsets_disconnected K s cs hd]
    simp only [show ((-1 : Int) < 0) from by decide, if_true]
    have h0 : worker_frame s
        { s with
          crtc := { s.crtc with width := (resolution K s).1, height := (resolution K s).2 }
          log := Event.drmModeGetCrtc s.crtc.crtc_id :: s.log } :=
      ⟨rfl, rfl, rfl, rfl, rfl, rfl, rfl, rfl⟩
    have hu := drm_crtc_update_cursor_frame K
      { s with
        crtc := { s.crtc with width := (resolution K s).1, height := (resolution K s).2 }
        log := Event.drmModeGetCrtc s.crtc.crtc_id :: s.log } none
    unfold drm_crtc_disable_cursor
    rcases hr : drm_crtc_update_cursor K
      { s with
        crtc := { s.crtc with width := (resolution K s).1, height := (resolution K s).2 }
        log := Event.drmModeGetCrtc s.crtc.crtc_id :: s.log } none with ⟨r, s2⟩
    rw [hr] at hu
    simp only [] at hu ⊢
    have h2 : worker_frame s2 { s2 with crtc := { s2.crtc with cursor_curr := cs } } :=
      ⟨rfl, rfl, rfl, rfl, rfl, rfl, rfl, rfl⟩
    exact (h0.frame_trans hu).frame_trans h2

theorem drm_crtc_thread_next_frame (K : Kernel) (s : World) :
    worker_frame s (drm_crtc_thread_next K s) := by
  unfold drm_crtc_thread_next
  exact ⟨rfl, rfl, rfl, rfl, rfl, rfl, rfl, rfl⟩

theorem drm_crtc_thread_error_frame (K : Kernel) (s : World) :
    (drm_crtc_thread_error K s).ctx =
        { s.ctx with atomic := (drm_crtc_thread_error K s).ctx.atomic } ∧
      (drm_crtc_thread_error K s).plane.plane_id = s.plane.plane_id ∧
      (drm_crtc_thread_error K s).crtc.cursor_next = s.crtc.cursor_next ∧
      (drm_crtc_thread_error K s).crtc.plane = none ∧
      (drm_crtc_thread_error K s).crtc.state = drm_thread_state.ERROR := by
  unfold drm_crtc_thread_error
  simp only []
  have h1 : worker_frame s
      (if s.crtc.egl_ctx = true then { s with log := Event.egl_free_ctx :: s.log } else s) := by
    split_ifs
    · exact ⟨rfl, rfl, rfl, rfl, rfl, rfl, rfl, rfl⟩
    · exact worker_frame.frame_refl s
  generalize (if s.crtc.egl_ctx = true then { s with log := Event.egl_free_ctx :: s.log }
    else s) = s1 at h1 ⊢
  have h2 := drm_crtc_update_cursor_frame K s1 none
  unfold drm_crtc_disable_cursor
  have h12 := h1.frame_trans h2
  exact ⟨h12.ctx, h12.plane_id, h12.next, trivial, trivial⟩

theorem drm_ctx_with_crtcs (a b : drm_ctx) (crtcs : List drm_crtc)
    (h : b = { a with atomic := b.atomic }) :
    ({ b with crtcs := crtcs } : drm_ctx) = { a with crtcs := crtcs, atomic := b.atomic } := by
  rw [h]

theorem thread_frame.of_worker {s s1 : World} (h : worker_frame s s1) : thread_frame s s1 :=
  ⟨h.ctx, h.plane_id, Or.inl h.next, Or.inl ⟨h.plane, Or.inl h.state⟩⟩

theorem drm_crtc_thread_iter_frame (K : Kernel) (s s1 : World)
    (h : drm_crtc_thread_iter K s = some s1) : thread_frame s s1 := by
  unfold drm_crtc_thread_iter at h
  cases ht : drm_crtc_thread_turn K s with
  | none =>
    rw [ht] at h
    cases h
  | some f =>
    rw [ht] at h
    obtain ⟨_, hf⟩ := drm_crtc_thread_turn_pending K s f ht
    have hb := drm_crtc_thread_body_frame K
      { s with crtc := { s.crtc with
          cursor_next := { s.crtc.cursor_next with request := 0 }
          state := drm_thread_state.IDLE } } s.crtc.cursor_next
    rw [← hf] at hb
    cases f with
    | fallthrough s2 cs2 =>
      simp only [Option.some.injEq] at h
      have hn := drm_crtc_thread_next_frame K s2
      rw [h] at hn
      have hbn := hb.frame_trans hn
      exact ⟨hbn.ctx, hbn.plane_id, Or.inr hbn.next, Or.inl ⟨hbn.plane, Or.inr hbn.state⟩⟩
    | goto_next s2 =>
      simp only [Option.some.injEq] at h
      have hn := drm_crtc_thread_next_frame K s2
      rw [h] at hn
      have hbn := hb.frame_trans hn
      exact ⟨hbn.ctx, hbn.plane_id, Or.inr hbn.next, Or.inl ⟨hbn.plane, Or.inr hbn.state⟩⟩
    | goto_error s2 =>
      simp only [Option.some.injEq] at h
      have he := drm_crtc_thread_error_frame K s2
      rw [h] at he
      have hb2 : worker_frame
          { s with crtc := { s.crtc with
              cursor_next := { s.crtc.cursor_next with request := 0 }
              state := drm_thread_state.IDLE } } s2 := hb
      refine ⟨?_, he.2.1.trans hb2.plane_id, Or.inr (he.2.2.1.trans hb2.next),
        Or.inr ⟨he.2.2.2.1, he.2.2.2.2⟩⟩
      rw [he.1, hb2.ctx]

theorem drm_plane_set_prop_max_frame (K : Kernel) (plane : drm_plane) (p : drm_plane_prop)
    (log : List Event) :
    (drm_plane_set_prop_max K plane p log).2.1.plane_id = plane.plane_id := by
  unfold drm_plane_set_prop_max
  have hf := drm_plane_get_prop_frame K plane p log
  rcases hs : drm_plane_get_prop K plane p log with ⟨idx, plane1, log1⟩
  rw [hs] at hf
  simp only []
  by_cases hi : idx < 0
  · rw [if_pos hi]
    exact hf.2.1
  · rw [if_neg hi]
    cases K.drmModeGetProperty log1 (plane1.props.props.getD idx.toNat 0) with
    | none => exact hf.2.1
    | some prop => exact hf.2.1

theorem drm_crtc_thread_start_frame (K : Kernel) (s : World) :
    thread_frame s (drm_crtc_thread_start K s) := by
  unfold drm_crtc_thread_start
  by_cases hcp : s.plane.cursor_plane = false
  · rw [if_pos hcp]
    cases hq : K.drmModeObjectGetProperties (Event.drmSetClientCap_ATOMIC :: s.log)
        s.plane.plane_id with
    | none =>
      simp only []
      have he := drm_crtc_thread_error_frame K
        { s with log := Event.drmModeObjectGetProperties s.plane.plane_id ::
            Event.drmSetClientCap_ATOMIC :: s.log }
      exact ⟨he.1, he.2.1, Or.inl he.2.2.1, Or.inr ⟨he.2.2.2.1, he.2.2.2.2⟩⟩
    | some props =>
      simp only []
      have h1 := drm_plane_set_prop_max_frame K { s.plane with props := props }
        drm_plane_prop.zpos (Event.drmModeObjectGetProperties s.plane.plane_id ::
          Event.drmSetClientCap_ATOMIC :: s.log)
      rcases hr1 : drm_plane_set_prop_max K { s.plane with props := props }
        drm_plane_prop.zpos (Event.drmModeObjectGetProperties s.plane.plane_id ::
          Event.drmSetClientCap_ATOMIC :: s.log) with ⟨r1, plane1, log1⟩
      rw [hr1] at h1
      simp only [] at h1 ⊢
      have h2 := drm_plane_set_prop_max_frame K plane1 drm_plane_prop.ZPOS log1
      rcases hr2 : drm_plane_set_prop_max K plane1 drm_plane_prop.ZPOS log1
        with ⟨r2, plane2, log2⟩
      rw [hr2] at h2
      simp only [] at h2 ⊢
      have h3 := drm_plane_set_prop_max_frame K plane2 drm_plane_prop.ASYNC_COMMIT log2
      rcases hr3 : drm_plane_set_prop_max K plane2 drm_plane_prop.ASYNC_COMMIT log2
        with ⟨r3, plane3, log3⟩
      rw [hr3] at h3
      simp only [] at h3 ⊢
      exact ⟨rfl, (h3.trans h2).trans h1, Or.inl rfl, Or.inl ⟨rfl, Or.inl rfl⟩⟩
  · rw [if_neg hcp]
    exact ⟨rfl, rfl, Or.inl rfl, Or.inl ⟨rfl, Or.inl rfl⟩⟩

/-- Writing the world of a worker back into the program. -/
theorem worker_step.worker_of_thread (i : Nat) (sys : Sys) (p : drm_plane) (s1 : World)
    (hp : (sys.crtc i).plane = some p) (hf : thread_frame (sys.world i p) s1) :
    worker_step i sys (s1.sys i) := by
  have hi : i < sys.ctx.crtcs.length := by
    by_contra hi
    rw [Sys.crtc_of_ge _ _ (by omega)] at hp
    cases hp
  have hlen : s1.ctx.crtcs.length = sys.ctx.crtcs.length := by
    rw [hf.ctx]
    rfl
  have hget : ∀ j, (s1.sys i).crtc j =
      if j = i then { s1.crtc with plane := s1.crtc.plane.map (fun _ => s1.plane) }
      else sys.crtc j := by
    intro j
    unfold World.sys
    rw [Sys.crtc_set_crtc]
    by_cases hj : j = i
    · rw [if_pos ⟨hj, by
        show i < s1.ctx.crtcs.length
        omega⟩, if_pos hj]
    · rw [if_neg (fun hc => hj hc.1), if_neg hj]
      show s1.ctx.crtcs.getD j drm_crtc.zero = sys.ctx.crtcs.getD j drm_crtc.zero
      rw [hf.ctx]
      rfl
  have hplane : ((s1.sys i).crtc i).plane = none ∨
      ∃ p1, ((s1.sys i).crtc i).plane = some p1 ∧ p1.plane_id = p.plane_id := by
    rw [hget i, if_pos rfl]
    cases hs1 : s1.crtc.plane with
    | none => exact Or.inl rfl
    | some q => exact Or.inr ⟨s1.plane, rfl, hf.plane_id⟩
  refine ⟨?_, ?_, ?_, ?_, ?_, ?_, ?_⟩
  · exact drm_ctx_with_crtcs sys.ctx s1.ctx _ hf.ctx
  · unfold World.sys
    rw [Sys.set_crtc_length]
    exact hlen
  · intro j hj
    rw [hget j, if_neg hj]
  · intro hnone
    rw [hp] at hnone
    cases hnone
  · intro hex j k a b hjk ha hb
    rw [hget j] at ha
    rw [hget k] at hb
    by_cases hj : j = i
    · have hk : k ≠ i := fun hk => hjk (hj.trans hk.symm)
      rw [if_neg hk] at hb
      rcases hplane with hpl | ⟨p1, hp1, hid⟩
      · rw [hget i, if_pos rfl] at hpl
        rw [if_pos hj, hpl] at ha
        cases ha
      · rw [hget i, if_pos rfl] at hp1
        rw [if_pos hj, hp1] at ha
        simp only [Option.some.injEq] at ha
        rw [← ha, hid]
        exact hex i k p b (fun h => hk h.symm) hp hb
    · rw [if_neg hj] at ha
      by_cases hk : k = i
      · rcases hplane with hpl | ⟨p1, hp1, hid⟩
        · rw [hget i, if_pos rfl] at hpl
          rw [if_pos hk, hpl] at hb
          cases hb
        · rw [hget i, if_pos rfl] at hp1
          rw [if_pos hk, hp1] at hb
          simp only [Option.some.injEq] at hb
          rw [← hb, hid]
          exact hex j i a p hj ha hp
      · rw [if_neg hk] at hb
        exact hex j k a b hjk ha hb
  · rw [hget i, if_pos rfl]
    exact hf.next
  · intro hinv herr
    rw [hget i, if_pos rfl] at herr ⊢
    simp only [] at herr ⊢
    rcases hf.fate with ⟨_, hst⟩ | ⟨hpl, _⟩
    · have hne : (sys.crtc i).state ≠ drm_thread_state.ERROR := by
        intro he
        rw [hinv he] at hp
        cases hp
      rcases hst with h1 | h1
      · rw [herr] at h1
        exact absurd h1.symm hne
      · rw [herr] at h1
        cases h1
    · rw [hpl]
      rfl

theorem drm_crtc_thread_step_spec (K : Kernel) (sys : Sys) (i : Nat) :
    worker_step i sys (drm_crtc_thread_step K sys i) := by
  have hrefl : worker_step i sys sys :=
    ⟨rfl, rfl, fun _ _ => rfl, fun _ => rfl, fun h => h, Or.inl rfl, fun h => h⟩
  unfold drm_crtc_thread_step
  cases hp : (sys.crtc i).plane with
  | none => exact hrefl
  | some p =>
    simp only []
    cases ht : (sys.crtc i).thread with
    | absent => exact hrefl
    | returned => exact hrefl
    | created =>
      exact worker_step.worker_of_thread i sys p _ hp (drm_crtc_thread_start_frame K _)
    | looping =>
      simp only []
      cases hit : drm_crtc_thread_iter K (sys.world i p) with
      | none => exact hrefl
      | some s1 =>
        exact worker_step.worker_of_thread i sys p s1 hp (drm_crtc_thread_iter_frame K _ s1 hit)

/-! ## The public operations -/

theorem drm_get_crtc_spec (K : Kernel) (sys : Sys) (crtc_id k : Nat) :
    caller_step k sys (drm_get_crtc K sys crtc_id).2 ∧
    (∀ r, (drm_get_crtc K sys crtc_id).1 = some r →
      r < sys.ctx.crtcs.length ∧ ((drm_get_crtc K sys crtc_id).2.crtc r).blocked = false ∧
      (crtc_id ≠ 0 → ((drm_get_crtc K sys crtc_id).2.crtc r).crtc_id = crtc_id)) ∧
    (crtc_id ≠ 0 → (drm_get_crtc K sys crtc_id).2 = sys ∧
      ((drm_get_crtc K sys crtc_id).1 = none ↔
        ∀ c ∈ sys.ctx.crtcs, c.crtc_id = crtc_id → c.blocked = true)) := by
  unfold drm_get_crtc
  refine ⟨drm_get_crtc_loop_step K crtc_id k _ 0 sys, ?_, ?_⟩
  · intro r h
    have := drm_get_crtc_loop_found K crtc_id _ 0 sys r h
    exact ⟨by omega, this.2.2.1, this.2.2.2⟩
  · intro hid
    have := drm_get_crtc_loop_nonzero K crtc_id hid sys.ctx.crtcs.length 0 sys
    refine ⟨this.1, ?_⟩
    rw [this.2]
    constructor
    · intro h c hc
      obtain ⟨j, hj, hjc⟩ := List.getElem_of_mem hc
      have hcj : sys.crtc j = c := by
        unfold Sys.crtc
        rw [List.getD_eq_getElem?_getD, List.getElem?_eq_getElem hj, hjc]
        rfl
      have := h j (Nat.zero_le _) (by omega)
      rw [hcj] at this
      exact this
    · intro h j _ hj
      exact h _ (Sys.crtc_mem sys j (by omega))

/-- The two steps every public operation starts with, for an output that is
found: nothing is converted or committed, `cursor_next` of every output is
kept, no output becomes `PENDING` or `ERROR`, an output in `ERROR` keeps its
plane pointer, and exclusivity of the plane bindings is kept. -/
theorem caller_step.keeps {i : Nat} {sys sys1 : Sys} (h : caller_step i sys sys1) :
    ∀ j, (sys1.crtc j).cursor_next = (sys.crtc j).cursor_next ∧
      ((sys1.crtc j).state = drm_thread_state.PENDING →
        (sys.crtc j).state = drm_thread_state.PENDING) ∧
      ((sys1.crtc j).state = drm_thread_state.ERROR →
        (sys.crtc j).state = drm_thread_state.ERROR) ∧
      ((sys.crtc j).plane = none ∨ (sys1.crtc j).plane = (sys.crtc j).plane) := by
  intro j
  by_cases hj : j = i
  · rw [hj]
    refine ⟨by rw [h.at_i], ?_, ?_, ?_⟩
    · intro hp
      rcases h.state with hs | hs
      · rw [← hs]; exact hp
      · rw [hs] at hp; cases hp
    · intro hp
      rcases h.state with hs | hs
      · rw [← hs]; exact hp
      · rw [hs] at hp; cases hp
    · cases hpl : (sys.crtc i).plane with
      | none => exact Or.inl rfl
      | some p => exact Or.inr (h.bound p hpl)
  · have ho := h.others j hj
    refine ⟨by rw [ho], ?_, ?_, Or.inr (by rw [ho])⟩
    · intro hp
      rw [ho] at hp
      exact hp
    · intro hp
      rw [ho] at hp
      exact hp

theorem drm_crtc_prepare_not_error (K : Kernel) (sys : Sys) (i : Nat)
    (h : (sys.crtc i).state ≠ drm_thread_state.ERROR) :
    ((drm_crtc_prepare K sys i).2.crtc i).state ≠ drm_thread_state.ERROR := by
  intro he
  rcases (drm_crtc_prepare_step K sys i).1.state with hs | hs
  · rw [hs] at he
    exact h he
  · rw [hs] at he
    cases he

/-- A failing `drm_move_cursor`: the result is `-1` and the program has only
made the steps of lookup and preparation. -/
theorem drm_move_cursor_of_fails (K : Kernel) (sys : Sys) (crtc_id : Nat) (x y : Int)
    (hh : sys.ctx.hide = 0) (hf : move_cursor_fails K sys crtc_id = true) :
    (drm_move_cursor K sys crtc_id x y).1 = -1 ∧
      ∃ k, caller_step k sys (drm_move_cursor K sys crtc_id x y).2 := by
  unfold move_cursor_fails at hf
  unfold drm_move_cursor
  rw [if_neg (fun h => h hh)]
  have hg := drm_get_crtc_spec K sys crtc_id
  rcases hr : drm_get_crtc K sys crtc_id with ⟨o, sys1⟩
  rw [hr] at hf
  cases o with
  | none =>
    simp only []
    have := (hg 0).1
    rw [hr] at this
    exact ⟨trivial, 0, this⟩
  | some i =>
    simp only [] at hf ⊢
    have h1 := (hg i).1
    rw [hr] at h1
    simp only [] at h1
    by_cases he : (sys1.crtc i).state = drm_thread_state.ERROR
    · rw [if_pos he]
      exact ⟨rfl, i, h1⟩
    · rw [if_neg he]
      have hp := drm_crtc_prepare_step K sys1 i
      have hne := drm_crtc_prepare_not_error K sys1 i he
      rcases hr2 : drm_crtc_prepare K sys1 i with ⟨r, sys2⟩
      rw [hr2] at hp hf hne
      simp only [] at hp hf hne ⊢
      by_cases hneg : r < 0
      · rw [if_pos hneg]
        exact ⟨rfl, i, h1.caller_trans hp.1⟩
      · rw [if_neg hneg]
        by_cases hw : (sys2.crtc i).width ≤ 0 ∨ (sys2.crtc i).height ≤ 0
        · rw [if_pos hw]
          exact ⟨rfl, i, h1.caller_trans hp.1⟩
        · exfalso
          simp only [he, hneg, hw, decide_False, Bool.or_self, Bool.false_eq_true] at hf

/-- A succeeding `drm_move_cursor`: an output is found, looked up and
prepared, and the request is enqueued on it. -/
theorem drm_move_cursor_of_ok (K : Kernel) (sys : Sys) (crtc_id : Nat) (x y : Int)
    (hh : sys.ctx.hide = 0) (hf : move_cursor_fails K sys crtc_id = false) :
    ∃ i sys2, (drm_get_crtc K sys crtc_id).1 = some i ∧ i < sys.ctx.crtcs.length ∧
      caller_step i sys sys2 ∧
      drm_move_cursor K sys crtc_id x y =
        (0, sys2.set_crtc i (drm_move_cursor_enqueue (sys2.crtc i) x y)) := by
  unfold move_cursor_fails at hf
  unfold drm_move_cursor
  rw [if_neg (fun h => h hh)]
  have hg := drm_get_crtc_spec K sys crtc_id
  rcases hr : drm_get_crtc K sys crtc_id with ⟨o, sys1⟩
  rw [hr] at hf
  cases o with
  | none =>
    simp only [] at hf
    cases hf
  | some i =>
    simp only [] at hf ⊢
    have h1 := (hg i).1
    have hlt := ((hg i).2.1 i (by rw [hr])).1
    rw [hr] at h1
    simp only [] at h1
    simp only [Bool.or_eq_false_iff, decide_eq_false_iff_not] at hf
    obtain ⟨⟨he, hneg⟩, hw⟩ := hf
    rw [if_neg he]
    have hp := drm_crtc_prepare_step K sys1 i
    have hne := drm_crtc_prepare_not_error K sys1 i he
    rcases hr2 : drm_crtc_prepare K sys1 i with ⟨r, sys2⟩
    rw [hr2] at hp hneg hw hne
    simp only [] at hp hneg hw hne ⊢
    rw [if_neg hneg, if_neg hw, if_neg hne]
    exact ⟨i, sys2, rfl, hlt, h1.caller_trans hp.1, rfl⟩

/-- C10 (as amended): when the context hides the cursor (`ctx->hide`),
`drm_move_cursor` returns 0 and changes nothing.  Otherwise it returns -1 and
enqueues nothing (`cursor_next` of every output is unchanged and no output
becomes `PENDING`) whenever no output is found for the identifier (for a
non-zero identifier: every output with that identifier, if there is one, is
blocked), the output found is in `ERROR`, no plane can be bound, or its width
or height is still `<= 0` after the re-query; and in every other case it
returns 0, having set `cursor_next.x`, `cursor_next.y` and the `MOVE` flag of
that output (and `cursor_next.fb` to 0) and its state to `PENDING`. -/
theorem C10_move_cursor_result (K : Kernel) (sys : Sys) (crtc_id : Nat) (x y : Int) :
    (sys.ctx.hide ≠ 0 → drm_move_cursor K sys crtc_id x y = (0, sys)) ∧
    (sys.ctx.hide = 0 → move_cursor_fails K sys crtc_id = true →
      (drm_move_cursor K sys crtc_id x y).1 = -1 ∧
      ∀ j, ((drm_move_cursor K sys crtc_id x y).2.crtc j).cursor_next =
          (sys.crtc j).cursor_next ∧
        (((drm_move_cursor K sys crtc_id x y).2.crtc j).state = drm_thread_state.PENDING →
          (sys.crtc j).state = drm_thread_state.PENDING)) ∧
    (sys.ctx.hide = 0 → move_cursor_fails K sys crtc_id = false →
      (drm_move_cursor K sys crtc_id x y).1 = 0 ∧
      ∃ i, (drm_get_crtc K sys crtc_id).1 = some i ∧ i < sys.ctx.crtcs.length ∧
        ((drm_move_cursor K sys crtc_id x y).2.crtc i).cursor_next =
          { (sys.crtc i).cursor_next with
            request := int_or (sys.crtc i).cursor_next.request REQ_MOVE_CURSOR
            fb := 0, x := x, y := y } ∧
        ((drm_move_cursor K sys crtc_id x y).2.crtc i).state = drm_thread_state.PENDING ∧
        ∀ j, j ≠ i → ((drm_move_cursor K sys crtc_id x y).2.crtc j).cursor_next =
          (sys.crtc j).cursor_next) ∧
    (crtc_id ≠ 0 →
      ((drm_get_crtc K sys crtc_id).1 = none ↔
        ∀ c ∈ sys.ctx.crtcs, c.crtc_id = crtc_id → c.blocked = true)) := by
  refine ⟨?_, ?_, ?_, fun hid => ((drm_get_crtc_spec K sys crtc_id 0).2.2 hid).2⟩
  · intro hh
    unfold drm_move_cursor
    rw [if_pos hh]
  · intro hh hf
    obtain ⟨hr, k, hstep⟩ := drm_move_cursor_of_fails K sys crtc_id x y hh hf
    exact ⟨hr, fun j => ⟨(hstep.keeps j).1, (hstep.keeps j).2.1⟩⟩
  · intro hh hf
    obtain ⟨i, sys2, hget, hlt, hstep, heq⟩ := drm_move_cursor_of_ok K sys crtc_id x y hh hf
    rw [heq]
    have hl2 : i < sys2.ctx.crtcs.length := by
      rw [hstep.len]
      exact hlt
    refine ⟨rfl, i, hget, hlt, ?_, ?_, ?_⟩
    · show ((sys2.set_crtc i (drm_move_cursor_enqueue (sys2.crtc i) x y)).crtc i).cursor_next = _
      rw [Sys.crtc_set_crtc, if_pos ⟨rfl, hl2⟩]
      unfold drm_move_cursor_enqueue
      simp only []
      rw [(hstep.keeps i).1]
    · show ((sys2.set_crtc i (drm_move_cursor_enqueue (sys2.crtc i) x y)).crtc i).state = _
      rw [Sys.crtc_set_crtc, if_pos ⟨rfl, hl2⟩]
      rfl
    · intro j hj
      show ((sys2.set_crtc i (drm_move_cursor_enqueue (sys2.crtc i) x y)).crtc j).cursor_next = _
      rw [Sys.crtc_set_crtc, if_neg (fun hc => hj hc.1)]
      exact (hstep.keeps j).1

/-- C10, witness: `MoveCursor(50, 100, 100)` on the sample program. -/
theorem C10_witness :
    sample_sys.ctx.hide = 0 ∧ move_cursor_fails sample_kernel sample_sys 50 = false ∧
    ((sample_sys.ctx.hide ≠ 0 → drm_move_cursor sample_kernel sample_sys 50 100 100 = (0, sample_sys)) ∧
    (sample_sys.ctx.hide = 0 → move_cursor_fails sample_kernel sample_sys 50 = true →
      (drm_move_cursor sample_kernel sample_sys 50 100 100).1 = -1 ∧
      ∀ j, ((drm_move_cursor sample_kernel sample_sys 50 100 100).2.crtc j).cursor_next =
          (sample_sys.crtc j).cursor_next ∧
        (((drm_move_cursor sample_kernel sample_sys 50 100 100).2.crtc j).state = drm_thread_state.PENDING →
          (sample_sys.crtc j).state = drm_thread_state.PENDING)) ∧
    (sample_sys.ctx.hide = 0 → move_cursor_fails sample_kernel sample_sys 50 = false →
      (drm_move_cursor sample_kernel sample_sys 50 100 100).1 = 0 ∧
      ∃ i, (drm_get_crtc sample_kernel sample_sys 50).1 = some i ∧ i < sample_sys.ctx.crtcs.length ∧
        ((drm_move_cursor sample_kernel sample_sys 50 100 100).2.crtc i).cursor_next =
          { (sample_sys.crtc i).cursor_next with
            request := int_or (sample_sys.crtc i).cursor_next.request REQ_MOVE_CURSOR
            fb := 0, x := 100, y := 100 } ∧
        ((drm_move_cursor sample_kernel sample_sys 50 100 100).2.crtc i).state = drm_thread_state.PENDING ∧
        ∀ j, j ≠ i → ((drm_move_cursor sample_kernel sample_sys 50 100 100).2.crtc j).cursor_next =
          (sample_sys.crtc j).cursor_next) ∧
    (50 ≠ 0 →
      ((drm_get_crtc sample_kernel sample_sys 50).1 = none ↔
        ∀ c ∈ sample_sys.ctx.crtcs, c.crtc_id = 50 → c.blocked = true))) :=
  ⟨by decide, by decide, C10_move_cursor_result sample_kernel sample_sys 50 100 100⟩

/-- C10, counterexample to the claim as stated: on the sample program with the
cursor hidden, none of the failure conditions holds for the output 50, and
`MoveCursor(50, 100, 100)` returns 0 without setting `cursor_next.x`,
`cursor_next.y` or the `MOVE` flag, and without making the output `PENDING`. -/
theorem C10_counterexample :
    move_cursor_fails sample_kernel sample_sys_hidden 50 = false ∧
    (drm_move_cursor sample_kernel sample_sys_hidden 50 100 100).1 = 0 ∧
    ((drm_move_cursor sample_kernel sample_sys_hidden 50 100 100).2.crtc 0).crtc_id = 50 ∧
    ((drm_move_cursor sample_kernel sample_sys_hidden 50 100 100).2.crtc 0).cursor_next.x = 0 ∧
    ((drm_move_cursor sample_kernel sample_sys_hidden 50 100 100).2.crtc 0).cursor_next.y = 0 ∧
    ((drm_move_cursor sample_kernel sample_sys_hidden 50 100 100).2.crtc 0).cursor_next.request
      = 0 ∧
    ((drm_move_cursor sample_kernel sample_sys_hidden 50 100 100).2.crtc 0).state =
      drm_thread_state.IDLE :=
  ⟨by decide, by decide, by decide, by decide, by decide, by decide, by decide⟩

/-! ## The program as a whole -/

theorem drm_ctx_set_crtcs (a b : drm_ctx) (crtcs : List drm_crtc)
    (h : b = { a with crtcs := b.crtcs }) :
    ({ b with crtcs := crtcs } : drm_ctx) = { a with crtcs := crtcs } := by
  rw [h]

theorem call_step.call_refl (sys : Sys) : call_step sys sys :=
  ⟨rfl, rfl, rfl, fun h => h, fun _ _ => rfl, fun _ h => h⟩

theorem call_step.of_lookup {sys sys1 : Sys} (h : ∀ k, caller_step k sys sys1) :
    call_step sys sys1 :=
  ⟨(h 0).ctx, (h 0).len, (h 0).obs, (h 0).excl,
    fun j _ => (h (j + 1)).others j (Nat.ne_of_lt (Nat.lt_succ_self j)),
    fun j hj => ((h 0).keeps j).2.2.1 hj⟩

theorem call_step.of_caller {i : Nat} {sys sys1 : Sys} (h : caller_step i sys sys1)
    (hne : (sys.crtc i).state ≠ drm_thread_state.ERROR) : call_step sys sys1 := by
  refine ⟨h.ctx, h.len, h.obs, h.excl, ?_, fun j hj => (h.keeps j).2.2.1 hj⟩
  intro j hj
  have hji : j ≠ i := by
    intro hc
    rw [hc] at hj
    exact hne hj
  exact h.others j hji

theorem call_step.of_enqueue {i : Nat} {sys sys2 : Sys} (h : caller_step i sys sys2)
    (hne : (sys.crtc i).state ≠ drm_thread_state.ERROR) (c : drm_crtc)
    (hc : c.plane = (sys2.crtc i).plane) (hs : c.state ≠ drm_thread_state.ERROR) :
    call_step sys (sys2.set_crtc i c) := by
  have h0 := call_step.of_caller h hne
  have hplane : ∀ j, ((sys2.set_crtc i c).crtc j).plane = (sys2.crtc j).plane := by
    intro j
    rw [Sys.crtc_set_crtc]
    split_ifs with hj
    · rw [hj.1]
      exact hc
    · rfl
  refine ⟨?_, ?_, h0.obs, fun hex => plane_exclusive_of_planes hplane (h0.excl hex), ?_, ?_⟩
  · exact drm_ctx_set_crtcs sys.ctx sys2.ctx _ h0.ctx
  · rw [Sys.set_crtc_length]
    exact h0.len
  · intro j hj
    have hji : j ≠ i := by
      intro hc2
      rw [hc2] at hj
      exact hne hj
    rw [Sys.crtc_set_crtc, if_neg (fun hc2 => hji hc2.1)]
    exact h0.frozen j hj
  · intro j hj
    rw [Sys.crtc_set_crtc] at hj
    split_ifs at hj with hc2
    · exact absurd hj hs
    · exact h0.entered j hj

theorem drm_get_crtc_state (K : Kernel) (sys : Sys) (crtc_id j : Nat) :
    ((drm_get_crtc K sys crtc_id).2.crtc j).state = (sys.crtc j).state := by
  have h := (drm_get_crtc_spec K sys crtc_id (j + 1)).1.others j
    (Nat.ne_of_lt (Nat.lt_succ_self j))
  rw [h]

/-- The effect of `drm_move_cursor` on the program, and its result for an
output in `ERROR`. -/
theorem drm_move_cursor_call (K : Kernel) (sys : Sys) (crtc_id : Nat) (x y : Int) :
    call_step sys (drm_move_cursor K sys crtc_id x y).2 ∧
    (sys.ctx.hide = 0 →
      ∀ e, (drm_get_crtc K sys crtc_id).1 = some e →
        (sys.crtc e).state = drm_thread_state.ERROR →
        (drm_move_cursor K sys crtc_id x y).1 = -1) := by
  unfold drm_move_cursor
  by_cases hh : sys.ctx.hide ≠ 0
  · rw [if_pos hh]
    exact ⟨call_step.call_refl sys, fun h0 => absurd h0 hh⟩
  · rw [if_neg hh]
    have hg := fun k => (drm_get_crtc_spec K sys crtc_id k).1
    have hst := drm_get_crtc_state K sys crtc_id
    rcases hr : drm_get_crtc K sys crtc_id with ⟨o, sys1⟩
    rw [hr] at hg hst
    simp only [] at hg hst
    cases o with
    | none =>
      simp only []
      exact ⟨call_step.of_lookup hg, fun _ e he => Option.noConfusion he⟩
    | some i =>
      simp only []
      by_cases he : (sys1.crtc i).state = drm_thread_state.ERROR
      · rw [if_pos he]
        exact ⟨call_step.of_lookup hg, fun _ e _ _ => rfl⟩
      · rw [if_neg he]
        have hne : (sys.crtc i).state ≠ drm_thread_state.ERROR := by
          rw [← hst i]
          exact he
        have hp := (drm_crtc_prepare_step K sys1 i).1
        have hne2 := drm_crtc_prepare_not_error K sys1 i he
        rcases hr2 : drm_crtc_prepare K sys1 i with ⟨r, sys2⟩
        rw [hr2] at hp hne2
        simp only [] at hp hne2 ⊢
        have h12 := (hg i).caller_trans hp
        have herr : ∀ e, some i = some e → (sys.crtc e).state = drm_thread_state.ERROR →
            False := by
          intro e hie hee
          simp only [Option.some.injEq] at hie
          rw [← hie] at hee
          exact hne hee
        by_cases hneg : r < 0
        · rw [if_pos hneg]
          exact ⟨call_step.of_caller h12 hne, fun _ e h1 h2 => (herr e h1 h2).elim⟩
        · rw [if_neg hneg]
          by_cases hw : (sys2.crtc i).width ≤ 0 ∨ (sys2.crtc i).height ≤ 0
          · rw [if_pos hw]
            exact ⟨call_step.of_caller h12 hne, fun _ e h1 h2 => (herr e h1 h2).elim⟩
          · rw [if_neg hw, if_neg hne2]
            refine ⟨call_step.of_enqueue h12 hne _ rfl ?_, fun _ e h1 h2 => (herr e h1 h2).elim⟩
            intro hc
            cases hc

/-- The effect of `drm_set_cursor` on the program, and its result for an
output in `ERROR`. -/
theorem drm_set_cursor_call (K : Kernel) (sys : Sys) (crtc_id handle width height : Nat) :
    call_step sys (drm_set_cursor K sys crtc_id handle width height).2 ∧
    (sys.ctx.hide = 0 →
      ∀ e, (drm_get_crtc K sys crtc_id).1 = some e →
        (sys.crtc e).state = drm_thread_state.ERROR →
        (drm_set_cursor K sys crtc_id handle width height).1 = set_cursor_point.returned (-1)) := by
  unfold drm_set_cursor
  by_cases hh : sys.ctx.hide ≠ 0
  · rw [if_pos hh]
    exact ⟨call_step.call_refl sys, fun h0 => absurd h0 hh⟩
  · rw [if_neg hh]
    have hg := fun k => (drm_get_crtc_spec K sys crtc_id k).1
    have hst := drm_get_crtc_state K sys crtc_id
    rcases hr : drm_get_crtc K sys crtc_id with ⟨o, sys1⟩
    rw [hr] at hg hst
    simp only [] at hg hst
    cases o with
    | none =>
      simp only []
      exact ⟨call_step.of_lookup hg, fun _ e he => Option.noConfusion he⟩
    | some i =>
      simp only []
      by_cases he : (sys1.crtc i).state = drm_thread_state.ERROR
      · rw [if_pos he]
        exact ⟨call_step.of_lookup hg, fun _ e _ _ => rfl⟩
      · rw [if_neg he]
        have hne : (sys.crtc i).state ≠ drm_thread_state.ERROR := by
          rw [← hst i]
          exact he
        have hp := (drm_crtc_prepare_step K sys1 i).1
        have hne2 := drm_crtc_prepare_not_error K sys1 i he
        rcases hr2 : drm_crtc_prepare K sys1 i with ⟨r, sys2⟩
        rw [hr2] at hp hne2
        simp only [] at hp hne2 ⊢
        have h12 := (hg i).caller_trans hp
        have herr : ∀ e, some i = some e → (sys.crtc e).state = drm_thread_state.ERROR →
            False := by
          intro e hie hee
          simp only [Option.some.injEq] at hie
          rw [← hie] at hee
          exact hne hee
        by_cases hneg : r < 0
        · rw [if_pos hneg]
          exact ⟨call_step.of_caller h12 hne, fun _ e h1 h2 => (herr e h1 h2).elim⟩
        · rw [if_neg hneg, if_neg hne2]
          refine ⟨call_step.of_enqueue h12 hne _ rfl ?_, fun _ e h1 h2 => (herr e h1 h2).elim⟩
          intro hc
          cases hc

theorem Sys.initial_fresh (sys : Sys) (h : Sys.initial sys = true) (j : Nat) :
    (sys.crtc j).plane = none ∧ (sys.crtc j).state = drm_thread_state.IDLE := by
  by_cases hj : j < sys.ctx.crtcs.length
  · have hmem := Sys.crtc_mem sys j hj
    unfold Sys.initial at h
    rw [List.all_eq_true] at h
    have hf := h _ hmem
    unfold drm_crtc.fresh at hf
    simp only [decide_eq_true_eq] at hf
    rw [hf]
    exact ⟨rfl, rfl⟩
  · rw [Sys.crtc_of_ge _ _ (by omega)]
    exact ⟨rfl, rfl⟩

theorem Sys.initial_sound (sys : Sys) (h : Sys.initial sys = true) : sys.sound := by
  refine ⟨fun j hj => (Sys.initial_fresh sys h j).1, fun _ j => Sys.initial_fresh sys h j⟩

theorem Sys.initial_exclusive (sys : Sys) (h : Sys.initial sys = true) : plane_exclusive sys := by
  intro j k p q _ hp _
  rw [(Sys.initial_fresh sys h j).1] at hp
  cases hp

theorem drm_move_cursor_hidden (K : Kernel) (sys : Sys) (crtc_id : Nat) (x y : Int)
    (hh : sys.ctx.hide ≠ 0) : (drm_move_cursor K sys crtc_id x y).2 = sys := by
  unfold drm_move_cursor
  rw [if_pos hh]

theorem drm_set_cursor_hidden (K : Kernel) (sys : Sys) (crtc_id handle width height : Nat)
    (hh : sys.ctx.hide ≠ 0) : (drm_set_cursor K sys crtc_id handle width height).2 = sys := by
  unfold drm_set_cursor
  rw [if_pos hh]

theorem call_step.call_sound {sys sys1 : Sys} (h : call_step sys sys1)
    (hhid : sys.ctx.hide ≠ 0 → sys1 = sys) (hs : sys.sound) : sys1.sound := by
  constructor
  · intro j hj
    have he := h.entered j hj
    rw [h.frozen j he]
    exact hs.1 j he
  · intro hh
    have hh0 : sys.ctx.hide ≠ 0 := by
      rw [h.ctx] at hh
      exact hh
    rw [hhid hh0]
    exact hs.2 hh0

theorem call_step.call_error_kept {sys sys1 : Sys} (h : call_step sys sys1) (e : Nat)
    (he : (sys.crtc e).state = drm_thread_state.ERROR) :
    (sys1.crtc e).state = drm_thread_state.ERROR ∧
      (sys1.crtc e).cursor_next = (sys.crtc e).cursor_next ∧
      (sys1.crtc e).plane = (sys.crtc e).plane := by
  rw [h.frozen e he]
  exact ⟨he, rfl, rfl⟩

theorem worker_step.worker_sound {i : Nat} {sys sys1 : Sys} (h : worker_step i sys sys1)
    (hs : sys.sound) : sys1.sound := by
  constructor
  · intro j hj
    by_cases hji : j = i
    · rw [hji] at hj ⊢
      exact h.released (hs.1 i) hj
    · rw [h.others j hji] at hj ⊢
      exact hs.1 j hj
  · intro hh
    have hh0 : sys.ctx.hide ≠ 0 := by
      rw [h.ctx] at hh
      exact hh
    rw [h.idle (hs.2 hh0 i).1]
    exact hs.2 hh0

theorem worker_step.worker_error_kept {i : Nat} {sys sys1 : Sys} (h : worker_step i sys sys1)
    (hs : sys.sound) (e : Nat) (he : (sys.crtc e).state = drm_thread_state.ERROR) :
    (sys1.crtc e).state = drm_thread_state.ERROR ∧
      (sys1.crtc e).cursor_next = (sys.crtc e).cursor_next ∧
      (sys1.crtc e).plane = (sys.crtc e).plane := by
  by_cases hei : e = i
  · have : sys1 = sys := h.idle (by rw [← hei]; exact hs.1 e he)
    rw [this]
    exact ⟨he, rfl, rfl⟩
  · rw [h.others e hei]
    exact ⟨he, rfl, rfl⟩

/-- One action keeps the program sound, keeps exclusivity of the plane
bindings, and leaves an output in `ERROR` as it is. -/
theorem Action.step_spec (K : Kernel) (sys : Sys) (a : Action) (hs : sys.sound) :
    (a.step K sys).sound ∧
    (plane_exclusive sys → plane_exclusive (a.step K sys)) ∧
    ∀ e, (sys.crtc e).state = drm_thread_state.ERROR →
      ((a.step K sys).crtc e).state = drm_thread_state.ERROR ∧
      ((a.step K sys).crtc e).cursor_next = (sys.crtc e).cursor_next ∧
      ((a.step K sys).crtc e).plane = (sys.crtc e).plane := by
  cases a with
  | SetCursor crtc_id handle width height =>
    have h := (drm_set_cursor_call K sys crtc_id handle width height).1
    exact ⟨h.call_sound (drm_set_cursor_hidden K sys crtc_id handle width height) hs, h.excl,
      fun e he => h.call_error_kept e he⟩
  | MoveCursor crtc_id x y =>
    have h := (drm_move_cursor_call K sys crtc_id x y).1
    exact ⟨h.call_sound (drm_move_cursor_hidden K sys crtc_id x y) hs, h.excl,
      fun e he => h.call_error_kept e he⟩
  | Worker i =>
    have h := drm_crtc_thread_step_spec K sys i
    exact ⟨h.worker_sound hs, h.excl, fun e he => h.worker_error_kept hs e he⟩

theorem run_spec (K : Kernel) (actions : List Action) (sys : Sys) (hs : sys.sound) :
    (run K sys actions).sound ∧
    (plane_exclusive sys → plane_exclusive (run K sys actions)) ∧
    ∀ e, (sys.crtc e).state = drm_thread_state.ERROR →
      ((run K sys actions).crtc e).state = drm_thread_state.ERROR ∧
      ((run K sys actions).crtc e).cursor_next = (sys.crtc e).cursor_next ∧
      ((run K sys actions).crtc e).plane = (sys.crtc e).plane := by
  induction actions generalizing sys with
  | nil => exact ⟨hs, fun h => h, fun e he => ⟨he, rfl, rfl⟩⟩
  | cons a rest ih =>
    have h1 := Action.step_spec K sys a hs
    have h2 := ih (a.step K sys) h1.1
    refine ⟨h2.1, fun hex => h2.2.1 (h1.2.1 hex), ?_⟩
    intro e he
    have h1e := h1.2.2 e he
    have h2e := h2.2.2 e h1e.1
    exact ⟨h2e.1, h2e.2.1.trans h1e.2.1, h2e.2.2.trans h1e.2.2⟩

theorem Sys.reachable_sound (K : Kernel) (sys : Sys) (h : sys.reachable K) : sys.sound := by
  obtain ⟨sys0, actions, h0, heq⟩ := h
  rw [heq]
  exact (run_spec K actions sys0 (Sys.initial_sound sys0 h0)).1

/-- When every public call runs as a whole, with no scheduling of a worker
between its first test of `crtc->state` and its locked section (the steps of
`Action.step`), `ERROR` is absorbing: once an output of a reachable program
state is in `ERROR`, then after any further actions of callers and workers it
is still in `ERROR`, its `cursor_next` is unchanged and it has no plane; a
scheduling of its worker does nothing; and every `MoveCursor` and `SetCursor`
that `drm_get_crtc` resolves to this output returns -1, adds no conversion and
no plane commit to the log, and leaves the output in `ERROR` with
`cursor_next` unchanged and no plane bound. -/
theorem error_absorbing_whole_calls (K : Kernel) (sys : Sys) (hr : sys.reachable K) (e : Nat)
    (he : (sys.crtc e).state = drm_thread_state.ERROR) (later : List Action) :
    ((run K sys later).crtc e).state = drm_thread_state.ERROR ∧
    ((run K sys later).crtc e).cursor_next = (sys.crtc e).cursor_next ∧
    ((run K sys later).crtc e).plane = none ∧
    drm_crtc_thread_step K (run K sys later) e = run K sys later ∧
    ∀ crtc_id, (drm_get_crtc K (run K sys later) crtc_id).1 = some e →
      (∀ x y,
        (drm_move_cursor K (run K sys later) crtc_id x y).1 = -1 ∧
        observe (drm_move_cursor K (run K sys later) crtc_id x y).2.log =
          observe (run K sys later).log ∧
        ((drm_move_cursor K (run K sys later) crtc_id x y).2.crtc e).state =
          drm_thread_state.ERROR ∧
        ((drm_move_cursor K (run K sys later) crtc_id x y).2.crtc e).cursor_next =
          (sys.crtc e).cursor_next ∧
        ((drm_move_cursor K (run K sys later) crtc_id x y).2.crtc e).plane = none) ∧
      (∀ handle width height,
        (drm_set_cursor K (run K sys later) crtc_id handle width height).1 =
          set_cursor_point.returned (-1) ∧
        observe (drm_set_cursor K (run K sys later) crtc_id handle width height).2.log =
          observe (run K sys later).log ∧
        ((drm_set_cursor K (run K sys later) crtc_id handle width height).2.crtc e).state =
          drm_thread_state.ERROR ∧
        ((drm_set_cursor K (run K sys later) crtc_id handle width height).2.crtc e).cursor_next =
          (sys.crtc e).cursor_next ∧
        ((drm_set_cursor K (run K sys later) crtc_id handle width height).2.crtc e).plane =
          none) := by
  have hs := Sys.reachable_sound K sys hr
  obtain ⟨hs1, -, hkept⟩ := run_spec K later sys hs
  obtain ⟨he1, hnext1, hplane1⟩ := hkept e he
  have hnone : ((run K sys later).crtc e).plane = none := hs1.1 e he1
  have hhide : (run K sys later).ctx.hide = 0 := by
    by_contra hh
    have := (hs1.2 hh e).2
    rw [he1] at this
    cases this
  refine ⟨he1, hnext1, hnone, (drm_crtc_thread_step_spec K _ e).idle hnone, ?_⟩
  intro crtc_id hget
  constructor
  · intro x y
    obtain ⟨hcall, hres⟩ := drm_move_cursor_call K (run K sys later) crtc_id x y
    obtain ⟨h1, h2, h3⟩ := hcall.call_error_kept e he1
    exact ⟨hres hhide e hget he1, hcall.obs, h1, h2.trans hnext1, h3.trans hnone⟩
  · intro handle width height
    obtain ⟨hcall, hres⟩ := drm_set_cursor_call K (run K sys later) crtc_id handle width height
    obtain ⟨h1, h2, h3⟩ := hcall.call_error_kept e he1
    exact ⟨hres hhide e hget he1, hcall.obs, h1, h2.trans hnext1, h3.trans hnone⟩

/-- The sample program whose worker ended in `error`, followed by a whole
`MoveCursor`, a scheduling of the worker and a whole `SetCursor`. -/
theorem error_absorbing_whole_calls_sample :
    sample_sys_error.reachable sample_kernel_replug ∧
    (sample_sys_error.crtc 0).state = drm_thread_state.ERROR ∧
    (((run sample_kernel_replug sample_sys_error [Action.MoveCursor 50 7 7, Action.Worker 0, Action.SetCursor 50 5 64 64]).crtc 0).state = drm_thread_state.ERROR ∧
    ((run sample_kernel_replug sample_sys_error [Action.MoveCursor 50 7 7, Action.Worker 0, Action.SetCursor 50 5 64 64]).crtc 0).cursor_next = (sample_sys_error.crtc 0).cursor_next ∧
    ((run sample_kernel_replug sample_sys_error [Action.MoveCursor 50 7 7, Action.Worker 0, Action.SetCursor 50 5 64 64]).crtc 0).plane = none ∧
    drm_crtc_thread_step sample_kernel_replug (run sample_kernel_replug sample_sys_error [Action.MoveCursor 50 7 7, Action.Worker 0, Action.SetCursor 50 5 64 64]) 0 = run sample_kernel_replug sample_sys_error [Action.MoveCursor 50 7 7, Action.Worker 0, Action.SetCursor 50 5 64 64] ∧
    ∀ crtc_id, (drm_get_crtc sample_kernel_replug (run sample_kernel_replug sample_sys_error [Action.MoveCursor 50 7 7, Action.Worker 0, Action.SetCursor 50 5 64 64]) crtc_id).1 = some 0 →
      (∀ x y,
        (drm_move_cursor sample_kernel_replug (run sample_kernel_replug sample_sys_error [Action.MoveCursor 50 7 7, Action.Worker 0, Action.SetCursor 50 5 64 64]) crtc_id x y).1 = -1 ∧
        observe (drm_move_cursor sample_kernel_replug (run sample_kernel_replug sample_sys_error [Action.MoveCursor 50 7 7, Action.Worker 0, Action.SetCursor 50 5 64 64]) crtc_id x y).2.log =
          observe (run sample_kernel_replug sample_sys_error [Action.MoveCursor 50 7 7, Action.Worker 0, Action.SetCursor 50 5 64 64]).log ∧
        ((drm_move_cursor sample_kernel_replug (run sample_kernel_replug sample_sys_error [Action.MoveCursor 50 7 7, Action.Worker 0, Action.SetCursor 50 5 64 64]) crtc_id x y).2.crtc 0).state =
          drm_thread_state.ERROR ∧
        ((drm_move_cursor sample_kernel_replug (run sample_kernel_replug sample_sys_error [Action.MoveCursor 50 7 7, Action.Worker 0, Action.SetCursor 50 5 64 64]) crtc_id x y).2.crtc 0).cursor_next =
          (sample_sys_error.crtc 0).cursor_next ∧
        ((drm_move_cursor sample_kernel_replug (run sample_kernel_replug sample_sys_error [Action.MoveCursor 50 7 7, Action.Worker 0, Action.SetCursor 50 5 64 64]) crtc_id x y).2.crtc 0).plane = none) ∧
      (∀ handle width height,
        (drm_set_cursor sample_kernel_replug (run sample_kernel_replug sample_sys_error [Action.MoveCursor 50 7 7, Action.Worker 0, Action.SetCursor 50 5 64 64]) crtc_id handle width height).1 =
          set_cursor_point.returned (-1) ∧
        observe (drm_set_cursor sample_kernel_replug (run sample_kernel_replug sample_sys_error [Action.MoveCursor 50 7 7, Action.Worker 0, Action.SetCursor 50 5 64 64]) crtc_id handle width height).2.log =
          observe (run sample_kernel_replug sample_sys_error [Action.MoveCursor 50 7 7, Action.Worker 0, Action.SetCursor 50 5 64 64]).log ∧
        ((drm_set_cursor sample_kernel_replug (run sample_kernel_replug sample_sys_error [Action.MoveCursor 50 7 7, Action.Worker 0, Action.SetCursor 50 5 64 64]) crtc_id handle width height).2.crtc 0).state =
          drm_thread_state.ERROR ∧
        ((drm_set_cursor sample_kernel_replug (run sample_kernel_replug sample_sys_error [Action.MoveCursor 50 7 7, Action.Worker 0, Action.SetCursor 50 5 64 64]) crtc_id handle width height).2.crtc 0).cursor_next =
          (sample_sys_error.crtc 0).cursor_next ∧
        ((drm_set_cursor sample_kernel_replug (run sample_kernel_replug sample_sys_error [Action.MoveCursor 50 7 7, Action.Worker 0, Action.SetCursor 50 5 64 64]) crtc_id handle width height).2.crtc 0).plane =
          none)) :=
  ⟨⟨sample_sys,
      [Action.SetCursor 50 5 64 64, Action.Worker 0, Action.Worker 0,
        Action.MoveCursor 50 (-10) 0, Action.Worker 0], by decide, by decide⟩,
    by decide,
    error_absorbing_whole_calls sample_kernel_replug sample_sys_error
      ⟨sample_sys,
        [Action.SetCursor 50 5 64 64, Action.Worker 0, Action.Worker 0,
          Action.MoveCursor 50 (-10) 0, Action.Worker 0], by decide, by decide⟩
      0 (by decide) [Action.MoveCursor 50 7 7, Action.Worker 0, Action.SetCursor 50 5 64 64]⟩

theorem plane_op.apply_exclusive (K : Kernel) (sys : Sys) (op : plane_op)
    (h : plane_exclusive sys) : plane_exclusive (op.apply K sys) := by
  cases op with
  | prepare i => exact (drm_crtc_prepare_step K sys i).1.excl h
  | bind i plane_id allow_overlay =>
    exact (drm_crtc_bind_plane_step K sys i plane_id allow_overlay).excl h
  | worker i => exact (drm_crtc_thread_step_spec K sys i).excl h

theorem plane_ops_exclusive (K : Kernel) (ops : List plane_op) (sys : Sys)
    (h : plane_exclusive sys) : plane_exclusive (plane_ops K sys ops) := by
  induction ops generalizing sys with
  | nil => exact h
  | cons op ops ih => exact ih (op.apply K sys) (plane_op.apply_exclusive K sys op h)

/-- C9: plane-binding exclusivity is an invariant. From a program state in
which no two distinct outputs have bound planes with the same plane id, and
with the candidate plane list `ctx->planes` replaced by any list `planes`,
any sequence of `drm_crtc_prepare` calls, `drm_crtc_bind_plane` calls and
worker schedulings (where the `error` path releases a plane) ends in a state
in which no two distinct outputs have bound planes with the same plane id.
Each output has at most one bound plane: `drm_crtc_bind_plane` on an output
that has a plane returns 1 and changes nothing, and `drm_crtc_prepare` leaves
the plane of such an output as it is. -/
theorem C9_plane_binding_exclusive (K : Kernel) (sys : Sys) (h : plane_exclusive sys)
    (planes : List Nat) (ops : List plane_op) :
    plane_exclusive (plane_ops K { sys with ctx := { sys.ctx with planes := planes } } ops) ∧
    (∀ i plane_id allow_overlay, (sys.crtc i).plane.isSome = true →
      drm_crtc_bind_plane K sys i plane_id allow_overlay = (1, sys)) ∧
    (∀ i p, (sys.crtc i).plane = some p →
      ((drm_crtc_prepare K sys i).2.crtc i).plane = some p) := by
  refine ⟨plane_ops_exclusive K ops _ ?_, ?_, ?_⟩
  · intro j k p q hjk hp hq
    exact h j k p q hjk hp hq
  · intro i plane_id allow_overlay hb
    unfold drm_crtc_bind_plane
    rw [if_pos hb]
  · intro i p hp
    exact (drm_crtc_prepare_step K sys i).1.bound p hp

/-- C9, witness: two outputs and the candidate planes in the order 32, 31;
both outputs are prepared, the second is offered the plane of the first, and
a worker is scheduled. -/
theorem C9_witness :
    plane_exclusive sample_sys_two ∧
    plane_exclusive
      (plane_ops sample_kernel
        { sample_sys_two with ctx := { sample_sys_two.ctx with planes := [32, 31] } }
        [plane_op.prepare 0, plane_op.prepare 1, plane_op.bind 1 32 true, plane_op.worker 0,
          plane_op.prepare 0]) ∧
    (∀ i plane_id allow_overlay, (sample_sys_two.crtc i).plane.isSome = true →
      drm_crtc_bind_plane sample_kernel sample_sys_two i plane_id allow_overlay =
        (1, sample_sys_two)) ∧
    (∀ i p, (sample_sys_two.crtc i).plane = some p →
      ((drm_crtc_prepare sample_kernel sample_sys_two i).2.crtc i).plane = some p) :=
  ⟨Sys.initial_exclusive sample_sys_two (by decide),
    C9_plane_binding_exclusive sample_kernel sample_sys_two
      (Sys.initial_exclusive sample_sys_two (by decide)) [32, 31]
      [plane_op.prepare 0, plane_op.prepare 1, plane_op.bind 1 32 true, plane_op.worker 0,
        plane_op.prepare 0]⟩

theorem sample_sys_two_planes :
    (((plane_ops sample_kernel
        { sample_sys_two with ctx := { sample_sys_two.ctx with planes := [32, 31] } }
        [plane_op.prepare 0, plane_op.prepare 1, plane_op.bind 1 32 true]).crtc 0).plane.map
          (fun p => p.plane_id) = some 32) ∧
    (((plane_ops sample_kernel
        { sample_sys_two with ctx := { sample_sys_two.ctx with planes := [32, 31] } }
        [plane_op.prepare 0, plane_op.prepare 1, plane_op.bind 1 32 true]).crtc 1).plane.map
          (fun p => p.plane_id) = some 31) := by
  decide

/-! ## Output lookup (C11) -/

theorem drm_update_crtc_result (K : Kernel) (crtc : drm_crtc) (log : List Event) :
    ((drm_update_crtc K crtc log).1 < 0 ↔
      (match K.drmModeGetCrtc log crtc.crtc_id with
        | none => false
        | some (w, h) => decide (int_of_uint32 w > 0 ∧ int_of_uint32 h > 0)) = false) ∧
    (drm_update_crtc K crtc log).2.1.blocked = crtc.blocked := by
  unfold drm_update_crtc
  cases hq : K.drmModeGetCrtc log crtc.crtc_id with
  | none => simp
  | some r =>
    obtain ⟨w, h⟩ := r
    simp only []
    by_cases hp : int_of_uint32 w > 0 ∧ int_of_uint32 h > 0
    · rw [if_pos hp]
      simp [hp]
    · rw [if_neg hp]
      simp [hp]

theorem drm_get_crtc_loop_zero (K : Kernel) (sys : Sys) (n i : Nat) (s : Sys)
    (hlog : s.log = lookup_log sys i) (hcr : ∀ j, i ≤ j → s.crtc j = sys.crtc j) :
    (∀ r, (drm_get_crtc_loop K 0 n i s).1 = some r ↔
      (i ≤ r ∧ r < i + n ∧ available K sys r = true ∧
        ∀ j, i ≤ j → j < r → available K sys j = false)) ∧
    ((drm_get_crtc_loop K 0 n i s).1 = none ↔
      ∀ j, i ≤ j → j < i + n → available K sys j = false) := by
  induction n generalizing i s with
  | zero =>
    unfold drm_get_crtc_loop
    refine ⟨fun r => ⟨fun h => Option.noConfusion h, fun h => by omega⟩,
      fun _ j h1 h2 => by omega, fun _ => rfl⟩
  | succ n ih =>
    unfold drm_get_crtc_loop
    rw [if_pos rfl]
    have hres := drm_update_crtc_result K (s.crtc i) s.log
    have hspec := drm_update_crtc_spec K (s.crtc i) s.log
    have hav : available K sys i = true ↔
        (¬ (drm_update_crtc K (s.crtc i) s.log).1 < 0 ∧ (s.crtc i).blocked = false) := by
      rw [hres.1, hcr i (Nat.le_refl i), hlog]
      unfold available
      cases (sys.crtc i).blocked <;>
        cases (match K.drmModeGetCrtc (lookup_log sys i) (sys.crtc i).crtc_id with
          | none => false
          | some (w, h) => decide (int_of_uint32 w > 0 ∧ int_of_uint32 h > 0)) <;> simp
    rcases hr : drm_update_crtc K (s.crtc i) s.log with ⟨r1, crtc1, log1⟩
    rw [hr] at hres hspec hav
    simp only [] at hres hspec hav ⊢
    have hnext := ih (i + 1) (({ s with log := log1 }).set_crtc i crtc1)
      (by
        show log1 = lookup_log sys (i + 1)
        rw [hspec.1, hlog, hcr i (Nat.le_refl i)]
        rfl)
      (by
        intro j hj
        rw [Sys.crtc_set_crtc]
        have : ¬ (j = i ∧ i < ({ s with log := log1 } : Sys).ctx.crtcs.length) :=
          fun h => by omega
        rw [if_neg this]
        exact hcr j (by omega))
    have hskip : available K sys i = false →
        ((∀ r, (drm_get_crtc_loop K 0 n (i + 1) (({ s with log := log1 }).set_crtc i crtc1)).1
            = some r ↔
          (i ≤ r ∧ r < i + (n + 1) ∧ available K sys r = true ∧
            ∀ j, i ≤ j → j < r → available K sys j = false)) ∧
        ((drm_get_crtc_loop K 0 n (i + 1) (({ s with log := log1 }).set_crtc i crtc1)).1
            = none ↔
          ∀ j, i ≤ j → j < i + (n + 1) → available K sys j = false)) := by
      intro hna
      constructor
      · intro r
        rw [hnext.1 r]
        constructor
        · rintro ⟨h1, h2, h3, h4⟩
          refine ⟨by omega, by omega, h3, fun j hj1 hj2 => ?_⟩
          by_cases hji : j = i
          · rw [hji]
            exact hna
          · exact h4 j (by omega) hj2
        · rintro ⟨h1, h2, h3, h4⟩
          have hne : r ≠ i := by
            intro h
            rw [h, hna] at h3
            cases h3
          exact ⟨by omega, by omega, h3, fun j hj1 hj2 => h4 j (by omega) hj2⟩
      · rw [hnext.2]
        constructor
        · intro h j hj1 hj2
          by_cases hji : j = i
          · rw [hji]
            exact hna
          · exact h j (by omega) (by omega)
        · intro h j hj1 hj2
          exact h j (by omega) (by omega)
    by_cases hneg : r1 < 0
    · rw [if_pos hneg]
      apply hskip
      cases hb : available K sys i with
      | false => rfl
      | true => exact absurd hneg (hav.mp hb).1
    · rw [if_neg hneg]
      by_cases hbl : crtc1.blocked = true
      · rw [if_pos hbl]
        apply hskip
        cases hb : available K sys i with
        | false => rfl
        | true =>
          have := (hav.mp hb).2
          rw [← hres.2, hbl] at this
          cases this
      · rw [if_neg hbl]
        have hblf : (s.crtc i).blocked = false := by
          rw [← hres.2]
          cases hc : crtc1.blocked with
          | false => rfl
          | true => exact absurd hc hbl
        have hyes : available K sys i = true := hav.mpr ⟨hneg, hblf⟩
        constructor
        · intro r
          simp only [Option.some.injEq]
          constructor
          · intro h
            rw [← h]
            exact ⟨Nat.le_refl i, by omega, hyes, fun j h1 h2 => by omega⟩
          · rintro ⟨h1, h2, h3, h4⟩
            by_contra hne
            have := h4 i (Nat.le_refl i) (by omega)
            rw [hyes] at this
            cases this
        · constructor
          · intro h
            cases h
          · intro h
            have := h i (Nat.le_refl i) (by omega)
            rw [hyes] at this
            cases this

theorem drm_get_crtc_loop_id (K : Kernel) (crtc_id : Nat) (hid : crtc_id ≠ 0) (n i : Nat)
    (sys : Sys) :
    (∀ r, (drm_get_crtc_loop K crtc_id n i sys).1 = some r ↔
      (i ≤ r ∧ r < i + n ∧ answers sys crtc_id r = true ∧
        ∀ j, i ≤ j → j < r → answers sys crtc_id j = false)) ∧
    ((drm_get_crtc_loop K crtc_id n i sys).1 = none ↔
      ∀ j, i ≤ j → j < i + n → answers sys crtc_id j = false) := by
  induction n generalizing i with
  | zero =>
    unfold drm_get_crtc_loop
    refine ⟨fun r => ⟨fun h => Option.noConfusion h, fun h => by omega⟩,
      fun _ j h1 h2 => by omega, fun _ => rfl⟩
  | succ n ih =>
    unfold drm_get_crtc_loop
    rw [if_neg hid]
    have hnext := ih (i + 1)
    have hskip : answers sys crtc_id i = false →
        ((∀ r, (drm_get_crtc_loop K crtc_id n (i + 1) sys).1 = some r ↔
          (i ≤ r ∧ r < i + (n + 1) ∧ answers sys crtc_id r = true ∧
            ∀ j, i ≤ j → j < r → answers sys crtc_id j = false)) ∧
        ((drm_get_crtc_loop K crtc_id n (i + 1) sys).1 = none ↔
          ∀ j, i ≤ j → j < i + (n + 1) → answers sys crtc_id j = false)) := by
      intro hna
      constructor
      · intro r
        rw [hnext.1 r]
        constructor
        · rintro ⟨h1, h2, h3, h4⟩
          refine ⟨by omega, by omega, h3, fun j hj1 hj2 => ?_⟩
          by_cases hji : j = i
          · rw [hji]
            exact hna
          · exact h4 j (by omega) hj2
        · rintro ⟨h1, h2, h3, h4⟩
          have hne : r ≠ i := by
            intro h
            rw [h, hna] at h3
            cases h3
          exact ⟨by omega, by omega, h3, fun j hj1 hj2 => h4 j (by omega) hj2⟩
      · rw [hnext.2]
        constructor
        · intro h j hj1 hj2
          by_cases hji : j = i
          · rw [hji]
            exact hna
          · exact h j (by omega) (by omega)
        · intro h j hj1 hj2
          exact h j (by omega) (by omega)
    by_cases hb : (sys.crtc i).blocked = true
    · rw [if_pos hb]
      apply hskip
      unfold answers
      simp [hb]
    · rw [if_neg hb]
      by_cases hc : (sys.crtc i).crtc_id = crtc_id
      · rw [if_pos hc]
        have hyes : answers sys crtc_id i = true := by
          unfold answers
          simp [hc, hb]
        constructor
        · intro r
          simp only [Option.some.injEq]
          constructor
          · intro h
            rw [← h]
            exact ⟨Nat.le_refl i, by omega, hyes, fun j h1 h2 => by omega⟩
          · rintro ⟨h1, h2, h3, h4⟩
            by_contra hne
            have := h4 i (Nat.le_refl i) (by omega)
            rw [hyes] at this
            cases this
        · constructor
          · intro h
            cases h
          · intro h
            have := h i (Nat.le_refl i) (by omega)
            rw [hyes] at this
            cases this
      · rw [if_neg hc]
        apply hskip
        unfold answers
        simp [hc]

/-- C11: output lookup. With the identifier 0, `drm_get_crtc` returns the
lowest index of an output that is not blocked and whose resolution query
(made when the lookup comes to it) succeeds with a positive width and height,
and it returns none exactly when there is no such output. With a non-zero
identifier it returns the lowest index of an output that has the identifier
and is not blocked, and none exactly when there is no such output; when one
output only has the identifier, the result is that output if it is not
blocked and none if it is. -/
theorem C11_output_lookup (K : Kernel) (sys : Sys) (crtc_id : Nat) :
    (∀ i, (drm_get_crtc K sys 0).1 = some i ↔
      (i < sys.ctx.crtcs.length ∧ available K sys i = true ∧
        ∀ j, j < i → available K sys j = false)) ∧
    ((drm_get_crtc K sys 0).1 = none ↔
      ∀ j, j < sys.ctx.crtcs.length → available K sys j = false) ∧
    (crtc_id ≠ 0 →
      (∀ i, (drm_get_crtc K sys crtc_id).1 = some i ↔
        (i < sys.ctx.crtcs.length ∧ answers sys crtc_id i = true ∧
          ∀ j, j < i → answers sys crtc_id j = false)) ∧
      ((drm_get_crtc K sys crtc_id).1 = none ↔
        ∀ j, j < sys.ctx.crtcs.length → answers sys crtc_id j = false) ∧
      (∀ i, i < sys.ctx.crtcs.length → (sys.crtc i).crtc_id = crtc_id →
        (∀ j, j < sys.ctx.crtcs.length → (sys.crtc j).crtc_id = crtc_id → j = i) →
        (drm_get_crtc K sys crtc_id).1 = if (sys.crtc i).blocked = true then none else some i)) := by
  have h0 := drm_get_crtc_loop_zero K sys sys.ctx.crtcs.length 0 sys rfl (fun _ _ => rfl)
  refine ⟨?_, ?_, ?_⟩
  · intro i
    unfold drm_get_crtc
    rw [h0.1 i]
    constructor
    · rintro ⟨-, h2, h3, h4⟩
      exact ⟨by omega, h3, fun j hj => h4 j (Nat.zero_le j) hj⟩
    · rintro ⟨h2, h3, h4⟩
      exact ⟨Nat.zero_le i, by omega, h3, fun j _ hj => h4 j hj⟩
  · unfold drm_get_crtc
    rw [h0.2]
    constructor
    · intro h j hj
      exact h j (Nat.zero_le j) (by omega)
    · intro h j _ hj
      exact h j (by omega)
  · intro hid
    have h1 := drm_get_crtc_loop_id K crtc_id hid sys.ctx.crtcs.length 0 sys
    have hsome : ∀ i, (drm_get_crtc K sys crtc_id).1 = some i ↔
        (i < sys.ctx.crtcs.length ∧ answers sys crtc_id i = true ∧
          ∀ j, j < i → answers sys crtc_id j = false) := by
      intro i
      unfold drm_get_crtc
      rw [h1.1 i]
      constructor
      · rintro ⟨-, h2, h3, h4⟩
        exact ⟨by omega, h3, fun j hj => h4 j (Nat.zero_le j) hj⟩
      · rintro ⟨h2, h3, h4⟩
        exact ⟨Nat.zero_le i, by omega, h3, fun j _ hj => h4 j hj⟩
    have hnone : (drm_get_crtc K sys crtc_id).1 = none ↔
        ∀ j, j < sys.ctx.crtcs.length → answers sys crtc_id j = false := by
      unfold drm_get_crtc
      rw [h1.2]
      constructor
      · intro h j hj
        exact h j (Nat.zero_le j) (by omega)
      · intro h j _ hj
        exact h j (by omega)
    refine ⟨hsome, hnone, ?_⟩
    intro i hi hc huniq
    have hother : ∀ j, j < sys.ctx.crtcs.length → j ≠ i → answers sys crtc_id j = false := by
      intro j hj hne
      unfold answers
      have : ¬ (sys.crtc j).crtc_id = crtc_id := fun h => hne (huniq j hj h)
      simp [this]
    by_cases hb : (sys.crtc i).blocked = true
    · rw [if_pos hb]
      apply hnone.mpr
      intro j hj
      by_cases hji : j = i
      · rw [hji]
        unfold answers
        simp [hb]
      · exact hother j hj hji
    · rw [if_neg hb]
      apply (hsome i).mpr
      refine ⟨hi, ?_, fun j hj => hother j (by omega) (by omega)⟩
      unfold answers
      simp [hc, hb]

/-- C11, witness: of two outputs the first has no resolution; the lookup with
the identifier 0 finds the second, and so does the lookup with its
identifier 51. -/
theorem C11_witness :
    available sample_kernel_second sample_sys_two 0 = false ∧
    (drm_get_crtc sample_kernel_second sample_sys_two 0).1 = some 1 ∧
    (drm_get_crtc sample_kernel_second sample_sys_two 51).1 = some 1 ∧
    (drm_get_crtc sample_kernel_second sample_sys_two 52).1 = none :=
  ⟨by decide,
    ((C11_output_lookup sample_kernel_second sample_sys_two 51).1 1).mpr
      ⟨by decide, by decide, by decide⟩,
    (((C11_output_lookup sample_kernel_second sample_sys_two 51).2.2 (by decide)).1 1).mpr
      ⟨by decide, by decide, by decide⟩,
    by decide⟩

/-! ## The commit layer: path selection (C12) -/

theorem uint32_of_int_lt (a : Int) : uint32_of_int a < 4294967296 := by
  unfold uint32_of_int
  omega

theorem uint32_of_int_sign (a : Int) (h1 : -2147483648 ≤ a) (h2 : a < 2147483648) :
    2147483648 ≤ uint32_of_int a ↔ a < 0 := by
  unfold uint32_of_int
  omega

theorem testBit_31 (u : Nat) (hu : u < 4294967296) : u.testBit 31 = true ↔ 2147483648 ≤ u := by
  rw [Nat.testBit_to_div_mod]
  simp only [decide_eq_true_eq]
  omega

theorem int_or_range (a b : Int) : -2147483648 ≤ int_or a b ∧ int_or a b < 2147483648 := by
  unfold int_or int_of_uint32
  split_ifs <;> omega

/-- The sign of `a | b` on `int` values: negative exactly when one of them is. -/
theorem int_or_neg (a b : Int) (ha1 : -2147483648 ≤ a) (ha2 : a < 2147483648)
    (hb1 : -2147483648 ≤ b) (hb2 : b < 2147483648) :
    int_or a b < 0 ↔ a < 0 ∨ b < 0 := by
  have hu := uint32_of_int_lt a
  have hv := uint32_of_int_lt b
  have hl : Nat.lor (uint32_of_int a) (uint32_of_int b) < 2 ^ 32 :=
    Nat.or_lt_two_pow (by simpa using hu) (by simpa using hv)
  have hl2 : Nat.lor (uint32_of_int a) (uint32_of_int b) < 4294967296 := by simpa using hl
  have ht : (Nat.lor (uint32_of_int a) (uint32_of_int b)).testBit 31 =
      ((uint32_of_int a).testBit 31 || (uint32_of_int b).testBit 31) :=
    Nat.testBit_or _ _ _
  have h1 := testBit_31 _ hl2
  have h2 := testBit_31 _ hu
  have h3 := testBit_31 _ hv
  rw [ht, Bool.or_eq_true, h2, h3, uint32_of_int_sign a ha1 ha2, uint32_of_int_sign b hb1 hb2] at h1
  rw [h1]
  unfold int_or int_of_uint32
  generalize Nat.lor (uint32_of_int a) (uint32_of_int b) = l at hl2 ⊢
  split_ifs <;> omega

theorem legacy_calls_cons_other (e : Event) (log : List Event) (h : e.is_legacy = false) :
    legacy_calls (e :: log) = legacy_calls log := by
  unfold legacy_calls
  rw [List.filter_cons_of_neg (by simp [h])]

theorem transaction_calls_cons_other (e : Event) (log : List Event)
    (h : e.is_transaction = false) : transaction_calls (e :: log) = transaction_calls log := by
  unfold transaction_calls
  rw [List.filter_cons_of_neg (by simp [h])]

theorem transaction_calls_cons (e : Event) (log : List Event)
    (h : e.is_transaction = true) : transaction_calls (e :: log) = e :: transaction_calls log := by
  unfold transaction_calls
  rw [List.filter_cons_of_pos h]

theorem atomic_adds_cons_other (e : Event) (log : List Event) (h : e.atomic_add = none) :
    atomic_adds (e :: log) = atomic_adds log := by
  unfold atomic_adds
  rw [List.filterMap_cons_none h]

/-- The scan of `drm_plane_get_prop` makes `drmModeGetProperty` calls only. -/
theorem drm_plane_get_prop_scan_calls (K : Kernel) (name : String) (props : List Nat) (i : Nat)
    (log : List Event) :
    legacy_calls (drm_plane_get_prop_scan K name props i log).2 = legacy_calls log ∧
    transaction_calls (drm_plane_get_prop_scan K name props i log).2 = transaction_calls log ∧
    atomic_adds (drm_plane_get_prop_scan K name props i log).2 = atomic_adds log := by
  induction props generalizing i log with
  | nil => exact ⟨rfl, rfl, rfl⟩
  | cons id rest ih =>
    unfold drm_plane_get_prop_scan
    have hstep : legacy_calls (Event.drmModeGetProperty id :: log) = legacy_calls log ∧
        transaction_calls (Event.drmModeGetProperty id :: log) = transaction_calls log ∧
        atomic_adds (Event.drmModeGetProperty id :: log) = atomic_adds log :=
      ⟨legacy_calls_cons_other _ _ rfl, transaction_calls_cons_other _ _ rfl,
        atomic_adds_cons_other _ _ rfl⟩
    have hrest := ih (i + 1) (Event.drmModeGetProperty id :: log)
    have hboth := And.intro (hrest.1.trans hstep.1)
      (And.intro (hrest.2.1.trans hstep.2.1) (hrest.2.2.trans hstep.2.2))
    cases hq : K.drmModeGetProperty log id with
    | none => exact hboth
    | some prop =>
      simp only []
      by_cases hn : prop.name = name
      · rw [if_pos hn]
        exact hstep
      · rw [if_neg hn]
        exact hboth

theorem drm_plane_get_prop_calls (K : Kernel) (plane : drm_plane) (p : drm_plane_prop)
    (log : List Event) :
    legacy_calls (drm_plane_get_prop K plane p log).2.2 = legacy_calls log ∧
    transaction_calls (drm_plane_get_prop K plane p log).2.2 = transaction_calls log ∧
    atomic_adds (drm_plane_get_prop K plane p log).2.2 = atomic_adds log := by
  unfold drm_plane_get_prop
  by_cases hc : plane.prop_ids.getD p.idx 0 ≠ 0
  · rw [if_pos hc]
    exact ⟨rfl, rfl, rfl⟩
  · rw [if_neg hc]
    have h := drm_plane_get_prop_scan_calls K (drm_plane_prop_names p) plane.props.props 0 log
    rcases hs : drm_plane_get_prop_scan K (drm_plane_prop_names p) plane.props.props 0 log
      with ⟨r, log1⟩
    rw [hs] at h
    cases r with
    | none => exact h
    | some i => exact h

/-- One statement `drm_atomic_add_plane_prop(...)`: it makes no legacy call and
no commit, and its result is an `int`. -/
theorem drm_atomic_add_plane_prop_calls (K : Kernel) (hK : K.returns_int) (plane : drm_plane)
    (p : drm_plane_prop) (value : Nat) (log : List Event) :
    legacy_calls (drm_atomic_add_plane_prop K plane p value log).2.2 = legacy_calls log ∧
    (∃ pre, transaction_calls (drm_atomic_add_plane_prop K plane p value log).2.2 =
      pre ++ transaction_calls log) ∧
    -2147483648 ≤ (drm_atomic_add_plane_prop K plane p value log).1 ∧
    (drm_atomic_add_plane_prop K plane p value log).1 < 2147483648 := by
  unfold drm_atomic_add_plane_prop
  have h := drm_plane_get_prop_calls K plane p log
  rcases hs : drm_plane_get_prop K plane p log with ⟨idx, plane1, log1⟩
  rw [hs] at h
  simp only [] at h ⊢
  by_cases hi : idx < 0
  · rw [if_pos hi]
    exact ⟨h.1, ⟨[], h.2.1⟩, show (-2147483648 : Int) ≤ -1 by decide,
      show (-1 : Int) < 2147483648 by decide⟩
  · rw [if_neg hi]
    refine ⟨?_, ⟨[Event.drmModeAtomicAddProperty plane1.plane_id
        (plane1.props.props.getD idx.toNat 0) value], ?_⟩, (hK.1 _ _ _ _).1, (hK.1 _ _ _ _).2⟩
    · show legacy_calls (_ :: log1) = _
      rw [legacy_calls_cons_other _ _ (by rfl), h.1]
    · show transaction_calls (_ :: log1) = _
      rw [transaction_calls_cons _ _ (by rfl), h.2.1]
      rfl

/-- A run of statements `ret |= drm_atomic_add_plane_prop(...)`: the
accumulated result is negative exactly when it was negative before or one of
the statements has a negative result. -/
theorem drm_atomic_add_plane_props_calls (K : Kernel) (hK : K.returns_int)
    (items : List (drm_plane_prop × Nat)) (ret : Int) (plane : drm_plane) (log : List Event)
    (h1 : -2147483648 ≤ ret) (h2 : ret < 2147483648) :
    legacy_calls (drm_atomic_add_plane_props K items ret plane log).2.2 = legacy_calls log ∧
    (∃ pre, transaction_calls (drm_atomic_add_plane_props K items ret plane log).2.2 =
      pre ++ transaction_calls log) ∧
    -2147483648 ≤ (drm_atomic_add_plane_props K items ret plane log).1 ∧
    (drm_atomic_add_plane_props K items ret plane log).1 < 2147483648 ∧
    ((drm_atomic_add_plane_props K items ret plane log).1 < 0 ↔
      (ret < 0 ∨ drm_atomic_add_fails K items plane log = true)) := by
  induction items generalizing ret plane log with
  | nil =>
    unfold drm_atomic_add_plane_props drm_atomic_add_fails
    exact ⟨rfl, ⟨[], rfl⟩, h1, h2, by simp⟩
  | cons item rest ih =>
    obtain ⟨p, value⟩ := item
    unfold drm_atomic_add_plane_props drm_atomic_add_fails
    have h := drm_atomic_add_plane_prop_calls K hK plane p value log
    rcases hs : drm_atomic_add_plane_prop K plane p value log with ⟨r, plane1, log1⟩
    rw [hs] at h
    simp only [] at h ⊢
    have hr := int_or_range ret r
    have hn := int_or_neg ret r h1 h2 h.2.2.1 h.2.2.2
    have hrest := ih (int_or ret r) plane1 log1 hr.1 hr.2
    obtain ⟨pre1, hpre1⟩ := h.2.1
    obtain ⟨pre2, hpre2⟩ := hrest.2.1
    refine ⟨hrest.1.trans h.1, ⟨pre2 ++ pre1, ?_⟩, hrest.2.2.1, hrest.2.2.2.1, ?_⟩
    · rw [hpre2, hpre1, List.append_assoc]
    · rw [hrest.2.2.2.2, hn, Bool.or_eq_true, decide_eq_true_eq]
      exact or_assoc

/-- The label `legacy`: one legacy call, whose answer is returned; `ctx->atomic`
is cleared exactly when the accumulated result is negative. -/
theorem drm_set_plane_legacy_calls (K : Kernel) (s : World) (ret : Int) (fb : Nat)
    (x y w h : Int) :
    (drm_set_plane_legacy K s ret fb x y w h).1 = drm_set_plane_legacy_answer K s fb x y w h s.log ∧
    (drm_set_plane_legacy K s ret fb x y w h).2.log = drm_set_plane_legacy_call s fb x y w h :: s.log ∧
    legacy_calls (drm_set_plane_legacy K s ret fb x y w h).2.log =
      drm_set_plane_legacy_call s fb x y w h :: legacy_calls s.log ∧
    transaction_calls (drm_set_plane_legacy K s ret fb x y w h).2.log = transaction_calls s.log ∧
    (ret < 0 → (drm_set_plane_legacy K s ret fb x y w h).2.ctx.atomic = 0) ∧
    (¬ ret < 0 → (drm_set_plane_legacy K s ret fb x y w h).2.ctx = s.ctx) := by
  unfold drm_set_plane_legacy drm_set_plane_legacy_answer drm_set_plane_legacy_call
  refine ⟨rfl, rfl, rfl, rfl, ?_, ?_⟩
  · intro hneg
    simp only []
    by_cases ha : s.ctx.atomic ≠ 0
    · rw [if_pos ⟨hneg, ha⟩]
    · rw [if_neg (fun hc => ha hc.2)]
      exact not_not.mp ha
  · intro hneg
    simp only []
    rw [if_neg (fun hc => hneg hc.1)]

/-- C12 (as amended): commit path selection in `drm_set_plane`. The legacy
call is issued with no call that builds or commits an atomic transaction
exactly when the plane is a cursor plane, or the output has `async_commit`,
or `ctx->atomic` is 0, or no atomic request can be allocated; its answer is
then the result and the context is unchanged. Otherwise the properties are
added and `drmModeAtomicCommit` is called; if adding a property or the commit
fails, the legacy call is issued in the same commit, right after the atomic
commit, and its answer is the result; and if the attempt succeeds the result
is 0 and no legacy call is made. -/
theorem C12_commit_path (K : Kernel) (hK : K.returns_int) (s : World) (fb : Nat)
    (x y w h : Int) :
    (transaction_calls (drm_set_plane K s fb x y w h).2.log = transaction_calls s.log ↔
      (drm_set_plane_direct s = true ∨ drm_set_plane_alloc_fails K s fb x y w h = true)) ∧
    (drm_set_plane_direct s = true →
      (drm_set_plane K s fb x y w h).2.log =
        drm_set_plane_legacy_call s fb x y w h ::
          Event.drm_set_plane s.plane.plane_id fb x y w h :: s.log ∧
      (drm_set_plane K s fb x y w h).1 =
        drm_set_plane_legacy_answer K s fb x y w h
          (Event.drm_set_plane s.plane.plane_id fb x y w h :: s.log) ∧
      (drm_set_plane K s fb x y w h).2.ctx = s.ctx) ∧
    (drm_set_plane_direct s = false → drm_set_plane_alloc_fails K s fb x y w h = true →
      (drm_set_plane K s fb x y w h).2.log =
        drm_set_plane_legacy_call s fb x y w h :: drm_set_plane_alloc_log s fb x y w h ∧
      (drm_set_plane K s fb x y w h).1 =
        drm_set_plane_legacy_answer K s fb x y w h (drm_set_plane_alloc_log s fb x y w h) ∧
      (drm_set_plane K s fb x y w h).2.ctx = s.ctx) ∧
    (drm_set_plane_direct s = false → drm_set_plane_alloc_fails K s fb x y w h = false →
      (∃ pre, transaction_calls (drm_set_plane K s fb x y w h).2.log =
        Event.drmModeAtomicCommit :: (pre ++ transaction_calls s.log)) ∧
      (drm_set_plane_attempt_fails K s fb x y w h = true →
        (∃ log1, (drm_set_plane K s fb x y w h).2.log =
            drm_set_plane_legacy_call s fb x y w h :: Event.drmModeAtomicCommit :: log1 ∧
          (drm_set_plane K s fb x y w h).1 =
            drm_set_plane_legacy_answer K s fb x y w h (Event.drmModeAtomicCommit :: log1)) ∧
        legacy_calls (drm_set_plane K s fb x y w h).2.log =
          drm_set_plane_legacy_call s fb x y w h :: legacy_calls s.log) ∧
      (drm_set_plane_attempt_fails K s fb x y w h = false →
        (drm_set_plane K s fb x y w h).1 = 0 ∧
        legacy_calls (drm_set_plane K s fb x y w h).2.log = legacy_calls s.log ∧
        (drm_set_plane K s fb x y w h).2.ctx = s.ctx)) := by
  have hdirect : drm_set_plane_direct s = true →
      (drm_set_plane K s fb x y w h).2.log =
        drm_set_plane_legacy_call s fb x y w h ::
          Event.drm_set_plane s.plane.plane_id fb x y w h :: s.log ∧
      (drm_set_plane K s fb x y w h).1 =
        drm_set_plane_legacy_answer K s fb x y w h
          (Event.drm_set_plane s.plane.plane_id fb x y w h :: s.log) ∧
      (drm_set_plane K s fb x y w h).2.ctx = s.ctx := by
    intro hd
    unfold drm_set_plane_direct at hd
    unfold drm_set_plane
    rw [if_pos (of_decide_eq_true hd)]
    have hl := drm_set_plane_legacy_calls K
      { s with log := Event.drm_set_plane s.plane.plane_id fb x y w h :: s.log } 0 fb x y w h
    exact ⟨hl.2.1, hl.1, hl.2.2.2.2.2 (by decide)⟩
  have hnoreq : drm_set_plane_direct s = false → drm_set_plane_alloc_fails K s fb x y w h = true →
      (drm_set_plane K s fb x y w h).2.log =
        drm_set_plane_legacy_call s fb x y w h :: drm_set_plane_alloc_log s fb x y w h ∧
      (drm_set_plane K s fb x y w h).1 =
        drm_set_plane_legacy_answer K s fb x y w h (drm_set_plane_alloc_log s fb x y w h) ∧
      (drm_set_plane K s fb x y w h).2.ctx = s.ctx := by
    intro hd ha
    unfold drm_set_plane_direct at hd
    unfold drm_set_plane_alloc_fails at ha
    unfold drm_set_plane
    rw [if_neg (of_decide_eq_false hd), if_pos (of_decide_eq_true ha)]
    have hl := drm_set_plane_legacy_calls K
      { s with log := Event.drmModeAtomicAlloc ::
          Event.drm_set_plane s.plane.plane_id fb x y w h :: s.log } 0 fb x y w h
    exact ⟨hl.2.1, hl.1, hl.2.2.2.2.2 (by decide)⟩
  have hattempt : drm_set_plane_direct s = false →
      drm_set_plane_alloc_fails K s fb x y w h = false →
      (∃ pre, transaction_calls (drm_set_plane K s fb x y w h).2.log =
        Event.drmModeAtomicCommit :: (pre ++ transaction_calls s.log)) ∧
      (drm_set_plane_attempt_fails K s fb x y w h = true →
        (∃ log1, (drm_set_plane K s fb x y w h).2.log =
            drm_set_plane_legacy_call s fb x y w h :: Event.drmModeAtomicCommit :: log1 ∧
          (drm_set_plane K s fb x y w h).1 =
            drm_set_plane_legacy_answer K s fb x y w h (Event.drmModeAtomicCommit :: log1)) ∧
        legacy_calls (drm_set_plane K s fb x y w h).2.log =
          drm_set_plane_legacy_call s fb x y w h :: legacy_calls s.log) ∧
      (drm_set_plane_attempt_fails K s fb x y w h = false →
        (drm_set_plane K s fb x y w h).1 = 0 ∧
        legacy_calls (drm_set_plane K s fb x y w h).2.log = legacy_calls s.log ∧
        (drm_set_plane K s fb x y w h).2.ctx = s.ctx) := by
    intro hd ha
    unfold drm_set_plane_direct at hd
    unfold drm_set_plane_alloc_fails at ha
    unfold drm_set_plane_attempt_fails drm_set_plane_alloc_log
    unfold drm_set_plane
    rw [if_neg (of_decide_eq_false hd), if_neg (of_decide_eq_false ha)]
    unfold drm_set_plane_atomic
    have hc := drm_atomic_add_plane_props_calls K hK
      (drm_set_plane_props s.crtc.crtc_id fb x y w h) 0 s.plane
      (Event.drmModeAtomicAlloc :: Event.drm_set_plane s.plane.plane_id fb x y w h :: s.log)
      (by decide) (by decide)
    have hf := drm_atomic_add_plane_props_frame K
      (drm_set_plane_props s.crtc.crtc_id fb x y w h) 0 s.plane
      (Event.drmModeAtomicAlloc :: Event.drm_set_plane s.plane.plane_id fb x y w h :: s.log)
    generalize drm_atomic_add_fails K (drm_set_plane_props s.crtc.crtc_id fb x y w h) s.plane
      (Event.drmModeAtomicAlloc :: Event.drm_set_plane s.plane.plane_id fb x y w h :: s.log)
      = fails at hc ⊢
    rcases hs : drm_atomic_add_plane_props K (drm_set_plane_props s.crtc.crtc_id fb x y w h) 0
      s.plane (Event.drmModeAtomicAlloc :: Event.drm_set_plane s.plane.plane_id fb x y w h ::
        s.log) with ⟨ret, plane1, log1⟩
    rw [hs] at hc hf
    simp only [] at hc hf ⊢
    obtain ⟨hleg, ⟨pre, hpre⟩, hr1, hr2, hneg⟩ := hc
    have hlog0 : transaction_calls
        (Event.drmModeAtomicAlloc :: Event.drm_set_plane s.plane.plane_id fb x y w h :: s.log) =
        transaction_calls s.log := by
      rw [transaction_calls_cons_other _ _ (by rfl), transaction_calls_cons_other _ _ (by rfl)]
    have hleg0 : legacy_calls
        (Event.drmModeAtomicAlloc :: Event.drm_set_plane s.plane.plane_id fb x y w h :: s.log) =
        legacy_calls s.log := by
      rw [legacy_calls_cons_other _ _ (by rfl), legacy_calls_cons_other _ _ (by rfl)]
    have hsum := int_or_neg ret (K.drmModeAtomicCommit log1) hr1 hr2 (hK.2 log1).1 (hK.2 log1).2
    have hfail : (fails || decide (K.drmModeAtomicCommit log1 < 0)) = true ↔
        int_or ret (K.drmModeAtomicCommit log1) < 0 := by
      rw [hsum, hneg, Bool.or_eq_true, decide_eq_true_eq]
      constructor
      · rintro (h1 | h1)
        · exact Or.inl (Or.inr h1)
        · exact Or.inr h1
      · rintro ((h1 | h1) | h1)
        · exact absurd h1 (by decide)
        · exact Or.inl h1
        · exact Or.inr h1
    by_cases hok : int_or ret (K.drmModeAtomicCommit log1) ≥ 0
    · rw [if_pos hok]
      have hnf : (fails || decide (K.drmModeAtomicCommit log1 < 0)) = false := by
        cases hb : (fails || decide (K.drmModeAtomicCommit log1 < 0)) with
        | false => rfl
        | true => exact absurd (hfail.mp hb) (by omega)
      refine ⟨⟨pre, ?_⟩, fun hb => ?_, fun _ => ⟨rfl, ?_, rfl⟩⟩
      · show transaction_calls (Event.drmModeAtomicCommit :: log1) = _
        rw [transaction_calls_cons _ _ (by rfl), hpre, hlog0]
      · rw [hnf] at hb
        cases hb
      · show legacy_calls (Event.drmModeAtomicCommit :: log1) = _
        rw [legacy_calls_cons_other _ _ (by rfl), hleg, hleg0]
    · rw [if_neg hok]
      have hyes : (fails || decide (K.drmModeAtomicCommit log1 < 0)) = true :=
        hfail.mpr (by omega)
      have hl := drm_set_plane_legacy_calls K
        { s with plane := plane1, log := Event.drmModeAtomicCommit :: log1 }
        (int_or ret (K.drmModeAtomicCommit log1)) fb x y w h
      have hcall : drm_set_plane_legacy_call
          { s with plane := plane1, log := Event.drmModeAtomicCommit :: log1 } fb x y w h =
          drm_set_plane_legacy_call s fb x y w h := by
        unfold drm_set_plane_legacy_call
        simp only []
        rw [hf.2.1]
      have hans : drm_set_plane_legacy_answer K
          { s with plane := plane1, log := Event.drmModeAtomicCommit :: log1 } fb x y w h
            (Event.drmModeAtomicCommit :: log1) =
          drm_set_plane_legacy_answer K s fb x y w h (Event.drmModeAtomicCommit :: log1) := by
        unfold drm_set_plane_legacy_answer
        simp only []
        rw [hf.2.1]
      refine ⟨⟨pre, ?_⟩, fun _ => ⟨⟨log1, ?_, ?_⟩, ?_⟩, fun hb => ?_⟩
      · rw [hl.2.2.2.1]
        show transaction_calls (Event.drmModeAtomicCommit :: log1) = _
        rw [transaction_calls_cons _ _ (by rfl), hpre, hlog0]
      · rw [hl.2.1, hcall]
      · rw [hl.1, hans]
      · rw [hl.2.2.1, hcall]
        show _ :: legacy_calls (Event.drmModeAtomicCommit :: log1) = _
        rw [legacy_calls_cons_other _ _ (by rfl), hleg, hleg0]
      · rw [hyes] at hb
        cases hb
  refine ⟨?_, hdirect, hnoreq, hattempt⟩
  constructor
  · intro heq
    by_contra hno
    have hd : drm_set_plane_direct s = false := by
      cases hb : drm_set_plane_direct s with
      | false => rfl
      | true => exact absurd (Or.inl hb) hno
    have ha : drm_set_plane_alloc_fails K s fb x y w h = false := by
      cases hb : drm_set_plane_alloc_fails K s fb x y w h with
      | false => rfl
      | true => exact absurd (Or.inr hb) hno
    obtain ⟨pre, hpre⟩ := (hattempt hd ha).1
    rw [heq] at hpre
    have := congrArg List.length hpre
    simp only [List.length_cons, List.length_append] at this
    omega
  · intro hc
    by_cases hd : drm_set_plane_direct s = true
    · rw [(hdirect hd).1, transaction_calls_cons_other _ _ (by rfl),
        transaction_calls_cons_other _ _ (by rfl)]
    · have hd2 : drm_set_plane_direct s = false := by simpa using hd
      rcases hc with hc | hc
      · exact absurd hc hd
      · rw [(hnoreq hd2 hc).1]
        unfold drm_set_plane_alloc_log
        rw [transaction_calls_cons_other _ _ (by rfl), transaction_calls_cons_other _ _ (by rfl),
          transaction_calls_cons_other _ _ (by rfl)]

theorem sample_kernel_atomic_returns_int : sample_kernel_atomic.returns_int :=
  ⟨fun _ _ _ _ => ⟨show (-2147483648 : Int) ≤ 1 by decide, show (1 : Int) < 2147483648 by decide⟩,
    fun _ => ⟨show (-2147483648 : Int) ≤ 0 by decide, show (0 : Int) < 2147483648 by decide⟩⟩

theorem sample_kernel_commit_fails_returns_int : sample_kernel_commit_fails.returns_int :=
  ⟨fun _ _ _ _ => ⟨show (-2147483648 : Int) ≤ 1 by decide, show (1 : Int) < 2147483648 by decide⟩,
    fun _ => ⟨show (-2147483648 : Int) ≤ -22 by decide, show (-22 : Int) < 2147483648 by decide⟩⟩

/-- C12, witness: on the sample overlay plane the atomic attempt succeeds, the
result is 0 and no legacy call is made. -/
theorem C12_witness :
    sample_kernel_atomic.returns_int ∧
    drm_set_plane_direct sample_world_overlay = false ∧
    drm_set_plane_alloc_fails sample_kernel_atomic sample_world_overlay 7 100 200 64 64 = false ∧
    drm_set_plane_attempt_fails sample_kernel_atomic sample_world_overlay 7 100 200 64 64
      = false ∧
    (drm_set_plane sample_kernel_atomic sample_world_overlay 7 100 200 64 64).1 = 0 ∧
    legacy_calls (drm_set_plane sample_kernel_atomic sample_world_overlay 7 100 200 64 64).2.log =
      legacy_calls sample_world_overlay.log ∧
    (drm_set_plane sample_kernel_atomic sample_world_overlay 7 100 200 64 64).2.ctx =
      sample_world_overlay.ctx :=
  ⟨sample_kernel_atomic_returns_int, by decide, by decide, by decide,
    ((C12_commit_path sample_kernel_atomic sample_kernel_atomic_returns_int
      sample_world_overlay 7 100 200 64 64).2.2.2 (by decide) (by decide)).2.2 (by decide)⟩

/-- C12, counterexample to the claim as stated: the plane is no cursor plane,
the output has no `async_commit` and `ctx->atomic` is 1, but no atomic request
can be allocated; the legacy call is issued and no property is added and
nothing committed atomically. -/
theorem C12_counterexample :
    sample_world_overlay.plane.cursor_plane = false ∧
    sample_world_overlay.crtc.async_commit = false ∧
    sample_world_overlay.ctx.atomic = 1 ∧
    (drm_set_plane sample_kernel_no_request sample_world_overlay 7 100 200 64 64).2.log =
      [Event.drmModeSetPlane 33 50 7 100 200 64 64 0 0 4194304 4194304,
        Event.drmModeAtomicAlloc, Event.drm_set_plane 33 7 100 200 64 64] ∧
    transaction_calls
      (drm_set_plane sample_kernel_no_request sample_world_overlay 7 100 200 64 64).2.log = [] := by
  decide

/-! ## What the worker and the callers keep: `ctx->atomic` and `verified` -/

theorem worker_keeps_refl (s : World) : worker_keeps s s := ⟨rfl, fun h => h⟩

theorem worker_keeps_trans {a b c : World} (h1 : worker_keeps a b) (h2 : worker_keeps b c) :
    worker_keeps a c := ⟨h2.1.trans h1.1, fun h => h2.2 (h1.2 h)⟩

theorem worker_keeps_of_ctx {s s1 : World} (hv : s1.crtc.verified = s.crtc.verified)
    (hc : s1.ctx = s.ctx ∨ s1.ctx = { s.ctx with atomic := 0 }) : worker_keeps s s1 := by
  refine ⟨hv, fun h0 => ?_⟩
  rcases hc with h | h
  · rw [h]
    exact h0
  · rw [h]

theorem drm_crtc_update_cursor_keeps (K : Kernel) (s : World) (o : Option drm_cursor_state) :
    worker_keeps s (drm_crtc_update_cursor K s o).2 := by
  cases o with
  | none =>
    have h := drm_crtc_disable_cursor_spec K s
    unfold drm_crtc_disable_cursor at h
    exact worker_keeps_of_ctx (by rw [h.1]) h.2.2.1
  | some cs =>
    have h := drm_crtc_update_cursor_spec K s cs
    exact worker_keeps_of_ctx (by rw [h.1]) h.2.2.1

theorem drm_crtc_create_fb_keeps (K : Kernel) (s : World) (cs : drm_cursor_state) :
    worker_keeps s (drm_crtc_create_fb K s cs).2.1 := by
  by_cases hi : create_fb_init_fails K s cs = true
  · rw [drm_crtc_create_fb_init_fails K s cs hi]
    exact ⟨rfl, fun h => h⟩
  · rw [drm_crtc_create_fb_converts K s cs (by simpa using hi)]
    exact ⟨rfl, fun h => h⟩

theorem create_then_update_keeps (K : Kernel) (s : World) (cs : drm_cursor_state) :
    worker_keeps s
      (match drm_crtc_create_fb K s cs with
        | (r, s1, cs2) =>
          if r < 0 then flow.goto_error s1
          else
            match drm_crtc_update_cursor K s1 (some cs2) with
            | (r2, s2) => if r2 < 0 then flow.goto_error s2
              else flow.fallthrough s2 cs2).world := by
  have hc := drm_crtc_create_fb_keeps K s cs
  rcases hr : drm_crtc_create_fb K s cs with ⟨r, s1, cs2⟩
  rw [hr] at hc
  simp only [] at hc ⊢
  by_cases hneg : r < 0
  · rw [if_pos hneg]
    exact hc
  · rw [if_neg hneg]
    have hu := drm_crtc_update_cursor_keeps K s1 (some cs2)
    rcases hr2 : drm_crtc_update_cursor K s1 (some cs2) with ⟨r2, s2⟩
    rw [hr2] at hu
    simp only [] at hu ⊢
    rw [flow_branch_world]
    exact worker_keeps_trans hc hu

theorem drm_crtc_thread_handle_set_keeps (K : Kernel) (s : World) (cs : drm_cursor_state) :
    worker_keeps s (drm_crtc_thread_handle_set K s cs).world := by
  unfold drm_crtc_thread_handle_set
  by_cases hm : int_and cs.request REQ_SET_CURSOR ≠ 0
  · rw [if_pos hm]
    simp only []
    by_cases hh : cs.handle = 0
    · rw [if_pos hh]
      exact drm_crtc_update_cursor_keeps K s none
    · rw [if_neg hh]
      exact create_then_update_keeps K s _
  · rw [if_neg hm]
    exact worker_keeps_refl s

theorem drm_crtc_thread_handle_move_keeps (K : Kernel) (s : World) (cs : drm_cursor_state) :
    worker_keeps s (drm_crtc_thread_handle_move K s cs).world := by
  unfold drm_crtc_thread_handle_move
  by_cases hm : int_and cs.request REQ_MOVE_CURSOR ≠ 0
  · rw [if_pos hm]
    simp only []
    by_cases hh : s.crtc.cursor_curr.handle = 0
    · rw [if_pos hh]
      exact ⟨rfl, fun h => h⟩
    · rw [if_neg hh]
      by_cases hoff : s.crtc.cursor_curr.off_x ≠ cs.off_x ∨ s.crtc.cursor_curr.off_y ≠ cs.off_y
      · rw [if_pos hoff]
        exact create_then_update_keeps K s _
      · rw [if_neg hoff]
        have hu := drm_crtc_update_cursor_keeps K s
          (some { cs with request := int_and cs.request (int_not REQ_MOVE_CURSOR),
                          fb := s.crtc.cursor_curr.fb })
        rcases hr2 : drm_crtc_update_cursor K s
          (some { cs with request := int_and cs.request (int_not REQ_MOVE_CURSOR),
                          fb := s.crtc.cursor_curr.fb }) with ⟨r2, s2⟩
        rw [hr2] at hu
        simp only []
        rw [flow_branch_world]
        exact hu
  · rw [if_neg hm]
    exact worker_keeps_refl s

theorem drm_crtc_thread_next_keeps (K : Kernel) (s : World) :
    worker_keeps s (drm_crtc_thread_next K s) := by
  unfold drm_crtc_thread_next
  exact ⟨rfl, fun h => h⟩

theorem drm_crtc_thread_error_keeps (K : Kernel) (s : World) :
    worker_keeps s (drm_crtc_thread_error K s) := by
  unfold drm_crtc_thread_error
  simp only []
  have h1 : worker_keeps s
      (if s.crtc.egl_ctx = true then { s with log := Event.egl_free_ctx :: s.log } else s) := by
    split_ifs
    · exact ⟨rfl, fun h => h⟩
    · exact worker_keeps_refl s
  generalize (if s.crtc.egl_ctx = true then { s with log := Event.egl_free_ctx :: s.log }
    else s) = s1 at h1 ⊢
  have h2 := drm_crtc_update_cursor_keeps K s1 none
  unfold drm_crtc_disable_cursor
  have h12 := worker_keeps_trans h1 h2
  exact ⟨h12.1, h12.2⟩

/-- The loop body keeps a cleared `ctx->atomic` cleared; the `verified` flag
is unchanged unless the readiness block sets it, which it does not for a
disconnected output. -/
theorem drm_crtc_thread_body_keeps (K : Kernel) (s : World) (cs : drm_cursor_state) :
    (s.ctx.atomic = 0 → (drm_crtc_thread_body K s cs).world.ctx.atomic = 0) ∧
    ((drm_crtc_thread_body K s cs).world.crtc.verified = s.crtc.verified ∨
      verified_by s (drm_crtc_thread_body K s cs)) ∧
    (connected K s = false →
      (drm_crtc_thread_body K s cs).world.crtc.verified = s.crtc.verified) := by
  by_cases hc : connected K s = true
  · rw [drm_crtc_thread_body_connected K s cs hc]
    have h0 : worker_keeps s
        { s with
          crtc := { s.crtc with width := (resolution K s).1, height := (resolution K s).2 }
          log := Event.drmModeGetCrtc s.crtc.crtc_id :: s.log } :=
      ⟨rfl, fun h => h⟩
    have hs := drm_crtc_thread_handle_set_keeps K
      { s with
        crtc := { s.crtc with width := (resolution K s).1, height := (resolution K s).2 }
        log := Event.drmModeGetCrtc s.crtc.crtc_id :: s.log }
      (drm_crtc_clip_offsets (resolution K s).1 (resolution K s).2 cs)
    have hfalse : connected K s = false → False := fun h => by
      rw [hc] at h
      cases h
    rcases hr : drm_crtc_thread_handle_set K
      { s with
        crtc := { s.crtc with width := (resolution K s).1, height := (resolution K s).2 }
        log := Event.drmModeGetCrtc s.crtc.crtc_id :: s.log }
      (drm_crtc_clip_offsets (resolution K s).1 (resolution K s).2 cs) with ⟨s2, cs2⟩ | s2 | s2
    · rw [hr] at hs
      simp only []
      have hm := drm_crtc_thread_handle_move_keeps K s2 cs2
      rcases hr2 : drm_crtc_thread_handle_move K s2 cs2 with ⟨s3, cs3⟩ | s3 | s3
      · rw [hr2] at hm
        have h3 : worker_keeps s s3 := worker_keeps_trans (worker_keeps_trans h0 hs) hm
        simp only []
        refine ⟨fun ha => ?_, ?_, fun h => (hfalse h).elim⟩
        · unfold drm_crtc_thread_verify
          split_ifs
          · exact h3.2 ha
          · exact h3.2 ha
        · unfold drm_crtc_thread_verify
          by_cases hv : s3.crtc.verified = false ∧ s3.crtc.cursor_curr.fb ≠ 0
          · rw [if_pos hv]
            exact Or.inr ⟨h3.1.symm.trans hv.1, rfl, hv.2, ⟨_, rfl⟩⟩
          · rw [if_neg hv]
            exact Or.inl h3.1
      · rw [hr2] at hm
        have h3 : worker_keeps s s3 := worker_keeps_trans (worker_keeps_trans h0 hs) hm
        exact ⟨h3.2, Or.inl h3.1, fun h => (hfalse h).elim⟩
      · rw [hr2] at hm
        have h3 : worker_keeps s s3 := worker_keeps_trans (worker_keeps_trans h0 hs) hm
        exact ⟨h3.2, Or.inl h3.1, fun h => (hfalse h).elim⟩
    · rw [hr] at hs
      have h2 : worker_keeps s s2 := worker_keeps_trans h0 hs
      exact ⟨h2.2, Or.inl h2.1, fun h => (hfalse h).elim⟩
    · rw [hr] at hs
      have h2 : worker_keeps s s2 := worker_keeps_trans h0 hs
      exact ⟨h2.2, Or.inl h2.1, fun h => (hfalse h).elim⟩
  · have hd : connected K s = false := by simpa using hc
    unfold drm_crtc_thread_body
    rw [drm_crtc_update_offsets_disconnected K s cs hd]
    simp only [show ((-1 : Int) < 0) from by decide, if_true]
    have h0 : worker_keeps s
        { s with
          crtc := { s.crtc with width := (resolution K s).1, height := (resolution K s).2 }
          log := Event.drmModeGetCrtc s.crtc.crtc_id :: s.log } :=
      ⟨rfl, fun h => h⟩
    have hu := drm_crtc_update_cursor_keeps K
      { s with
        crtc := { s.crtc with width := (resolution K s).1, height := (resolution K s).2 }
        log := Event.drmModeGetCrtc s.crtc.crtc_id :: s.log } none
    unfold drm_crtc_disable_cursor
    rcases hr : drm_crtc_update_cursor K
      { s with
        crtc := { s.crtc with width := (resolution K s).1, height := (resolution K s).2 }
        log := Event.drmModeGetCrtc s.crtc.crtc_id :: s.log } none with ⟨r, s2⟩
    rw [hr] at hu
    simp only [] at hu ⊢
    have h2 : worker_keeps s2 { s2 with crtc := { s2.crtc with cursor_curr := cs } } :=
      ⟨rfl, fun h => h⟩
    have h3 := worker_keeps_trans (worker_keeps_trans h0 hu) h2
    exact ⟨h3.2, Or.inl h3.1, fun _ => h3.1⟩

/-- A turn of the worker: as the loop body, from the world before the drain. -/
theorem drm_crtc_thread_turn_keeps (K : Kernel) (s : World) (f : flow)
    (hturn : drm_crtc_thread_turn K s = some f) :
    (s.ctx.atomic = 0 → f.world.ctx.atomic = 0) ∧
    (f.world.crtc.verified = s.crtc.verified ∨ verified_by s f) ∧
    (connected K s = false → f.world.crtc.verified = s.crtc.verified) := by
  obtain ⟨_, hf⟩ := drm_crtc_thread_turn_pending K s f hturn
  have hb := drm_crtc_thread_body_keeps K
    { s with crtc := { s.crtc with
        cursor_next := { s.crtc.cursor_next with request := 0 }
        state := drm_thread_state.IDLE } } s.crtc.cursor_next
  rw [← hf] at hb
  exact hb

/-- One iteration of the worker, with the label `next` or the `error` path. -/
theorem drm_crtc_thread_iter_keeps (K : Kernel) (s s1 : World)
    (h : drm_crtc_thread_iter K s = some s1) :
    (s.ctx.atomic = 0 → s1.ctx.atomic = 0) ∧
    (s.crtc.verified = true → s1.crtc.verified = true) := by
  unfold drm_crtc_thread_iter at h
  cases ht : drm_crtc_thread_turn K s with
  | none =>
    rw [ht] at h
    cases h
  | some f =>
    rw [ht] at h
    have hk := drm_crtc_thread_turn_keeps K s f ht
    have hv : s.crtc.verified = true → f.world.crtc.verified = true := by
      intro hv
      rcases hk.2.1 with h1 | h1
      · rw [h1]
        exact hv
      · exact h1.2.1
    cases f with
    | fallthrough s2 cs2 =>
      simp only [Option.some.injEq] at h
      have hn := drm_crtc_thread_next_keeps K s2
      rw [h] at hn
      exact ⟨fun ha => hn.2 (hk.1 ha), fun hs => by
        rw [hn.1]
        exact hv hs⟩
    | goto_next s2 =>
      simp only [Option.some.injEq] at h
      have hn := drm_crtc_thread_next_keeps K s2
      rw [h] at hn
      exact ⟨fun ha => hn.2 (hk.1 ha), fun hs => by
        rw [hn.1]
        exact hv hs⟩
    | goto_error s2 =>
      simp only [Option.some.injEq] at h
      have hn := drm_crtc_thread_error_keeps K s2
      rw [h] at hn
      exact ⟨fun ha => hn.2 (hk.1 ha), fun hs => by
        rw [hn.1]
        exact hv hs⟩

theorem drm_crtc_thread_start_keeps (K : Kernel) (s : World) :
    worker_keeps s (drm_crtc_thread_start K s) := by
  unfold drm_crtc_thread_start
  by_cases hcp : s.plane.cursor_plane = false
  · rw [if_pos hcp]
    cases hq : K.drmModeObjectGetProperties (Event.drmSetClientCap_ATOMIC :: s.log)
        s.plane.plane_id with
    | none =>
      simp only []
      exact drm_crtc_thread_error_keeps K
        { s with log := Event.drmModeObjectGetProperties s.plane.plane_id ::
            Event.drmSetClientCap_ATOMIC :: s.log }
    | some props =>
      simp only []
      exact ⟨rfl, fun h => h⟩
  · rw [if_neg hcp]
    exact ⟨rfl, fun h => h⟩

theorem World.sys_keeps (sys : Sys) (i : Nat) (p : drm_plane) (s1 : World)
    (hi : i < sys.ctx.crtcs.length) (hlen : s1.ctx.crtcs.length = sys.ctx.crtcs.length)
    (hothers : ∀ j, j ≠ i → (s1.sys i).crtc j = sys.crtc j)
    (ha : sys.ctx.atomic = 0 → s1.ctx.atomic = 0)
    (hv : (sys.world i p).crtc.verified = true → s1.crtc.verified = true) :
    Sys.keeps sys (s1.sys i) := by
  refine ⟨ha, fun j hj => ?_⟩
  by_cases hji : j = i
  · rw [hji] at hj ⊢
    unfold World.sys
    rw [Sys.crtc_set_crtc, if_pos ⟨rfl, by
      show i < s1.ctx.crtcs.length
      omega⟩]
    exact hv hj
  · rw [hothers j hji]
    exact hj

/-- One scheduling of a worker keeps a cleared `ctx->atomic` cleared and every
set `verified` flag set. -/
theorem drm_crtc_thread_step_keeps (K : Kernel) (sys : Sys) (i : Nat) :
    Sys.keeps sys (drm_crtc_thread_step K sys i) := by
  have hrefl : Sys.keeps sys sys := ⟨fun h => h, fun _ h => h⟩
  have hstep := drm_crtc_thread_step_spec K sys i
  unfold drm_crtc_thread_step at hstep ⊢
  cases hp : (sys.crtc i).plane with
  | none => exact hrefl
  | some p =>
    have hi : i < sys.ctx.crtcs.length := by
      by_contra hi
      rw [Sys.crtc_of_ge _ _ (by omega)] at hp
      cases hp
    rw [hp] at hstep
    simp only [] at hstep ⊢
    cases ht : (sys.crtc i).thread with
    | absent => exact hrefl
    | returned => exact hrefl
    | created =>
      rw [ht] at hstep
      simp only [] at hstep
      have hk := drm_crtc_thread_start_keeps K (sys.world i p)
      have hlen : (drm_crtc_thread_start K (sys.world i p)).ctx.crtcs.length =
          sys.ctx.crtcs.length := by
        rw [(drm_crtc_thread_start_frame K (sys.world i p)).ctx]
        rfl
      exact World.sys_keeps sys i p _ hi hlen hstep.others hk.2 (fun hv => by
        rw [hk.1]
        exact hv)
    | looping =>
      rw [ht] at hstep
      simp only [] at hstep ⊢
      cases hit : drm_crtc_thread_iter K (sys.world i p) with
      | none => exact hrefl
      | some s1 =>
        rw [hit] at hstep
        simp only [] at hstep
        have hk := drm_crtc_thread_iter_keeps K (sys.world i p) s1 hit
        have hlen : s1.ctx.crtcs.length = sys.ctx.crtcs.length := by
          rw [(drm_crtc_thread_iter_frame K (sys.world i p) s1 hit).ctx]
          rfl
        exact World.sys_keeps sys i p s1 hi hlen hstep.others hk.1 hk.2

theorem caller_keeps_refl (sys : Sys) : caller_keeps sys sys := ⟨rfl, fun _ => rfl⟩

theorem caller_keeps_trans {a b c : Sys} (h1 : caller_keeps a b) (h2 : caller_keeps b c) :
    caller_keeps a c := ⟨h2.1.trans h1.1, fun j => (h2.2 j).trans (h1.2 j)⟩

theorem caller_keeps_of_step {i : Nat} {sys sys1 : Sys} (h : caller_step i sys sys1) :
    caller_keeps sys sys1 := by
  refine ⟨by rw [h.ctx], fun j => ?_⟩
  by_cases hj : j = i
  · rw [hj, h.at_i]
  · rw [h.others j hj]

theorem caller_keeps_of_enqueue (sys : Sys) (i : Nat) (c : drm_crtc)
    (hc : c.verified = (sys.crtc i).verified) : caller_keeps sys (sys.set_crtc i c) := by
  refine ⟨rfl, fun j => ?_⟩
  rw [Sys.crtc_set_crtc]
  by_cases hj : j = i ∧ i < sys.ctx.crtcs.length
  · rw [if_pos hj, hj.1]
    exact hc
  · rw [if_neg hj]

/-- The public operation `drm_move_cursor` changes neither `ctx->atomic` nor a
`verified` flag. -/
theorem drm_move_cursor_keeps (K : Kernel) (sys : Sys) (crtc_id : Nat) (x y : Int) :
    caller_keeps sys (drm_move_cursor K sys crtc_id x y).2 := by
  unfold drm_move_cursor
  by_cases hh : sys.ctx.hide ≠ 0
  · rw [if_pos hh]
    exact caller_keeps_refl sys
  · rw [if_neg hh]
    have hg := caller_keeps_of_step (drm_get_crtc_spec K sys crtc_id 0).1
    rcases hr : drm_get_crtc K sys crtc_id with ⟨o, sys1⟩
    rw [hr] at hg
    simp only [] at hg
    cases o with
    | none => exact hg
    | some i =>
      simp only []
      by_cases he : (sys1.crtc i).state = drm_thread_state.ERROR
      · rw [if_pos he]
        exact hg
      · rw [if_neg he]
        have hp := caller_keeps_of_step (drm_crtc_prepare_step K sys1 i).1
        rcases hr2 : drm_crtc_prepare K sys1 i with ⟨r, sys2⟩
        rw [hr2] at hp
        simp only [] at hp ⊢
        have h12 := caller_keeps_trans hg hp
        by_cases hneg : r < 0
        · rw [if_pos hneg]
          exact h12
        · rw [if_neg hneg]
          by_cases hw : (sys2.crtc i).width ≤ 0 ∨ (sys2.crtc i).height ≤ 0
          · rw [if_pos hw]
            exact h12
          · rw [if_neg hw]
            by_cases he2 : (sys2.crtc i).state = drm_thread_state.ERROR
            · rw [if_pos he2]
              exact h12
            · rw [if_neg he2]
              exact caller_keeps_trans h12 (caller_keeps_of_enqueue sys2 i _ rfl)

/-- The public operation `drm_set_cursor`, up to its wait loop, changes neither
`ctx->atomic` nor a `verified` flag. -/
theorem drm_set_cursor_keeps (K : Kernel) (sys : Sys) (crtc_id handle width height : Nat) :
    caller_keeps sys (drm_set_cursor K sys crtc_id handle width height).2 := by
  unfold drm_set_cursor
  by_cases hh : sys.ctx.hide ≠ 0
  · rw [if_pos hh]
    exact caller_keeps_refl sys
  · rw [if_neg hh]
    have hg := caller_keeps_of_step (drm_get_crtc_spec K sys crtc_id 0).1
    rcases hr : drm_get_crtc K sys crtc_id with ⟨o, sys1⟩
    rw [hr] at hg
    simp only [] at hg
    cases o with
    | none => exact hg
    | some i =>
      simp only []
      by_cases he : (sys1.crtc i).state = drm_thread_state.ERROR
      · rw [if_pos he]
        exact hg
      · rw [if_neg he]
        have hp := caller_keeps_of_step (drm_crtc_prepare_step K sys1 i).1
        rcases hr2 : drm_crtc_prepare K sys1 i with ⟨r, sys2⟩
        rw [hr2] at hp
        simp only [] at hp ⊢
        have h12 := caller_keeps_trans hg hp
        by_cases hneg : r < 0
        · rw [if_pos hneg]
          exact h12
        · rw [if_neg hneg]
          by_cases he2 : (sys2.crtc i).state = drm_thread_state.ERROR
          · rw [if_pos he2]
            exact h12
          · rw [if_neg he2]
            exact caller_keeps_trans h12 (caller_keeps_of_enqueue sys2 i _ rfl)

theorem Sys.keeps_of_caller {sys sys1 : Sys} (h : caller_keeps sys sys1) : Sys.keeps sys sys1 :=
  ⟨fun h0 => h.1.trans h0, fun j hj => (h.2 j).trans hj⟩

/-- Every action keeps a cleared `ctx->atomic` cleared and every set
`verified` flag set. -/
theorem Action.step_keeps (K : Kernel) (sys : Sys) (a : Action) : Sys.keeps sys (a.step K sys) := by
  cases a with
  | SetCursor crtc_id handle width height =>
    exact Sys.keeps_of_caller (drm_set_cursor_keeps K sys crtc_id handle width height)
  | MoveCursor crtc_id x y => exact Sys.keeps_of_caller (drm_move_cursor_keeps K sys crtc_id x y)
  | Worker i => exact drm_crtc_thread_step_keeps K sys i

theorem run_keeps (K : Kernel) (actions : List Action) (sys : Sys) :
    Sys.keeps sys (run K sys actions) := by
  induction actions generalizing sys with
  | nil => exact ⟨fun h => h, fun _ h => h⟩
  | cons a rest ih =>
    have h1 := Action.step_keeps K sys a
    have h2 := ih (a.step K sys)
    exact ⟨fun h => h2.1 (h1.1 h), fun j hj => h2.2 j (h1.2 j hj)⟩

/-! ## Calls outside the commit layer build no atomic transaction -/

theorem drm_update_crtc_quiet (K : Kernel) (crtc : drm_crtc) (log : List Event) :
    transaction_calls (drm_update_crtc K crtc log).2.2 = transaction_calls log := by
  rw [(drm_update_crtc_spec K crtc log).1]
  exact transaction_calls_cons_other _ _ rfl

theorem drm_get_crtc_loop_quiet (K : Kernel) (crtc_id : Nat) (n i : Nat) (sys : Sys) :
    transaction_calls (drm_get_crtc_loop K crtc_id n i sys).2.log = transaction_calls sys.log := by
  induction n generalizing i sys with
  | zero => rfl
  | succ n ih =>
    unfold drm_get_crtc_loop
    by_cases hid : crtc_id = 0
    · rw [if_pos hid]
      have ho := drm_update_crtc_quiet K (sys.crtc i) sys.log
      rcases hr : drm_update_crtc K (sys.crtc i) sys.log with ⟨r, crtc1, log1⟩
      rw [hr] at ho
      simp only [] at ho ⊢
      by_cases hneg : r < 0
      · rw [if_pos hneg, ih]
        exact ho
      · rw [if_neg hneg]
        by_cases hb : crtc1.blocked = true
        · rw [if_pos hb, ih]
          exact ho
        · rw [if_neg hb]
          exact ho
    · rw [if_neg hid]
      by_cases hb : (sys.crtc i).blocked = true
      · rw [if_pos hb]
        exact ih _ _
      · rw [if_neg hb]
        by_cases he : (sys.crtc i).crtc_id = crtc_id
        · rw [if_pos he]
        · rw [if_neg he]
          exact ih _ _

theorem drm_plane_get_prop_value_quiet (K : Kernel) (plane : drm_plane) (p : drm_plane_prop)
    (log : List Event) :
    transaction_calls (drm_plane_get_prop_value K plane p log).2.2.2 = transaction_calls log := by
  unfold drm_plane_get_prop_value
  have hf := drm_plane_get_prop_calls K plane p log
  rcases hs : drm_plane_get_prop K plane p log with ⟨idx, plane1, log1⟩
  rw [hs] at hf
  simp only []
  by_cases hi : idx < 0
  · rw [if_pos hi]
    exact hf.2.1
  · rw [if_neg hi]
    exact hf.2.1

theorem drm_plane_update_format_quiet (K : Kernel) (plane : drm_plane) (log : List Event) :
    transaction_calls (drm_plane_update_format K plane log).2 = transaction_calls log := by
  unfold drm_plane_update_format
  simp only []
  by_cases hf : plane.plane.formats.indexOf DRM_FORMAT_ARGB8888 = plane.plane.formats.length
  · rw [if_pos hf]
  · rw [if_neg hf]
    have hv := drm_plane_get_prop_value_quiet K
      { plane with can_afbc := false, can_linear := false } drm_plane_prop.IN_FORMATS log
    rcases hs : drm_plane_get_prop_value K
      { plane with can_afbc := false, can_linear := false } drm_plane_prop.IN_FORMATS log
      with ⟨r, value, plane1, log1⟩
    rw [hs] at hv
    simp only [] at hv ⊢
    by_cases hr : r < 0
    · rw [if_pos hr]
      exact hv
    · rw [if_neg hr]
      cases hb : K.drmModeGetPropertyBlob log1 (value % 4294967296) with
      | none =>
        simp only []
        exact (transaction_calls_cons_other _ _ (by rfl)).trans hv
      | some header =>
        simp only []
        split_ifs
        · exact (transaction_calls_cons_other _ _ (by rfl)).trans hv
        · exact (transaction_calls_cons_other _ _ (by rfl)).trans hv
        · exact (transaction_calls_cons_other _ _ (by rfl)).trans hv

theorem drm_get_plane_quiet (K : Kernel) (plane_id : Nat) (log : List Event) :
    transaction_calls (drm_get_plane K plane_id log).2 = transaction_calls log := by
  unfold drm_get_plane
  cases hp : K.drmModeGetPlane log plane_id with
  | none =>
    simp only []
    exact transaction_calls_cons_other _ _ rfl
  | some pl =>
    simp only []
    cases hq : K.drmModeObjectGetProperties (Event.drmModeGetPlane plane_id :: log) plane_id with
    | none =>
      simp only []
      rw [transaction_calls_cons_other _ _ (by rfl), transaction_calls_cons_other _ _ (by rfl)]
    | some props =>
      simp only []
      have hu := drm_plane_update_format_quiet K
        { plane_id := plane_id, cursor_plane := false, can_afbc := false, can_linear := false,
          plane := pl, props := props, prop_ids := List.replicate 15 0 }
        (Event.drmModeObjectGetProperties plane_id :: Event.drmModeGetPlane plane_id :: log)
      rcases hr : drm_plane_update_format K
        { plane_id := plane_id, cursor_plane := false, can_afbc := false, can_linear := false,
          plane := pl, props := props, prop_ids := List.replicate 15 0 }
        (Event.drmModeObjectGetProperties plane_id :: Event.drmModeGetPlane plane_id :: log)
        with ⟨plane, log1⟩
      rw [hr] at hu
      simp only [] at hu ⊢
      rw [hu, transaction_calls_cons_other _ _ (by rfl), transaction_calls_cons_other _ _ (by rfl)]

theorem drm_crtc_bind_plane_quiet (K : Kernel) (sys : Sys) (i plane_id : Nat)
    (allow_overlay : Bool) :
    transaction_calls (drm_crtc_bind_plane K sys i plane_id allow_overlay).2.log =
      transaction_calls sys.log := by
  unfold drm_crtc_bind_plane
  by_cases hb : (sys.crtc i).plane.isSome = true
  · rw [if_pos hb]
  · rw [if_neg hb]
    by_cases hany : sys.ctx.crtcs.any (fun c => c.has_plane_id plane_id) = true
    · rw [if_pos hany]
    · rw [if_neg hany]
      have hg := drm_get_plane_quiet K plane_id sys.log
      rcases hr : drm_get_plane K plane_id sys.log with ⟨o, log1⟩
      rw [hr] at hg
      simp only [] at hg
      cases o with
      | none => exact hg
      | some plane =>
        simp only []
        by_cases h1 : plane.can_afbc = false ∧ plane.can_linear = false
        · rw [if_pos h1]
          exact hg
        · rw [if_neg h1]
          by_cases h2 : Nat.land plane.plane.possible_crtcs (1 <<< (sys.crtc i).crtc_pipe) = 0
          · rw [if_pos h2]
            exact hg
          · rw [if_neg h2]
            have hv := drm_plane_get_prop_value_quiet K plane drm_plane_prop.type log1
            rcases hr2 : drm_plane_get_prop_value K plane drm_plane_prop.type log1
              with ⟨r, value, plane1, log2⟩
            rw [hr2] at hv
            simp only [] at hv ⊢
            have hobs : transaction_calls log2 = transaction_calls sys.log := hv.trans hg
            by_cases h3 : r < 0
            · rw [if_pos h3]
              exact hobs
            · rw [if_neg h3]
              by_cases h4 : value = DRM_PLANE_TYPE_PRIMARY
              · rw [if_pos h4]
                exact hobs
              · rw [if_neg h4]
                by_cases h5 : allow_overlay = false ∧ value = DRM_PLANE_TYPE_OVERLAY
                · rw [if_pos h5]
                  exact hobs
                · rw [if_neg h5]
                  exact hobs

theorem drm_crtc_prepare_try_quiet (K : Kernel) (i : Nat) (allow_overlay : Bool) (sys : Sys)
    (plane_id : Nat) :
    transaction_calls (drm_crtc_prepare_try K i allow_overlay sys plane_id).log =
      transaction_calls sys.log := by
  unfold drm_crtc_prepare_try
  split_ifs
  · rfl
  · exact drm_crtc_bind_plane_quiet K sys i plane_id allow_overlay

theorem drm_crtc_prepare_tries_quiet (K : Kernel) (i : Nat) (allow_overlay : Bool)
    (planes : List Nat) (sys : Sys) :
    transaction_calls (planes.foldl (drm_crtc_prepare_try K i allow_overlay) sys).log =
      transaction_calls sys.log := by
  induction planes generalizing sys with
  | nil => rfl
  | cons plane_id rest ih =>
    rw [List.foldl_cons, ih]
    exact drm_crtc_prepare_try_quiet K i allow_overlay sys plane_id

theorem drm_crtc_prepare_quiet (K : Kernel) (sys : Sys) (i : Nat) :
    transaction_calls (drm_crtc_prepare K sys i).2.log = transaction_calls sys.log := by
  unfold drm_crtc_prepare
  simp only []
  have h1 : transaction_calls
      (if (sys.crtc i).width ≤ 0 ∨ (sys.crtc i).height ≤ 0 then
        match drm_update_crtc K (sys.crtc i) sys.log with
        | (_, crtc1, log1) => ({ sys with log := log1 } : Sys).set_crtc i crtc1
      else sys).log = transaction_calls sys.log := by
    split_ifs
    · have ho := drm_update_crtc_quiet K (sys.crtc i) sys.log
      rcases hr : drm_update_crtc K (sys.crtc i) sys.log with ⟨r, crtc1, log1⟩
      rw [hr] at ho
      exact ho
    · rfl
  generalize (if (sys.crtc i).width ≤ 0 ∨ (sys.crtc i).height ≤ 0 then
        match drm_update_crtc K (sys.crtc i) sys.log with
        | (_, crtc1, log1) => ({ sys with log := log1 } : Sys).set_crtc i crtc1
      else sys) = sys1 at h1 ⊢
  by_cases hb : (sys1.crtc i).plane.isSome = true
  · rw [if_pos hb]
    exact h1
  · rw [if_neg hb]
    have h2 : transaction_calls
        (if (sys1.crtc i).prefer_plane_id ≠ 0 then
          (drm_crtc_bind_plane K sys1 i (sys1.crtc i).prefer_plane_id true).2
        else sys1).log = transaction_calls sys1.log := by
      split_ifs
      · exact drm_crtc_bind_plane_quiet K sys1 i _ true
      · rfl
    generalize (if (sys1.crtc i).prefer_plane_id ≠ 0 then
          (drm_crtc_bind_plane K sys1 i (sys1.crtc i).prefer_plane_id true).2
        else sys1) = sys2 at h2 ⊢
    have h3 := drm_crtc_prepare_tries_quiet K i false sys2.ctx.planes sys2
    generalize sys2.ctx.planes.foldl (drm_crtc_prepare_try K i false) sys2 = sys3 at h3 ⊢
    have h4 : transaction_calls
        (if sys3.ctx.allow_overlay ≠ 0 then
          sys3.ctx.planes.reverse.foldl (drm_crtc_prepare_try K i true) sys3
        else sys3).log = transaction_calls sys3.log := by
      split_ifs
      · exact drm_crtc_prepare_tries_quiet K i true _ sys3
      · rfl
    generalize (if sys3.ctx.allow_overlay ≠ 0 then
          sys3.ctx.planes.reverse.foldl (drm_crtc_prepare_try K i true) sys3
        else sys3) = sys4 at h4 ⊢
    have h14 := ((h4.trans h3).trans h2).trans h1
    by_cases hn : (sys4.crtc i).plane.isNone = true
    · rw [if_pos hn]
      exact h14
    · rw [if_neg hn]
      show transaction_calls (Event.pthread_create (sys4.crtc i).crtc_id :: sys4.log) = _
      rw [transaction_calls_cons_other _ _ (by rfl)]
      exact h14

theorem drm_move_cursor_quiet (K : Kernel) (sys : Sys) (crtc_id : Nat) (x y : Int) :
    transaction_calls (drm_move_cursor K sys crtc_id x y).2.log = transaction_calls sys.log := by
  unfold drm_move_cursor
  by_cases hh : sys.ctx.hide ≠ 0
  · rw [if_pos hh]
  · rw [if_neg hh]
    have hg : transaction_calls (drm_get_crtc K sys crtc_id).2.log = transaction_calls sys.log :=
      drm_get_crtc_loop_quiet K crtc_id _ 0 sys
    rcases hr : drm_get_crtc K sys crtc_id with ⟨o, sys1⟩
    rw [hr] at hg
    simp only [] at hg
    cases o with
    | none => exact hg
    | some i =>
      simp only []
      by_cases he : (sys1.crtc i).state = drm_thread_state.ERROR
      · rw [if_pos he]
        exact hg
      · rw [if_neg he]
        have hp := drm_crtc_prepare_quiet K sys1 i
        rcases hr2 : drm_crtc_prepare K sys1 i with ⟨r, sys2⟩
        rw [hr2] at hp
        simp only [] at hp ⊢
        have h12 := hp.trans hg
        by_cases hneg : r < 0
        · rw [if_pos hneg]
          exact h12
        · rw [if_neg hneg]
          by_cases hw : (sys2.crtc i).width ≤ 0 ∨ (sys2.crtc i).height ≤ 0
          · rw [if_pos hw]
            exact h12
          · rw [if_neg hw]
            by_cases he2 : (sys2.crtc i).state = drm_thread_state.ERROR
            · rw [if_pos he2]
              exact h12
            · rw [if_neg he2]
              exact h12

theorem drm_set_cursor_quiet (K : Kernel) (sys : Sys) (crtc_id handle width height : Nat) :
    transaction_calls (drm_set_cursor K sys crtc_id handle width height).2.log =
      transaction_calls sys.log := by
  unfold drm_set_cursor
  by_cases hh : sys.ctx.hide ≠ 0
  · rw [if_pos hh]
  · rw [if_neg hh]
    have hg : transaction_calls (drm_get_crtc K sys crtc_id).2.log = transaction_calls sys.log :=
      drm_get_crtc_loop_quiet K crtc_id _ 0 sys
    rcases hr : drm_get_crtc K sys crtc_id with ⟨o, sys1⟩
    rw [hr] at hg
    simp only [] at hg
    cases o with
    | none => exact hg
    | some i =>
      simp only []
      by_cases he : (sys1.crtc i).state = drm_thread_state.ERROR
      · rw [if_pos he]
        exact hg
      · rw [if_neg he]
        have hp := drm_crtc_prepare_quiet K sys1 i
        rcases hr2 : drm_crtc_prepare K sys1 i with ⟨r, sys2⟩
        rw [hr2] at hp
        simp only [] at hp ⊢
        have h12 := hp.trans hg
        by_cases hneg : r < 0
        · rw [if_pos hneg]
          exact h12
        · rw [if_neg hneg]
          by_cases he2 : (sys2.crtc i).state = drm_thread_state.ERROR
          · rw [if_pos he2]
            exact h12
          · rw [if_neg he2]
            exact h12

/-! ## With `ctx->atomic` cleared the worker builds no atomic transaction -/

theorem legacy_only_refl (s : World) : legacy_only s s := fun h => ⟨h, rfl⟩

theorem legacy_only_trans {a b c : World} (h1 : legacy_only a b) (h2 : legacy_only b c) :
    legacy_only a c := fun h =>
  ⟨(h2 (h1 h).1).1, (h2 (h1 h).1).2.trans (h1 h).2⟩

theorem legacy_only_of_log (s : World) (e : Event) (he : e.is_transaction = false) :
    legacy_only s { s with log := e :: s.log } := fun h =>
  ⟨h, transaction_calls_cons_other _ _ he⟩

/-- With `ctx->atomic` cleared, `drm_set_plane` makes the legacy call and
nothing else. -/
theorem drm_set_plane_cleared (K : Kernel) (s : World) (fb : Nat) (x y w h : Int)
    (ha : s.ctx.atomic = 0) :
    (drm_set_plane K s fb x y w h).2.log =
      drm_set_plane_legacy_call s fb x y w h ::
        Event.drm_set_plane s.plane.plane_id fb x y w h :: s.log ∧
    (drm_set_plane K s fb x y w h).2.ctx = s.ctx := by
  unfold drm_set_plane
  rw [if_pos (Or.inr (Or.inr ha))]
  have hl := drm_set_plane_legacy_calls K
    { s with log := Event.drm_set_plane s.plane.plane_id fb x y w h :: s.log } 0 fb x y w h
  exact ⟨hl.2.1, hl.2.2.2.2.2 (by decide)⟩

theorem drm_set_plane_legacy_only (K : Kernel) (s : World) (fb : Nat) (x y w h : Int) :
    legacy_only s (drm_set_plane K s fb x y w h).2 := by
  intro ha
  have hc := drm_set_plane_cleared K s fb x y w h ha
  refine ⟨by rw [hc.2]; exact ha, ?_⟩
  rw [hc.1]
  unfold drm_set_plane_legacy_call
  rw [transaction_calls_cons_other _ _ (by rfl), transaction_calls_cons_other _ _ (by rfl)]

theorem drm_crtc_update_cursor_legacy_only (K : Kernel) (s : World)
    (o : Option drm_cursor_state) : legacy_only s (drm_crtc_update_cursor K s o).2 := by
  unfold drm_crtc_update_cursor
  cases o with
  | none =>
    simp only []
    by_cases hfb : s.crtc.cursor_curr.fb ≠ 0
    · rw [if_pos hfb]
      have hp := drm_set_plane_legacy_only K s 0 0 0 0 0
      rcases hs : drm_set_plane K s 0 0 0 0 0 with ⟨ret, s1⟩
      rw [hs] at hp
      simp only [] at hp ⊢
      intro ha
      exact ⟨(hp ha).1, (transaction_calls_cons_other _ _ (by rfl)).trans (hp ha).2⟩
    · rw [if_neg hfb]
      exact fun ha => ⟨ha, rfl⟩
  | some cs =>
    simp only []
    by_cases hu : s.crtc.cursor_curr.fb = cs.fb ∧ s.crtc.cursor_curr.x = cs.x ∧
        s.crtc.cursor_curr.y = cs.y ∧ s.crtc.cursor_curr.off_x = cs.off_x ∧
        s.crtc.cursor_curr.off_y = cs.off_y
    · rw [if_pos hu]
      exact fun ha => ⟨ha, rfl⟩
    · rw [if_neg hu]
      have hp := drm_set_plane_legacy_only K s cs.fb (cs.x - cs.off_x) (cs.y - cs.off_y)
        cs.width cs.height
      rcases hs : drm_set_plane K s cs.fb (cs.x - cs.off_x) (cs.y - cs.off_y) cs.width cs.height
        with ⟨ret, s1⟩
      rw [hs] at hp
      simp only [] at hp ⊢
      intro ha
      by_cases hr : s.crtc.cursor_curr.fb ≠ 0 ∧ s.crtc.cursor_curr.fb ≠ cs.fb
      · rw [if_pos hr]
        exact ⟨(hp ha).1, (transaction_calls_cons_other _ _ (by rfl)).trans (hp ha).2⟩
      · rw [if_neg hr]
        exact hp ha

theorem drm_crtc_create_fb_legacy_only (K : Kernel) (s : World) (cs : drm_cursor_state) :
    legacy_only s (drm_crtc_create_fb K s cs).2.1 := by
  have hlog : transaction_calls (create_fb_log s cs) = transaction_calls s.log := by
    unfold create_fb_log
    by_cases he : s.crtc.egl_ctx = false
    · rw [if_pos he]
      exact transaction_calls_cons_other _ _ (by rfl)
    · rw [if_neg he]
  by_cases hi : create_fb_init_fails K s cs = true
  · rw [drm_crtc_create_fb_init_fails K s cs hi]
    exact fun ha => ⟨ha, hlog⟩
  · rw [drm_crtc_create_fb_converts K s cs (by simpa using hi)]
    exact fun ha => ⟨ha, (transaction_calls_cons_other _ _ (by rfl)).trans hlog⟩

theorem create_then_update_legacy_only (K : Kernel) (s : World) (cs : drm_cursor_state) :
    legacy_only s
      (match drm_crtc_create_fb K s cs with
        | (r, s1, cs2) =>
          if r < 0 then flow.goto_error s1
          else
            match drm_crtc_update_cursor K s1 (some cs2) with
            | (r2, s2) => if r2 < 0 then flow.goto_error s2
              else flow.fallthrough s2 cs2).world := by
  have hc := drm_crtc_create_fb_legacy_only K s cs
  rcases hr : drm_crtc_create_fb K s cs with ⟨r, s1, cs2⟩
  rw [hr] at hc
  simp only [] at hc ⊢
  by_cases hneg : r < 0
  · rw [if_pos hneg]
    exact hc
  · rw [if_neg hneg]
    have hu := drm_crtc_update_cursor_legacy_only K s1 (some cs2)
    rcases hr2 : drm_crtc_update_cursor K s1 (some cs2) with ⟨r2, s2⟩
    rw [hr2] at hu
    simp only [] at hu ⊢
    rw [flow_branch_world]
    exact legacy_only_trans hc hu

theorem drm_crtc_thread_handle_set_legacy_only (K : Kernel) (s : World)
    (cs : drm_cursor_state) : legacy_only s (drm_crtc_thread_handle_set K s cs).world := by
  unfold drm_crtc_thread_handle_set
  by_cases hm : int_and cs.request REQ_SET_CURSOR ≠ 0
  · rw [if_pos hm]
    simp only []
    by_cases hh : cs.handle = 0
    · rw [if_pos hh]
      exact drm_crtc_update_cursor_legacy_only K s none
    · rw [if_neg hh]
      exact create_then_update_legacy_only K s _
  · rw [if_neg hm]
    exact legacy_only_refl s

theorem drm_crtc_thread_handle_move_legacy_only (K : Kernel) (s : World)
    (cs : drm_cursor_state) : legacy_only s (drm_crtc_thread_handle_move K s cs).world := by
  unfold drm_crtc_thread_handle_move
  by_cases hm : int_and cs.request REQ_MOVE_CURSOR ≠ 0
  · rw [if_pos hm]
    simp only []
    by_cases hh : s.crtc.cursor_curr.handle = 0
    · rw [if_pos hh]
      exact fun ha => ⟨ha, rfl⟩
    · rw [if_neg hh]
      by_cases hoff : s.crtc.cursor_curr.off_x ≠ cs.off_x ∨ s.crtc.cursor_curr.off_y ≠ cs.off_y
      · rw [if_pos hoff]
        exact create_then_update_legacy_only K s _
      · rw [if_neg hoff]
        have hu := drm_crtc_update_cursor_legacy_only K s
          (some { cs with request := int_and cs.request (int_not REQ_MOVE_CURSOR),
                          fb := s.crtc.cursor_curr.fb })
        rcases hr2 : drm_crtc_update_cursor K s
          (some { cs with request := int_and cs.request (int_not REQ_MOVE_CURSOR),
                          fb := s.crtc.cursor_curr.fb }) with ⟨r2, s2⟩
        rw [hr2] at hu
        simp only []
        rw [flow_branch_world]
        exact hu
  · rw [if_neg hm]
    exact legacy_only_refl s

theorem drm_crtc_thread_verify_legacy_only (s : World) :
    legacy_only s (drm_crtc_thread_verify s) := by
  unfold drm_crtc_thread_verify
  split_ifs
  · exact fun ha => ⟨ha, rfl⟩
  · exact legacy_only_refl s

theorem drm_crtc_thread_body_legacy_only (K : Kernel) (s : World) (cs : drm_cursor_state) :
    legacy_only s (drm_crtc_thread_body K s cs).world := by
  have h0 : legacy_only s
      { s with
        crtc := { s.crtc with width := (resolution K s).1, height := (resolution K s).2 }
        log := Event.drmModeGetCrtc s.crtc.crtc_id :: s.log } :=
    fun ha => ⟨ha, transaction_calls_cons_other _ _ (by rfl)⟩
  by_cases hc : connected K s = true
  · rw [drm_crtc_thread_body_connected K s cs hc]
    have hs := drm_crtc_thread_handle_set_legacy_only K
      { s with
        crtc := { s.crtc with width := (resolution K s).1, height := (resolution K s).2 }
        log := Event.drmModeGetCrtc s.crtc.crtc_id :: s.log }
      (drm_crtc_clip_offsets (resolution K s).1 (resolution K s).2 cs)
    rcases hr : drm_crtc_thread_handle_set K
      { s with
        crtc := { s.crtc with width := (resolution K s).1, height := (resolution K s).2 }
        log := Event.drmModeGetCrtc s.crtc.crtc_id :: s.log }
      (drm_crtc_clip_offsets (resolution K s).1 (resolution K s).2 cs) with ⟨s2, cs2⟩ | s2 | s2
    · rw [hr] at hs
      simp only []
      have hm := drm_crtc_thread_handle_move_legacy_only K s2 cs2
      rcases hr2 : drm_crtc_thread_handle_move K s2 cs2 with ⟨s3, cs3⟩ | s3 | s3
      · rw [hr2] at hm
        exact legacy_only_trans (legacy_only_trans (legacy_only_trans h0 hs) hm)
          (drm_crtc_thread_verify_legacy_only s3)
      · rw [hr2] at hm
        exact legacy_only_trans (legacy_only_trans h0 hs) hm
      · rw [hr2] at hm
        exact legacy_only_trans (legacy_only_trans h0 hs) hm
    · rw [hr] at hs
      exact legacy_only_trans h0 hs
    · rw [hr] at hs
      exact legacy_only_trans h0 hs
  · have hd : connected K s = false := by simpa using hc
    unfold drm_crtc_thread_body
    rw [drm_crtc_update_offsets_disconnected K s cs hd]
    simp only [show ((-1 : Int) < 0) from by decide, if_true]
    have hu := drm_crtc_update_cursor_legacy_only K
      { s with
        crtc := { s.crtc with width := (resolution K s).1, height := (resolution K s).2 }
        log := Event.drmModeGetCrtc s.crtc.crtc_id :: s.log } none
    unfold drm_crtc_disable_cursor
    rcases hr : drm_crtc_update_cursor K
      { s with
        crtc := { s.crtc with width := (resolution K s).1, height := (resolution K s).2 }
        log := Event.drmModeGetCrtc s.crtc.crtc_id :: s.log } none with ⟨r, s2⟩
    rw [hr] at hu
    simp only [] at hu ⊢
    have h2 : legacy_only s2 { s2 with crtc := { s2.crtc with cursor_curr := cs } } :=
      fun ha => ⟨ha, rfl⟩
    exact legacy_only_trans (legacy_only_trans h0 hu) h2

theorem drm_crtc_thread_next_legacy_only (K : Kernel) (s : World) :
    legacy_only s (drm_crtc_thread_next K s) := by
  unfold drm_crtc_thread_next
  intro ha
  refine ⟨ha, ?_⟩
  simp only []
  rw [transaction_calls_cons_other _ _ (by rfl)]
  split_ifs
  · rw [transaction_calls_cons_other _ _ (by rfl), transaction_calls_cons_other _ _ (by rfl)]
  · rw [transaction_calls_cons_other _ _ (by rfl)]

theorem drm_crtc_thread_error_legacy_only (K : Kernel) (s : World) :
    legacy_only s (drm_crtc_thread_error K s) := by
  unfold drm_crtc_thread_error
  simp only []
  have h1 : legacy_only s
      (if s.crtc.egl_ctx = true then { s with log := Event.egl_free_ctx :: s.log } else s) := by
    split_ifs
    · exact legacy_only_of_log s _ (by rfl)
    · exact legacy_only_refl s
  generalize (if s.crtc.egl_ctx = true then { s with log := Event.egl_free_ctx :: s.log }
    else s) = s1 at h1 ⊢
  have h2 := drm_crtc_update_cursor_legacy_only K s1 none
  unfold drm_crtc_disable_cursor
  have h12 := legacy_only_trans h1 h2
  exact fun ha => ⟨(h12 ha).1, (h12 ha).2⟩

theorem drm_crtc_thread_iter_legacy_only (K : Kernel) (s s1 : World)
    (h : drm_crtc_thread_iter K s = some s1) : legacy_only s s1 := by
  unfold drm_crtc_thread_iter at h
  cases ht : drm_crtc_thread_turn K s with
  | none =>
    rw [ht] at h
    cases h
  | some f =>
    rw [ht] at h
    obtain ⟨_, hf⟩ := drm_crtc_thread_turn_pending K s f ht
    have hb := drm_crtc_thread_body_legacy_only K
      { s with crtc := { s.crtc with
          cursor_next := { s.crtc.cursor_next with request := 0 }
          state := drm_thread_state.IDLE } } s.crtc.cursor_next
    rw [← hf] at hb
    have hb2 : legacy_only s f.world := hb
    cases f with
    | fallthrough s2 cs2 =>
      simp only [Option.some.injEq] at h
      have hn := drm_crtc_thread_next_legacy_only K s2
      rw [h] at hn
      exact legacy_only_trans hb2 hn
    | goto_next s2 =>
      simp only [Option.some.injEq] at h
      have hn := drm_crtc_thread_next_legacy_only K s2
      rw [h] at hn
      exact legacy_only_trans hb2 hn
    | goto_error s2 =>
      simp only [Option.some.injEq] at h
      have hn := drm_crtc_thread_error_legacy_only K s2
      rw [h] at hn
      exact legacy_only_trans hb2 hn

theorem drm_plane_set_prop_max_quiet (K : Kernel) (plane : drm_plane) (p : drm_plane_prop)
    (log : List Event) :
    transaction_calls (drm_plane_set_prop_max K plane p log).2.2 = transaction_calls log := by
  unfold drm_plane_set_prop_max
  have hf := drm_plane_get_prop_calls K plane p log
  rcases hs : drm_plane_get_prop K plane p log with ⟨idx, plane1, log1⟩
  rw [hs] at hf
  simp only [] at hf ⊢
  by_cases hi : idx < 0
  · rw [if_pos hi]
    exact hf.2.1
  · rw [if_neg hi]
    cases K.drmModeGetProperty log1 (plane1.props.props.getD idx.toNat 0) with
    | none =>
      simp only []
      rw [transaction_calls_cons_other _ _ (by rfl)]
      exact hf.2.1
    | some prop =>
      simp only []
      rw [transaction_calls_cons_other _ _ (by rfl), transaction_calls_cons_other _ _ (by rfl)]
      exact hf.2.1

theorem drm_crtc_thread_start_legacy_only (K : Kernel) (s : World) :
    legacy_only s (drm_crtc_thread_start K s) := by
  unfold drm_crtc_thread_start
  by_cases hcp : s.plane.cursor_plane = false
  · rw [if_pos hcp]
    cases hq : K.drmModeObjectGetProperties (Event.drmSetClientCap_ATOMIC :: s.log)
        s.plane.plane_id with
    | none =>
      simp only []
      have h0 : legacy_only s
          { s with log := Event.drmModeObjectGetProperties s.plane.plane_id ::
              Event.drmSetClientCap_ATOMIC :: s.log } := fun ha =>
        ⟨ha, by
          show transaction_calls (_ :: _ :: s.log) = _
          rw [transaction_calls_cons_other _ _ (by rfl),
            transaction_calls_cons_other _ _ (by rfl)]⟩
      exact legacy_only_trans h0 (drm_crtc_thread_error_legacy_only K _)
    | some props =>
      simp only []
      have h1 := drm_plane_set_prop_max_quiet K { s.plane with props := props }
        drm_plane_prop.zpos (Event.drmModeObjectGetProperties s.plane.plane_id ::
          Event.drmSetClientCap_ATOMIC :: s.log)
      rcases hr1 : drm_plane_set_prop_max K { s.plane with props := props }
        drm_plane_prop.zpos (Event.drmModeObjectGetProperties s.plane.plane_id ::
          Event.drmSetClientCap_ATOMIC :: s.log) with ⟨r1, plane1, log1⟩
      rw [hr1] at h1
      simp only [] at h1 ⊢
      have h2 := drm_plane_set_prop_max_quiet K plane1 drm_plane_prop.ZPOS log1
      rcases hr2 : drm_plane_set_prop_max K plane1 drm_plane_prop.ZPOS log1
        with ⟨r2, plane2, log2⟩
      rw [hr2] at h2
      simp only [] at h2 ⊢
      have h3 := drm_plane_set_prop_max_quiet K plane2 drm_plane_prop.ASYNC_COMMIT log2
      rcases hr3 : drm_plane_set_prop_max K plane2 drm_plane_prop.ASYNC_COMMIT log2
        with ⟨r3, plane3, log3⟩
      rw [hr3] at h3
      simp only [] at h3 ⊢
      intro ha
      refine ⟨ha, ?_⟩
      show transaction_calls (Event.gettimeofday :: log3) = _
      rw [transaction_calls_cons_other _ _ (by rfl), h3, h2, h1,
        transaction_calls_cons_other _ _ (by rfl), transaction_calls_cons_other _ _ (by rfl)]
  · rw [if_neg hcp]
    exact fun ha => ⟨ha, transaction_calls_cons_other _ _ (by rfl)⟩

/-- With `ctx->atomic` cleared, a scheduling of a worker builds no atomic
transaction. -/
theorem drm_crtc_thread_step_quiet (K : Kernel) (sys : Sys) (i : Nat)
    (ha : sys.ctx.atomic = 0) :
    transaction_calls (drm_crtc_thread_step K sys i).log = transaction_calls sys.log := by
  unfold drm_crtc_thread_step
  cases hp : (sys.crtc i).plane with
  | none => rfl
  | some p =>
    simp only []
    cases ht : (sys.crtc i).thread with
    | absent => rfl
    | returned => rfl
    | created => exact (drm_crtc_thread_start_legacy_only K (sys.world i p) ha).2
    | looping =>
      simp only []
      cases hit : drm_crtc_thread_iter K (sys.world i p) with
      | none => rfl
      | some s1 => exact (drm_crtc_thread_iter_legacy_only K (sys.world i p) s1 hit ha).2

/-- With `ctx->atomic` cleared, no run of the program builds or commits an
atomic transaction, and `ctx->atomic` stays cleared. -/
theorem run_quiet (K : Kernel) (actions : List Action) (sys : Sys) (ha : sys.ctx.atomic = 0) :
    (run K sys actions).ctx.atomic = 0 ∧
    transaction_calls (run K sys actions).log = transaction_calls sys.log := by
  induction actions generalizing sys with
  | nil => exact ⟨ha, rfl⟩
  | cons a rest ih =>
    have hk := (Action.step_keeps K sys a).1 ha
    have h2 := ih (a.step K sys) hk
    refine ⟨h2.1, h2.2.trans ?_⟩
    cases a with
    | SetCursor crtc_id handle width height =>
      exact drm_set_cursor_quiet K sys crtc_id handle width height
    | MoveCursor crtc_id x y => exact drm_move_cursor_quiet K sys crtc_id x y
    | Worker i => exact drm_crtc_thread_step_quiet K sys i ha

/-- A failed atomic attempt of `drm_set_plane` clears `ctx->atomic`. -/
theorem drm_set_plane_downgrade (K : Kernel) (hK : K.returns_int) (s : World) (fb : Nat)
    (x y w h : Int) (hd : drm_set_plane_direct s = false)
    (ha : drm_set_plane_alloc_fails K s fb x y w h = false)
    (hf : drm_set_plane_attempt_fails K s fb x y w h = true) :
    (drm_set_plane K s fb x y w h).2.ctx.atomic = 0 := by
  unfold drm_set_plane_direct at hd
  unfold drm_set_plane_alloc_fails at ha
  unfold drm_set_plane_attempt_fails drm_set_plane_alloc_log at hf
  unfold drm_set_plane
  rw [if_neg (of_decide_eq_false hd), if_neg (of_decide_eq_false ha)]
  unfold drm_set_plane_atomic
  have hc := drm_atomic_add_plane_props_calls K hK
    (drm_set_plane_props s.crtc.crtc_id fb x y w h) 0 s.plane
    (Event.drmModeAtomicAlloc :: Event.drm_set_plane s.plane.plane_id fb x y w h :: s.log)
    (by decide) (by decide)
  generalize drm_atomic_add_fails K (drm_set_plane_props s.crtc.crtc_id fb x y w h) s.plane
    (Event.drmModeAtomicAlloc :: Event.drm_set_plane s.plane.plane_id fb x y w h :: s.log)
    = fails at hc hf
  rcases hs : drm_atomic_add_plane_props K (drm_set_plane_props s.crtc.crtc_id fb x y w h) 0
    s.plane (Event.drmModeAtomicAlloc :: Event.drm_set_plane s.plane.plane_id fb x y w h ::
      s.log) with ⟨ret, plane1, log1⟩
  rw [hs] at hc hf
  simp only [] at hc hf ⊢
  obtain ⟨-, -, hr1, hr2, hneg⟩ := hc
  have hsum := int_or_neg ret (K.drmModeAtomicCommit log1) hr1 hr2 (hK.2 log1).1 (hK.2 log1).2
  have hlt : int_or ret (K.drmModeAtomicCommit log1) < 0 := by
    rw [hsum, hneg]
    rw [Bool.or_eq_true, decide_eq_true_eq] at hf
    rcases hf with h1 | h1
    · exact Or.inl (Or.inr h1)
    · exact Or.inr h1
  rw [if_neg (by omega)]
  exact (drm_set_plane_legacy_calls K _ _ fb x y w h).2.2.2.2.1 hlt

/-- C13: the atomic downgrade is global and permanent. When the atomic attempt
of a commit fails (adding a property or the atomic commit fails),
`ctx->atomic` is 0 afterwards. From a program state with `ctx->atomic` 0, no
sequence of `SetCursor`, `MoveCursor` and worker steps on any output sets it
back to a non-zero value or makes a call that builds or commits an atomic
transaction; and every commit made with `ctx->atomic` 0 consists of the
legacy call alone, whatever the plane and the output. -/
theorem C13_atomic_downgrade (K : Kernel) (hK : K.returns_int) :
    (∀ (s : World) (fb : Nat) (x y w h : Int),
      drm_set_plane_direct s = false → drm_set_plane_alloc_fails K s fb x y w h = false →
      drm_set_plane_attempt_fails K s fb x y w h = true →
      (drm_set_plane K s fb x y w h).2.ctx.atomic = 0) ∧
    (∀ (sys : Sys) (actions : List Action), sys.ctx.atomic = 0 →
      (run K sys actions).ctx.atomic = 0 ∧
      transaction_calls (run K sys actions).log = transaction_calls sys.log) ∧
    (∀ (s : World) (fb : Nat) (x y w h : Int), s.ctx.atomic = 0 →
      (drm_set_plane K s fb x y w h).2.log =
        drm_set_plane_legacy_call s fb x y w h ::
          Event.drm_set_plane s.plane.plane_id fb x y w h :: s.log ∧
      (drm_set_plane K s fb x y w h).2.ctx.atomic = 0) :=
  ⟨fun s fb x y w h hd ha hf => drm_set_plane_downgrade K hK s fb x y w h hd ha hf,
    fun sys actions ha => run_quiet K actions sys ha,
    fun s fb x y w h ha =>
      ⟨(drm_set_plane_cleared K s fb x y w h ha).1, by
        rw [(drm_set_plane_cleared K s fb x y w h ha).2]
        exact ha⟩⟩

/-- C13, witness: on the sample overlay plane the atomic commit fails; after
the commit `ctx->atomic` is 0, and the next commit is the legacy call alone. -/
theorem C13_witness :
    sample_kernel_commit_fails.returns_int ∧
    sample_world_overlay.ctx.atomic = 1 ∧
    drm_set_plane_attempt_fails sample_kernel_commit_fails sample_world_overlay 7 100 200 64 64
      = true ∧
    (drm_set_plane sample_kernel_commit_fails sample_world_overlay 7 100 200 64 64).2.ctx.atomic
      = 0 ∧
    (drm_set_plane sample_kernel_commit_fails
      (drm_set_plane sample_kernel_commit_fails sample_world_overlay 7 100 200 64 64).2
      7 101 200 64 64).2.log =
        Event.drmModeSetPlane 33 50 7 101 200 64 64 0 0 4194304 4194304 ::
          Event.drm_set_plane 33 7 101 200 64 64 ::
          (drm_set_plane sample_kernel_commit_fails sample_world_overlay 7 100 200 64 64).2.log :=
  ⟨sample_kernel_commit_fails_returns_int, by decide, by decide,
    (C13_atomic_downgrade sample_kernel_commit_fails sample_kernel_commit_fails_returns_int).1
      sample_world_overlay 7 100 200 64 64 (by decide) (by decide) (by decide),
    by decide⟩

/-! ## The contents of the atomic transaction (C14) -/

theorem drm_atomic_add_plane_prop_adds (K : Kernel) (plane : drm_plane) (p : drm_plane_prop)
    (value : Nat) (log : List Event) :
    atomic_adds (drm_atomic_add_plane_prop K plane p value log).2.2 =
      ((drm_plane_prop_id K plane p log).map (fun id => (plane.plane_id, id, value))).toList ++
        atomic_adds log ∧
    ((drm_plane_prop_id K plane p log) = none →
      (drm_atomic_add_plane_prop K plane p value log).1 < 0) := by
  unfold drm_atomic_add_plane_prop drm_plane_prop_id
  have h := drm_plane_get_prop_calls K plane p log
  have hf := drm_plane_get_prop_frame K plane p log
  rcases hs : drm_plane_get_prop K plane p log with ⟨idx, plane1, log1⟩
  rw [hs] at h hf
  simp only [] at h hf ⊢
  by_cases hi : idx < 0
  · rw [if_pos hi, if_pos hi]
    exact ⟨h.2.2, fun _ => show (-1 : Int) < 0 by decide⟩
  · rw [if_neg hi, if_neg hi]
    refine ⟨?_, fun hc => Option.noConfusion hc⟩
    show atomic_adds (_ :: log1) = _
    unfold atomic_adds
    rw [List.filterMap_cons_some (by rfl)]
    simp only [Option.map_some', Option.toList_some, List.singleton_append, List.cons.injEq]
    exact ⟨by rw [hf.2.1], h.2.2⟩

theorem drm_atomic_add_plane_props_state (K : Kernel) (items : List (drm_plane_prop × Nat))
    (ret ret1 : Int) (plane : drm_plane) (log : List Event) :
    (drm_atomic_add_plane_props K items ret plane log).2 =
      (drm_atomic_add_plane_props K items ret1 plane log).2 := by
  induction items generalizing ret ret1 plane log with
  | nil => rfl
  | cons item rest ih =>
    obtain ⟨p, value⟩ := item
    unfold drm_atomic_add_plane_props
    rcases hs : drm_atomic_add_plane_prop K plane p value log with ⟨r, plane1, log1⟩
    simp only []
    exact ih _ _ plane1 log1

theorem drm_atomic_add_write_zero (K : Kernel) (p : drm_plane_prop) (value : Nat)
    (rest : List (drm_plane_prop × Nat)) (plane : drm_plane) (log : List Event) :
    drm_atomic_add_write K ((p, value) :: rest) plane log 0 =
      (drm_plane_prop_id K plane p log).map (fun id => (plane.plane_id, id, value)) := by
  unfold drm_atomic_add_write
  rw [List.getElem?_cons_zero, List.take_zero]
  unfold drm_atomic_add_plane_props
  rfl

theorem drm_atomic_add_write_succ (K : Kernel) (p : drm_plane_prop) (value : Nat)
    (rest : List (drm_plane_prop × Nat)) (plane : drm_plane) (log : List Event) (k : Nat) :
    drm_atomic_add_write K ((p, value) :: rest) plane log (k + 1) =
      drm_atomic_add_write K rest (drm_atomic_add_plane_prop K plane p value log).2.1
        (drm_atomic_add_plane_prop K plane p value log).2.2 k := by
  unfold drm_atomic_add_write
  rw [List.getElem?_cons_succ, List.take_succ_cons]
  have hst : (drm_atomic_add_plane_props K ((p, value) :: List.take k rest) 0 plane log).2 =
      (drm_atomic_add_plane_props K (List.take k rest) 0
        (drm_atomic_add_plane_prop K plane p value log).2.1
        (drm_atomic_add_plane_prop K plane p value log).2.2).2 := by
    conv => lhs; unfold drm_atomic_add_plane_props
    rcases hs : drm_atomic_add_plane_prop K plane p value log with ⟨r, plane1, log1⟩
    simp only []
    exact drm_atomic_add_plane_props_state K _ _ _ plane1 log1
  rw [hst, (drm_atomic_add_plane_prop_frame K plane p value log).2.1]

/-- The property writes a run of statements `ret |= drm_atomic_add_plane_prop(...)`
adds to the log. -/
theorem drm_atomic_add_plane_props_adds (K : Kernel) (items : List (drm_plane_prop × Nat))
    (ret : Int) (plane : drm_plane) (log : List Event) :
    atomic_adds (drm_atomic_add_plane_props K items ret plane log).2.2 =
      ((List.range items.length).filterMap (drm_atomic_add_write K items plane log)).reverse ++
        atomic_adds log := by
  induction items generalizing ret plane log with
  | nil => rfl
  | cons item rest ih =>
    obtain ⟨p, value⟩ := item
    have hadd := (drm_atomic_add_plane_prop_adds K plane p value log).1
    have hz := drm_atomic_add_write_zero K p value rest plane log
    have hsucc := drm_atomic_add_write_succ K p value rest plane log
    unfold drm_atomic_add_plane_props
    rcases hs : drm_atomic_add_plane_prop K plane p value log with ⟨r, plane1, log1⟩
    rw [hs] at hadd hsucc
    simp only [] at hadd hsucc ⊢
    rw [ih (int_or ret r) plane1 log1, hadd, List.length_cons, List.range_succ_eq_map,
      List.filterMap_cons, List.filterMap_map]
    have hfun : (drm_atomic_add_write K ((p, value) :: rest) plane log ∘ Nat.succ) =
        drm_atomic_add_write K rest plane1 log1 := by
      funext k
      exact hsucc k
    rw [hfun, hz]
    cases hid : drm_plane_prop_id K plane p log with
    | none => simp
    | some id => simp

/-- When no statement of the run fails, every property write is made. -/
theorem drm_atomic_add_plane_props_all (K : Kernel) (items : List (drm_plane_prop × Nat))
    (plane : drm_plane) (log : List Event) (h : drm_atomic_add_fails K items plane log = false) :
    ∀ k, k < items.length → (drm_atomic_add_write K items plane log k).isSome = true := by
  induction items generalizing plane log with
  | nil =>
    intro k hk
    exact absurd hk (Nat.not_lt_zero k)
  | cons item rest ih =>
    obtain ⟨p, value⟩ := item
    have hadd := (drm_atomic_add_plane_prop_adds K plane p value log).2
    have hsucc := drm_atomic_add_write_succ K p value rest plane log
    unfold drm_atomic_add_fails at h
    rcases hs : drm_atomic_add_plane_prop K plane p value log with ⟨r, plane1, log1⟩
    rw [hs] at hadd hsucc h
    simp only [Bool.or_eq_false_iff, decide_eq_false_iff_not] at hadd hsucc h
    intro k hk
    cases k with
    | zero =>
      rw [drm_atomic_add_write_zero]
      cases hid : drm_plane_prop_id K plane p log with
      | none => exact absurd (hadd hid) h.1
      | some id => rfl
    | succ k =>
      rw [hsucc k]
      exact ih plane1 log1 h.2 k (by simpa using hk)

/-- C14: the contents of the atomic transaction of `drm_set_plane`. For buffer 0
the property writes requested are `CRTC_ID = 0` and `FB_ID = 0` and nothing
else; for a non-zero buffer and `0 <= w, h < 32768` they are `CRTC_ID` = the
output id, `FB_ID` = the buffer, `SRC_X = 0`, `SRC_Y = 0`, `SRC_W = w * 65536`,
`SRC_H = h * 65536`, `CRTC_X = x`, `CRTC_Y = y`, `CRTC_W = w`, `CRTC_H = h`
(`x` and `y` converted to `uint64_t`, which is the value itself when it is not
negative). In an atomic attempt the `drmModeAtomicAddProperty` calls are those
writes, in that order, each for the plane and for the property id found for
the name, one for each property that is found, and for every one of them when
the attempt does not fail. The legacy call passes the same rectangles. -/
theorem C14_atomic_contents (K : Kernel) (s : World) (fb : Nat) (x y w h : Int) :
    (fb = 0 → drm_set_plane_props s.crtc.crtc_id fb x y w h =
      [(drm_plane_prop.CRTC_ID, 0), (drm_plane_prop.FB_ID, 0)]) ∧
    (fb ≠ 0 → 0 ≤ w → w < 32768 → 0 ≤ h → h < 32768 →
      drm_set_plane_props s.crtc.crtc_id fb x y w h =
        [(drm_plane_prop.CRTC_ID, s.crtc.crtc_id), (drm_plane_prop.FB_ID, fb),
         (drm_plane_prop.SRC_X, 0), (drm_plane_prop.SRC_Y, 0),
         (drm_plane_prop.SRC_W, w.toNat * 65536), (drm_plane_prop.SRC_H, h.toNat * 65536),
         (drm_plane_prop.CRTC_X, uint64_of_int x), (drm_plane_prop.CRTC_Y, uint64_of_int y),
         (drm_plane_prop.CRTC_W, w.toNat), (drm_plane_prop.CRTC_H, h.toNat)]) ∧
    (0 ≤ x → x < 2147483648 → uint64_of_int x = x.toNat) ∧
    (0 ≤ y → y < 2147483648 → uint64_of_int y = y.toNat) ∧
    (drm_set_plane_direct s = false → drm_set_plane_alloc_fails K s fb x y w h = false →
      atomic_adds (drm_set_plane K s fb x y w h).2.log =
        (drm_set_plane_writes K s fb x y w h).reverse ++ atomic_adds s.log ∧
      (drm_set_plane_attempt_fails K s fb x y w h = false →
        ∀ k, k < (drm_set_plane_props s.crtc.crtc_id fb x y w h).length →
          (drm_atomic_add_write K (drm_set_plane_props s.crtc.crtc_id fb x y w h) s.plane
            (drm_set_plane_alloc_log s fb x y w h) k).isSome = true)) ∧
    (0 ≤ w → w < 32768 → 0 ≤ h → h < 32768 →
      drm_set_plane_legacy_call s fb x y w h =
        Event.drmModeSetPlane s.plane.plane_id s.crtc.crtc_id fb x y w.toNat h.toNat 0 0
          (w.toNat * 65536) (h.toNat * 65536)) := by
  have hconv : ∀ v : Int, 0 ≤ v → v < 2147483648 → uint64_of_int v = v.toNat := by
    intro v h1 h2
    unfold uint64_of_int
    omega
  have hfix : ∀ v : Int, 0 ≤ v → v < 32768 → uint64_of_int (v * 65536) = v.toNat * 65536 := by
    intro v h1 h2
    unfold uint64_of_int
    omega
  have hconv32 : ∀ v : Int, 0 ≤ v → v < 32768 → uint32_of_int v = v.toNat := by
    intro v h1 h2
    unfold uint32_of_int
    omega
  have hfix32 : ∀ v : Int, 0 ≤ v → v < 32768 → uint32_of_int (v * 65536) = v.toNat * 65536 := by
    intro v h1 h2
    unfold uint32_of_int
    omega
  refine ⟨?_, ?_, hconv x, hconv y, ?_, ?_⟩
  · intro hfb
    unfold drm_set_plane_props
    rw [if_pos hfb]
  · intro hfb hw1 hw2 hh1 hh2
    unfold drm_set_plane_props
    rw [if_neg hfb, hfix w hw1 hw2, hfix h hh1 hh2, hconv w hw1 (by omega),
      hconv h hh1 (by omega)]
  · intro hd ha
    constructor
    · unfold drm_set_plane_direct at hd
      unfold drm_set_plane_alloc_fails at ha
      unfold drm_set_plane_writes drm_set_plane_alloc_log
      unfold drm_set_plane
      rw [if_neg (of_decide_eq_false hd), if_neg (of_decide_eq_false ha)]
      unfold drm_set_plane_atomic
      have hadds := drm_atomic_add_plane_props_adds K
        (drm_set_plane_props s.crtc.crtc_id fb x y w h) 0 s.plane
        (Event.drmModeAtomicAlloc :: Event.drm_set_plane s.plane.plane_id fb x y w h :: s.log)
      generalize (List.range (drm_set_plane_props s.crtc.crtc_id fb x y w h).length).filterMap
        (drm_atomic_add_write K (drm_set_plane_props s.crtc.crtc_id fb x y w h) s.plane
          (Event.drmModeAtomicAlloc :: Event.drm_set_plane s.plane.plane_id fb x y w h ::
            s.log)) = writes at hadds ⊢
      rcases hs : drm_atomic_add_plane_props K (drm_set_plane_props s.crtc.crtc_id fb x y w h) 0
        s.plane (Event.drmModeAtomicAlloc :: Event.drm_set_plane s.plane.plane_id fb x y w h ::
          s.log) with ⟨ret, plane1, log1⟩
      rw [hs] at hadds
      simp only [] at hadds ⊢
      have hlog1 : atomic_adds log1 = writes.reverse ++ atomic_adds s.log := by
        rw [hadds, atomic_adds_cons_other _ _ (by rfl), atomic_adds_cons_other _ _ (by rfl)]
      by_cases hok : int_or ret (K.drmModeAtomicCommit log1) ≥ 0
      · rw [if_pos hok]
        show atomic_adds (Event.drmModeAtomicCommit :: log1) = _
        rw [atomic_adds_cons_other _ _ (by rfl), hlog1]
      · rw [if_neg hok]
        rw [(drm_set_plane_legacy_calls K _ _ fb x y w h).2.1]
        unfold drm_set_plane_legacy_call
        rw [atomic_adds_cons_other _ _ (by rfl)]
        show atomic_adds (Event.drmModeAtomicCommit :: log1) = _
        rw [atomic_adds_cons_other _ _ (by rfl), hlog1]
    · intro hf
      unfold drm_set_plane_attempt_fails at hf
      rw [Bool.or_eq_false_iff] at hf
      exact drm_atomic_add_plane_props_all K _ s.plane _ hf.1
  · intro hw1 hw2 hh1 hh2
    unfold drm_set_plane_legacy_call
    rw [hfix32 w hw1 hw2, hfix32 h hh1 hh2, hconv32 w hw1 hw2, hconv32 h hh1 hh2]

/-- C14, witness: the transactions for buffer 7 at `(100, 200)` with size 64 by
64, and for buffer 0, on the sample overlay plane of the output 50, newest
write first. -/
theorem C14_witness :
    atomic_adds (drm_set_plane sample_kernel_atomic sample_world_overlay 7 100 200 64 64).2.log =
      [(33, 114, 64), (33, 113, 64), (33, 112, 200), (33, 111, 100), (33, 110, 4194304),
        (33, 109, 4194304), (33, 108, 0), (33, 107, 0), (33, 106, 7), (33, 105, 50)] ∧
    atomic_adds (drm_set_plane sample_kernel_atomic sample_world_overlay 0 0 0 0 0).2.log =
      [(33, 106, 0), (33, 105, 0)] ∧
    drm_set_plane_props 50 7 100 200 64 64 =
      [(drm_plane_prop.CRTC_ID, 50), (drm_plane_prop.FB_ID, 7),
       (drm_plane_prop.SRC_X, 0), (drm_plane_prop.SRC_Y, 0),
       (drm_plane_prop.SRC_W, 4194304), (drm_plane_prop.SRC_H, 4194304),
       (drm_plane_prop.CRTC_X, 100), (drm_plane_prop.CRTC_Y, 200),
       (drm_plane_prop.CRTC_W, 64), (drm_plane_prop.CRTC_H, 64)] :=
  ⟨by decide, by decide,
    (((C14_atomic_contents sample_kernel_atomic sample_world_overlay 7 100 200 64 64).2.1
      (by decide) (by decide) (by decide) (by decide) (by decide)).trans (by decide))⟩

/-! ## A disconnected output (C15) -/

/-- C15: disconnected handling. In an iteration of the worker for any drained
snapshot, when the resolution query of the output fails or reports a width or
height that is not positive, `egl_convert_fb` is not called; the commit layer
is invoked only for one disable commit (buffer 0), and that exactly when
`cursor_curr.fb != 0`, after which that buffer is removed with `drmModeRmFB`;
the turn ends at `next` with `cursor_curr` equal to the snapshot; and the
iteration leaves the output in `IDLE`, not in `ERROR`, with its plane and its
worker. -/
theorem C15_disconnected (K : Kernel) (s : World)
    (hp : s.crtc.state = drm_thread_state.PENDING) (hd : connected K s = false) :
    ∃ s1, drm_crtc_thread_turn K s = some (flow.goto_next s1) ∧
      drm_crtc_thread_iter K s = some (drm_crtc_thread_next K s1) ∧
      converts s1.log = converts s.log ∧
      observe s1.log =
        (if s.crtc.cursor_curr.fb ≠ 0 then [Event.drm_set_plane s.plane.plane_id 0 0 0 0 0]
          else []) ++ observe s.log ∧
      s1.log =
        (if s.crtc.cursor_curr.fb ≠ 0 then
          Event.drmModeRmFB s.crtc.cursor_curr.fb ::
            (drm_set_plane K (turn_start K s) 0 0 0 0 0).2.log
        else Event.drmModeGetCrtc s.crtc.crtc_id :: s.log) ∧
      s1.crtc.cursor_curr = s.crtc.cursor_next ∧
      (drm_crtc_thread_next K s1).crtc.cursor_curr = s.crtc.cursor_next ∧
      (drm_crtc_thread_next K s1).crtc.state = drm_thread_state.IDLE ∧
      (drm_crtc_thread_next K s1).crtc.plane = s.crtc.plane ∧
      (drm_crtc_thread_next K s1).crtc.thread = s.crtc.thread := by
  have hturn : drm_crtc_thread_turn K s = some (flow.goto_next
      { (drm_crtc_disable_cursor K (turn_start K s)).2 with
        crtc := { (drm_crtc_disable_cursor K (turn_start K s)).2.crtc with
          cursor_curr := s.crtc.cursor_next } }) := by
    unfold drm_crtc_thread_turn drm_crtc_thread_drain
    rw [if_pos hp]
    simp only []
    unfold drm_crtc_thread_body
    rw [drm_crtc_update_offsets_disconnected K _ _ (by exact hd)]
    simp only [show ((-1 : Int) < 0) from by decide, if_true]
    rfl
  have hspec := drm_crtc_disable_cursor_spec K (turn_start K s)
  have hlog : (drm_crtc_disable_cursor K (turn_start K s)).2.log =
      (if s.crtc.cursor_curr.fb ≠ 0 then
        Event.drmModeRmFB s.crtc.cursor_curr.fb ::
          (drm_set_plane K (turn_start K s) 0 0 0 0 0).2.log
      else Event.drmModeGetCrtc s.crtc.crtc_id :: s.log) := by
    unfold drm_crtc_disable_cursor drm_crtc_update_cursor
    by_cases hfb : s.crtc.cursor_curr.fb ≠ 0
    · rw [if_pos hfb, if_pos (show (turn_start K s).crtc.cursor_curr.fb ≠ 0 from hfb)]
      rfl
    · rw [if_neg hfb, if_neg (show ¬ (turn_start K s).crtc.cursor_curr.fb ≠ 0 from hfb)]
      rfl
  have hobs : observe (drm_crtc_disable_cursor K (turn_start K s)).2.log =
      (if s.crtc.cursor_curr.fb ≠ 0 then [Event.drm_set_plane s.plane.plane_id 0 0 0 0 0]
        else []) ++ observe s.log := by
    rw [hspec.2.2.2]
    show _ ++ observe (Event.drmModeGetCrtc _ :: s.log) = _
    rw [observe_cons_other _ _ (by rfl)]
    rfl
  refine ⟨_, hturn, ?_, ?_, hobs, hlog, rfl, rfl, ?_, ?_, ?_⟩
  · unfold drm_crtc_thread_iter
    rw [hturn]
  · show converts (drm_crtc_disable_cursor K (turn_start K s)).2.log = _
    rw [converts_of_observe, hobs, List.filter_append, ← converts_of_observe]
    split_ifs <;> rfl
  · show (drm_crtc_disable_cursor K (turn_start K s)).2.crtc.state = _
    rw [hspec.1]
    rfl
  · show (drm_crtc_disable_cursor K (turn_start K s)).2.crtc.plane = _
    rw [hspec.1]
    rfl
  · show (drm_crtc_disable_cursor K (turn_start K s)).2.crtc.thread = _
    rw [hspec.1]
    rfl

/-- C15, witness: the sample output shows the buffer 7 when a `MoveCursor`
arrives and its resolution query has no answer. -/
theorem C15_witness :
    sample_world_shown_move.crtc.state = drm_thread_state.PENDING ∧
    connected sample_kernel_second sample_world_shown_move = false ∧
    ∃ s1, drm_crtc_thread_turn sample_kernel_second sample_world_shown_move =
        some (flow.goto_next s1) ∧
      drm_crtc_thread_iter sample_kernel_second sample_world_shown_move =
        some (drm_crtc_thread_next sample_kernel_second s1) ∧
      converts s1.log = converts sample_world_shown_move.log ∧
      observe s1.log =
        (if sample_world_shown_move.crtc.cursor_curr.fb ≠ 0 then
            [Event.drm_set_plane sample_world_shown_move.plane.plane_id 0 0 0 0 0]
          else []) ++ observe sample_world_shown_move.log ∧
      s1.log =
        (if sample_world_shown_move.crtc.cursor_curr.fb ≠ 0 then
          Event.drmModeRmFB sample_world_shown_move.crtc.cursor_curr.fb ::
            (drm_set_plane sample_kernel_second
              (turn_start sample_kernel_second sample_world_shown_move) 0 0 0 0 0).2.log
        else Event.drmModeGetCrtc sample_world_shown_move.crtc.crtc_id ::
          sample_world_shown_move.log) ∧
      s1.crtc.cursor_curr = sample_world_shown_move.crtc.cursor_next ∧
      (drm_crtc_thread_next sample_kernel_second s1).crtc.cursor_curr =
        sample_world_shown_move.crtc.cursor_next ∧
      (drm_crtc_thread_next sample_kernel_second s1).crtc.state = drm_thread_state.IDLE ∧
      (drm_crtc_thread_next sample_kernel_second s1).crtc.plane =
        sample_world_shown_move.crtc.plane ∧
      (drm_crtc_thread_next sample_kernel_second s1).crtc.thread =
        sample_world_shown_move.crtc.thread :=
  ⟨by decide, by decide,
    C15_disconnected sample_kernel_second sample_world_shown_move (by decide) (by decide)⟩

theorem sample_disconnected_log :
    (drm_crtc_thread_turn sample_kernel_second sample_world_shown_move).map
        (fun f => f.world.log) =
      some [Event.drmModeRmFB 7, Event.drmModeSetPlane 31 50 0 0 0 0 0 0 0 0 0,
        Event.drm_set_plane 31 0 0 0 0 0, Event.drmModeGetCrtc 50] := by
  decide

/-! ## The lifetime of a display buffer (C16) -/

theorem removals_cons_other (e : Event) (log : List Event) (h : e.removal = none) :
    removals (e :: log) = removals log := by
  unfold removals
  rw [List.filterMap_cons_none h]

theorem drm_plane_get_prop_scan_removals (K : Kernel) (name : String) (props : List Nat)
    (i : Nat) (log : List Event) :
    removals (drm_plane_get_prop_scan K name props i log).2 = removals log := by
  induction props generalizing i log with
  | nil => rfl
  | cons id rest ih =>
    unfold drm_plane_get_prop_scan
    have hstep : removals (Event.drmModeGetProperty id :: log) = removals log :=
      removals_cons_other _ _ rfl
    cases hq : K.drmModeGetProperty log id with
    | none => exact (ih _ _).trans hstep
    | some prop =>
      simp only []
      by_cases hn : prop.name = name
      · rw [if_pos hn]
        exact hstep
      · rw [if_neg hn]
        exact (ih _ _).trans hstep

theorem drm_plane_get_prop_removals (K : Kernel) (plane : drm_plane) (p : drm_plane_prop)
    (log : List Event) :
    removals (drm_plane_get_prop K plane p log).2.2 = removals log := by
  unfold drm_plane_get_prop
  by_cases hc : plane.prop_ids.getD p.idx 0 ≠ 0
  · rw [if_pos hc]
  · rw [if_neg hc]
    have h := drm_plane_get_prop_scan_removals K (drm_plane_prop_names p) plane.props.props 0 log
    rcases hs : drm_plane_get_prop_scan K (drm_plane_prop_names p) plane.props.props 0 log
      with ⟨r, log1⟩
    rw [hs] at h
    cases r with
    | none => exact h
    | some i => exact h

theorem drm_atomic_add_plane_props_removals (K : Kernel) (items : List (drm_plane_prop × Nat))
    (ret : Int) (plane : drm_plane) (log : List Event) :
    removals (drm_atomic_add_plane_props K items ret plane log).2.2 = removals log := by
  induction items generalizing ret plane log with
  | nil => rfl
  | cons item rest ih =>
    obtain ⟨p, value⟩ := item
    unfold drm_atomic_add_plane_props drm_atomic_add_plane_prop
    have h := drm_plane_get_prop_removals K plane p log
    rcases hs : drm_plane_get_prop K plane p log with ⟨idx, plane1, log1⟩
    rw [hs] at h
    simp only [] at h ⊢
    by_cases hi : idx < 0
    · rw [if_pos hi]
      simp only []
      rw [ih]
      exact h
    · rw [if_neg hi]
      simp only []
      rw [ih, removals_cons_other _ _ (by rfl)]
      exact h

/-- The commit layer removes no display buffer. -/
theorem drm_set_plane_removals (K : Kernel) (s : World) (fb : Nat) (x y w h : Int) :
    removals (drm_set_plane K s fb x y w h).2.log = removals s.log := by
  unfold drm_set_plane
  by_cases h1 : s.plane.cursor_plane = true ∨ s.crtc.async_commit = true ∨ s.ctx.atomic = 0
  · rw [if_pos h1, (drm_set_plane_legacy_calls K _ _ fb x y w h).2.1]
    unfold drm_set_plane_legacy_call
    rw [removals_cons_other _ _ (by rfl)]
    exact removals_cons_other _ _ (by rfl)
  · rw [if_neg h1]
    by_cases h2 : K.drmModeAtomicAlloc
        (Event.drm_set_plane s.plane.plane_id fb x y w h :: s.log) = false
    · rw [if_pos h2, (drm_set_plane_legacy_calls K _ _ fb x y w h).2.1]
      unfold drm_set_plane_legacy_call
      rw [removals_cons_other _ _ (by rfl)]
      show removals (_ :: _ :: s.log) = _
      rw [removals_cons_other _ _ (by rfl), removals_cons_other _ _ (by rfl)]
    · rw [if_neg h2]
      unfold drm_set_plane_atomic
      have hr := drm_atomic_add_plane_props_removals K
        (drm_set_plane_props s.crtc.crtc_id fb x y w h) 0 s.plane
        (Event.drmModeAtomicAlloc :: Event.drm_set_plane s.plane.plane_id fb x y w h :: s.log)
      rcases hs : drm_atomic_add_plane_props K (drm_set_plane_props s.crtc.crtc_id fb x y w h) 0
        s.plane (Event.drmModeAtomicAlloc :: Event.drm_set_plane s.plane.plane_id fb x y w h ::
          s.log) with ⟨ret, plane1, log1⟩
      rw [hs] at hr
      simp only [] at hr ⊢
      have hlog1 : removals log1 = removals s.log := by
        rw [hr, removals_cons_other _ _ (by rfl), removals_cons_other _ _ (by rfl)]
      by_cases hok : int_or ret (K.drmModeAtomicCommit log1) ≥ 0
      · rw [if_pos hok]
        show removals (Event.drmModeAtomicCommit :: log1) = _
        rw [removals_cons_other _ _ (by rfl), hlog1]
      · rw [if_neg hok, (drm_set_plane_legacy_calls K _ _ fb x y w h).2.1]
        unfold drm_set_plane_legacy_call
        rw [removals_cons_other _ _ (by rfl)]
        show removals (Event.drmModeAtomicCommit :: log1) = _
        rw [removals_cons_other _ _ (by rfl), hlog1]

/-- C16 (as amended): the lifetime of a display buffer in
`drm_crtc_update_cursor`. The buffer committed before the call
(`cursor_curr.fb`) is removed exactly when it is not 0 and either the cursor
is disabled or the state passed differs from the one committed and carries
another buffer; it is then removed once, right after the plane commit of this
call has been issued, whatever the result of that commit, and for a cursor
state the call returns that result. So the buffer is removed also when the
plane commit of the new buffer fails. Without a commit in the call (the
cursor is disabled with no buffer shown, or the state is unchanged) nothing is
removed and the log is unchanged. -/
theorem C16_buffer_lifetime (K : Kernel) (s : World) (o : Option drm_cursor_state) :
    removals (drm_crtc_update_cursor K s o).2.log =
      (if drm_crtc_update_cursor_removes s o = true then [s.crtc.cursor_curr.fb] else []) ++
        removals s.log ∧
    (drm_crtc_update_cursor_removes s o = true →
      ∃ c, drm_crtc_update_cursor_commit K s o = some c ∧
        (drm_crtc_update_cursor K s o).2.log = Event.drmModeRmFB s.crtc.cursor_curr.fb :: c.2.log) ∧
    (∀ cs c, o = some cs → drm_crtc_update_cursor_commit K s o = some c →
      (drm_crtc_update_cursor K s o).1 = c.1) ∧
    (drm_crtc_update_cursor_commit K s o = none → (drm_crtc_update_cursor K s o).2.log = s.log) := by
  cases o with
  | none =>
    unfold drm_crtc_update_cursor drm_crtc_update_cursor_removes drm_crtc_update_cursor_commit
    by_cases hfb : s.crtc.cursor_curr.fb ≠ 0
    · simp only [if_pos hfb, decide_eq_true_eq]
      have hr := drm_set_plane_removals K s 0 0 0 0 0
      rcases hs : drm_set_plane K s 0 0 0 0 0 with ⟨ret, s1⟩
      rw [hs] at hr
      simp only [] at hr ⊢
      refine ⟨?_, fun _ => ⟨_, rfl, rfl⟩, fun cs c h => Option.noConfusion h,
        fun h => Option.noConfusion h⟩
      unfold removals
      rw [List.filterMap_cons_some (by rfl)]
      exact congrArg _ hr
    · simp only [if_neg hfb, decide_eq_true_eq]
      exact ⟨rfl, fun h => absurd h hfb, fun cs c h => Option.noConfusion h,
        fun _ => trivial⟩
  | some cs =>
    unfold drm_crtc_update_cursor drm_crtc_update_cursor_removes drm_crtc_update_cursor_commit
    by_cases hu : cursor_unchanged s.crtc cs = true
    · have hu2 := hu
      unfold cursor_unchanged at hu2
      simp only [decide_eq_true_eq] at hu2
      simp only [if_pos hu2, hu, Bool.not_true, Bool.false_and, if_true]
      exact ⟨rfl, fun h => Bool.noConfusion h,
        fun cs c _ h => Option.noConfusion h, fun _ => trivial⟩
    · have hu3 : cursor_unchanged s.crtc cs = false := by simpa using hu
      have hu2 := hu
      unfold cursor_unchanged at hu2
      simp only [decide_eq_true_eq] at hu2
      simp only [if_neg hu2, hu3, Bool.not_false, Bool.true_and, decide_eq_true_eq]
      have hr := drm_set_plane_removals K s cs.fb (cs.x - cs.off_x) (cs.y - cs.off_y)
        cs.width cs.height
      rcases hs : drm_set_plane K s cs.fb (cs.x - cs.off_x) (cs.y - cs.off_y) cs.width cs.height
        with ⟨ret, s1⟩
      rw [hs] at hr
      simp only [] at hr ⊢
      by_cases hrm : s.crtc.cursor_curr.fb ≠ 0 ∧ s.crtc.cursor_curr.fb ≠ cs.fb
      · simp only [if_pos hrm]
        refine ⟨?_, fun _ => ⟨_, rfl, rfl⟩, ?_, fun h => ?_⟩
        · unfold removals
          rw [List.filterMap_cons_some (by rfl)]
          exact congrArg _ hr
        · intro cs1 c _ hc
          simp only [Bool.false_eq_true, if_false, Option.some.injEq] at hc
          rw [← hc]
        · simp only [Bool.false_eq_true, if_false] at h
          cases h
      · simp only [if_neg hrm]
        refine ⟨hr, fun h => absurd h hrm, ?_, fun h => ?_⟩
        · intro cs1 c _ hc
          simp only [Bool.false_eq_true, if_false, Option.some.injEq] at hc
          rw [← hc]
        · simp only [Bool.false_eq_true, if_false] at h
          cases h

/-- C16, witness: the sample output shows the buffer 7 and is given the
buffer 9, whose commit succeeds; the buffer 7 is removed after the commit. -/
theorem C16_witness :
    drm_crtc_update_cursor_removes sample_world_shown (some { sample_shown with fb := 9 })
      = true ∧
    (drm_crtc_update_cursor sample_kernel sample_world_shown
        (some { sample_shown with fb := 9 })).1 = 0 ∧
    ∃ c, drm_crtc_update_cursor_commit sample_kernel sample_world_shown
          (some { sample_shown with fb := 9 }) = some c ∧
      (drm_crtc_update_cursor sample_kernel sample_world_shown
          (some { sample_shown with fb := 9 })).2.log =
        Event.drmModeRmFB sample_world_shown.crtc.cursor_curr.fb :: c.2.log :=
  ⟨by decide, by decide,
    (C16_buffer_lifetime sample_kernel sample_world_shown
      (some { sample_shown with fb := 9 })).2.1 (by decide)⟩

/-- C16, counterexample to the claim as stated: the sample output shows the
buffer 7 and is given the buffer 9; the plane commit of the buffer 9 fails
(the call returns -22), and the buffer 7 is removed all the same. -/
theorem C16_counterexample :
    sample_world_shown.crtc.cursor_curr.fb = 7 ∧
    (drm_crtc_update_cursor sample_kernel_commit_fails sample_world_shown
        (some { sample_shown with fb := 9 })).1 = -22 ∧
    (drm_crtc_update_cursor sample_kernel_commit_fails sample_world_shown
        (some { sample_shown with fb := 9 })).2.log =
      [Event.drmModeRmFB 7, Event.drmModeSetPlane 31 50 9 100 100 64 64 0 0 4194304 4194304,
        Event.drm_set_plane 31 9 100 100 64 64] ∧
    removals (drm_crtc_update_cursor sample_kernel_commit_fails sample_world_shown
        (some { sample_shown with fb := 9 })).2.log = [7] := by
  decide

/-! ## The update-rate cap (C17) -/

/-- C17 (as amended): for a configured maximum update rate `r >= 1` (and
`r = 60` when the option is absent or 0), `ctx->min_interval` is
`floor(1000 / r) - 1`, and 0 when `r > 1000`; this is the interval the worker
enforces on its clock `drm_curr_time`: at its label `next` it sleeps
`(min_interval - duration) * 1000` microseconds when the `duration` since the
last update is below `min_interval`, and does not sleep otherwise. For
`r = 60` the interval is 15. -/
theorem C17_update_rate (K : Kernel) (s : World) (config : Option Int)
    (hctx : s.ctx.min_interval = drm_get_ctx_min_interval config) :
    ((config = none ∨ config = some 0) → drm_get_ctx_max_fps config = 60) ∧
    (∀ r : Nat, 1 ≤ r → r < 4294967296 → config = some (r : Int) →
      drm_get_ctx_max_fps config = r) ∧
    s.ctx.min_interval = 1000 / drm_get_ctx_max_fps config - 1 ∧
    (drm_get_ctx_max_fps config = 60 → s.ctx.min_interval = 15) ∧
    (drm_crtc_thread_duration K s < s.ctx.min_interval →
      (drm_crtc_thread_next K s).log =
        Event.gettimeofday ::
          Event.usleep ((s.ctx.min_interval - drm_crtc_thread_duration K s) * 1000) ::
          Event.gettimeofday :: s.log) ∧
    (¬ drm_crtc_thread_duration K s < s.ctx.min_interval →
      (drm_crtc_thread_next K s).log = Event.gettimeofday :: Event.gettimeofday :: s.log) := by
  have hmin : drm_get_ctx_min_interval config = 1000 / drm_get_ctx_max_fps config - 1 := by
    unfold drm_get_ctx_min_interval
    split_ifs with h
    · rfl
    · have : 1000 / drm_get_ctx_max_fps config = 0 := not_not.mp h
      rw [this]
  have hle : s.ctx.min_interval ≤ 999 := by
    rw [hctx, hmin]
    have := Nat.div_le_self 1000 (drm_get_ctx_max_fps config)
    omega
  refine ⟨?_, ?_, hctx.trans hmin, ?_, ?_, ?_⟩
  · intro hc
    unfold drm_get_ctx_max_fps drm_get_config_int
    rcases hc with hc | hc <;> rw [hc] <;> rfl
  · intro r h1 h2 hc
    unfold drm_get_ctx_max_fps drm_get_config_int
    rw [hc]
    simp only []
    have hr : uint32_of_int (r : Int) = r := by
      unfold uint32_of_int
      omega
    rw [hr, if_neg (by omega)]
  · intro h60
    rw [hctx, hmin, h60]
  · intro hlt
    unfold drm_crtc_thread_duration at hlt
    unfold drm_crtc_thread_next drm_crtc_thread_duration
    simp only [if_pos hlt]
    have hsmall : (s.ctx.min_interval - (drm_curr_time K s.log +
        (18446744073709551616 - s.crtc.last_update_time)) % 18446744073709551616) * 1000
        % 18446744073709551616 % 4294967296 =
        (s.ctx.min_interval - (drm_curr_time K s.log +
        (18446744073709551616 - s.crtc.last_update_time)) % 18446744073709551616) * 1000 := by
      omega
    rw [hsmall]
  · intro hge
    unfold drm_crtc_thread_duration at hge
    unfold drm_crtc_thread_next
    simp only [if_neg hge]

/-- C17, witness: with the default rate of 60 the sample context has the
interval 15, and a worker whose iteration took no time sleeps 15000
microseconds. -/
theorem C17_witness :
    sample_world_shown.ctx.min_interval = drm_get_ctx_min_interval none ∧
    drm_get_ctx_max_fps none = 60 ∧
    sample_world_shown.ctx.min_interval = 15 ∧
    (drm_crtc_thread_next sample_kernel sample_world_shown).log =
      [Event.gettimeofday, Event.usleep 15000, Event.gettimeofday] :=
  ⟨by decide, by decide,
    (C17_update_rate sample_kernel sample_world_shown none (by decide)).2.2.2.1 (by decide),
    ((C17_update_rate sample_kernel sample_world_shown none (by decide)).2.2.2.2.1
      (by decide)).trans (by decide)⟩

/-- C17, counterexample to the claim as stated: for the rate 60, given or by
default, `floor(1000 / 60)` is 16 but `ctx->min_interval` is 15, and a worker
whose clock reads 15 since the last update does not sleep. -/
theorem C17_counterexample :
    1000 / drm_get_ctx_max_fps (some 60) = 16 ∧
    drm_get_ctx_min_interval (some 60) = 15 ∧
    drm_get_ctx_min_interval none = 15 ∧
    sample_world_shown.ctx.min_interval = drm_get_ctx_min_interval (some 60) ∧
    drm_crtc_thread_duration sample_kernel_clock sample_world_shown = 15 ∧
    (drm_crtc_thread_next sample_kernel_clock sample_world_shown).log =
      [Event.gettimeofday, Event.gettimeofday] := by
  decide

/-! ## The readiness barrier (C18) -/

theorem shows_by_commit_refl (s : World) : shows_by_commit s s :=
  ⟨Nat.le_refl _, fun _ => Or.inl rfl⟩

theorem shows_by_commit_trans {a b c : World} (h1 : shows_by_commit a b)
    (h2 : shows_by_commit b c) : shows_by_commit a c := by
  refine ⟨Nat.le_trans h1.1 h2.1, fun hc => ?_⟩
  rcases h2.2 hc with h | h
  · rw [h] at hc ⊢
    rcases h1.2 hc with h3 | h3
    · exact Or.inl h3
    · exact Or.inr (Nat.lt_of_lt_of_le h3 h2.1)
  · exact Or.inr (Nat.lt_of_le_of_lt h1.1 h)

theorem shows_by_commit_of_log (s s1 : World) (hc : s1.crtc.cursor_curr = s.crtc.cursor_curr)
    (hl : enables s1.log = enables s.log) : shows_by_commit s s1 :=
  ⟨by rw [hl], fun _ => Or.inl (by rw [hc])⟩

theorem drm_crtc_update_cursor_shows (K : Kernel) (s : World) (o : Option drm_cursor_state) :
    shows_by_commit s (drm_crtc_update_cursor K s o).2 := by
  cases o with
  | none =>
    have h := drm_crtc_disable_cursor_spec K s
    unfold drm_crtc_disable_cursor at h
    have hl : enables (drm_crtc_update_cursor K s none).2.log = enables s.log := by
      rw [enables_of_observe, h.2.2.2, List.filter_append, ← enables_of_observe]
      split_ifs <;> rfl
    refine ⟨by rw [hl], fun hne => ?_⟩
    rw [h.1] at hne
    exact absurd rfl hne
  | some cs =>
    have h := drm_crtc_update_cursor_spec K s cs
    have hl : enables (drm_crtc_update_cursor K s (some cs)).2.log =
        (if cursor_unchanged s.crtc cs = true then []
          else if cs.fb ≠ 0 then [Event.drm_set_plane s.plane.plane_id cs.fb (cs.x - cs.off_x)
            (cs.y - cs.off_y) cs.width cs.height] else []) ++ enables s.log := by
      rw [enables_of_observe, h.2.2.2, List.filter_append, ← enables_of_observe]
      by_cases hu : cursor_unchanged s.crtc cs = true
      · rw [if_pos hu, if_pos hu]
        rfl
      · rw [if_neg hu, if_neg hu]
        by_cases hfb : cs.fb ≠ 0
        · rw [if_pos hfb, List.filter_cons_of_pos (by simp [Event.is_enable, hfb])]
          rfl
        · rw [if_neg hfb, List.filter_cons_of_neg (by simp [Event.is_enable, hfb])]
          rfl
    constructor
    · rw [hl, List.length_append]
      omega
    · intro hne
      rw [h.1] at hne ⊢
      simp only [] at hne ⊢
      by_cases hu : cursor_unchanged s.crtc cs = true
      · unfold cursor_unchanged at hu
        simp only [decide_eq_true_eq] at hu
        exact Or.inl hu.1.symm
      · right
        rw [hl, if_neg hu, if_pos hne, List.length_append]
        simp

theorem drm_crtc_create_fb_shows (K : Kernel) (s : World) (cs : drm_cursor_state) :
    shows_by_commit s (drm_crtc_create_fb K s cs).2.1 := by
  have hlog : enables (create_fb_log s cs) = enables s.log := by
    unfold create_fb_log
    by_cases he : s.crtc.egl_ctx = false
    · rw [if_pos he]
      unfold enables
      rw [List.filter_cons_of_neg (by simp [Event.is_enable])]
    · rw [if_neg he]
  by_cases hi : create_fb_init_fails K s cs = true
  · rw [drm_crtc_create_fb_init_fails K s cs hi]
    exact shows_by_commit_of_log _ _ rfl hlog
  · rw [drm_crtc_create_fb_converts K s cs (by simpa using hi)]
    refine shows_by_commit_of_log _ _ rfl ?_
    show enables (_ :: create_fb_log s cs) = _
    unfold enables
    rw [List.filter_cons_of_neg (by simp [Event.is_enable])]
    exact hlog

theorem create_then_update_shows (K : Kernel) (s : World) (cs : drm_cursor_state) :
    shows_by_commit s
      (match drm_crtc_create_fb K s cs with
        | (r, s1, cs2) =>
          if r < 0 then flow.goto_error s1
          else
            match drm_crtc_update_cursor K s1 (some cs2) with
            | (r2, s2) => if r2 < 0 then flow.goto_error s2
              else flow.fallthrough s2 cs2).world := by
  have hc := drm_crtc_create_fb_shows K s cs
  rcases hr : drm_crtc_create_fb K s cs with ⟨r, s1, cs2⟩
  rw [hr] at hc
  simp only [] at hc ⊢
  by_cases hneg : r < 0
  · rw [if_pos hneg]
    exact hc
  · rw [if_neg hneg]
    have hu := drm_crtc_update_cursor_shows K s1 (some cs2)
    rcases hr2 : drm_crtc_update_cursor K s1 (some cs2) with ⟨r2, s2⟩
    rw [hr2] at hu
    simp only [] at hu ⊢
    rw [flow_branch_world]
    exact shows_by_commit_trans hc hu

theorem drm_crtc_thread_handle_set_shows (K : Kernel) (s : World) (cs : drm_cursor_state) :
    shows_by_commit s (drm_crtc_thread_handle_set K s cs).world := by
  unfold drm_crtc_thread_handle_set
  by_cases hm : int_and cs.request REQ_SET_CURSOR ≠ 0
  · rw [if_pos hm]
    simp only []
    by_cases hh : cs.handle = 0
    · rw [if_pos hh]
      exact drm_crtc_update_cursor_shows K s none
    · rw [if_neg hh]
      exact create_then_update_shows K s _
  · rw [if_neg hm]
    exact shows_by_commit_refl s

theorem drm_crtc_thread_handle_move_shows (K : Kernel) (s : World) (cs : drm_cursor_state)
    (s3 : World) (cs3 : drm_cursor_state)
    (hf : drm_crtc_thread_handle_move K s cs = flow.fallthrough s3 cs3) :
    shows_by_commit s s3 := by
  have hw : s3 = (drm_crtc_thread_handle_move K s cs).world := by rw [hf]; rfl
  rw [hw]
  unfold drm_crtc_thread_handle_move at hf ⊢
  by_cases hm : int_and cs.request REQ_MOVE_CURSOR ≠ 0
  · rw [if_pos hm] at hf ⊢
    simp only [] at hf ⊢
    by_cases hh : s.crtc.cursor_curr.handle = 0
    · rw [if_pos hh] at hf
      cases hf
    · rw [if_neg hh]
      by_cases hoff : s.crtc.cursor_curr.off_x ≠ cs.off_x ∨ s.crtc.cursor_curr.off_y ≠ cs.off_y
      · rw [if_pos hoff]
        exact create_then_update_shows K s _
      · rw [if_neg hoff]
        have hu := drm_crtc_update_cursor_shows K s
          (some { cs with request := int_and cs.request (int_not REQ_MOVE_CURSOR),
                          fb := s.crtc.cursor_curr.fb })
        rcases hr2 : drm_crtc_update_cursor K s
          (some { cs with request := int_and cs.request (int_not REQ_MOVE_CURSOR),
                          fb := s.crtc.cursor_curr.fb }) with ⟨r2, s2⟩
        rw [hr2] at hu
        simp only []
        rw [flow_branch_world]
        exact hu
  · rw [if_neg hm]
    exact shows_by_commit_refl s

/-- When the loop body changes the `verified` flag, the display buffer it
leaves was shown before or was committed in this turn. -/
theorem drm_crtc_thread_body_shows (K : Kernel) (s : World) (cs : drm_cursor_state)
    (hv : (drm_crtc_thread_body K s cs).world.crtc.verified ≠ s.crtc.verified) :
    shows_by_commit s (drm_crtc_thread_body K s cs).world := by
  by_cases hc : connected K s = true
  · rw [drm_crtc_thread_body_connected K s cs hc] at hv ⊢
    have h0 : shows_by_commit s
        { s with
          crtc := { s.crtc with width := (resolution K s).1, height := (resolution K s).2 }
          log := Event.drmModeGetCrtc s.crtc.crtc_id :: s.log } :=
      shows_by_commit_of_log _ _ rfl (by
        unfold enables
        rw [List.filter_cons_of_neg (by simp [Event.is_enable])])
    have hs := drm_crtc_thread_handle_set_shows K
      { s with
        crtc := { s.crtc with width := (resolution K s).1, height := (resolution K s).2 }
        log := Event.drmModeGetCrtc s.crtc.crtc_id :: s.log }
      (drm_crtc_clip_offsets (resolution K s).1 (resolution K s).2 cs)
    rcases hr : drm_crtc_thread_handle_set K
      { s with
        crtc := { s.crtc with width := (resolution K s).1, height := (resolution K s).2 }
        log := Event.drmModeGetCrtc s.crtc.crtc_id :: s.log }
      (drm_crtc_clip_offsets (resolution K s).1 (resolution K s).2 cs) with ⟨s2, cs2⟩ | s2 | s2
    · rw [hr] at hs hv
      simp only [] at hv ⊢
      rcases hr2 : drm_crtc_thread_handle_move K s2 cs2 with ⟨s3, cs3⟩ | s3 | s3
      · have hm := drm_crtc_thread_handle_move_shows K s2 cs2 s3 cs3 hr2
        have h3 := shows_by_commit_trans (shows_by_commit_trans h0 hs) hm
        simp only []
        have hver : shows_by_commit s3 (drm_crtc_thread_verify s3) := by
          unfold drm_crtc_thread_verify
          split_ifs
          · exact shows_by_commit_of_log _ _ rfl rfl
          · exact shows_by_commit_refl s3
        exact shows_by_commit_trans h3 hver
      · rw [hr2] at hv
        have hm := drm_crtc_thread_handle_move_keeps K s2 cs2
        have hs2 := drm_crtc_thread_handle_set_keeps K
          { s with
            crtc := { s.crtc with width := (resolution K s).1, height := (resolution K s).2 }
            log := Event.drmModeGetCrtc s.crtc.crtc_id :: s.log }
          (drm_crtc_clip_offsets (resolution K s).1 (resolution K s).2 cs)
        rw [hr] at hs2
        rw [hr2] at hm
        exact absurd (hm.1.trans hs2.1) hv
      · rw [hr2] at hv
        have hm := drm_crtc_thread_handle_move_keeps K s2 cs2
        have hs2 := drm_crtc_thread_handle_set_keeps K
          { s with
            crtc := { s.crtc with width := (resolution K s).1, height := (resolution K s).2 }
            log := Event.drmModeGetCrtc s.crtc.crtc_id :: s.log }
          (drm_crtc_clip_offsets (resolution K s).1 (resolution K s).2 cs)
        rw [hr] at hs2
        rw [hr2] at hm
        exact absurd (hm.1.trans hs2.1) hv
    · rw [hr] at hs
      exact shows_by_commit_trans h0 hs
    · rw [hr] at hs
      exact shows_by_commit_trans h0 hs
  · have hd : connected K s = false := by simpa using hc
    exact absurd ((drm_crtc_thread_body_keeps K s cs).2.2 hd) hv

/-- C18: the readiness barrier. A turn of the worker changes the `verified`
flag of its output only by setting it, at the end of a loop body that was not
left for `error`, for a connected output, with `cursor_curr.fb != 0`; and when
no display buffer was shown before the turn, the turn made a plane commit
with a non-zero buffer. The labels `next` and `error`, the start of the
worker, `drm_set_cursor` and `drm_move_cursor` leave the flag of every output
as it is, so that no sequence of actions clears a flag that is set. The wait
condition of `drm_set_cursor` is false whenever the handle is null or
`verified` is set. A turn in which the output is disconnected leaves
`verified` unchanged. -/
theorem C18_readiness_barrier (K : Kernel) :
    (∀ (s : World) (f : flow), drm_crtc_thread_turn K s = some f →
      f.world.crtc.verified ≠ s.crtc.verified →
      s.crtc.verified = false ∧ f.world.crtc.verified = true ∧
      f.world.crtc.cursor_curr.fb ≠ 0 ∧ (∃ s1, f = flow.goto_next s1) ∧
      connected K s = true ∧
      (s.crtc.cursor_curr.fb = 0 → (enables s.log).length < (enables f.world.log).length)) ∧
    (∀ (s : World),
      (drm_crtc_thread_next K s).crtc.verified = s.crtc.verified ∧
      (drm_crtc_thread_error K s).crtc.verified = s.crtc.verified ∧
      (drm_crtc_thread_start K s).crtc.verified = s.crtc.verified) ∧
    (∀ (sys : Sys) (crtc_id handle width height j : Nat),
      ((drm_set_cursor K sys crtc_id handle width height).2.crtc j).verified =
        (sys.crtc j).verified) ∧
    (∀ (sys : Sys) (crtc_id : Nat) (x y : Int) (j : Nat),
      ((drm_move_cursor K sys crtc_id x y).2.crtc j).verified = (sys.crtc j).verified) ∧
    (∀ (sys : Sys) (actions : List Action) (j : Nat), (sys.crtc j).verified = true →
      ((run K sys actions).crtc j).verified = true) ∧
    (∀ (crtc : drm_crtc) (handle : Nat), (handle = 0 ∨ crtc.verified = true) →
      drm_set_cursor_waits crtc handle = false) ∧
    (∀ (s : World) (f : flow), drm_crtc_thread_turn K s = some f → connected K s = false →
      f.world.crtc.verified = s.crtc.verified) := by
  refine ⟨?_, ?_, ?_, ?_, ?_, ?_, ?_⟩
  · intro s f hturn hne
    have hk := drm_crtc_thread_turn_keeps K s f hturn
    rcases hk.2.1 with h1 | h1
    · exact absurd h1 hne
    · obtain ⟨hv0, hv1, hfb, hnext⟩ := h1
      have hconn : connected K s = true := by
        cases hc : connected K s with
        | true => rfl
        | false => exact absurd (hk.2.2 hc) hne
      refine ⟨hv0, hv1, hfb, hnext, hconn, fun h0 => ?_⟩
      obtain ⟨_, hf⟩ := drm_crtc_thread_turn_pending K s f hturn
      have hb := drm_crtc_thread_body_shows K
        { s with crtc := { s.crtc with
            cursor_next := { s.crtc.cursor_next with request := 0 }
            state := drm_thread_state.IDLE } } s.crtc.cursor_next
      rw [← hf] at hb
      have hb2 := hb hne
      rcases hb2.2 hfb with h2 | h2
      · rw [h2] at hfb
        exact absurd h0 hfb
      · exact h2
  · intro s
    exact ⟨(drm_crtc_thread_next_keeps K s).1, (drm_crtc_thread_error_keeps K s).1,
      (drm_crtc_thread_start_keeps K s).1⟩
  · intro sys crtc_id handle width height j
    exact (drm_set_cursor_keeps K sys crtc_id handle width height).2 j
  · intro sys crtc_id x y j
    exact (drm_move_cursor_keeps K sys crtc_id x y).2 j
  · intro sys actions j hj
    exact (run_keeps K actions sys).2 j hj
  · intro crtc handle h
    unfold drm_set_cursor_waits
    rcases h with h | h
    · simp [h]
    · simp [h]
  · intro s f hturn hd
    exact (drm_crtc_thread_turn_keeps K s f hturn).2.2 hd

/-- C18, witness: the turn of the sample output for `SetCursor(5, 64, 64)`
sets the flag, with a display buffer committed. -/
theorem C18_witness :
    sample_world_set.crtc.verified = false ∧
    sample_flow_set.world.crtc.verified = true ∧
    sample_flow_set.world.crtc.cursor_curr.fb ≠ 0 ∧
    (∃ s1, sample_flow_set = flow.goto_next s1) ∧
    connected sample_kernel sample_world_set = true ∧
    (sample_world_set.crtc.cursor_curr.fb = 0 →
      (enables sample_world_set.log).length < (enables sample_flow_set.world.log).length) :=
  (C18_readiness_barrier sample_kernel).1 sample_world_set sample_flow_set (by decide) (by decide)

/-! ## Plane eligibility and layout choice (C19, C20) -/

theorem land_one_shiftLeft (m k : Nat) : Nat.land m (1 <<< k) = 0 ↔ m.testBit k = false := by
  show m &&& (1 <<< k) = 0 ↔ _
  rw [Nat.one_shiftLeft]
  constructor
  · intro h
    have := congrArg (fun v => Nat.testBit v k) h
    simp only [Nat.testBit_and, Nat.testBit_two_pow, decide_True, Bool.and_true,
      Nat.zero_testBit] at this
    exact this
  · intro h
    apply Nat.eq_of_testBit_eq
    intro j
    rw [Nat.testBit_and, Nat.testBit_two_pow, Nat.zero_testBit]
    by_cases hj : k = j
    · rw [← hj, h]
      rfl
    · simp [hj]

/-- The function `drm_plane_get_prop` changes the index cache of the plane
only. -/
theorem drm_plane_get_prop_plane (K : Kernel) (plane : drm_plane) (p : drm_plane_prop)
    (log : List Event) :
    (drm_plane_get_prop K plane p log).2.1 =
      { plane with prop_ids := (drm_plane_get_prop K plane p log).2.1.prop_ids } := by
  unfold drm_plane_get_prop
  by_cases hc : plane.prop_ids.getD p.idx 0 ≠ 0
  · rw [if_pos hc]
  · rw [if_neg hc]
    rcases hs : drm_plane_get_prop_scan K (drm_plane_prop_names p) plane.props.props 0 log
      with ⟨r, log1⟩
    cases r with
    | none => rfl
    | some i => rfl

theorem drm_plane_get_prop_value_plane (K : Kernel) (plane : drm_plane) (p : drm_plane_prop)
    (log : List Event) :
    (drm_plane_get_prop_value K plane p log).2.2.1 =
      { plane with prop_ids := (drm_plane_get_prop_value K plane p log).2.2.1.prop_ids } ∧
    ((drm_plane_get_prop_value K plane p log).1 = 0 ∨
      (drm_plane_get_prop_value K plane p log).1 = -1) := by
  unfold drm_plane_get_prop_value
  have h := drm_plane_get_prop_plane K plane p log
  rcases hs : drm_plane_get_prop K plane p log with ⟨idx, plane1, log1⟩
  rw [hs] at h
  simp only [] at h ⊢
  by_cases hi : idx < 0
  · rw [if_pos hi]
    exact ⟨h, Or.inr rfl⟩
  · rw [if_neg hi]
    exact ⟨h, Or.inl rfl⟩

/-- The function `drm_crtc_bind_plane` for an output without a plane and a
plane id that no output holds: it returns 0 exactly for an eligible plane,
which it binds, and -1 otherwise, leaving the context as it is. -/
theorem drm_crtc_bind_plane_spec (K : Kernel) (sys : Sys) (i plane_id : Nat)
    (allow_overlay : Bool) (hnone : (sys.crtc i).plane = none)
    (hfree : sys.ctx.crtcs.any (fun c => c.has_plane_id plane_id) = false) :
    ((drm_crtc_bind_plane K sys i plane_id allow_overlay).1 = 0 ↔
      plane_eligible K sys i plane_id allow_overlay = true) ∧
    ((drm_crtc_bind_plane K sys i plane_id allow_overlay).1 = 0 ∨
      (drm_crtc_bind_plane K sys i plane_id allow_overlay).1 = -1) ∧
    ((drm_crtc_bind_plane K sys i plane_id allow_overlay).1 ≠ 0 →
      (drm_crtc_bind_plane K sys i plane_id allow_overlay).2.ctx = sys.ctx) ∧
    ((drm_crtc_bind_plane K sys i plane_id allow_overlay).1 = 0 →
      ∃ plane value, drm_crtc_bind_plane_candidate K sys plane_id = some (plane, value) ∧
        (drm_crtc_bind_plane K sys i plane_id allow_overlay).2.ctx =
          (sys.set_crtc i
            { sys.crtc i with
              plane := some { plane with cursor_plane := decide (value = DRM_PLANE_TYPE_CURSOR) }
              use_afbc_modifier := drm_crtc_bind_plane_afbc sys i plane }).ctx ∧
        value ≠ DRM_PLANE_TYPE_PRIMARY ∧
        (allow_overlay = false → value ≠ DRM_PLANE_TYPE_OVERLAY)) := by
  have hm1 : ¬ ((-1 : Int) = 0) := by decide
  unfold drm_crtc_bind_plane plane_eligible drm_crtc_bind_plane_candidate
  rw [if_neg (by rw [hnone]; simp), if_neg (by rw [hfree]; simp)]
  rcases hr : drm_get_plane K plane_id sys.log with ⟨o, log1⟩
  cases o with
  | none =>
    exact ⟨by simp, Or.inr rfl, fun _ => rfl, fun h => absurd h hm1⟩
  | some plane =>
    simp only []
    have hv := drm_plane_get_prop_value_plane K plane drm_plane_prop.type log1
    rcases hr2 : drm_plane_get_prop_value K plane drm_plane_prop.type log1
      with ⟨r, value, plane1, log2⟩
    rw [hr2] at hv
    simp only [] at hv ⊢
    have hcan1 : plane1.can_afbc = plane.can_afbc := by rw [hv.1]
    have hcan2 : plane1.can_linear = plane.can_linear := by rw [hv.1]
    have hmask : plane1.plane = plane.plane := by rw [hv.1]
    have hreject : ∀ log, (((-1 : Int), ({ sys with log := log } : Sys)).1 = 0 ∨
        ((-1 : Int), ({ sys with log := log } : Sys)).1 = -1) ∧
        (((-1 : Int), ({ sys with log := log } : Sys)).1 ≠ 0 →
          ((-1 : Int), ({ sys with log := log } : Sys)).2.ctx = sys.ctx) :=
      fun log => ⟨Or.inr rfl, fun _ => rfl⟩
    by_cases h1 : plane.can_afbc = false ∧ plane.can_linear = false
    · rw [if_pos h1]
      refine ⟨?_, (hreject log1).1, (hreject log1).2, fun h => absurd h hm1⟩
      by_cases hneg : r < 0
      · simp [hneg]
      · simp [hneg, hcan1, hcan2, h1.1, h1.2]
    · rw [if_neg h1]
      by_cases h2 : Nat.land plane.plane.possible_crtcs (1 <<< (sys.crtc i).crtc_pipe) = 0
      · rw [if_pos h2]
        have ht := (land_one_shiftLeft _ _).mp h2
        refine ⟨?_, (hreject log1).1, (hreject log1).2, fun h => absurd h hm1⟩
        by_cases hneg : r < 0
        · simp [hneg]
        · simp [hneg, hmask, ht]
      · rw [if_neg h2]
        have ht : plane.plane.possible_crtcs.testBit (sys.crtc i).crtc_pipe = true := by
          cases hb : plane.plane.possible_crtcs.testBit (sys.crtc i).crtc_pipe with
          | true => rfl
          | false => exact absurd ((land_one_shiftLeft _ _).mpr hb) h2
        have hsup : (plane.can_linear || plane.can_afbc) = true := by
          cases ha : plane.can_afbc with
          | true => exact Bool.or_true _
          | false =>
            cases hl : plane.can_linear with
            | true => rfl
            | false => exact absurd ⟨ha, hl⟩ h1
        by_cases h3 : r < 0
        · rw [if_pos h3]
          refine ⟨?_, (hreject log2).1, (hreject log2).2, fun h => absurd h hm1⟩
          simp [h3]
        · rw [if_neg h3]
          by_cases h4 : value = DRM_PLANE_TYPE_PRIMARY
          · rw [if_pos h4]
            refine ⟨?_, (hreject log2).1, (hreject log2).2, fun h => absurd h hm1⟩
            simp [h3, h4]
          · rw [if_neg h4]
            by_cases h5 : allow_overlay = false ∧ value = DRM_PLANE_TYPE_OVERLAY
            · rw [if_pos h5]
              refine ⟨?_, (hreject log2).1, (hreject log2).2, fun h => absurd h hm1⟩
              simp [h3, h5.1, h5.2]
            · rw [if_neg h5]
              refine ⟨?_, Or.inl rfl, fun h => absurd rfl h, fun _ => ⟨plane1, value, ?_, ?_, h4,
                fun ha hov => h5 ⟨ha, hov⟩⟩⟩
              · have h6 : allow_overlay = true ∨ value ≠ DRM_PLANE_TYPE_OVERLAY := by
                  cases ha : allow_overlay with
                  | true => exact Or.inl rfl
                  | false => exact Or.inr (fun hov => h5 ⟨ha, hov⟩)
                simp only [if_neg h3, hcan1, hcan2, hmask, hsup, ht, Bool.true_and,
                  Bool.and_eq_true, decide_eq_true_eq, Bool.or_eq_true, true_iff]
                exact ⟨h4, h6⟩
              · rw [if_neg h3]
              · unfold drm_crtc_bind_plane_afbc Sys.set_crtc
                rfl

theorem Sys.crtc_of_ctx (a b : Sys) (h : a.ctx = b.ctx) (j : Nat) : a.crtc j = b.crtc j := by
  unfold Sys.crtc
  rw [h]

/-- C19: plane eligibility. For an output without a plane and a plane id that
no output holds, `drm_crtc_bind_plane` returns 0 exactly when the plane is
eligible: it supports the linear or the compressed layout for the required
format, bit `crtc_pipe` of its mask of possible outputs is set, its type is
not primary, and its type is not overlay unless the call allows overlay. It
returns -1 otherwise and then leaves every output as it is, the plane binding
and the layout flag included. A plane it binds is stored in the output, with
`cursor_plane` set exactly for the type cursor; its type is not primary, and
for a call that does not allow overlay it is not overlay either, so that of
the three plane types it is a cursor plane. -/
theorem C19_plane_eligibility (K : Kernel) (sys : Sys) (i plane_id : Nat) (allow_overlay : Bool)
    (hi : i < sys.ctx.crtcs.length) (hnone : (sys.crtc i).plane = none)
    (hfree : sys.ctx.crtcs.any (fun c => c.has_plane_id plane_id) = false) :
    ((drm_crtc_bind_plane K sys i plane_id allow_overlay).1 = 0 ↔
      plane_eligible K sys i plane_id allow_overlay = true) ∧
    ((drm_crtc_bind_plane K sys i plane_id allow_overlay).1 ≠ 0 →
      (drm_crtc_bind_plane K sys i plane_id allow_overlay).1 = -1 ∧
      ∀ j, (drm_crtc_bind_plane K sys i plane_id allow_overlay).2.crtc j = sys.crtc j) ∧
    ((drm_crtc_bind_plane K sys i plane_id allow_overlay).1 = 0 →
      ∃ plane value, drm_crtc_bind_plane_candidate K sys plane_id = some (plane, value) ∧
        ((drm_crtc_bind_plane K sys i plane_id allow_overlay).2.crtc i).plane =
          some { plane with cursor_plane := decide (value = DRM_PLANE_TYPE_CURSOR) } ∧
        value ≠ DRM_PLANE_TYPE_PRIMARY ∧
        (allow_overlay = false →
          value ≠ DRM_PLANE_TYPE_OVERLAY ∧
          ((value = DRM_PLANE_TYPE_OVERLAY ∨ value = DRM_PLANE_TYPE_PRIMARY ∨
              value = DRM_PLANE_TYPE_CURSOR) →
            value = DRM_PLANE_TYPE_CURSOR ∧
            ∀ p, ((drm_crtc_bind_plane K sys i plane_id allow_overlay).2.crtc i).plane = some p →
              p.cursor_plane = true))) := by
  obtain ⟨h1, h2, h3, h4⟩ := drm_crtc_bind_plane_spec K sys i plane_id allow_overlay hnone hfree
  refine ⟨h1, fun hne => ?_, fun h0 => ?_⟩
  · refine ⟨?_, fun j => Sys.crtc_of_ctx _ _ (h3 hne) j⟩
    rcases h2 with h | h
    · exact absurd h hne
    · exact h
  · obtain ⟨plane, value, hc, hctx, hp, ho⟩ := h4 h0
    have hplane : ((drm_crtc_bind_plane K sys i plane_id allow_overlay).2.crtc i).plane =
        some { plane with cursor_plane := decide (value = DRM_PLANE_TYPE_CURSOR) } := by
      rw [Sys.crtc_of_ctx _ _ hctx i, Sys.crtc_set_crtc, if_pos ⟨rfl, hi⟩]
    refine ⟨plane, value, hc, hplane, hp, fun ha => ⟨ho ha, fun hty => ?_⟩⟩
    have hcur : value = DRM_PLANE_TYPE_CURSOR := by
      rcases hty with h | h | h
      · exact absurd h (ho ha)
      · exact absurd h hp
      · exact h
    refine ⟨hcur, fun p hpp => ?_⟩
    rw [hplane] at hpp
    simp only [Option.some.injEq] at hpp
    rw [← hpp]
    simp [hcur]

/-- C19, witness: the first output of the sample program and the plane 31, in
a call that does not allow overlay. -/
theorem C19_witness :
    0 < sample_sys_two.ctx.crtcs.length ∧
    (sample_sys_two.crtc 0).plane = none ∧
    sample_sys_two.ctx.crtcs.any (fun c => c.has_plane_id 31) = false ∧
    plane_eligible sample_kernel sample_sys_two 0 31 false = true ∧
    (drm_crtc_bind_plane sample_kernel sample_sys_two 0 31 false).1 = 0 :=
  ⟨by decide, by decide, by decide, by decide,
    (C19_plane_eligibility sample_kernel sample_sys_two 0 31 false (by decide) (by decide)
      (by decide)).1.mpr (by decide)⟩

/-- C20: layout choice. After a successful bind on an output whose layout flag
`use_afbc_modifier` was clear, the flag is set exactly when the compressed
layout is preferred (`ctx->prefer_afbc_modifier`) and the plane supports it,
or the plane does not support linear. With the flag set the GPU backend is
created for `ABGR8888` with the AFBC modifier, and otherwise for `ARGB8888`
with the linear modifier 0. -/
theorem C20_layout_choice (K : Kernel) (sys : Sys) (i plane_id : Nat) (allow_overlay : Bool)
    (hi : i < sys.ctx.crtcs.length) (hnone : (sys.crtc i).plane = none)
    (hfree : sys.ctx.crtcs.any (fun c => c.has_plane_id plane_id) = false)
    (hflag : (sys.crtc i).use_afbc_modifier = false)
    (hb : (drm_crtc_bind_plane K sys i plane_id allow_overlay).1 = 0) :
    (∃ plane, ((drm_crtc_bind_plane K sys i plane_id allow_overlay).2.crtc i).plane = some plane ∧
      (((drm_crtc_bind_plane K sys i plane_id allow_overlay).2.crtc i).use_afbc_modifier = true ↔
        ((sys.ctx.prefer_afbc_modifier ≠ 0 ∧ plane.can_afbc = true) ∨
          plane.can_linear = false))) ∧
    (∀ (s : World) (cs : drm_cursor_state), s.crtc.egl_ctx = false →
      (s.crtc.use_afbc_modifier = true →
        Event.egl_init_ctx s.ctx.num_surfaces cs.width cs.height GBM_FORMAT_ABGR8888
          DRM_AFBC_MODIFIER ∈ (drm_crtc_create_fb K s cs).2.1.log) ∧
      (s.crtc.use_afbc_modifier = false →
        Event.egl_init_ctx s.ctx.num_surfaces cs.width cs.height GBM_FORMAT_ARGB8888 0 ∈
          (drm_crtc_create_fb K s cs).2.1.log)) := by
  constructor
  · obtain ⟨plane, value, -, hctx, -, -⟩ :=
      (drm_crtc_bind_plane_spec K sys i plane_id allow_overlay hnone hfree).2.2.2 hb
    have hcrtc := Sys.crtc_of_ctx _ _ hctx i
    rw [Sys.crtc_set_crtc, if_pos ⟨rfl, hi⟩] at hcrtc
    refine ⟨{ plane with cursor_plane := decide (value = DRM_PLANE_TYPE_CURSOR) }, by rw [hcrtc],
      ?_⟩
    rw [hcrtc]
    show drm_crtc_bind_plane_afbc sys i plane = true ↔ _
    unfold drm_crtc_bind_plane_afbc
    by_cases h1 : sys.ctx.prefer_afbc_modifier ≠ 0 ∧ plane.can_afbc = true
    · rw [if_pos h1]
      exact ⟨fun _ => Or.inl h1, fun _ => rfl⟩
    · rw [if_neg h1]
      by_cases h2 : plane.can_linear = false
      · rw [if_pos h2]
        exact ⟨fun _ => Or.inr h2, fun _ => rfl⟩
      · rw [if_neg h2, hflag]
        constructor
        · intro h
          cases h
        · rintro (h | h)
          · exact absurd h h1
          · exact absurd h h2
  · intro s cs he
    have hlog : create_fb_log s cs ⊆ (drm_crtc_create_fb K s cs).2.1.log := by
      by_cases hinit : create_fb_init_fails K s cs = true
      · rw [drm_crtc_create_fb_init_fails K s cs hinit]
        exact fun e h => h
      · rw [drm_crtc_create_fb_converts K s cs (by simpa using hinit)]
        exact fun e h => List.mem_cons_of_mem _ h
    constructor
    · intro hu
      apply hlog
      unfold create_fb_log
      rw [if_pos he, hu]
      exact List.mem_cons_self _ _
    · intro hu
      apply hlog
      unfold create_fb_log
      rw [if_pos he, hu]
      exact List.mem_cons_self _ _

/-- C20, witness: the plane 31 of the sample program supports linear only and
the compressed layout is not preferred: the output uses linear. -/
theorem C20_witness :
    (sample_sys_two.crtc 0).use_afbc_modifier = false ∧
    (drm_crtc_bind_plane sample_kernel sample_sys_two 0 31 false).1 = 0 ∧
    ((drm_crtc_bind_plane sample_kernel sample_sys_two 0 31 false).2.crtc 0).use_afbc_modifier
      = false ∧
    ∃ plane, ((drm_crtc_bind_plane sample_kernel sample_sys_two 0 31 false).2.crtc 0).plane =
        some plane ∧
      (((drm_crtc_bind_plane sample_kernel sample_sys_two 0 31 false).2.crtc 0).use_afbc_modifier
          = true ↔
        ((sample_sys_two.ctx.prefer_afbc_modifier ≠ 0 ∧ plane.can_afbc = true) ∨
          plane.can_linear = false)) :=
  ⟨by decide, by decide, by decide,
    (C20_layout_choice sample_kernel sample_sys_two 0 31 false (by decide) (by decide)
      (by decide) (by decide) (by decide)).1⟩

/-! ## The format-support query (C21) -/

theorem int_shl_one_small (k : Nat) (hk : k ≤ 30) :
    uint64_of_int (int_shl_one k) = 1 <<< k := by
  have hp : 2 ^ k < 2 ^ 31 := Nat.pow_lt_pow_right (by decide) (by omega)
  have hm : k % 32 = k := Nat.mod_eq_of_lt (by omega)
  unfold int_shl_one uint64_of_int int_of_uint32
  rw [hm, Nat.one_shiftLeft]
  generalize 2 ^ k = p at hp ⊢
  have hp2 : p < 2147483648 := hp
  split_ifs <;> omega

/-- The loop body of `drm_plane_update_format` in one equation. -/
theorem drm_plane_check_modifier_eq (i : Nat) (plane : drm_plane) (mod : drm_format_modifier) :
    drm_plane_check_modifier i plane mod =
      if drm_plane_modifier_hit i mod = true then
        { plane with
          can_afbc := plane.can_afbc || decide (mod.modifier = DRM_AFBC_MODIFIER)
          can_linear := plane.can_linear || decide (mod.modifier = DRM_FORMAT_MOD_LINEAR) }
      else plane := by
  unfold drm_plane_check_modifier drm_plane_modifier_hit
  by_cases h1 : i < mod.offset ∨ i > (mod.offset + 63) % 4294967296
  · rw [if_pos h1]
    simp [h1]
  · rw [if_neg h1]
    by_cases h2 : Nat.land mod.formats (uint64_of_int (int_shl_one
        ((i + (4294967296 - mod.offset)) % 4294967296))) = 0
    · rw [if_pos h2]
      simp [h2]
    · rw [if_neg h2]
      simp only [h1, h2, decide_False, Bool.not_false, Bool.and_self, if_true]
      by_cases ha : mod.modifier = DRM_AFBC_MODIFIER
      · by_cases hl : mod.modifier = DRM_FORMAT_MOD_LINEAR
        · rw [if_pos ha, if_pos hl, decide_eq_true ha, decide_eq_true hl, Bool.or_true,
            Bool.or_true]
        · rw [if_pos ha, if_neg hl, decide_eq_true ha, decide_eq_false hl, Bool.or_true,
            Bool.or_false]
      · by_cases hl : mod.modifier = DRM_FORMAT_MOD_LINEAR
        · rw [if_neg ha, if_pos hl, decide_eq_false ha, decide_eq_true hl, Bool.or_true,
            Bool.or_false]
        · rw [if_neg ha, if_neg hl, decide_eq_false ha, decide_eq_false hl, Bool.or_false,
            Bool.or_false]

/-- The loop over the modifier table: a flag is set afterwards exactly when it
was set before or some entry that passes both tests has the flag's modifier;
nothing else of the plane changes. -/
theorem drm_plane_check_modifiers_spec (i : Nat) (mods : List drm_format_modifier)
    (plane : drm_plane) :
    ((mods.foldl (drm_plane_check_modifier i) plane).can_linear = true ↔
      plane.can_linear = true ∨
        ∃ mod ∈ mods, drm_plane_modifier_hit i mod = true ∧
          mod.modifier = DRM_FORMAT_MOD_LINEAR) ∧
    ((mods.foldl (drm_plane_check_modifier i) plane).can_afbc = true ↔
      plane.can_afbc = true ∨
        ∃ mod ∈ mods, drm_plane_modifier_hit i mod = true ∧
          mod.modifier = DRM_AFBC_MODIFIER) := by
  induction mods generalizing plane with
  | nil => simp
  | cons mod rest ih =>
    rw [List.foldl_cons]
    have h := ih (drm_plane_check_modifier i plane mod)
    rw [h.1, h.2, drm_plane_check_modifier_eq]
    by_cases hh : drm_plane_modifier_hit i mod = true
    · rw [if_pos hh]
      simp only [Bool.or_eq_true, decide_eq_true_eq, List.mem_cons, exists_eq_or_imp, hh,
        true_and]
      constructor
      · tauto
      · tauto
    · rw [if_neg hh]
      simp only [List.mem_cons, exists_eq_or_imp, hh, false_and, false_or]
      simp

/-- The two tests of the loop body, for an entry whose bit for format `i` is
one of the low 31 of its mask: the entry passes them exactly when
`offset ≤ i ≤ offset + 63` and bit `i - offset` of the mask is set. -/
theorem drm_plane_modifier_hit_low (i : Nat) (mod : drm_format_modifier)
    (hoff : mod.offset + 63 < 4294967296) (hlow : i ≤ mod.offset + 30) :
    drm_plane_modifier_hit i mod = true ↔
      mod.offset ≤ i ∧ i ≤ mod.offset + 63 ∧ mod.formats.testBit (i - mod.offset) = true := by
  unfold drm_plane_modifier_hit
  rw [Nat.mod_eq_of_lt hoff]
  by_cases h1 : i < mod.offset
  · simp [h1]
  · have hk : (i + (4294967296 - mod.offset)) % 4294967296 = i - mod.offset := by omega
    rw [hk, int_shl_one_small _ (by omega)]
    have h2 : ¬ (i < mod.offset ∨ i > mod.offset + 63) := by omega
    simp only [h2, decide_False, Bool.not_false, Bool.true_and, Bool.not_eq_true',
      decide_eq_false_iff_not]
    have hl := land_one_shiftLeft mod.formats (i - mod.offset)
    constructor
    · intro h
      refine ⟨by omega, by omega, ?_⟩
      cases hb : mod.formats.testBit (i - mod.offset) with
      | true => rfl
      | false => exact absurd (hl.mpr hb) h
    · intro h hz
      have := hl.mp hz
      rw [h.2.2] at this
      exact absurd this (by decide)

/-- The function `drm_plane_update_format`, case by case.  With `i` the index
of ARGB8888 in the format table of the blob, a flag is set in the last case
exactly when some entry of the modifier table passes the two tests of the
loop body and has the flag's modifier. -/
theorem drm_plane_update_format_spec (K : Kernel) (plane0 : drm_plane) (log : List Event) :
    (DRM_FORMAT_ARGB8888 ∉ plane0.plane.formats →
      (drm_plane_update_format K plane0 log).1.can_linear = false ∧
      (drm_plane_update_format K plane0 log).1.can_afbc = false) ∧
    (DRM_FORMAT_ARGB8888 ∈ plane0.plane.formats →
      ((drm_plane_get_prop_value K { plane0 with can_afbc := false, can_linear := false }
          drm_plane_prop.IN_FORMATS log).1 < 0 →
        (drm_plane_update_format K plane0 log).1.can_linear = true ∧
        (drm_plane_update_format K plane0 log).1.can_afbc = false) ∧
      (¬ (drm_plane_get_prop_value K { plane0 with can_afbc := false, can_linear := false }
          drm_plane_prop.IN_FORMATS log).1 < 0 →
        ∀ header,
          K.drmModeGetPropertyBlob
            (drm_plane_get_prop_value K { plane0 with can_afbc := false, can_linear := false }
              drm_plane_prop.IN_FORMATS log).2.2.2
            ((drm_plane_get_prop_value K { plane0 with can_afbc := false, can_linear := false }
              drm_plane_prop.IN_FORMATS log).2.1 % 4294967296) = some header →
          DRM_FORMAT_ARGB8888 ∈ header.formats →
          (header.modifiers = [] →
            (drm_plane_update_format K plane0 log).1.can_linear = true ∧
            (drm_plane_update_format K plane0 log).1.can_afbc = false) ∧
          (header.modifiers ≠ [] →
            ((drm_plane_update_format K plane0 log).1.can_linear = true ↔
              ∃ mod ∈ header.modifiers,
                drm_plane_modifier_hit (header.formats.indexOf DRM_FORMAT_ARGB8888) mod = true ∧
                mod.modifier = DRM_FORMAT_MOD_LINEAR) ∧
            ((drm_plane_update_format K plane0 log).1.can_afbc = true ↔
              ∃ mod ∈ header.modifiers,
                drm_plane_modifier_hit (header.formats.indexOf DRM_FORMAT_ARGB8888) mod = true ∧
                mod.modifier = DRM_AFBC_MODIFIER)))) := by
  unfold drm_plane_update_format
  have hv := drm_plane_get_prop_value_plane K
    { plane0 with can_afbc := false, can_linear := false } drm_plane_prop.IN_FORMATS log
  constructor
  · intro hno
    have h1 : plane0.plane.formats.indexOf DRM_FORMAT_ARGB8888 = plane0.plane.formats.length :=
      List.indexOf_eq_length.mpr hno
    simp only []
    rw [if_pos h1]
    exact ⟨rfl, rfl⟩
  · intro hin
    have h1 : ¬ plane0.plane.formats.indexOf DRM_FORMAT_ARGB8888 = plane0.plane.formats.length :=
      fun h => List.indexOf_eq_length.mp h hin
    simp only []
    rw [if_neg h1]
    rcases hs : drm_plane_get_prop_value K
      { plane0 with can_afbc := false, can_linear := false } drm_plane_prop.IN_FORMATS log
      with ⟨r, value, plane1, log1⟩
    rw [hs] at hv
    simp only [] at hv ⊢
    have hl : plane1.can_linear = false := by rw [hv.1]
    have ha : plane1.can_afbc = false := by rw [hv.1]
    constructor
    · intro hr
      rw [if_pos hr]
      exact ⟨rfl, ha⟩
    · intro hr header hb hmem
      rw [if_neg hr, hb]
      have h2 : ¬ header.formats.indexOf DRM_FORMAT_ARGB8888 = header.formats.length :=
        fun h => List.indexOf_eq_length.mp h hmem
      simp only []
      rw [if_neg h2]
      constructor
      · intro hnil
        have h3 : header.modifiers.length = 0 := by rw [hnil]; rfl
        rw [if_pos h3]
        exact ⟨rfl, ha⟩
      · intro hne
        have h3 : ¬ header.modifiers.length = 0 := fun h => hne (List.length_eq_zero.mp h)
        rw [if_neg h3]
        have hm := drm_plane_check_modifiers_spec
          (header.formats.indexOf DRM_FORMAT_ARGB8888) header.modifiers plane1
        simp only []
        rw [hm.1, hm.2, hl, ha]
        simp

/-- C21, evaluated where the claim and the code part: the blob
`sample_blob_wide` lists ARGB8888 at index 32 and its only entry has the
linear modifier, `offset = 0 ≤ 32 ≤ offset + 63` and bit 32 of its 64-bit mask
set, so the claim makes the plane linear-capable; `drm_plane_update_format`
tests the mask against the `int` expression `1 << 32` and leaves both flags
false. -/
theorem C21_format_query_high_bit :
    DRM_FORMAT_ARGB8888 ∈ sample_plane_wide.plane.formats ∧
    sample_blob_wide.formats.indexOf DRM_FORMAT_ARGB8888 = 32 ∧
    (∃ mod ∈ sample_blob_wide.modifiers,
      mod.modifier = DRM_FORMAT_MOD_LINEAR ∧ mod.offset ≤ 32 ∧ 32 ≤ mod.offset + 63 ∧
      mod.formats.testBit (32 - mod.offset) = true) ∧
    (drm_plane_update_format sample_kernel_wide sample_plane_wide []).1.can_linear = false ∧
    (drm_plane_update_format sample_kernel_wide sample_plane_wide []).1.can_afbc = false ∧
    (drm_plane_update_format sample_kernel_wide sample_plane_wide []).2 =
      [Event.drmModeGetPropertyBlob 77, Event.drmModeGetProperty 8] := by
  decide

/-! ## The surface ring of the GPU backend (C22) -/

theorem ite_none_eq_some {α : Type} {c : Prop} [Decidable c] {x : Option α} {y : α}
    (h : (if c then none else x) = some y) : ¬ c ∧ x = some y := by
  by_cases hc : c
  · rw [if_pos hc] at h
    exact Option.noConfusion h
  · rw [if_neg hc] at h
    exact ⟨hc, h⟩

/-- The function `egl_flush_surfaces` changes `current_surface` only, and
resets it when it returns 0. -/
theorem egl_flush_surfaces_spec (E : Egl) (ctx : egl_ctx) :
    (egl_flush_surfaces E ctx).2.num_surfaces = ctx.num_surfaces ∧
    (egl_flush_surfaces E ctx).2.width = ctx.width ∧
    (egl_flush_surfaces E ctx).2.height = ctx.height ∧
    (¬ (egl_flush_surfaces E ctx).1 < 0 → (egl_flush_surfaces E ctx).2.current_surface = 0) := by
  unfold egl_flush_surfaces
  by_cases h : (List.range ctx.num_surfaces.toNat).all
      (fun i => E.gbm_surface_create i && E.eglCreateWindowSurface i) = true
  · rw [if_pos h]
    exact ⟨rfl, rfl, rfl, fun _ => rfl⟩
  · rw [if_neg h]
    exact ⟨rfl, rfl, rfl, fun hn => absurd (show (-1 : Int) < 0 by decide) hn⟩

/-- A context that `egl_init_ctx` returns has the requested number of
surfaces, which is at most 64, and starts at surface 0. -/
theorem egl_init_ctx_some (E : Egl) (num_surfaces width height format : Int) (modifier : Nat)
    (ctx : egl_ctx) (h : egl_init_ctx E num_surfaces width height format modifier = some ctx) :
    ctx.num_surfaces = num_surfaces ∧ num_surfaces ≤ 64 ∧ ctx.current_surface = 0 ∧
    ctx.width = width ∧ ctx.height = height := by
  unfold egl_init_ctx at h
  obtain ⟨h0, h⟩ := ite_none_eq_some h
  have hle : num_surfaces ≤ 64 := by
    unfold MAX_NUM_SURFACES at h0
    omega
  obtain ⟨_, h⟩ := ite_none_eq_some h
  obtain ⟨_, h⟩ := ite_none_eq_some h
  obtain ⟨_, h⟩ := ite_none_eq_some h
  obtain ⟨_, h⟩ := ite_none_eq_some h
  obtain ⟨_, h⟩ := ite_none_eq_some h
  obtain ⟨_, h⟩ := ite_none_eq_some h
  obtain ⟨_, h⟩ := ite_none_eq_some h
  rcases hc : E.eglChooseConfig with _ | num_configs
  · rw [hc] at h
    exact Option.noConfusion h
  · rw [hc] at h
    simp only [] at h
    obtain ⟨_, h⟩ := ite_none_eq_some h
    obtain ⟨_, h⟩ := ite_none_eq_some h
    have hf := egl_flush_surfaces_spec E
      { width := width, height := height, format := format, modifier := modifier,
        current_surface := 0, num_surfaces := num_surfaces }
    rcases hr : egl_flush_surfaces E
      { width := width, height := height, format := format, modifier := modifier,
        current_surface := 0, num_surfaces := num_surfaces } with ⟨r, c⟩
    rw [hr] at h hf
    simp only [] at h hf
    obtain ⟨hneg, h⟩ := ite_none_eq_some h
    obtain ⟨_, h⟩ := ite_none_eq_some h
    obtain ⟨_, h⟩ := ite_none_eq_some h
    obtain ⟨_, h⟩ := ite_none_eq_some h
    have hcc : c = ctx := Option.some.inj h
    rw [← hcc]
    exact ⟨hf.1, hle, hf.2.2.2 hneg, hf.2.1, hf.2.2.1⟩

/-- One call of `egl_convert_fb` for the size the context already has, with a
positive number of surfaces: the call is defined, keeps the size and the
number of surfaces, and either selects no surface and leaves the context as it
was, or selects surface `(previous + 1) mod num_surfaces`. -/
theorem egl_convert_fb_same_size (E : Egl) (ctx : egl_ctx) (handle : Nat)
    (hn : 0 < ctx.num_surfaces) (hc : 0 ≤ ctx.current_surface) :
    ∃ r, egl_convert_fb E ctx handle ctx.width ctx.height = some r ∧
      r.ctx.num_surfaces = ctx.num_surfaces ∧ r.ctx.width = ctx.width ∧
      r.ctx.height = ctx.height ∧
      ((r.selected = none ∧ r.fb = 0 ∧ r.ctx = ctx) ∨
        (r.selected = some ((ctx.current_surface + 1) % ctx.num_surfaces) ∧
          r.ctx.current_surface = (ctx.current_surface + 1) % ctx.num_surfaces)) := by
  have hne : ¬ ctx.num_surfaces = 0 := by omega
  have hmod : Int.tmod (ctx.current_surface + 1) ctx.num_surfaces =
      (ctx.current_surface + 1) % ctx.num_surfaces :=
    Int.tmod_eq_emod (by omega) (by omega)
  unfold egl_convert_fb egl_next_surface
  have hsame : ¬ (ctx.width ≠ ctx.width ∨ ctx.height ≠ ctx.height) := by simp
  simp only []
  rw [if_neg hsame, if_neg (show ¬ ((0 : Int) < 0) by decide), if_neg hne, hmod]
  by_cases h1 : E.egl_handle_to_fd handle < 0
  · rw [if_pos h1]
    exact ⟨_, rfl, rfl, rfl, rfl, Or.inl ⟨rfl, rfl, rfl⟩⟩
  · rw [if_neg h1]
    simp only []
    by_cases h2 : E.egl_attach_dmabuf (E.egl_handle_to_fd handle) < 0
    · rw [if_pos h2]
      exact ⟨_, rfl, rfl, rfl, rfl, Or.inr ⟨rfl, rfl⟩⟩
    · rw [if_neg h2]
      by_cases h3 : E.gbm_surface_lock_front_buffer
          ((ctx.current_surface + 1) % ctx.num_surfaces) = false
      · rw [if_pos h3]
        exact ⟨_, rfl, rfl, rfl, rfl, Or.inr ⟨rfl, rfl⟩⟩
      · rw [if_neg h3]
        exact ⟨_, rfl, rfl, rfl, rfl, Or.inr ⟨rfl, rfl⟩⟩

/-- Consecutive conversions for one size, with a positive number of surfaces:
the run is defined and the `j`-th surface it selects is
`(start + 1 + j) mod num_surfaces`. -/
theorem egl_convert_run_spec (calls : List (Egl × Nat)) (ctx : egl_ctx)
    (hn : 0 < ctx.num_surfaces) (hc : 0 ≤ ctx.current_surface) :
    ∃ l, egl_convert_run ctx ctx.width ctx.height calls = some l ∧
      l.length ≤ calls.length ∧
      l = (List.range l.length).map
        (fun (j : Nat) => (ctx.current_surface + 1 + (j : Int)) % ctx.num_surfaces) := by
  induction calls generalizing ctx with
  | nil => exact ⟨[], rfl, Nat.le_refl _, rfl⟩
  | cons call rest ih =>
    rcases call with ⟨E, handle⟩
    obtain ⟨r, hr, hnum, hw, hh, hsel⟩ := egl_convert_fb_same_size E ctx handle hn hc
    unfold egl_convert_run
    rw [hr]
    simp only []
    rcases hsel with ⟨hs, _, hctx⟩ | ⟨hs, hcur⟩
    · obtain ⟨l, hl, hlen, hform⟩ := ih ctx hn hc
      rw [hctx, hl, hs]
      exact ⟨l, rfl, Nat.le_succ_of_le hlen, hform⟩
    · have hpos : 0 ≤ r.ctx.current_surface := by
        rw [hcur]
        exact Int.emod_nonneg _ (by omega)
      obtain ⟨l, hl, hlen, hform⟩ := ih r.ctx (by rw [hnum]; exact hn) hpos
      rw [hw, hh] at hl
      rw [hl, hs]
      refine ⟨_, rfl, Nat.succ_le_succ hlen, ?_⟩
      show (ctx.current_surface + 1) % ctx.num_surfaces :: l = _
      rw [List.length_cons, List.range_succ_eq_map, List.map_cons, List.map_map]
      have h0 : (ctx.current_surface + 1 + ((0 : Nat) : Int)) % ctx.num_surfaces =
          (ctx.current_surface + 1) % ctx.num_surfaces := by simp
      rw [h0]
      congr 1
      refine hform.trans ?_
      apply List.map_congr_left
      intro j _
      show (r.ctx.current_surface + 1 + (j : Int)) % r.ctx.num_surfaces =
        (ctx.current_surface + 1 + ((j + 1 : Nat) : Int)) % ctx.num_surfaces
      rw [hcur, hnum, Int.add_assoc, Int.emod_add_emod]
      congr 1
      push_cast
      ring

/-- Consecutive conversions for one size, with a positive number of surfaces:
every selected surface lies in `[0, num_surfaces)`, and when no more than
`num_surfaces` surfaces are selected they are pairwise distinct. -/
theorem egl_convert_run_nodup (calls : List (Egl × Nat)) (ctx : egl_ctx)
    (hn : 0 < ctx.num_surfaces) (hc : 0 ≤ ctx.current_surface) :
    ∃ l, egl_convert_run ctx ctx.width ctx.height calls = some l ∧
      (∀ i ∈ l, 0 ≤ i ∧ i < ctx.num_surfaces) ∧
      ((l.length : Int) ≤ ctx.num_surfaces → l.Nodup) := by
  obtain ⟨l, hl, _, hform⟩ := egl_convert_run_spec calls ctx hn hc
  refine ⟨l, hl, ?_, ?_⟩
  · intro i hi
    rw [hform] at hi
    obtain ⟨j, _, hj⟩ := List.mem_map.mp hi
    rw [← hj]
    exact ⟨Int.emod_nonneg _ (by omega), Int.emod_lt_of_pos _ hn⟩
  · intro hlen
    rw [hform]
    apply List.Nodup.map_on _ (List.nodup_range _)
    intro j hj k hk hjk
    have hj2 := List.mem_range.mp hj
    have hk2 := List.mem_range.mp hk
    have hd : ctx.num_surfaces ∣ ((j : Int) - (k : Int)) := by
      have h2 := (Int.emod_eq_emod_iff_emod_sub_eq_zero).mp hjk
      have h3 := Int.dvd_of_emod_eq_zero h2
      have e : ctx.current_surface + 1 + (j : Int) - (ctx.current_surface + 1 + (k : Int)) =
          (j : Int) - (k : Int) := by ring
      rw [e] at h3
      exact h3
    have hz : (j : Int) - (k : Int) = 0 := by
      apply Int.eq_zero_of_abs_lt_dvd hd
      rw [abs_lt]
      constructor <;> omega
    omega

/-- C22, evaluated where the claim and the code part: `egl_init_ctx` succeeds
for `num_surfaces = 0`, and the first conversion then computes
`(0 + 1) % 0`, a division by zero; it succeeds for `num_surfaces = -3` too,
and the first conversion selects surface 1, outside `[0, num_surfaces)`. -/
theorem C22_surface_ring_not_positive :
    egl_init_ctx sample_egl 0 64 64 DRM_FORMAT_ARGB8888 0 =
      some { width := 64, height := 64, format := DRM_FORMAT_ARGB8888, modifier := 0,
             current_surface := 0, num_surfaces := 0 } ∧
    egl_convert_fb sample_egl
      { width := 64, height := 64, format := DRM_FORMAT_ARGB8888, modifier := 0,
        current_surface := 0, num_surfaces := 0 } 5 64 64 = none ∧
    egl_init_ctx sample_egl (-3) 64 64 DRM_FORMAT_ARGB8888 0 =
      some { width := 64, height := 64, format := DRM_FORMAT_ARGB8888, modifier := 0,
             current_surface := 0, num_surfaces := -3 } ∧
    (egl_convert_fb sample_egl
      { width := 64, height := 64, format := DRM_FORMAT_ARGB8888, modifier := 0,
        current_surface := 0, num_surfaces := -3 } 5 64 64).map (fun r => r.selected) =
      some (some 1) ∧
    ¬ ((0 : Int) ≤ 1 ∧ (1 : Int) < -3) := by
  decide

/-! ## The throttle clock (C23) -/

/-- Two readings of `drm_curr_time` within one second of the wall clock differ
by the elapsed milliseconds, to within 1 ms. -/
theorem drm_curr_time_same_second (K1 K2 : Kernel) (log1 log2 : List Event)
    (hsec : (K1.gettimeofday log1).1 = (K2.gettimeofday log2).1)
    (hle : (K1.gettimeofday log1).2 ≤ (K2.gettimeofday log2).2)
    (husec : (K2.gettimeofday log2).2 < 1000000)
    (hrange : (K2.gettimeofday log2).1 + 1000 < 18446744073709551616) :
    drm_curr_time K1 log1 ≤ drm_curr_time K2 log2 ∧
    drm_curr_time K2 log2 - drm_curr_time K1 log1 ≤
      ((K2.gettimeofday log2).2 - (K1.gettimeofday log1).2) / 1000 + 1 ∧
    ((K2.gettimeofday log2).2 - (K1.gettimeofday log1).2) / 1000 ≤
      drm_curr_time K2 log2 - drm_curr_time K1 log1 := by
  unfold drm_curr_time
  rw [hsec]
  generalize (K2.gettimeofday log2).1 = s at hrange ⊢
  generalize (K2.gettimeofday log2).2 = u2 at hle husec ⊢
  generalize (K1.gettimeofday log1).2 = u1 at hle ⊢
  omega

/-- C23, evaluated where the claim and the code part.  `drm_curr_time` adds
the seconds to the milliseconds of the current second.  From `10.999 s` to
`11.000 s`, 1 ms apart, its readings go from 1009 to 11: the `uint64_t`
difference is `2^64 - 998`, and the worker does not sleep although 1 ms of the
15 ms interval has passed.  From `10.000 s` to `11.000 s`, 1000 ms apart, the
readings differ by 1 and the worker sleeps 14 ms. -/
theorem C23_clock_counts_seconds_as_milliseconds :
    drm_curr_time (sample_kernel_at 10 999000) [] = 1009 ∧
    drm_curr_time (sample_kernel_at 11 0) [] = 11 ∧
    drm_crtc_thread_duration (sample_kernel_at 11 0) (sample_world_updated_at 10 999000) =
      18446744073709551616 - 998 ∧
    (sample_world_updated_at 10 999000).ctx.min_interval = 15 ∧
    (drm_crtc_thread_next (sample_kernel_at 11 0) (sample_world_updated_at 10 999000)).log =
      [Event.gettimeofday, Event.gettimeofday] ∧
    drm_crtc_thread_duration (sample_kernel_at 11 0) (sample_world_updated_at 10 0) = 1 ∧
    (drm_crtc_thread_next (sample_kernel_at 11 0) (sample_world_updated_at 10 0)).log =
      [Event.gettimeofday, Event.usleep 14000, Event.gettimeofday] := by
  decide

/-! ## On-screen clamping (C24) -/

theorem commits_at_refl (r : Int × Int × Int × Int) (s : World) : commits_at r s s :=
  ⟨[], rfl, rfl⟩

theorem commits_at_trans {r : Int × Int × Int × Int} {a b c : World}
    (h1 : commits_at r a b) (h2 : commits_at r b c) : commits_at r a c := by
  obtain ⟨n1, e1, a1⟩ := h1
  obtain ⟨n2, e2, a2⟩ := h2
  refine ⟨n2 ++ n1, by rw [e2, e1, List.append_assoc], ?_⟩
  rw [List.all_append, a1, a2]
  rfl

theorem commits_at_of_log (r : Int × Int × Int × Int) (a b : World)
    (h : observe b.log = observe a.log) : commits_at r a b :=
  ⟨[], h, rfl⟩

theorem drm_crtc_update_cursor_commits_at (K : Kernel) (s : World) (cs : drm_cursor_state) :
    commits_at cs.rect s (drm_crtc_update_cursor K s (some cs)).2 := by
  have h := drm_crtc_update_cursor_spec K s cs
  refine ⟨_, h.2.2.2, ?_⟩
  by_cases hu : cursor_unchanged s.crtc cs = true
  · rw [if_pos hu]
    rfl
  · rw [if_neg hu]
    simp [Event.commit_at, drm_cursor_state.rect]

theorem drm_crtc_disable_cursor_commits_at (K : Kernel) (s : World)
    (r : Int × Int × Int × Int) :
    commits_at r s (drm_crtc_update_cursor K s none).2 := by
  have h := drm_crtc_disable_cursor_spec K s
  unfold drm_crtc_disable_cursor at h
  refine ⟨_, h.2.2.2, ?_⟩
  by_cases hfb : s.crtc.cursor_curr.fb ≠ 0
  · rw [if_pos hfb]
    simp [Event.commit_at]
  · rw [if_neg hfb]
    rfl

theorem drm_crtc_create_fb_commits_at (K : Kernel) (s : World) (cs : drm_cursor_state)
    (r : Int × Int × Int × Int) :
    commits_at r s (drm_crtc_create_fb K s cs).2.1 ∧
    (drm_crtc_create_fb K s cs).2.2.rect = cs.rect := by
  by_cases hi : create_fb_init_fails K s cs = true
  · rw [drm_crtc_create_fb_init_fails K s cs hi]
    exact ⟨commits_at_of_log _ _ _ (create_fb_log_observe s cs), rfl⟩
  · rw [drm_crtc_create_fb_converts K s cs (by simpa using hi)]
    refine ⟨⟨[Event.egl_convert_fb cs.handle cs.width cs.height cs.off_x cs.off_y], ?_, rfl⟩, rfl⟩
    show observe (_ :: create_fb_log s cs) = _
    rw [observe_cons_convert, create_fb_log_observe]
    rfl

theorem create_then_update_commits_at (K : Kernel) (s : World) (cs : drm_cursor_state) :
    commits_at cs.rect s
      (match drm_crtc_create_fb K s cs with
        | (r, s1, cs2) =>
          if r < 0 then flow.goto_error s1
          else
            match drm_crtc_update_cursor K s1 (some cs2) with
            | (r2, s2) => if r2 < 0 then flow.goto_error s2
              else flow.fallthrough s2 cs2).world ∧
    ∀ s3 cs3,
      (match drm_crtc_create_fb K s cs with
        | (r, s1, cs2) =>
          if r < 0 then flow.goto_error s1
          else
            match drm_crtc_update_cursor K s1 (some cs2) with
            | (r2, s2) => if r2 < 0 then flow.goto_error s2
              else flow.fallthrough s2 cs2) = flow.fallthrough s3 cs3 →
      cs3.rect = cs.rect := by
  have hc := drm_crtc_create_fb_commits_at K s cs cs.rect
  rcases hr : drm_crtc_create_fb K s cs with ⟨r, s1, cs2⟩
  rw [hr] at hc
  simp only [] at hc ⊢
  by_cases hneg : r < 0
  · rw [if_pos hneg]
    exact ⟨hc.1, fun s3 cs3 h => flow.noConfusion h⟩
  · rw [if_neg hneg]
    have hu := drm_crtc_update_cursor_commits_at K s1 cs2
    rcases hr2 : drm_crtc_update_cursor K s1 (some cs2) with ⟨r2, s2⟩
    rw [hr2, hc.2] at hu
    simp only [] at hu ⊢
    rw [flow_branch_world]
    refine ⟨commits_at_trans hc.1 hu, fun s3 cs3 h => ?_⟩
    by_cases hneg2 : r2 < 0
    · rw [if_pos hneg2] at h
      exact flow.noConfusion h
    · rw [if_neg hneg2] at h
      injection h with _ h2
      rw [← h2]
      exact hc.2

theorem drm_crtc_thread_handle_set_commits_at (K : Kernel) (s : World)
    (cs : drm_cursor_state) :
    commits_at cs.rect s (drm_crtc_thread_handle_set K s cs).world ∧
    ∀ s3 cs3, drm_crtc_thread_handle_set K s cs = flow.fallthrough s3 cs3 →
      cs3.rect = cs.rect := by
  unfold drm_crtc_thread_handle_set
  by_cases hm : int_and cs.request REQ_SET_CURSOR ≠ 0
  · rw [if_pos hm]
    simp only []
    by_cases hh : cs.handle = 0
    · rw [if_pos hh]
      exact ⟨drm_crtc_disable_cursor_commits_at K s _, fun s3 cs3 h => flow.noConfusion h⟩
    · rw [if_neg hh]
      exact create_then_update_commits_at K s
        { cs with request := int_and cs.request (int_not REQ_SET_CURSOR) }
  · rw [if_neg hm]
    refine ⟨commits_at_refl _ s, fun s3 cs3 h => ?_⟩
    injection h with _ h2
    rw [← h2]

theorem drm_crtc_thread_handle_move_commits_at (K : Kernel) (s : World)
    (cs : drm_cursor_state) :
    commits_at cs.rect s (drm_crtc_thread_handle_move K s cs).world := by
  unfold drm_crtc_thread_handle_move
  by_cases hm : int_and cs.request REQ_MOVE_CURSOR ≠ 0
  · rw [if_pos hm]
    simp only []
    by_cases hh : s.crtc.cursor_curr.handle = 0
    · rw [if_pos hh]
      exact commits_at_of_log _ _ _ rfl
    · rw [if_neg hh]
      by_cases hoff : s.crtc.cursor_curr.off_x ≠ cs.off_x ∨ s.crtc.cursor_curr.off_y ≠ cs.off_y
      · rw [if_pos hoff]
        exact (create_then_update_commits_at K s
          { cs with request := int_and cs.request (int_not REQ_MOVE_CURSOR) }).1
      · rw [if_neg hoff]
        have hu := drm_crtc_update_cursor_commits_at K s
          { cs with request := int_and cs.request (int_not REQ_MOVE_CURSOR),
                    fb := s.crtc.cursor_curr.fb }
        rcases hr2 : drm_crtc_update_cursor K s
          (some { cs with request := int_and cs.request (int_not REQ_MOVE_CURSOR),
                          fb := s.crtc.cursor_curr.fb }) with ⟨r2, s2⟩
        rw [hr2] at hu
        simp only []
        rw [flow_branch_world]
        exact hu
  · rw [if_neg hm]
    exact commits_at_refl _ s

/-- Every plane commit of the loop body is the disabling one or commits the
rectangle of the snapshot with its offsets recomputed for the resolution just
read. -/
theorem drm_crtc_thread_body_commits_at (K : Kernel) (s : World) (cs : drm_cursor_state) :
    commits_at (drm_crtc_clip_offsets (resolution K s).1 (resolution K s).2 cs).rect s
      (drm_crtc_thread_body K s cs).world := by
  by_cases hc : connected K s = true
  · rw [drm_crtc_thread_body_connected K s cs hc]
    have h0 : commits_at (drm_crtc_clip_offsets (resolution K s).1 (resolution K s).2 cs).rect s
        { s with
          crtc := { s.crtc with width := (resolution K s).1, height := (resolution K s).2 }
          log := Event.drmModeGetCrtc s.crtc.crtc_id :: s.log } :=
      commits_at_of_log _ _ _ (observe_cons_other _ _ rfl)
    have hs := drm_crtc_thread_handle_set_commits_at K
      { s with
        crtc := { s.crtc with width := (resolution K s).1, height := (resolution K s).2 }
        log := Event.drmModeGetCrtc s.crtc.crtc_id :: s.log }
      (drm_crtc_clip_offsets (resolution K s).1 (resolution K s).2 cs)
    rcases hr : drm_crtc_thread_handle_set K
      { s with
        crtc := { s.crtc with width := (resolution K s).1, height := (resolution K s).2 }
        log := Event.drmModeGetCrtc s.crtc.crtc_id :: s.log }
      (drm_crtc_clip_offsets (resolution K s).1 (resolution K s).2 cs) with ⟨s2, cs2⟩ | s2 | s2
    · rw [hr] at hs
      have hrect := hs.2 s2 cs2 rfl
      have hm := drm_crtc_thread_handle_move_commits_at K s2 cs2
      rw [hrect] at hm
      simp only []
      refine commits_at_trans (commits_at_trans h0 hs.1) ?_
      refine commits_at_trans hm (commits_at_of_log _ _ _ ?_)
      rw [drm_crtc_thread_finish_log]
    · rw [hr] at hs
      exact commits_at_trans h0 hs.1
    · rw [hr] at hs
      exact commits_at_trans h0 hs.1
  · have hd : connected K s = false := by simpa using hc
    unfold drm_crtc_thread_body
    rw [drm_crtc_update_offsets_disconnected K s cs hd]
    simp only []
    rw [if_pos (show (-1 : Int) < 0 by decide)]
    have hdis := drm_crtc_disable_cursor_commits_at K
      { s with
        crtc := { s.crtc with width := (resolution K s).1, height := (resolution K s).2 }
        log := Event.drmModeGetCrtc s.crtc.crtc_id :: s.log }
      (drm_crtc_clip_offsets (resolution K s).1 (resolution K s).2 cs).rect
    have h0 : commits_at (drm_crtc_clip_offsets (resolution K s).1 (resolution K s).2 cs).rect s
        { s with
          crtc := { s.crtc with width := (resolution K s).1, height := (resolution K s).2 }
          log := Event.drmModeGetCrtc s.crtc.crtc_id :: s.log } :=
      commits_at_of_log _ _ _ (observe_cons_other _ _ rfl)
    unfold drm_crtc_disable_cursor
    rcases hr : drm_crtc_update_cursor K
      { s with
        crtc := { s.crtc with width := (resolution K s).1, height := (resolution K s).2 }
        log := Event.drmModeGetCrtc s.crtc.crtc_id :: s.log } none with ⟨r, s2⟩
    rw [hr] at hdis
    exact commits_at_trans (commits_at_trans h0 hdis) (commits_at_of_log _ _ _ rfl)

/-- The rectangle of a cursor state whose offsets were computed for an output
of `W` by `H`, for a cursor no larger than the output: the requested position
clamped to the output. -/
theorem drm_crtc_clip_offsets_rect (W H : Int) (cs : drm_cursor_state)
    (hw : cs.width ≤ W) (hh : cs.height ≤ H) :
    (drm_crtc_clip_offsets W H cs).rect =
      (min (max cs.x 0) (W - cs.width), min (max cs.y 0) (H - cs.height),
        cs.width, cs.height) := by
  rw [drm_crtc_clip_offsets_eq]
  unfold drm_cursor_state.rect
  simp only [Prod.mk.injEq, and_true]
  constructor
  · split_ifs <;> omega
  · split_ifs <;> omega

/-- C24: on-screen clamping. In a turn of the worker that reads the output
resolution `W x H`, for a snapshot whose cursor size satisfies `0 < w <= W`
and `0 < h <= H` and whose requested position is `(x, y)`, every plane commit
the turn makes is either the disabling commit (buffer 0, all arguments 0) or a
commit of a rectangle of size `w x h` at `(X, Y)` with
`X = min(max(x, 0), W - w)` and `Y = min(max(y, 0), H - h)`, which lies
entirely on screen: `0 <= X`, `X + w <= W`, `0 <= Y`, `Y + h <= H`. -/
theorem C24_on_screen_clamping (K : Kernel) (s : World) (f : flow) (W H : Int)
    (hturn : drm_crtc_thread_turn K s = some f)
    (hres : resolution K s = (W, H))
    (hw : 0 < s.crtc.cursor_next.width ∧ s.crtc.cursor_next.width ≤ W)
    (hh : 0 < s.crtc.cursor_next.height ∧ s.crtc.cursor_next.height ≤ H) :
    ∃ added, observe f.world.log = added ++ observe s.log ∧
      ∀ pid fb X Y w h, Event.drm_set_plane pid fb X Y w h ∈ added →
        (fb = 0 ∧ X = 0 ∧ Y = 0 ∧ w = 0 ∧ h = 0) ∨
        (w = s.crtc.cursor_next.width ∧ h = s.crtc.cursor_next.height ∧
          X = min (max s.crtc.cursor_next.x 0) (W - w) ∧
          Y = min (max s.crtc.cursor_next.y 0) (H - h) ∧
          0 ≤ X ∧ X + w ≤ W ∧ 0 ≤ Y ∧ Y + h ≤ H) := by
  unfold drm_crtc_thread_turn drm_crtc_thread_drain at hturn
  by_cases hp : s.crtc.state = drm_thread_state.PENDING
  · rw [if_pos hp] at hturn
    simp only [Option.some.injEq] at hturn
    have hb := drm_crtc_thread_body_commits_at K
      { s with
        crtc := { s.crtc with
          cursor_next := { s.crtc.cursor_next with request := 0 }
          state := drm_thread_state.IDLE } }
      s.crtc.cursor_next
    rw [hturn] at hb
    have hres2 : resolution K
        { s with
          crtc := { s.crtc with
            cursor_next := { s.crtc.cursor_next with request := 0 }
            state := drm_thread_state.IDLE } } = (W, H) := hres
    rw [hres2, drm_crtc_clip_offsets_rect W H _ hw.2 hh.2] at hb
    obtain ⟨added, hlog, hall⟩ := hb
    refine ⟨added, hlog, fun pid fb X Y w h hmem => ?_⟩
    have he := List.all_eq_true.mp hall _ hmem
    unfold Event.commit_at at he
    simp only [decide_eq_true_eq, Prod.mk.injEq] at he
    rcases he with he | ⟨hx, hy, hw2, hh2⟩
    · exact Or.inl he
    · right
      subst hw2 hh2
      refine ⟨rfl, rfl, hx, hy, ?_, ?_, ?_, ?_⟩ <;> omega
  · rw [if_neg hp] at hturn
    exact Option.noConfusion hturn

/-- C24, witness: the sample output shows a 64 by 64 cursor and is moved to
`(-10, 0)` on a 1920 by 1080 output; the turn commits the new buffer at
`(0, 0)`. -/
theorem C24_witness :
    (observe sample_flow_shown_move.world.log).head? =
      some (Event.drm_set_plane 31 2 0 0 64 64) ∧
    ∃ added, observe sample_flow_shown_move.world.log =
        added ++ observe sample_world_shown_move.log ∧
      ∀ pid fb X Y w h, Event.drm_set_plane pid fb X Y w h ∈ added →
        (fb = 0 ∧ X = 0 ∧ Y = 0 ∧ w = 0 ∧ h = 0) ∨
        (w = sample_world_shown_move.crtc.cursor_next.width ∧
          h = sample_world_shown_move.crtc.cursor_next.height ∧
          X = min (max sample_world_shown_move.crtc.cursor_next.x 0) (1920 - w) ∧
          Y = min (max sample_world_shown_move.crtc.cursor_next.y 0) (1080 - h) ∧
          0 ≤ X ∧ X + w ≤ 1920 ∧ 0 ≤ Y ∧ Y + h ≤ 1080) :=
  ⟨by decide,
    C24_on_screen_clamping sample_kernel sample_world_shown_move sample_flow_shown_move
      1920 1080 (by decide) (by decide) (by decide) (by decide)⟩

/-! ## The ledger of display buffers (C25) -/

theorem live_buffers_cons_other (K : Kernel) (e : Event) (log : List Event)
    (h1 : e.is_convert = false) (h2 : e.removal = none) :
    live_buffers K (e :: log) = live_buffers K log := by
  cases e <;> first | rfl | exact Bool.noConfusion h1 | exact Option.noConfusion h2

theorem live_buffers_nonzero (K : Kernel) (log : List Event) : 0 ∉ live_buffers K log := by
  induction log with
  | nil => exact List.not_mem_nil 0
  | cons e log ih =>
    cases e with
    | egl_convert_fb handle width height x y =>
      show 0 ∉ (if K.egl_convert_fb log handle width height x y = 0 then live_buffers K log
        else K.egl_convert_fb log handle width height x y :: live_buffers K log)
      by_cases h : K.egl_convert_fb log handle width height x y = 0
      · rw [if_pos h]
        exact ih
      · rw [if_neg h]
        intro hm
        rcases List.mem_cons.mp hm with h0 | h0
        · exact h h0.symm
        · exact ih h0
    | drmModeRmFB fb =>
      show 0 ∉ (live_buffers K log).filter (fun b => b ≠ fb)
      intro hm
      exact ih (List.mem_filter.mp hm).1
    | _ => exact ih

theorem drm_plane_get_prop_scan_live (K : Kernel) (name : String) (props : List Nat)
    (i : Nat) (log : List Event) :
    live_buffers K (drm_plane_get_prop_scan K name props i log).2 = live_buffers K log := by
  induction props generalizing i log with
  | nil => rfl
  | cons id rest ih =>
    unfold drm_plane_get_prop_scan
    have hstep : live_buffers K (Event.drmModeGetProperty id :: log) = live_buffers K log :=
      live_buffers_cons_other K _ _ rfl rfl
    cases hq : K.drmModeGetProperty log id with
    | none => exact (ih _ _).trans hstep
    | some prop =>
      simp only []
      by_cases hn : prop.name = name
      · rw [if_pos hn]
        exact hstep
      · rw [if_neg hn]
        exact (ih _ _).trans hstep

theorem drm_plane_get_prop_live (K : Kernel) (plane : drm_plane) (p : drm_plane_prop)
    (log : List Event) :
    live_buffers K (drm_plane_get_prop K plane p log).2.2 = live_buffers K log := by
  unfold drm_plane_get_prop
  by_cases hc : plane.prop_ids.getD p.idx 0 ≠ 0
  · rw [if_pos hc]
  · rw [if_neg hc]
    have h := drm_plane_get_prop_scan_live K (drm_plane_prop_names p) plane.props.props 0 log
    rcases hs : drm_plane_get_prop_scan K (drm_plane_prop_names p) plane.props.props 0 log
      with ⟨r, log1⟩
    rw [hs] at h
    cases r with
    | none => exact h
    | some i => exact h

theorem drm_atomic_add_plane_props_live (K : Kernel) (items : List (drm_plane_prop × Nat))
    (ret : Int) (plane : drm_plane) (log : List Event) :
    live_buffers K (drm_atomic_add_plane_props K items ret plane log).2.2 =
      live_buffers K log := by
  induction items generalizing ret plane log with
  | nil => rfl
  | cons item rest ih =>
    obtain ⟨p, value⟩ := item
    unfold drm_atomic_add_plane_props drm_atomic_add_plane_prop
    have h := drm_plane_get_prop_live K plane p log
    rcases hs : drm_plane_get_prop K plane p log with ⟨idx, plane1, log1⟩
    rw [hs] at h
    simp only [] at h ⊢
    by_cases hi : idx < 0
    · rw [if_pos hi]
      simp only []
      rw [ih]
      exact h
    · rw [if_neg hi]
      simp only []
      rw [ih, live_buffers_cons_other K _ _ (by rfl) (by rfl)]
      exact h

/-- The commit layer neither creates nor removes a display buffer. -/
theorem drm_set_plane_live (K : Kernel) (s : World) (fb : Nat) (x y w h : Int) :
    live_buffers K (drm_set_plane K s fb x y w h).2.log = live_buffers K s.log := by
  unfold drm_set_plane
  by_cases h1 : s.plane.cursor_plane = true ∨ s.crtc.async_commit = true ∨ s.ctx.atomic = 0
  · rw [if_pos h1, (drm_set_plane_legacy_calls K _ _ fb x y w h).2.1]
    unfold drm_set_plane_legacy_call
    rw [live_buffers_cons_other K _ _ (by rfl) (by rfl)]
    exact live_buffers_cons_other K _ _ (by rfl) (by rfl)
  · rw [if_neg h1]
    by_cases h2 : K.drmModeAtomicAlloc
        (Event.drm_set_plane s.plane.plane_id fb x y w h :: s.log) = false
    · rw [if_pos h2, (drm_set_plane_legacy_calls K _ _ fb x y w h).2.1]
      unfold drm_set_plane_legacy_call
      rw [live_buffers_cons_other K _ _ (by rfl) (by rfl)]
      show live_buffers K (_ :: _ :: s.log) = _
      rw [live_buffers_cons_other K _ _ (by rfl) (by rfl),
        live_buffers_cons_other K _ _ (by rfl) (by rfl)]
    · rw [if_neg h2]
      unfold drm_set_plane_atomic
      have hr := drm_atomic_add_plane_props_live K
        (drm_set_plane_props s.crtc.crtc_id fb x y w h) 0 s.plane
        (Event.drmModeAtomicAlloc :: Event.drm_set_plane s.plane.plane_id fb x y w h :: s.log)
      rcases hs : drm_atomic_add_plane_props K (drm_set_plane_props s.crtc.crtc_id fb x y w h) 0
        s.plane (Event.drmModeAtomicAlloc :: Event.drm_set_plane s.plane.plane_id fb x y w h ::
          s.log) with ⟨ret, plane1, log1⟩
      rw [hs] at hr
      simp only [] at hr ⊢
      have hlog1 : live_buffers K log1 = live_buffers K s.log := by
        rw [hr, live_buffers_cons_other K _ _ (by rfl) (by rfl),
          live_buffers_cons_other K _ _ (by rfl) (by rfl)]
      by_cases hok : int_or ret (K.drmModeAtomicCommit log1) ≥ 0
      · rw [if_pos hok]
        show live_buffers K (Event.drmModeAtomicCommit :: log1) = _
        rw [live_buffers_cons_other K _ _ (by rfl) (by rfl), hlog1]
      · rw [if_neg hok, (drm_set_plane_legacy_calls K _ _ fb x y w h).2.1]
        unfold drm_set_plane_legacy_call
        rw [live_buffers_cons_other K _ _ (by rfl) (by rfl)]
        show live_buffers K (Event.drmModeAtomicCommit :: log1) = _
        rw [live_buffers_cons_other K _ _ (by rfl) (by rfl), hlog1]

theorem drm_crtc_update_cursor_live (K : Kernel) (s : World) (o : Option drm_cursor_state) :
    live_buffers K (drm_crtc_update_cursor K s o).2.log =
      if drm_crtc_update_cursor_removes s o = true then
        (live_buffers K s.log).filter (fun b => b ≠ s.crtc.cursor_curr.fb)
      else live_buffers K s.log := by
  cases o with
  | none =>
    unfold drm_crtc_update_cursor drm_crtc_update_cursor_removes
    by_cases hfb : s.crtc.cursor_curr.fb ≠ 0
    · simp only [if_pos hfb, decide_eq_true_eq]
      have hr := drm_set_plane_live K s 0 0 0 0 0
      rcases hs : drm_set_plane K s 0 0 0 0 0 with ⟨ret, s1⟩
      rw [hs] at hr
      simp only [] at hr ⊢
      show (live_buffers K s1.log).filter _ = _
      rw [hr]
    · simp only [if_neg hfb, decide_eq_true_eq]
  | some cs =>
    unfold drm_crtc_update_cursor drm_crtc_update_cursor_removes
    by_cases hu : cursor_unchanged s.crtc cs = true
    · have hu2 := hu
      unfold cursor_unchanged at hu2
      simp only [decide_eq_true_eq] at hu2
      simp only [if_pos hu2, hu, Bool.not_true, Bool.false_and]
      rfl
    · have hu3 : cursor_unchanged s.crtc cs = false := by simpa using hu
      have hu2 := hu
      unfold cursor_unchanged at hu2
      simp only [decide_eq_true_eq] at hu2
      simp only [if_neg hu2, hu3, Bool.not_false, Bool.true_and, decide_eq_true_eq]
      have hr := drm_set_plane_live K s cs.fb (cs.x - cs.off_x) (cs.y - cs.off_y)
        cs.width cs.height
      rcases hs : drm_set_plane K s cs.fb (cs.x - cs.off_x) (cs.y - cs.off_y) cs.width cs.height
        with ⟨ret, s1⟩
      rw [hs] at hr
      simp only [] at hr ⊢
      by_cases hrm : s.crtc.cursor_curr.fb ≠ 0 ∧ s.crtc.cursor_curr.fb ≠ cs.fb
      · simp only [if_pos hrm]
        show (live_buffers K s1.log).filter _ = _
        rw [hr]
      · simp only [if_neg hrm]
        exact hr

theorem ledger_zero_not_mem {K : Kernel} {others : List Nat} {held : Nat} {s : World}
    (h : ledger K others held s) : 0 ∉ others :=
  fun h0 => live_buffers_nonzero K s.log ((h.1 0).mpr (Or.inr h0))

/-- The function `drm_crtc_update_cursor` for a cursor state whose buffer is
the one shown or the one held: afterwards the buffers created and not yet
removed are that buffer and those of the other outputs. -/
theorem drm_crtc_update_cursor_ledger (K : Kernel) (others : List Nat) (s : World)
    (cs : drm_cursor_state) (h : ledger K others cs.fb s) :
    ledger K others 0 (drm_crtc_update_cursor K s (some cs)).2 := by
  have hsp := drm_crtc_update_cursor_spec K s cs
  have hl := drm_crtc_update_cursor_live K s (some cs)
  have h0 := ledger_zero_not_mem h
  unfold ledger
  rw [hsp.1, hl]
  simp only []
  refine ⟨fun fb => ?_, h.2.2, h0⟩
  have hm := h.1 fb
  unfold drm_crtc_update_cursor_removes
  by_cases hu : cursor_unchanged s.crtc cs = true
  · have hu2 := hu
    unfold cursor_unchanged at hu2
    simp only [decide_eq_true_eq] at hu2
    simp only [hu, Bool.not_true, Bool.false_and, Bool.false_eq_true, if_false]
    rw [hm, hu2.1]
    tauto
  · have hu3 : cursor_unchanged s.crtc cs = false := by simpa using hu
    simp only [hu3, Bool.not_false, Bool.true_and, decide_eq_true_eq]
    by_cases hrm : s.crtc.cursor_curr.fb ≠ 0 ∧ s.crtc.cursor_curr.fb ≠ cs.fb
    · rw [if_pos hrm, List.mem_filter, hm]
      simp only [decide_eq_true_eq]
      constructor
      · rintro ⟨h1 | h1, hne⟩
        · rcases h1 with ⟨hz, h2 | h2⟩
          · exact absurd h2 hne
          · exact Or.inl ⟨hz, Or.inl h2⟩
        · exact Or.inr h1
      · rintro (⟨hz, h2 | h2⟩ | h1)
        · exact ⟨Or.inl ⟨hz, Or.inr h2⟩, fun he => hrm.2 (he.symm.trans h2)⟩
        · exact absurd h2 hz
        · exact ⟨Or.inr h1, fun he => h.2.1 (he ▸ h1)⟩
    · rw [if_neg hrm, hm]
      have hcase : s.crtc.cursor_curr.fb = 0 ∨ s.crtc.cursor_curr.fb = cs.fb := by
        by_cases hz : s.crtc.cursor_curr.fb = 0
        · exact Or.inl hz
        · exact Or.inr (not_not.mp (fun hne => hrm ⟨hz, hne⟩))
      constructor
      · rintro (⟨hz, h2 | h2⟩ | h1)
        · rcases hcase with hc | hc
          · exact absurd (h2.trans hc) hz
          · exact Or.inl ⟨hz, Or.inl (h2.trans hc)⟩
        · exact Or.inl ⟨hz, Or.inl h2⟩
        · exact Or.inr h1
      · rintro (⟨hz, h2 | h2⟩ | h1)
        · exact Or.inl ⟨hz, Or.inr h2⟩
        · exact absurd h2 hz
        · exact Or.inr h1

/-- The macro `drm_crtc_disable_cursor` under the ledger: afterwards
`cursor_curr` is all zero and the buffers created and not yet removed are
those of the other outputs. -/
theorem drm_crtc_disable_cursor_ledger (K : Kernel) (others : List Nat) (s : World)
    (h : ledger K others 0 s) :
    ledger K others 0 (drm_crtc_update_cursor K s none).2 ∧
    (drm_crtc_update_cursor K s none).2.crtc.cursor_curr = drm_cursor_state.zero := by
  have hsp := drm_crtc_disable_cursor_spec K s
  unfold drm_crtc_disable_cursor at hsp
  have hl := drm_crtc_update_cursor_live K s none
  have h0 := ledger_zero_not_mem h
  refine ⟨?_, by rw [hsp.1]⟩
  unfold ledger
  rw [hsp.1, hl]
  simp only []
  refine ⟨fun fb => ?_, h0, h0⟩
  have hm := h.1 fb
  unfold drm_crtc_update_cursor_removes
  show _ ↔ (fb ≠ 0 ∧ (fb = 0 ∨ fb = 0)) ∨ fb ∈ others
  by_cases hfb : s.crtc.cursor_curr.fb ≠ 0
  · rw [if_pos (decide_eq_true hfb), List.mem_filter, hm]
    simp only [decide_eq_true_eq]
    constructor
    · rintro ⟨h1 | h1, hne⟩
      · rcases h1 with ⟨hz, h2 | h2⟩
        · exact absurd h2 hne
        · exact absurd h2 hz
      · exact Or.inr h1
    · rintro (⟨hz, h2 | h2⟩ | h1)
      · exact absurd h2 hz
      · exact absurd h2 hz
      · exact ⟨Or.inr h1, fun he => h.2.1 (he ▸ h1)⟩
  · have hz0 : s.crtc.cursor_curr.fb = 0 := not_not.mp hfb
    rw [if_neg (by rw [decide_eq_false hfb]; exact Bool.false_ne_true), hm, hz0]

theorem create_fb_log_live (K : Kernel) (s : World) (cs : drm_cursor_state) :
    live_buffers K (create_fb_log s cs) = live_buffers K s.log := by
  unfold create_fb_log
  by_cases h : s.crtc.egl_ctx = false
  · rw [if_pos h]
    exact live_buffers_cons_other K _ _ rfl rfl
  · rw [if_neg h]

/-- The function `drm_crtc_create_fb` under the ledger, for an environment
that answers fresh buffers: `cursor_curr` is left as it is; on failure the
ledger is unchanged; on success the cursor state handed back carries a new
non-zero buffer, which the ledger holds. -/
theorem drm_crtc_create_fb_ledger (K : Kernel) (hfresh : K.fresh_buffers) (others : List Nat)
    (s : World) (cs : drm_cursor_state) (h : ledger K others 0 s) :
    (drm_crtc_create_fb K s cs).2.1.crtc.cursor_curr = s.crtc.cursor_curr ∧
    ((drm_crtc_create_fb K s cs).1 < 0 → ledger K others 0 (drm_crtc_create_fb K s cs).2.1) ∧
    (¬ (drm_crtc_create_fb K s cs).1 < 0 →
      ledger K others (drm_crtc_create_fb K s cs).2.2.fb (drm_crtc_create_fb K s cs).2.1 ∧
      (drm_crtc_create_fb K s cs).2.2.fb ≠ 0 ∧
      (drm_crtc_create_fb K s cs).2.2 =
        { cs with fb := (drm_crtc_create_fb K s cs).2.2.fb }) := by
  have hlog := create_fb_log_live K s cs
  by_cases hi : create_fb_init_fails K s cs = true
  · rw [drm_crtc_create_fb_init_fails K s cs hi]
    refine ⟨rfl, fun _ => ?_, fun hn => absurd (show (-1 : Int) < 0 by decide) hn⟩
    exact ⟨fun fb => by
      show fb ∈ live_buffers K (create_fb_log s cs) ↔ _
      rw [hlog]
      exact h.1 fb, h.2.1, h.2.2⟩
  · rw [drm_crtc_create_fb_converts K s cs (by simpa using hi)]
    have hf := hfresh (create_fb_log s cs) cs.handle cs.width cs.height cs.off_x cs.off_y
    have hlive : live_buffers K
        (Event.egl_convert_fb cs.handle cs.width cs.height cs.off_x cs.off_y ::
          create_fb_log s cs) =
        if converted K s cs = 0 then live_buffers K s.log
        else converted K s cs :: live_buffers K s.log := by
      show (if K.egl_convert_fb (create_fb_log s cs) cs.handle cs.width cs.height cs.off_x
          cs.off_y = 0 then live_buffers K (create_fb_log s cs)
        else K.egl_convert_fb (create_fb_log s cs) cs.handle cs.width cs.height cs.off_x
          cs.off_y :: live_buffers K (create_fb_log s cs)) = _
      rw [hlog]
      rfl
    have hf2 : converted K s cs ≠ 0 → converted K s cs ∉ live_buffers K s.log := by
      intro hne
      have := hf hne
      rw [hlog] at this
      exact this
    by_cases hz : converted K s cs = 0
    · rw [if_pos hz]
      refine ⟨rfl, fun _ => ?_, fun hn => absurd (show (-1 : Int) < 0 by decide) hn⟩
      refine ⟨fun fb => ?_, h.2.1, h.2.2⟩
      show fb ∈ live_buffers K (_ :: create_fb_log s cs) ↔ _
      rw [hlive, if_pos hz]
      exact h.1 fb
    · rw [if_neg hz]
      refine ⟨rfl, fun hn => absurd hn (show ¬ ((0 : Int) < 0) by decide), fun _ => ⟨?_, hz, rfl⟩⟩
      have hnl := hf2 hz
      refine ⟨fun fb => ?_, h.2.1, fun ho => hnl ((h.1 _).mpr (Or.inr ho))⟩
      show fb ∈ live_buffers K (_ :: create_fb_log s cs) ↔
        (fb ≠ 0 ∧ (fb = s.crtc.cursor_curr.fb ∨ fb = converted K s cs)) ∨ fb ∈ others
      rw [hlive, if_neg hz, List.mem_cons, h.1 fb]
      constructor
      · rintro (h1 | ⟨hz1, h2 | h2⟩ | h1)
        · exact Or.inl ⟨h1 ▸ hz, Or.inr h1⟩
        · exact Or.inl ⟨hz1, Or.inl h2⟩
        · exact absurd h2 hz1
        · exact Or.inr h1
      · rintro (⟨hz1, h2 | h2⟩ | h1)
        · exact Or.inr (Or.inl ⟨hz1, Or.inl h2⟩)
        · exact Or.inl h2
        · exact Or.inr (Or.inr h1)

theorem ledger_of_log {K : Kernel} {others : List Nat} {held : Nat} {s s1 : World}
    (h : ledger K others held s) (hl : live_buffers K s1.log = live_buffers K s.log)
    (hc : s1.crtc.cursor_curr.fb = s.crtc.cursor_curr.fb) : ledger K others held s1 := by
  unfold ledger
  rw [hl, hc]
  exact h

theorem flow.ledger_ok_done {K : Kernel} {others : List Nat} {handle : Nat} {f : flow}
    (h : f.ledger_ok K others handle) : f.ledger_done K others handle := by
  cases f with
  | fallthrough s cs => exact h.1
  | goto_next s => exact h
  | goto_error s => exact h

theorem create_then_update_ledger (K : Kernel) (hfresh : K.fresh_buffers) (others : List Nat)
    (s : World) (cs : drm_cursor_state) (h : ledger K others 0 s) (hh : cs.handle ≠ 0) :
    flow.ledger_ok K others cs.handle
      (match drm_crtc_create_fb K s cs with
        | (r, s1, cs2) =>
          if r < 0 then flow.goto_error s1
          else
            match drm_crtc_update_cursor K s1 (some cs2) with
            | (r2, s2) => if r2 < 0 then flow.goto_error s2
              else flow.fallthrough s2 cs2) := by
  have hc := drm_crtc_create_fb_ledger K hfresh others s cs h
  rcases hr : drm_crtc_create_fb K s cs with ⟨r, s1, cs2⟩
  rw [hr] at hc
  simp only [] at hc ⊢
  by_cases hneg : r < 0
  · rw [if_pos hneg]
    exact hc.2.1 hneg
  · rw [if_neg hneg]
    obtain ⟨hl, hnz, hcs⟩ := hc.2.2 hneg
    have hu := drm_crtc_update_cursor_ledger K others s1 cs2 hl
    have hsp := drm_crtc_update_cursor_spec K s1 cs2
    rcases hr2 : drm_crtc_update_cursor K s1 (some cs2) with ⟨r2, s2⟩
    rw [hr2] at hu hsp
    simp only [] at hu hsp ⊢
    have hcur : s2.crtc.cursor_curr = cs2 := by rw [hsp.1]
    have hh2 : cs2.handle = cs.handle := by rw [hcs]
    by_cases hneg2 : r2 < 0
    · rw [if_pos hneg2]
      exact hu
    · rw [if_neg hneg2]
      refine ⟨⟨hu, fun _ => ?_, fun _ => hh⟩, hh2, fun h0 => ?_⟩
      · rw [hcur, hh2]
        exact hh
      · rw [hcur, hh2] at h0
        exact absurd h0 hh

theorem drm_crtc_thread_handle_set_ledger (K : Kernel) (hfresh : K.fresh_buffers)
    (others : List Nat) (s : World) (cs : drm_cursor_state) (h : ledger K others 0 s)
    (hshown : s.crtc.cursor_curr.fb ≠ 0 → s.crtc.cursor_curr.handle ≠ 0)
    (hfb : cs.fb = 0)
    (hj : int_and cs.request REQ_SET_CURSOR = 0 → s.crtc.cursor_curr.handle ≠ 0 →
      cs.handle ≠ 0) :
    flow.ledger_ok K others cs.handle (drm_crtc_thread_handle_set K s cs) := by
  unfold drm_crtc_thread_handle_set
  by_cases hm : int_and cs.request REQ_SET_CURSOR ≠ 0
  · rw [if_pos hm]
    simp only []
    by_cases hh : cs.handle = 0
    · rw [if_pos hh]
      have hd := drm_crtc_disable_cursor_ledger K others s h
      unfold drm_crtc_disable_cursor
      refine ⟨hd.1, fun hne => ?_, fun hne => ?_⟩
      · rw [hd.2] at hne
        exact absurd rfl hne
      · rw [hd.2] at hne
        exact absurd rfl hne
    · rw [if_neg hh]
      exact create_then_update_ledger K hfresh others s
        { cs with request := int_and cs.request (int_not REQ_SET_CURSOR) } h hh
  · rw [if_neg hm]
    exact ⟨⟨h, hshown, hj (not_not.mp hm)⟩, rfl, fun _ => hfb⟩

theorem drm_crtc_thread_handle_move_ledger (K : Kernel) (hfresh : K.fresh_buffers)
    (others : List Nat) (s : World) (cs : drm_cursor_state)
    (h : ledger_end K others cs.handle s)
    (hfb : s.crtc.cursor_curr.handle = 0 → cs.fb = 0) :
    flow.ledger_done K others cs.handle (drm_crtc_thread_handle_move K s cs) := by
  obtain ⟨hl, hshown, hr⟩ := h
  have h0 := ledger_zero_not_mem hl
  unfold drm_crtc_thread_handle_move
  by_cases hm : int_and cs.request REQ_MOVE_CURSOR ≠ 0
  · rw [if_pos hm]
    simp only []
    by_cases hh : s.crtc.cursor_curr.handle = 0
    · rw [if_pos hh]
      have hz : s.crtc.cursor_curr.fb = 0 := by
        by_cases hz : s.crtc.cursor_curr.fb = 0
        · exact hz
        · exact absurd hh (hshown hz)
      have hz2 := hfb hh
      refine ⟨⟨fun fb => ?_, ?_, h0⟩, fun hne => ?_, fun hne => hne⟩
      · show fb ∈ live_buffers K s.log ↔ (fb ≠ 0 ∧ (fb = cs.fb ∨ fb = 0)) ∨ fb ∈ others
        rw [hl.1 fb, hz, hz2]
      · show cs.fb ∉ others
        rw [hz2]
        exact h0
      · exact absurd hz2 hne
    · rw [if_neg hh]
      by_cases hoff : s.crtc.cursor_curr.off_x ≠ cs.off_x ∨ s.crtc.cursor_curr.off_y ≠ cs.off_y
      · rw [if_pos hoff]
        exact flow.ledger_ok_done (create_then_update_ledger K hfresh others s
          { cs with request := int_and cs.request (int_not REQ_MOVE_CURSOR) } hl (hr hh))
      · rw [if_neg hoff]
        have hheld : ledger K others
            ({ cs with request := int_and cs.request (int_not REQ_MOVE_CURSOR),
                       fb := s.crtc.cursor_curr.fb } : drm_cursor_state).fb s := by
          refine ⟨fun fb => ?_, hl.2.1, hl.2.1⟩
          rw [hl.1 fb]
          show _ ↔ (fb ≠ 0 ∧ (fb = s.crtc.cursor_curr.fb ∨ fb = s.crtc.cursor_curr.fb)) ∨ _
          constructor
          · rintro (⟨hz, h2 | h2⟩ | h1)
            · exact Or.inl ⟨hz, Or.inl h2⟩
            · exact absurd h2 hz
            · exact Or.inr h1
          · rintro (⟨hz, h2 | h2⟩ | h1)
            · exact Or.inl ⟨hz, Or.inl h2⟩
            · exact Or.inl ⟨hz, Or.inl h2⟩
            · exact Or.inr h1
        have hu := drm_crtc_update_cursor_ledger K others s _ hheld
        have hsp := drm_crtc_update_cursor_spec K s
          { cs with request := int_and cs.request (int_not REQ_MOVE_CURSOR),
                    fb := s.crtc.cursor_curr.fb }
        rcases hr2 : drm_crtc_update_cursor K s
          (some { cs with request := int_and cs.request (int_not REQ_MOVE_CURSOR),
                          fb := s.crtc.cursor_curr.fb }) with ⟨r2, s2⟩
        rw [hr2] at hu hsp
        simp only [] at hu hsp ⊢
        by_cases hneg2 : r2 < 0
        · rw [if_pos hneg2]
          exact hu
        · rw [if_neg hneg2]
          refine ⟨hu, fun _ => ?_, fun _ => hr hh⟩
          rw [hsp.1]
          exact hr hh
  · rw [if_neg hm]
    exact ⟨hl, hshown, hr⟩

theorem ledger_end_of_log {K : Kernel} {others : List Nat} {handle : Nat} {s s1 : World}
    (h : ledger_end K others handle s) (hl : live_buffers K s1.log = live_buffers K s.log)
    (hc : s1.crtc.cursor_curr = s.crtc.cursor_curr) : ledger_end K others handle s1 := by
  unfold ledger_end
  rw [hc]
  exact ⟨ledger_of_log h.1 hl (by rw [hc]), h.2.1, h.2.2⟩

theorem drm_crtc_thread_verify_ledger {K : Kernel} {others : List Nat} {handle : Nat}
    {s : World} (h : ledger_end K others handle s) :
    ledger_end K others handle (drm_crtc_thread_verify s) := by
  unfold drm_crtc_thread_verify
  split_ifs
  · exact ledger_end_of_log h rfl rfl
  · exact h

/-- The loop body under the ledger: a jump to `error` is made with the ledger
holding, and otherwise the body ends with the ledger holding, a buffer shown
only for a non-zero handle, and a handle in `cursor_curr` only if the snapshot
has one. -/
theorem drm_crtc_thread_body_ledger (K : Kernel) (hfresh : K.fresh_buffers)
    (others : List Nat) (s : World) (cs : drm_cursor_state) (h : ledger K others 0 s)
    (hshown : s.crtc.cursor_curr.fb ≠ 0 → s.crtc.cursor_curr.handle ≠ 0)
    (hfb : cs.fb = 0)
    (hj : int_and cs.request REQ_SET_CURSOR = 0 → s.crtc.cursor_curr.handle ≠ 0 →
      cs.handle ≠ 0) :
    flow.ledger_done K others cs.handle (drm_crtc_thread_body K s cs) := by
  have h0 : ledger K others 0
      { s with
        crtc := { s.crtc with width := (resolution K s).1, height := (resolution K s).2 }
        log := Event.drmModeGetCrtc s.crtc.crtc_id :: s.log } :=
    ledger_of_log h (live_buffers_cons_other K _ _ rfl rfl) rfl
  by_cases hc : connected K s = true
  · rw [drm_crtc_thread_body_connected K s cs hc]
    have hclip : drm_crtc_clip_offsets (resolution K s).1 (resolution K s).2 cs =
        { cs with
          off_x := (drm_crtc_clip_offsets (resolution K s).1 (resolution K s).2 cs).off_x
          off_y := (drm_crtc_clip_offsets (resolution K s).1 (resolution K s).2 cs).off_y } := by
      rw [drm_crtc_clip_offsets_eq]
    have hs := drm_crtc_thread_handle_set_ledger K hfresh others
      { s with
        crtc := { s.crtc with width := (resolution K s).1, height := (resolution K s).2 }
        log := Event.drmModeGetCrtc s.crtc.crtc_id :: s.log }
      (drm_crtc_clip_offsets (resolution K s).1 (resolution K s).2 cs) h0 hshown
      (by rw [hclip]; exact hfb) (by rw [hclip]; exact hj)
    have hhandle : (drm_crtc_clip_offsets (resolution K s).1 (resolution K s).2 cs).handle =
        cs.handle := by rw [hclip]
    rw [hhandle] at hs
    rcases hr : drm_crtc_thread_handle_set K
      { s with
        crtc := { s.crtc with width := (resolution K s).1, height := (resolution K s).2 }
        log := Event.drmModeGetCrtc s.crtc.crtc_id :: s.log }
      (drm_crtc_clip_offsets (resolution K s).1 (resolution K s).2 cs) with ⟨s2, cs2⟩ | s2 | s2
    · rw [hr] at hs
      obtain ⟨hend, hh2, hfb2⟩ := hs
      have hm := drm_crtc_thread_handle_move_ledger K hfresh others s2 cs2
        (by rw [hh2]; exact hend) hfb2
      rw [hh2] at hm
      simp only []
      rcases hr2 : drm_crtc_thread_handle_move K s2 cs2 with ⟨s3, cs3⟩ | s3 | s3
      · rw [hr2] at hm
        exact drm_crtc_thread_verify_ledger hm
      · rw [hr2] at hm
        exact hm
      · rw [hr2] at hm
        exact hm
    · rw [hr] at hs
      exact hs
    · rw [hr] at hs
      exact hs
  · have hd : connected K s = false := by simpa using hc
    unfold drm_crtc_thread_body
    rw [drm_crtc_update_offsets_disconnected K s cs hd]
    simp only []
    rw [if_pos (show (-1 : Int) < 0 by decide)]
    have hdis := drm_crtc_disable_cursor_ledger K others
      { s with
        crtc := { s.crtc with width := (resolution K s).1, height := (resolution K s).2 }
        log := Event.drmModeGetCrtc s.crtc.crtc_id :: s.log } h0
    unfold drm_crtc_disable_cursor
    rcases hr : drm_crtc_update_cursor K
      { s with
        crtc := { s.crtc with width := (resolution K s).1, height := (resolution K s).2 }
        log := Event.drmModeGetCrtc s.crtc.crtc_id :: s.log } none with ⟨r, s2⟩
    rw [hr] at hdis
    simp only [] at hdis ⊢
    have hz := ledger_zero_not_mem h
    refine ⟨⟨fun fb => ?_, ?_, hz⟩, fun hne => ?_, fun hne => hne⟩
    · show fb ∈ live_buffers K s2.log ↔ (fb ≠ 0 ∧ (fb = cs.fb ∨ fb = 0)) ∨ fb ∈ others
      rw [hdis.1.1 fb, hdis.2, hfb]
      rfl
    · show cs.fb ∉ others
      rw [hfb]
      exact hz
    · exact absurd hfb hne

theorem drm_crtc_thread_next_ledger {K : Kernel} {others : List Nat} {handle : Nat}
    {s : World} (h : ledger_end K others handle s) :
    ledger_end K others handle (drm_crtc_thread_next K s) := by
  refine ledger_end_of_log h ?_ rfl
  unfold drm_crtc_thread_next
  simp only []
  rw [live_buffers_cons_other K _ _ (by rfl) (by rfl)]
  split_ifs
  · rw [live_buffers_cons_other K _ _ (by rfl) (by rfl),
      live_buffers_cons_other K _ _ (by rfl) (by rfl)]
  · rw [live_buffers_cons_other K _ _ (by rfl) (by rfl)]

/-- The label `error` under the ledger: afterwards the buffers created and not
yet removed are those of the other outputs, and `cursor_curr` is all zero. -/
theorem drm_crtc_thread_error_ledger (K : Kernel) (others : List Nat) (s : World)
    (h : ledger K others 0 s) :
    (∀ fb, fb ∈ live_buffers K (drm_crtc_thread_error K s).log ↔ fb ∈ others) ∧
    (drm_crtc_thread_error K s).crtc.cursor_curr = drm_cursor_state.zero := by
  unfold drm_crtc_thread_error
  simp only []
  have h1 : ledger K others 0
      (if s.crtc.egl_ctx = true then { s with log := Event.egl_free_ctx :: s.log } else s) := by
    split_ifs
    · exact ledger_of_log h (live_buffers_cons_other K _ _ rfl rfl) rfl
    · exact h
  have hd := drm_crtc_disable_cursor_ledger K others _ h1
  unfold drm_crtc_disable_cursor
  refine ⟨fun fb => ?_, hd.2⟩
  show fb ∈ live_buffers K (drm_crtc_update_cursor K _ none).2.log ↔ _
  rw [hd.1.1 fb, hd.2]
  constructor
  · rintro (⟨hz, h2 | h2⟩ | h3)
    · exact absurd h2 hz
    · exact absurd h2 hz
    · exact h3
  · exact fun h3 => Or.inr h3

theorem uint32_of_int_of_uint32 (v : Nat) : uint32_of_int (int_of_uint32 v) = v % 4294967296 := by
  unfold uint32_of_int int_of_uint32
  split_ifs <;> omega

/-- Merging the flag `SET` sets it. -/
theorem int_and_or_set (r : Int) : int_and (int_or r REQ_SET_CURSOR) REQ_SET_CURSOR ≠ 0 := by
  have hu := uint32_of_int_lt r
  unfold int_and int_or
  rw [uint32_of_int_of_uint32]
  have h1 : uint32_of_int REQ_SET_CURSOR = 1 := by decide
  rw [h1]
  have hl : Nat.lor (uint32_of_int r) 1 < 2 ^ 32 :=
    Nat.or_lt_two_pow (by simpa using hu) (by decide)
  rw [Nat.mod_eq_of_lt (by simpa using hl)]
  have h2 : Nat.land (Nat.lor (uint32_of_int r) 1) 1 = 1 := by
    show (uint32_of_int r ||| 1) &&& 1 = 1
    rw [Nat.and_one_is_mod, Nat.mod_two_eq_one_iff_testBit_zero, Nat.testBit_or]
    exact Bool.or_true _
  rw [h2]
  decide

/-- Merging the flag `MOVE` leaves the flag `SET` as it is. -/
theorem int_and_or_move (r : Int) :
    int_and (int_or r REQ_MOVE_CURSOR) REQ_SET_CURSOR = int_and r REQ_SET_CURSOR := by
  have hu := uint32_of_int_lt r
  unfold int_and int_or
  rw [uint32_of_int_of_uint32]
  have h1 : uint32_of_int REQ_SET_CURSOR = 1 := by decide
  have h2 : uint32_of_int REQ_MOVE_CURSOR = 2 := by decide
  rw [h1, h2]
  have hl : Nat.lor (uint32_of_int r) 2 < 2 ^ 32 :=
    Nat.or_lt_two_pow (by simpa using hu) (by decide)
  rw [Nat.mod_eq_of_lt (by simpa using hl)]
  congr 1
  show (uint32_of_int r ||| 2) &&& 1 = uint32_of_int r &&& 1
  rw [Nat.and_one_is_mod, Nat.and_one_is_mod]
  have ht : (uint32_of_int r ||| 2).testBit 0 = (uint32_of_int r).testBit 0 := by
    rw [Nat.testBit_or]
    exact Bool.or_false _
  rcases Nat.mod_two_eq_zero_or_one (uint32_of_int r) with h | h
  · rw [h]
    rw [Nat.mod_two_eq_zero_iff_testBit_zero] at h ⊢
    rw [ht]
    exact h
  · rw [h]
    rw [Nat.mod_two_eq_one_iff_testBit_zero] at h ⊢
    rw [ht]
    exact h

theorem sample_kernel_live_le (log : List Event) :
    ∀ b ∈ live_buffers sample_kernel log, b ≤ log.length := by
  induction log with
  | nil => exact fun b hb => absurd hb (List.not_mem_nil b)
  | cons e log ih =>
    have hstep : ∀ b ∈ live_buffers sample_kernel log, b ≤ (e :: log).length :=
      fun b hb => Nat.le_succ_of_le (ih b hb)
    cases e with
    | egl_convert_fb handle width height x y =>
      intro b hb
      have hb2 : b ∈ (log.length + 1) :: live_buffers sample_kernel log := hb
      rcases List.mem_cons.mp hb2 with h0 | h0
      · rw [h0]
        exact Nat.le_refl _
      · exact hstep b h0
    | drmModeRmFB fb =>
      intro b hb
      have hb2 : b ∈ (live_buffers sample_kernel log).filter (fun b => b ≠ fb) := hb
      exact hstep b (List.mem_filter.mp hb2).1
    | _ => exact hstep

/-- The sample environment answers fresh buffers. -/
theorem sample_kernel_fresh : sample_kernel.fresh_buffers := by
  intro log handle width height x y _ hm
  have := sample_kernel_live_le log _ hm
  have h2 : sample_kernel.egl_convert_fb log handle width height x y = log.length + 1 := rfl
  omega

/-! ### Calls outside the worker create and remove no display buffer -/

theorem drm_update_crtc_live (K : Kernel) (crtc : drm_crtc) (log : List Event) :
    live_buffers K (drm_update_crtc K crtc log).2.2 = live_buffers K log := by
  rw [(drm_update_crtc_spec K crtc log).1]
  exact live_buffers_cons_other K _ _ rfl rfl

theorem drm_get_crtc_loop_live (K : Kernel) (crtc_id : Nat) (n i : Nat) (sys : Sys) :
    live_buffers K (drm_get_crtc_loop K crtc_id n i sys).2.log = live_buffers K sys.log := by
  induction n generalizing i sys with
  | zero => rfl
  | succ n ih =>
    unfold drm_get_crtc_loop
    by_cases hid : crtc_id = 0
    · rw [if_pos hid]
      have ho := drm_update_crtc_live K (sys.crtc i) sys.log
      rcases hr : drm_update_crtc K (sys.crtc i) sys.log with ⟨r, crtc1, log1⟩
      rw [hr] at ho
      simp only [] at ho ⊢
      by_cases hneg : r < 0
      · rw [if_pos hneg, ih]
        exact ho
      · rw [if_neg hneg]
        by_cases hb : crtc1.blocked = true
        · rw [if_pos hb, ih]
          exact ho
        · rw [if_neg hb]
          exact ho
    · rw [if_neg hid]
      by_cases hb : (sys.crtc i).blocked = true
      · rw [if_pos hb]
        exact ih _ _
      · rw [if_neg hb]
        by_cases he : (sys.crtc i).crtc_id = crtc_id
        · rw [if_pos he]
        · rw [if_neg he]
          exact ih _ _

theorem drm_plane_get_prop_value_live (K : Kernel) (plane : drm_plane) (p : drm_plane_prop)
    (log : List Event) :
    live_buffers K (drm_plane_get_prop_value K plane p log).2.2.2 = live_buffers K log := by
  unfold drm_plane_get_prop_value
  have hf := drm_plane_get_prop_live K plane p log
  rcases hs : drm_plane_get_prop K plane p log with ⟨idx, plane1, log1⟩
  rw [hs] at hf
  simp only []
  by_cases hi : idx < 0
  · rw [if_pos hi]
    exact hf
  · rw [if_neg hi]
    exact hf

theorem drm_plane_update_format_live (K : Kernel) (plane : drm_plane) (log : List Event) :
    live_buffers K (drm_plane_update_format K plane log).2 = live_buffers K log := by
  unfold drm_plane_update_format
  simp only []
  by_cases hf : plane.plane.formats.indexOf DRM_FORMAT_ARGB8888 = plane.plane.formats.length
  · rw [if_pos hf]
  · rw [if_neg hf]
    have hv := drm_plane_get_prop_value_live K
      { plane with can_afbc := false, can_linear := false } drm_plane_prop.IN_FORMATS log
    rcases hs : drm_plane_get_prop_value K
      { plane with can_afbc := false, can_linear := false } drm_plane_prop.IN_FORMATS log
      with ⟨r, value, plane1, log1⟩
    rw [hs] at hv
    simp only [] at hv ⊢
    by_cases hr : r < 0
    · rw [if_pos hr]
      exact hv
    · rw [if_neg hr]
      cases hb : K.drmModeGetPropertyBlob log1 (value % 4294967296) with
      | none =>
        simp only []
        exact (live_buffers_cons_other K _ _ (by rfl) (by rfl)).trans hv
      | some header =>
        simp only []
        split_ifs
        · exact (live_buffers_cons_other K _ _ (by rfl) (by rfl)).trans hv
        · exact (live_buffers_cons_other K _ _ (by rfl) (by rfl)).trans hv
        · exact (live_buffers_cons_other K _ _ (by rfl) (by rfl)).trans hv

theorem drm_get_plane_live (K : Kernel) (plane_id : Nat) (log : List Event) :
    live_buffers K (drm_get_plane K plane_id log).2 = live_buffers K log := by
  unfold drm_get_plane
  cases hp : K.drmModeGetPlane log plane_id with
  | none =>
    simp only []
    exact live_buffers_cons_other K _ _ rfl rfl
  | some pl =>
    simp only []
    cases hq : K.drmModeObjectGetProperties (Event.drmModeGetPlane plane_id :: log) plane_id with
    | none =>
      simp only []
      rw [live_buffers_cons_other K _ _ (by rfl) (by rfl), live_buffers_cons_other K _ _ (by rfl) (by rfl)]
    | some props =>
      simp only []
      have hu := drm_plane_update_format_live K
        { plane_id := plane_id, cursor_plane := false, can_afbc := false, can_linear := false,
          plane := pl, props := props, prop_ids := List.replicate 15 0 }
        (Event.drmModeObjectGetProperties plane_id :: Event.drmModeGetPlane plane_id :: log)
      rcases hr : drm_plane_update_format K
        { plane_id := plane_id, cursor_plane := false, can_afbc := false, can_linear := false,
          plane := pl, props := props, prop_ids := List.replicate 15 0 }
        (Event.drmModeObjectGetProperties plane_id :: Event.drmModeGetPlane plane_id :: log)
        with ⟨plane, log1⟩
      rw [hr] at hu
      simp only [] at hu ⊢
      rw [hu, live_buffers_cons_other K _ _ (by rfl) (by rfl), live_buffers_cons_other K _ _ (by rfl) (by rfl)]

theorem drm_crtc_bind_plane_live (K : Kernel) (sys : Sys) (i plane_id : Nat)
    (allow_overlay : Bool) :
    live_buffers K (drm_crtc_bind_plane K sys i plane_id allow_overlay).2.log =
      live_buffers K sys.log := by
  unfold drm_crtc_bind_plane
  by_cases hb : (sys.crtc i).plane.isSome = true
  · rw [if_pos hb]
  · rw [if_neg hb]
    by_cases hany : sys.ctx.crtcs.any (fun c => c.has_plane_id plane_id) = true
    · rw [if_pos hany]
    · rw [if_neg hany]
      have hg := drm_get_plane_live K plane_id sys.log
      rcases hr : drm_get_plane K plane_id sys.log with ⟨o, log1⟩
      rw [hr] at hg
      simp only [] at hg
      cases o with
      | none => exact hg
      | some plane =>
        simp only []
        by_cases h1 : plane.can_afbc = false ∧ plane.can_linear = false
        · rw [if_pos h1]
          exact hg
        · rw [if_neg h1]
          by_cases h2 : Nat.land plane.plane.possible_crtcs (1 <<< (sys.crtc i).crtc_pipe) = 0
          · rw [if_pos h2]
            exact hg
          · rw [if_neg h2]
            have hv := drm_plane_get_prop_value_live K plane drm_plane_prop.type log1
            rcases hr2 : drm_plane_get_prop_value K plane drm_plane_prop.type log1
              with ⟨r, value, plane1, log2⟩
            rw [hr2] at hv
            simp only [] at hv ⊢
            have hobs : live_buffers K log2 = live_buffers K sys.log := hv.trans hg
            by_cases h3 : r < 0
            · rw [if_pos h3]
              exact hobs
            · rw [if_neg h3]
              by_cases h4 : value = DRM_PLANE_TYPE_PRIMARY
              · rw [if_pos h4]
                exact hobs
              · rw [if_neg h4]
                by_cases h5 : allow_overlay = false ∧ value = DRM_PLANE_TYPE_OVERLAY
                · rw [if_pos h5]
                  exact hobs
                · rw [if_neg h5]
                  exact hobs

theorem drm_crtc_prepare_try_live (K : Kernel) (i : Nat) (allow_overlay : Bool) (sys : Sys)
    (plane_id : Nat) :
    live_buffers K (drm_crtc_prepare_try K i allow_overlay sys plane_id).log =
      live_buffers K sys.log := by
  unfold drm_crtc_prepare_try
  split_ifs
  · rfl
  · exact drm_crtc_bind_plane_live K sys i plane_id allow_overlay

theorem drm_crtc_prepare_tries_live (K : Kernel) (i : Nat) (allow_overlay : Bool)
    (planes : List Nat) (sys : Sys) :
    live_buffers K (planes.foldl (drm_crtc_prepare_try K i allow_overlay) sys).log =
      live_buffers K sys.log := by
  induction planes generalizing sys with
  | nil => rfl
  | cons plane_id rest ih =>
    rw [List.foldl_cons, ih]
    exact drm_crtc_prepare_try_live K i allow_overlay sys plane_id

theorem drm_crtc_prepare_live (K : Kernel) (sys : Sys) (i : Nat) :
    live_buffers K (drm_crtc_prepare K sys i).2.log = live_buffers K sys.log := by
  unfold drm_crtc_prepare
  simp only []
  have h1 : live_buffers K
      (if (sys.crtc i).width ≤ 0 ∨ (sys.crtc i).height ≤ 0 then
        match drm_update_crtc K (sys.crtc i) sys.log with
        | (_, crtc1, log1) => ({ sys with log := log1 } : Sys).set_crtc i crtc1
      else sys).log = live_buffers K sys.log := by
    split_ifs
    · have ho := drm_update_crtc_live K (sys.crtc i) sys.log
      rcases hr : drm_update_crtc K (sys.crtc i) sys.log with ⟨r, crtc1, log1⟩
      rw [hr] at ho
      exact ho
    · rfl
  generalize (if (sys.crtc i).width ≤ 0 ∨ (sys.crtc i).height ≤ 0 then
        match drm_update_crtc K (sys.crtc i) sys.log with
        | (_, crtc1, log1) => ({ sys with log := log1 } : Sys).set_crtc i crtc1
      else sys) = sys1 at h1 ⊢
  by_cases hb : (sys1.crtc i).plane.isSome = true
  · rw [if_pos hb]
    exact h1
  · rw [if_neg hb]
    have h2 : live_buffers K
        (if (sys1.crtc i).prefer_plane_id ≠ 0 then
          (drm_crtc_bind_plane K sys1 i (sys1.crtc i).prefer_plane_id true).2
        else sys1).log = live_buffers K sys1.log := by
      split_ifs
      · exact drm_crtc_bind_plane_live K sys1 i _ true
      · rfl
    generalize (if (sys1.crtc i).prefer_plane_id ≠ 0 then
          (drm_crtc_bind_plane K sys1 i (sys1.crtc i).prefer_plane_id true).2
        else sys1) = sys2 at h2 ⊢
    have h3 := drm_crtc_prepare_tries_live K i false sys2.ctx.planes sys2
    generalize sys2.ctx.planes.foldl (drm_crtc_prepare_try K i false) sys2 = sys3 at h3 ⊢
    have h4 : live_buffers K
        (if sys3.ctx.allow_overlay ≠ 0 then
          sys3.ctx.planes.reverse.foldl (drm_crtc_prepare_try K i true) sys3
        else sys3).log = live_buffers K sys3.log := by
      split_ifs
      · exact drm_crtc_prepare_tries_live K i true _ sys3
      · rfl
    generalize (if sys3.ctx.allow_overlay ≠ 0 then
          sys3.ctx.planes.reverse.foldl (drm_crtc_prepare_try K i true) sys3
        else sys3) = sys4 at h4 ⊢
    have h14 := ((h4.trans h3).trans h2).trans h1
    by_cases hn : (sys4.crtc i).plane.isNone = true
    · rw [if_pos hn]
      exact h14
    · rw [if_neg hn]
      show live_buffers K (Event.pthread_create (sys4.crtc i).crtc_id :: sys4.log) = _
      rw [live_buffers_cons_other K _ _ (by rfl) (by rfl)]
      exact h14

theorem drm_move_cursor_live (K : Kernel) (sys : Sys) (crtc_id : Nat) (x y : Int) :
    live_buffers K (drm_move_cursor K sys crtc_id x y).2.log = live_buffers K sys.log := by
  unfold drm_move_cursor
  by_cases hh : sys.ctx.hide ≠ 0
  · rw [if_pos hh]
  · rw [if_neg hh]
    have hg : live_buffers K (drm_get_crtc K sys crtc_id).2.log = live_buffers K sys.log :=
      drm_get_crtc_loop_live K crtc_id _ 0 sys
    rcases hr : drm_get_crtc K sys crtc_id with ⟨o, sys1⟩
    rw [hr] at hg
    simp only [] at hg
    cases o with
    | none => exact hg
    | some i =>
      simp only []
      by_cases he : (sys1.crtc i).state = drm_thread_state.ERROR
      · rw [if_pos he]
        exact hg
      · rw [if_neg he]
        have hp := drm_crtc_prepare_live K sys1 i
        rcases hr2 : drm_crtc_prepare K sys1 i with ⟨r, sys2⟩
        rw [hr2] at hp
        simp only [] at hp ⊢
        have h12 := hp.trans hg
        by_cases hneg : r < 0
        · rw [if_pos hneg]
          exact h12
        · rw [if_neg hneg]
          by_cases hw : (sys2.crtc i).width ≤ 0 ∨ (sys2.crtc i).height ≤ 0
          · rw [if_pos hw]
            exact h12
          · rw [if_neg hw]
            by_cases he2 : (sys2.crtc i).state = drm_thread_state.ERROR
            · rw [if_pos he2]
              exact h12
            · rw [if_neg he2]
              exact h12

theorem drm_set_cursor_live (K : Kernel) (sys : Sys) (crtc_id handle width height : Nat) :
    live_buffers K (drm_set_cursor K sys crtc_id handle width height).2.log =
      live_buffers K sys.log := by
  unfold drm_set_cursor
  by_cases hh : sys.ctx.hide ≠ 0
  · rw [if_pos hh]
  · rw [if_neg hh]
    have hg : live_buffers K (drm_get_crtc K sys crtc_id).2.log = live_buffers K sys.log :=
      drm_get_crtc_loop_live K crtc_id _ 0 sys
    rcases hr : drm_get_crtc K sys crtc_id with ⟨o, sys1⟩
    rw [hr] at hg
    simp only [] at hg
    cases o with
    | none => exact hg
    | some i =>
      simp only []
      by_cases he : (sys1.crtc i).state = drm_thread_state.ERROR
      · rw [if_pos he]
        exact hg
      · rw [if_neg he]
        have hp := drm_crtc_prepare_live K sys1 i
        rcases hr2 : drm_crtc_prepare K sys1 i with ⟨r, sys2⟩
        rw [hr2] at hp
        simp only [] at hp ⊢
        have h12 := hp.trans hg
        by_cases hneg : r < 0
        · rw [if_pos hneg]
          exact h12
        · rw [if_neg hneg]
          by_cases he2 : (sys2.crtc i).state = drm_thread_state.ERROR
          · rw [if_pos he2]
            exact h12
          · rw [if_neg he2]
            exact h12

theorem drm_plane_set_prop_max_live (K : Kernel) (plane : drm_plane) (p : drm_plane_prop)
    (log : List Event) :
    live_buffers K (drm_plane_set_prop_max K plane p log).2.2 = live_buffers K log := by
  unfold drm_plane_set_prop_max
  have hf := drm_plane_get_prop_live K plane p log
  rcases hs : drm_plane_get_prop K plane p log with ⟨idx, plane1, log1⟩
  rw [hs] at hf
  simp only [] at hf ⊢
  by_cases hi : idx < 0
  · rw [if_pos hi]
    exact hf
  · rw [if_neg hi]
    cases K.drmModeGetProperty log1 (plane1.props.props.getD idx.toNat 0) with
    | none =>
      simp only []
      rw [live_buffers_cons_other K _ _ (by rfl) (by rfl)]
      exact hf
    | some prop =>
      simp only []
      rw [live_buffers_cons_other K _ _ (by rfl) (by rfl), live_buffers_cons_other K _ _ (by rfl) (by rfl)]
      exact hf

/-- One iteration of the worker under the invariant `no_leak`, for an
environment that answers fresh buffers.  The iteration ends in `error`, with
the state `ERROR`, exactly when its turn jumps there.  If it does not, the
buffers created and not yet removed are afterwards `cursor_curr.fb`, when it
is not 0, and those of the other outputs, and a buffer is shown only for a
non-zero handle.  If it does, they are those of the other outputs only and
`cursor_curr` is all zero.  The invariant holds again in both cases. -/
theorem drm_crtc_thread_iter_no_leak (K : Kernel) (hfresh : K.fresh_buffers) (others : List Nat)
    (s s1 : World) (hinv : no_leak K others s)
    (hiter : drm_crtc_thread_iter K s = some s1) :
    (s1.crtc.state = drm_thread_state.ERROR ↔
      ∃ s2, drm_crtc_thread_turn K s = some (flow.goto_error s2)) ∧
    (s1.crtc.state ≠ drm_thread_state.ERROR →
      (∀ fb, fb ∈ live_buffers K s1.log ↔
        (fb ≠ 0 ∧ fb = s1.crtc.cursor_curr.fb) ∨ fb ∈ others) ∧
      (s1.crtc.cursor_curr.fb ≠ 0 → s1.crtc.cursor_curr.handle ≠ 0)) ∧
    (s1.crtc.state = drm_thread_state.ERROR →
      (∀ fb, fb ∈ live_buffers K s1.log ↔ fb ∈ others) ∧
      s1.crtc.cursor_curr = drm_cursor_state.zero) ∧
    no_leak K others s1 := by
  have hz0 := ledger_zero_not_mem hinv.1
  obtain ⟨hl, hnext, hshown, hj⟩ := hinv
  unfold drm_crtc_thread_iter at hiter
  unfold drm_crtc_thread_turn drm_crtc_thread_drain at hiter ⊢
  by_cases hp : s.crtc.state = drm_thread_state.PENDING
  · rw [if_pos hp] at hiter ⊢
    simp only [] at hiter ⊢
    have hb := drm_crtc_thread_body_ledger K hfresh others
      { s with
        crtc := { s.crtc with
          cursor_next := { s.crtc.cursor_next with request := 0 }
          state := drm_thread_state.IDLE } }
      s.crtc.cursor_next (ledger_of_log hl rfl rfl) hshown hnext hj
    have hf := drm_crtc_thread_body_frame K
      { s with
        crtc := { s.crtc with
          cursor_next := { s.crtc.cursor_next with request := 0 }
          state := drm_thread_state.IDLE } }
      s.crtc.cursor_next
    have hidle : drm_thread_state.IDLE ≠ drm_thread_state.ERROR := by decide
    have hdone : ∀ s2 : World, ledger_end K others s.crtc.cursor_next.handle s2 →
        s2.crtc.state = drm_thread_state.IDLE →
        s2.crtc.cursor_next = { s.crtc.cursor_next with request := 0 } →
        (drm_crtc_thread_next K s2).crtc.state ≠ drm_thread_state.ERROR ∧
        (∀ fb, fb ∈ live_buffers K (drm_crtc_thread_next K s2).log ↔
          (fb ≠ 0 ∧ fb = (drm_crtc_thread_next K s2).crtc.cursor_curr.fb) ∨ fb ∈ others) ∧
        ((drm_crtc_thread_next K s2).crtc.cursor_curr.fb ≠ 0 →
          (drm_crtc_thread_next K s2).crtc.cursor_curr.handle ≠ 0) ∧
        no_leak K others (drm_crtc_thread_next K s2) := by
      intro s2 hend hst hnx
      have hn := drm_crtc_thread_next_ledger hend
      have hfr := drm_crtc_thread_next_frame K s2
      have hnx2 : (drm_crtc_thread_next K s2).crtc.cursor_next =
          { s.crtc.cursor_next with request := 0 } := by rw [hfr.next, hnx]
      refine ⟨by rw [hfr.state, hst]; exact hidle, fun fb => ?_, hn.2.1, hn.1, ?_, hn.2.1, ?_⟩
      · rw [hn.1.1 fb]
        constructor
        · rintro (⟨hz, h2 | h2⟩ | h3)
          · exact Or.inl ⟨hz, h2⟩
          · exact absurd h2 hz
          · exact Or.inr h3
        · rintro (⟨hz, h2⟩ | h3)
          · exact Or.inl ⟨hz, Or.inl h2⟩
          · exact Or.inr h3
      · rw [hnx2]
        exact hnext
      · intro _ hne
        rw [hnx2]
        exact hn.2.2 hne
    rcases hr : drm_crtc_thread_body K
      { s with
        crtc := { s.crtc with
          cursor_next := { s.crtc.cursor_next with request := 0 }
          state := drm_thread_state.IDLE } }
      s.crtc.cursor_next with ⟨s2, cs2⟩ | s2 | s2
    · rw [hr] at hiter hb hf
      simp only [Option.some.injEq] at hiter
      have hd := hdone s2 hb hf.state hf.next
      rw [hiter] at hd
      refine ⟨⟨fun he => absurd he hd.1, fun ⟨s3, h3⟩ => ?_⟩, fun _ => ⟨hd.2.1, hd.2.2.1⟩,
        fun he => absurd he hd.1, hd.2.2.2⟩
      simp only [Option.some.injEq] at h3
      exact flow.noConfusion h3
    · rw [hr] at hiter hb hf
      simp only [Option.some.injEq] at hiter
      have hd := hdone s2 hb hf.state hf.next
      rw [hiter] at hd
      refine ⟨⟨fun he => absurd he hd.1, fun ⟨s3, h3⟩ => ?_⟩, fun _ => ⟨hd.2.1, hd.2.2.1⟩,
        fun he => absurd he hd.1, hd.2.2.2⟩
      simp only [Option.some.injEq] at h3
      exact flow.noConfusion h3
    · rw [hr] at hiter hb
      simp only [Option.some.injEq] at hiter
      rw [hr] at hf
      have he := drm_crtc_thread_error_ledger K others s2 hb
      have hst := (drm_crtc_thread_error_frame K s2).2.2.2.2
      have hnx := (drm_crtc_thread_error_frame K s2).2.2.1
      rw [hiter] at he hst hnx
      refine ⟨⟨fun _ => ⟨s2, rfl⟩, fun _ => hst⟩, fun hne => absurd hst hne, fun _ => he,
        ⟨fun fb => ?_, ?_, hz0⟩, ?_, fun hne => ?_, fun _ hne => ?_⟩
      · rw [he.1 fb, he.2]
        constructor
        · exact fun h3 => Or.inr h3
        · rintro (⟨hz, h2 | h2⟩ | h3)
          · exact absurd h2 hz
          · exact absurd h2 hz
          · exact h3
      · rw [he.2]
        exact hz0
      · have hfn : s2.crtc.cursor_next = { s.crtc.cursor_next with request := 0 } := hf.next
        rw [hnx, hfn]
        exact hnext
      · rw [he.2] at hne
        exact absurd rfl hne
      · rw [he.2] at hne
        exact absurd rfl hne
  · rw [if_neg hp] at hiter
    exact Option.noConfusion hiter

/-! ### The ledger of the whole program -/

theorem drm_crtc_thread_error_no_leak (K : Kernel) (others : List Nat) (s : World)
    (h : ledger K others 0 s) (hn : s.crtc.cursor_next.fb = 0) :
    no_leak K others (drm_crtc_thread_error K s) ∧
    (drm_crtc_thread_error K s).crtc.cursor_curr = drm_cursor_state.zero ∧
    (drm_crtc_thread_error K s).crtc.state = drm_thread_state.ERROR := by
  have hz0 := ledger_zero_not_mem h
  have he := drm_crtc_thread_error_ledger K others s h
  have hfr := drm_crtc_thread_error_frame K s
  refine ⟨⟨⟨fun fb => ?_, ?_, hz0⟩, ?_, fun hne => ?_, fun _ hne => ?_⟩, he.2, hfr.2.2.2.2⟩
  · rw [he.1 fb, he.2]
    constructor
    · exact fun h3 => Or.inr h3
    · rintro (⟨hz, h2 | h2⟩ | h3)
      · exact absurd h2 hz
      · exact absurd h2 hz
      · exact h3
  · rw [he.2]
    exact hz0
  · rw [hfr.2.2.1]
    exact hn
  · rw [he.2] at hne
    exact absurd rfl hne
  · rw [he.2] at hne
    exact absurd rfl hne

/-- The start of the worker keeps the invariant, and leaves an output in
`ERROR` with an all-zero `cursor_curr` if that held before. -/
theorem drm_crtc_thread_start_no_leak (K : Kernel) (others : List Nat) (s : World)
    (h : no_leak K others s)
    (he : s.crtc.state = drm_thread_state.ERROR → s.crtc.cursor_curr = drm_cursor_state.zero) :
    no_leak K others (drm_crtc_thread_start K s) ∧
    ((drm_crtc_thread_start K s).crtc.state = drm_thread_state.ERROR →
      (drm_crtc_thread_start K s).crtc.cursor_curr = drm_cursor_state.zero) := by
  obtain ⟨hl, hnext, hshown, hj⟩ := h
  unfold drm_crtc_thread_start
  by_cases hcp : s.plane.cursor_plane = false
  · rw [if_pos hcp]
    cases hq : K.drmModeObjectGetProperties (Event.drmSetClientCap_ATOMIC :: s.log)
        s.plane.plane_id with
    | none =>
      simp only []
      have h0 : ledger K others 0
          { s with log := Event.drmModeObjectGetProperties s.plane.plane_id ::
              Event.drmSetClientCap_ATOMIC :: s.log } := by
        refine ledger_of_log hl ?_ rfl
        show live_buffers K (_ :: _ :: s.log) = _
        rw [live_buffers_cons_other K _ _ (by rfl) (by rfl),
          live_buffers_cons_other K _ _ (by rfl) (by rfl)]
      have hn := drm_crtc_thread_error_no_leak K others _ h0 hnext
      exact ⟨hn.1, fun _ => hn.2.1⟩
    | some props =>
      simp only []
      have h1 := drm_plane_set_prop_max_live K { s.plane with props := props }
        drm_plane_prop.zpos (Event.drmModeObjectGetProperties s.plane.plane_id ::
          Event.drmSetClientCap_ATOMIC :: s.log)
      rcases hr1 : drm_plane_set_prop_max K { s.plane with props := props }
        drm_plane_prop.zpos (Event.drmModeObjectGetProperties s.plane.plane_id ::
          Event.drmSetClientCap_ATOMIC :: s.log) with ⟨r1, plane1, log1⟩
      rw [hr1] at h1
      simp only [] at h1 ⊢
      have h2 := drm_plane_set_prop_max_live K plane1 drm_plane_prop.ZPOS log1
      rcases hr2 : drm_plane_set_prop_max K plane1 drm_plane_prop.ZPOS log1
        with ⟨r2, plane2, log2⟩
      rw [hr2] at h2
      simp only [] at h2 ⊢
      have h3 := drm_plane_set_prop_max_live K plane2 drm_plane_prop.ASYNC_COMMIT log2
      rcases hr3 : drm_plane_set_prop_max K plane2 drm_plane_prop.ASYNC_COMMIT log2
        with ⟨r3, plane3, log3⟩
      rw [hr3] at h3
      simp only [] at h3 ⊢
      have hlive : live_buffers K (Event.gettimeofday :: log3) = live_buffers K s.log := by
        rw [live_buffers_cons_other K _ _ (by rfl) (by rfl), h3, h2, h1,
          live_buffers_cons_other K _ _ (by rfl) (by rfl),
          live_buffers_cons_other K _ _ (by rfl) (by rfl)]
      exact ⟨⟨ledger_of_log hl hlive rfl, hnext, hshown, hj⟩, he⟩
  · rw [if_neg hcp]
    exact ⟨⟨ledger_of_log hl (live_buffers_cons_other K _ _ (by rfl) (by rfl)) rfl, hnext,
      hshown, hj⟩, he⟩

theorem Sys.mem_other_buffers (sys : Sys) (i fb : Nat) :
    fb ∈ sys.other_buffers i ↔ fb ≠ 0 ∧ ∃ j, j ≠ i ∧ (sys.crtc j).cursor_curr.fb = fb := by
  unfold Sys.other_buffers
  simp only [List.mem_filter, List.mem_map, List.mem_range, decide_eq_true_eq]
  constructor
  · rintro ⟨⟨j, ⟨_, hji⟩, hj⟩, hz⟩
    exact ⟨hz, j, hji, hj⟩
  · rintro ⟨hz, j, hji, hj⟩
    refine ⟨⟨j, ⟨?_, hji⟩, hj⟩, hz⟩
    by_contra hlen
    rw [Sys.crtc_of_ge _ _ (by omega)] at hj
    exact hz hj.symm

/-- The invariant of the program gives the invariant of the worker of each
output, with the buffers of the other outputs as `others`. -/
theorem no_leak_of_sys (K : Kernel) (sys : Sys) (i : Nat) (p : drm_plane)
    (h : sys.no_leak K) : no_leak K (sys.other_buffers i) (sys.world i p) := by
  obtain ⟨hlive, hdist, hper⟩ := h
  have hz0 : 0 ∉ sys.other_buffers i := fun h0 =>
    ((Sys.mem_other_buffers sys i 0).mp h0).1 rfl
  refine ⟨⟨fun fb => ?_, fun hm => ?_, hz0⟩, (hper i).1, (hper i).2.1, (hper i).2.2.1⟩
  · show fb ∈ live_buffers K sys.log ↔
      (fb ≠ 0 ∧ (fb = (sys.crtc i).cursor_curr.fb ∨ fb = 0)) ∨ fb ∈ sys.other_buffers i
    rw [hlive fb, Sys.mem_other_buffers]
    constructor
    · rintro ⟨hz, j, hj⟩
      by_cases hji : j = i
      · rw [hji] at hj
        exact Or.inl ⟨hz, Or.inl hj.symm⟩
      · exact Or.inr ⟨hz, j, hji, hj⟩
    · rintro (⟨hz, h2 | h2⟩ | ⟨hz, j, _, hj⟩)
      · exact ⟨hz, i, h2.symm⟩
      · exact absurd h2 hz
      · exact ⟨hz, j, hj⟩
  · obtain ⟨hz, j, hji, hj⟩ := (Sys.mem_other_buffers sys i _).mp hm
    exact hdist i j (fun h => hji h.symm) hz hj.symm

/-- The invariant of the worker of an output, after a scheduling of that
worker, gives back the invariant of the program. -/
theorem sys_no_leak_of_world (K : Kernel) (sys : Sys) (i : Nat) (p : drm_plane) (s1 : World)
    (h : sys.no_leak K) (hp : (sys.crtc i).plane = some p)
    (hf : thread_frame (sys.world i p) s1)
    (hn : no_leak K (sys.other_buffers i) s1)
    (he : s1.crtc.state = drm_thread_state.ERROR →
      s1.crtc.cursor_curr = drm_cursor_state.zero) :
    (s1.sys i).no_leak K := by
  have hi : i < sys.ctx.crtcs.length := by
    by_contra hi
    rw [Sys.crtc_of_ge _ _ (by omega)] at hp
    cases hp
  have hlen : s1.ctx.crtcs.length = sys.ctx.crtcs.length := by
    rw [hf.ctx]
    rfl
  have hws := worker_step.worker_of_thread i sys p s1 hp hf
  have hat : (s1.sys i).crtc i =
      { s1.crtc with plane := s1.crtc.plane.map (fun _ => s1.plane) } := by
    unfold World.sys
    rw [Sys.crtc_set_crtc, if_pos ⟨rfl, by
      show i < s1.ctx.crtcs.length
      omega⟩]
  have hcur : ((s1.sys i).crtc i).cursor_curr = s1.crtc.cursor_curr := by rw [hat]
  have hlog : (s1.sys i).log = s1.log := rfl
  obtain ⟨hlive, hdist, hper⟩ := h
  obtain ⟨hl, hnext, hshown, hj⟩ := hn
  have hnot : ∀ j, j ≠ i → (sys.crtc j).cursor_curr.fb ≠ 0 →
      (sys.crtc j).cursor_curr.fb ≠ s1.crtc.cursor_curr.fb := by
    intro j hji hz heq
    apply hl.2.1
    rw [← heq]
    exact (Sys.mem_other_buffers sys i _).mpr ⟨hz, j, hji, rfl⟩
  refine ⟨fun fb => ?_, fun a b hab hz => ?_, fun j => ?_⟩
  · rw [hlog, hl.1 fb, Sys.mem_other_buffers]
    constructor
    · rintro (⟨hz, h2 | h2⟩ | ⟨hz, j, hji, hj⟩)
      · exact ⟨hz, i, by rw [hcur]; exact h2.symm⟩
      · exact absurd h2 hz
      · exact ⟨hz, j, by rw [hws.others j hji]; exact hj⟩
    · rintro ⟨hz, j, hj⟩
      by_cases hji : j = i
      · rw [hji, hcur] at hj
        exact Or.inl ⟨hz, Or.inl hj.symm⟩
      · rw [hws.others j hji] at hj
        exact Or.inr ⟨hz, j, hji, hj⟩
  · by_cases hai : a = i
    · have hbi : b ≠ i := fun hb => hab (hai.trans hb.symm)
      rw [hai, hcur] at hz ⊢
      rw [hws.others b hbi]
      intro heq
      exact hnot b hbi (by rw [← heq]; exact hz) heq.symm
    · rw [hws.others a hai] at hz ⊢
      by_cases hbi : b = i
      · rw [hbi, hcur]
        exact hnot a hai hz
      · rw [hws.others b hbi]
        exact hdist a b hab hz
  · by_cases hji : j = i
    · rw [hji, hat]
      exact ⟨hnext, hshown, hj, he⟩
    · rw [hws.others j hji]
      exact hper j

/-- A scheduling of a worker keeps the invariant of the program. -/
theorem drm_crtc_thread_step_no_leak (K : Kernel) (hfresh : K.fresh_buffers) (sys : Sys)
    (i : Nat) (h : sys.no_leak K) : (drm_crtc_thread_step K sys i).no_leak K := by
  unfold drm_crtc_thread_step
  cases hp : (sys.crtc i).plane with
  | none => exact h
  | some p =>
    simp only []
    have hw := no_leak_of_sys K sys i p h
    cases ht : (sys.crtc i).thread with
    | absent => exact h
    | returned => exact h
    | created =>
      have hs := drm_crtc_thread_start_no_leak K _ (sys.world i p) hw (h.2.2 i).2.2.2
      exact sys_no_leak_of_world K sys i p _ h hp (drm_crtc_thread_start_frame K _) hs.1 hs.2
    | looping =>
      simp only []
      cases hit : drm_crtc_thread_iter K (sys.world i p) with
      | none => exact h
      | some s1 =>
        have hs := drm_crtc_thread_iter_no_leak K hfresh _ (sys.world i p) s1 hw hit
        exact sys_no_leak_of_world K sys i p s1 h hp
          (drm_crtc_thread_iter_frame K _ s1 hit) hs.2.2.2 (fun he => (hs.2.2.1 he).2)

theorem ledger_kept_refl (K : Kernel) (sys : Sys) : ledger_kept K sys sys :=
  ⟨rfl, fun _ => ⟨rfl, rfl, fun h => h⟩⟩

theorem ledger_kept_trans {K : Kernel} {a b c : Sys} (h1 : ledger_kept K a b)
    (h2 : ledger_kept K b c) : ledger_kept K a c :=
  ⟨h2.1.trans h1.1, fun j =>
    ⟨(h2.2 j).1.trans (h1.2 j).1, (h2.2 j).2.1.trans (h1.2 j).2.1,
      fun h => (h1.2 j).2.2 ((h2.2 j).2.2 h)⟩⟩

theorem ledger_kept_of_step {K : Kernel} {i : Nat} {sys sys1 : Sys}
    (h : caller_step i sys sys1) (hl : live_buffers K sys1.log = live_buffers K sys.log) :
    ledger_kept K sys sys1 := by
  refine ⟨hl, fun j => ?_⟩
  by_cases hj : j = i
  · rw [hj]
    refine ⟨by rw [h.at_i], by rw [h.at_i], fun he => ?_⟩
    rcases h.state with hs | hs
    · rw [← hs]
      exact he
    · rw [hs] at he
      cases he
  · rw [h.others j hj]
    exact ⟨rfl, rfl, fun he => he⟩

/-- The invariant of the program depends only on what `ledger_kept` keeps. -/
theorem sys_no_leak_of_kept {K : Kernel} {sys sys1 : Sys} (h : sys.no_leak K)
    (hk : ledger_kept K sys sys1) : sys1.no_leak K := by
  obtain ⟨hlive, hdist, hper⟩ := h
  refine ⟨fun fb => ?_, fun a b hab hz => ?_, fun j => ?_⟩
  · rw [hk.1, hlive fb]
    constructor
    · rintro ⟨hz, j, hj⟩
      exact ⟨hz, j, by rw [(hk.2 j).1]; exact hj⟩
    · rintro ⟨hz, j, hj⟩
      exact ⟨hz, j, by rw [(hk.2 j).1] at hj; exact hj⟩
  · rw [(hk.2 a).1] at hz ⊢
    rw [(hk.2 b).1]
    exact hdist a b hab hz
  · unfold drm_crtc.no_leak
    rw [(hk.2 j).1, (hk.2 j).2.1]
    exact ⟨(hper j).1, (hper j).2.1, (hper j).2.2.1,
      fun he => (hper j).2.2.2 ((hk.2 j).2.2 he)⟩

/-- Writing back an output whose `cursor_curr` is unchanged and which
satisfies its own part of the invariant keeps the invariant of the program. -/
theorem sys_no_leak_set_crtc (K : Kernel) (sys : Sys) (i : Nat) (c : drm_crtc)
    (h : sys.no_leak K) (hc : c.cursor_curr = (sys.crtc i).cursor_curr) (hn : c.no_leak) :
    (sys.set_crtc i c).no_leak K := by
  have hcur : ∀ j, ((sys.set_crtc i c).crtc j).cursor_curr = (sys.crtc j).cursor_curr := by
    intro j
    rw [Sys.crtc_set_crtc]
    by_cases hj : j = i ∧ i < sys.ctx.crtcs.length
    · rw [if_pos hj, hj.1]
      exact hc
    · rw [if_neg hj]
  obtain ⟨hlive, hdist, hper⟩ := h
  refine ⟨fun fb => ?_, fun a b hab hz => ?_, fun j => ?_⟩
  · show fb ∈ live_buffers K sys.log ↔ _
    rw [hlive fb]
    constructor
    · rintro ⟨hz, j, hj⟩
      exact ⟨hz, j, by rw [hcur j]; exact hj⟩
    · rintro ⟨hz, j, hj⟩
      exact ⟨hz, j, by rw [hcur j] at hj; exact hj⟩
  · rw [hcur a] at hz ⊢
    rw [hcur b]
    exact hdist a b hab hz
  · rw [Sys.crtc_set_crtc]
    by_cases hj : j = i ∧ i < sys.ctx.crtcs.length
    · rw [if_pos hj]
      exact hn
    · rw [if_neg hj]
      exact hper j

theorem drm_set_cursor_enqueue_no_leak (c : drm_crtc) (handle width height : Nat)
    (h : c.no_leak) : (drm_set_cursor_enqueue c handle width height).no_leak :=
  ⟨rfl, h.2.1, fun hz => absurd hz (int_and_or_set _), fun he => by cases he⟩

theorem drm_move_cursor_enqueue_no_leak (c : drm_crtc) (x y : Int) (h : c.no_leak) :
    (drm_move_cursor_enqueue c x y).no_leak := by
  refine ⟨rfl, h.2.1, fun hz => ?_, fun he => by cases he⟩
  have hz2 : int_and c.cursor_next.request REQ_SET_CURSOR = 0 := by
    rw [← int_and_or_move]
    exact hz
  exact h.2.2.1 hz2

/-- The public operation `drm_move_cursor` keeps the invariant of the program. -/
theorem drm_move_cursor_no_leak (K : Kernel) (sys : Sys) (crtc_id : Nat) (x y : Int)
    (h : sys.no_leak K) : (drm_move_cursor K sys crtc_id x y).2.no_leak K := by
  unfold drm_move_cursor
  by_cases hh : sys.ctx.hide ≠ 0
  · rw [if_pos hh]
    exact h
  · rw [if_neg hh]
    have hg := ledger_kept_of_step (K := K) (drm_get_crtc_spec K sys crtc_id 0).1
      (drm_get_crtc_loop_live K crtc_id _ 0 sys)
    rcases hr : drm_get_crtc K sys crtc_id with ⟨o, sys1⟩
    rw [hr] at hg
    simp only [] at hg
    have h1 := sys_no_leak_of_kept h hg
    cases o with
    | none => exact h1
    | some i =>
      simp only []
      by_cases he : (sys1.crtc i).state = drm_thread_state.ERROR
      · rw [if_pos he]
        exact h1
      · rw [if_neg he]
        have hp := ledger_kept_of_step (K := K) (drm_crtc_prepare_step K sys1 i).1
          (drm_crtc_prepare_live K sys1 i)
        rcases hr2 : drm_crtc_prepare K sys1 i with ⟨r, sys2⟩
        rw [hr2] at hp
        simp only [] at hp ⊢
        have h2 := sys_no_leak_of_kept h1 hp
        by_cases hneg : r < 0
        · rw [if_pos hneg]
          exact h2
        · rw [if_neg hneg]
          by_cases hw : (sys2.crtc i).width ≤ 0 ∨ (sys2.crtc i).height ≤ 0
          · rw [if_pos hw]
            exact h2
          · rw [if_neg hw]
            by_cases he2 : (sys2.crtc i).state = drm_thread_state.ERROR
            · rw [if_pos he2]
              exact h2
            · rw [if_neg he2]
              exact sys_no_leak_set_crtc K sys2 i _ h2 rfl
                (drm_move_cursor_enqueue_no_leak _ x y (h2.2.2 i))

/-- The public operation `drm_set_cursor`, up to its wait loop, keeps the
invariant of the program. -/
theorem drm_set_cursor_no_leak (K : Kernel) (sys : Sys) (crtc_id handle width height : Nat)
    (h : sys.no_leak K) : (drm_set_cursor K sys crtc_id handle width height).2.no_leak K := by
  unfold drm_set_cursor
  by_cases hh : sys.ctx.hide ≠ 0
  · rw [if_pos hh]
    exact h
  · rw [if_neg hh]
    have hg := ledger_kept_of_step (K := K) (drm_get_crtc_spec K sys crtc_id 0).1
      (drm_get_crtc_loop_live K crtc_id _ 0 sys)
    rcases hr : drm_get_crtc K sys crtc_id with ⟨o, sys1⟩
    rw [hr] at hg
    simp only [] at hg
    have h1 := sys_no_leak_of_kept h hg
    cases o with
    | none => exact h1
    | some i =>
      simp only []
      by_cases he : (sys1.crtc i).state = drm_thread_state.ERROR
      · rw [if_pos he]
        exact h1
      · rw [if_neg he]
        have hp := ledger_kept_of_step (K := K) (drm_crtc_prepare_step K sys1 i).1
          (drm_crtc_prepare_live K sys1 i)
        rcases hr2 : drm_crtc_prepare K sys1 i with ⟨r, sys2⟩
        rw [hr2] at hp
        simp only [] at hp ⊢
        have h2 := sys_no_leak_of_kept h1 hp
        by_cases hneg : r < 0
        · rw [if_pos hneg]
          exact h2
        · rw [if_neg hneg]
          by_cases he2 : (sys2.crtc i).state = drm_thread_state.ERROR
          · rw [if_pos he2]
            exact h2
          · rw [if_neg he2]
            exact sys_no_leak_set_crtc K sys2 i _ h2 rfl
              (drm_set_cursor_enqueue_no_leak _ handle width height (h2.2.2 i))

/-- Every action keeps the invariant of the program. -/
theorem step_no_leak (K : Kernel) (hfresh : K.fresh_buffers) (sys : Sys) (a : Action)
    (h : sys.no_leak K) : (a.step K sys).no_leak K := by
  cases a with
  | SetCursor crtc_id handle width height =>
    exact drm_set_cursor_no_leak K sys crtc_id handle width height h
  | MoveCursor crtc_id x y => exact drm_move_cursor_no_leak K sys crtc_id x y h
  | Worker i => exact drm_crtc_thread_step_no_leak K hfresh sys i h

theorem run_no_leak (K : Kernel) (hfresh : K.fresh_buffers) (actions : List Action) (sys : Sys)
    (h : sys.no_leak K) : (run K sys actions).no_leak K := by
  induction actions generalizing sys with
  | nil => exact h
  | cons a rest ih => exact ih (a.step K sys) (step_no_leak K hfresh sys a h)

/-- The invariant holds right after `drm_get_ctx`, when no display buffer has
been created. -/
theorem initial_no_leak (K : Kernel) (sys : Sys) (h0 : Sys.initial sys = true)
    (hlog : live_buffers K sys.log = []) : sys.no_leak K := by
  have hzero : ∀ j, (sys.crtc j).cursor_curr = drm_cursor_state.zero ∧
      (sys.crtc j).cursor_next = drm_cursor_state.zero := by
    intro j
    by_cases hj : j < sys.ctx.crtcs.length
    · have hmem := Sys.crtc_mem sys j hj
      unfold Sys.initial at h0
      rw [List.all_eq_true] at h0
      have hf := h0 _ hmem
      unfold drm_crtc.fresh at hf
      simp only [decide_eq_true_eq] at hf
      rw [hf]
      exact ⟨rfl, rfl⟩
    · rw [Sys.crtc_of_ge _ _ (by omega)]
      exact ⟨rfl, rfl⟩
  refine ⟨fun fb => ?_, fun a b _ hz => ?_, fun j => ?_⟩
  · rw [hlog]
    constructor
    · exact fun h => absurd h (List.not_mem_nil _)
    · rintro ⟨hz, j, hj⟩
      rw [(hzero j).1] at hj
      exact absurd hj.symm hz
  · rw [(hzero a).1] at hz
    exact absurd rfl hz
  · unfold drm_crtc.no_leak
    rw [(hzero j).1, (hzero j).2]
    exact ⟨rfl, fun hne => absurd rfl hne, fun _ hne => absurd rfl hne, fun _ => rfl⟩

/-- C25: no display-buffer leak. Assume every successful conversion answers a
fresh non-zero buffer, and let the program run any sequence of actions from
the state `drm_get_ctx` leaves, in which no display buffer exists. Then in the
state reached, hence after every iteration of a worker, the display buffers
created by conversion and not yet removed are exactly the non-zero
`cursor_curr.fb` of the outputs; `cursor_curr.fb != 0` implies
`cursor_curr.handle != 0`; and an output in `ERROR` has an all-zero
`cursor_curr`. For an iteration of the worker of output `i` from that state:
it ends in `error`, with the state `ERROR`, exactly when its turn jumps there;
if it does not, the buffers created and not yet removed are afterwards
`cursor_curr.fb` of that output, when it is not 0, and the buffers the other
outputs show (none for a single output), and `cursor_curr.fb != 0` implies
`cursor_curr.handle != 0`; after the `error` path they are the buffers of the
other outputs only, and `cursor_curr` is all zero. -/
theorem C25_no_buffer_leak (K : Kernel) (hfresh : K.fresh_buffers) (sys0 : Sys)
    (h0 : Sys.initial sys0 = true) (hlog : live_buffers K sys0.log = [])
    (actions : List Action) (i : Nat) :
    (∀ fb, fb ∈ live_buffers K (run K sys0 actions).log ↔
      fb ≠ 0 ∧ ∃ j, ((run K sys0 actions).crtc j).cursor_curr.fb = fb) ∧
    (∀ j, ((run K sys0 actions).crtc j).cursor_curr.fb ≠ 0 →
      ((run K sys0 actions).crtc j).cursor_curr.handle ≠ 0) ∧
    (∀ j, ((run K sys0 actions).crtc j).state = drm_thread_state.ERROR →
      ((run K sys0 actions).crtc j).cursor_curr = drm_cursor_state.zero) ∧
    ∀ p s1, drm_crtc_thread_iter K ((run K sys0 actions).world i p) = some s1 →
      (s1.crtc.state = drm_thread_state.ERROR ↔
        ∃ s2, drm_crtc_thread_turn K ((run K sys0 actions).world i p) =
          some (flow.goto_error s2)) ∧
      (s1.crtc.state ≠ drm_thread_state.ERROR →
        (∀ fb, fb ∈ live_buffers K s1.log ↔
          (fb ≠ 0 ∧ fb = s1.crtc.cursor_curr.fb) ∨
            fb ∈ (run K sys0 actions).other_buffers i) ∧
        (s1.crtc.cursor_curr.fb ≠ 0 → s1.crtc.cursor_curr.handle ≠ 0)) ∧
      (s1.crtc.state = drm_thread_state.ERROR →
        (∀ fb, fb ∈ live_buffers K s1.log ↔ fb ∈ (run K sys0 actions).other_buffers i) ∧
        s1.crtc.cursor_curr = drm_cursor_state.zero) := by
  have hinv := run_no_leak K hfresh actions sys0 (initial_no_leak K sys0 h0 hlog)
  refine ⟨hinv.1, fun j => (hinv.2.2 j).2.1, fun j => (hinv.2.2 j).2.2.2, fun p s1 hit => ?_⟩
  have hw := no_leak_of_sys K (run K sys0 actions) i p hinv
  have hs := drm_crtc_thread_iter_no_leak K hfresh _ _ s1 hw hit
  exact ⟨hs.1, hs.2.1, hs.2.2.1⟩

/-- C25, witness: the sample program with one output, after `SetCursor` and the
start of the worker; the iteration that follows creates buffer 12 and shows
it, and it is the only buffer created and not yet removed. -/
theorem C25_witness :
    sample_sys_set.other_buffers 0 = [] ∧
    drm_crtc_thread_iter sample_kernel sample_world_pending = some sample_iter_set ∧
    sample_iter_set.crtc.cursor_curr.fb = 12 ∧
    live_buffers sample_kernel sample_iter_set.log = [12] ∧
    ((∀ fb, fb ∈ live_buffers sample_kernel sample_sys_set.log ↔
      fb ≠ 0 ∧ ∃ j, (sample_sys_set.crtc j).cursor_curr.fb = fb) ∧
    (∀ j, (sample_sys_set.crtc j).cursor_curr.fb ≠ 0 →
      (sample_sys_set.crtc j).cursor_curr.handle ≠ 0) ∧
    (∀ j, (sample_sys_set.crtc j).state = drm_thread_state.ERROR →
      (sample_sys_set.crtc j).cursor_curr = drm_cursor_state.zero) ∧
    ∀ p s1, drm_crtc_thread_iter sample_kernel (sample_sys_set.world 0 p) = some s1 →
      (s1.crtc.state = drm_thread_state.ERROR ↔
        ∃ s2, drm_crtc_thread_turn sample_kernel (sample_sys_set.world 0 p) =
          some (flow.goto_error s2)) ∧
      (s1.crtc.state ≠ drm_thread_state.ERROR →
        (∀ fb, fb ∈ live_buffers sample_kernel s1.log ↔
          (fb ≠ 0 ∧ fb = s1.crtc.cursor_curr.fb) ∨ fb ∈ sample_sys_set.other_buffers 0) ∧
        (s1.crtc.cursor_curr.fb ≠ 0 → s1.crtc.cursor_curr.handle ≠ 0)) ∧
      (s1.crtc.state = drm_thread_state.ERROR →
        (∀ fb, fb ∈ live_buffers sample_kernel s1.log ↔
          fb ∈ sample_sys_set.other_buffers 0) ∧
        s1.crtc.cursor_curr = drm_cursor_state.zero)) :=
  ⟨by decide, by decide, by decide, by decide,
    C25_no_buffer_leak sample_kernel sample_kernel_fresh sample_sys (by decide) rfl
      [Action.SetCursor 50 5 64 64, Action.Worker 0] 0⟩

/-! ## A coalesced `SET` and `MOVE` in one turn (C7) -/

/-- Clearing the flag `SET` leaves the flag `MOVE` as it is. -/
theorem int_and_clear_set (r : Int) :
    int_and (int_and r (int_not REQ_SET_CURSOR)) REQ_MOVE_CURSOR = int_and r REQ_MOVE_CURSOR := by
  have hu := uint32_of_int_lt r
  unfold int_and
  rw [uint32_of_int_of_uint32]
  have h1 : uint32_of_int (int_not REQ_SET_CURSOR) = 4294967294 := by decide
  have h2 : uint32_of_int REQ_MOVE_CURSOR = 2 := by decide
  rw [h1, h2]
  have hl : Nat.land (uint32_of_int r) 4294967294 < 4294967296 :=
    lt_of_le_of_lt Nat.and_le_left hu
  rw [Nat.mod_eq_of_lt hl]
  congr 1
  show (uint32_of_int r &&& 4294967294) &&& 2 = uint32_of_int r &&& 2
  rw [Nat.and_assoc]
  rfl

/-- The block of `REQ_SET_CURSOR` for a pending `SET` with a non-null handle:
`drm_crtc_create_fb`, then `drm_crtc_update_cursor`. -/
theorem drm_crtc_thread_handle_set_unfold (K : Kernel) (s : World)
    (hset : int_and s.crtc.cursor_next.request REQ_SET_CURSOR ≠ 0)
    (hh : s.crtc.cursor_next.handle ≠ 0) :
    drm_crtc_thread_handle_set K (turn_start K s) (clipped K s) =
      (match drm_crtc_create_fb K (turn_start K s) (set_state K s) with
        | (r, s1, cs2) =>
          if r < 0 then flow.goto_error s1
          else
            match drm_crtc_update_cursor K s1 (some cs2) with
            | (r2, s2) => if r2 < 0 then flow.goto_error s2 else flow.fallthrough s2 cs2) := by
  obtain ⟨hreq, hhandle, -, -, -, -, -⟩ := clipped_fields K s
  unfold drm_crtc_thread_handle_set
  rw [if_pos (by rw [hreq]; exact hset)]
  simp only []
  rw [if_neg (by rw [hhandle]; exact hh)]
  unfold set_state
  rw [hreq]

/-- After a `SET` that went through, the block of a pending `MOVE` finds the
buffer and the position of the local `cursor_state` already shown: it calls
neither the conversion nor the commit layer, and stores the state with the
flag `MOVE` cleared. -/
theorem drm_crtc_thread_handle_move_settled (K : Kernel) (s : World) (cs : drm_cursor_state)
    (hcurr : s.crtc.cursor_curr = cs) (hm : int_and cs.request REQ_MOVE_CURSOR ≠ 0)
    (hh : cs.handle ≠ 0) :
    drm_crtc_thread_handle_move K s cs =
      flow.fallthrough
        { s with crtc := { s.crtc with
            cursor_curr := { cs with request := int_and cs.request (int_not REQ_MOVE_CURSOR) } } }
        { cs with request := int_and cs.request (int_not REQ_MOVE_CURSOR) } := by
  subst hcurr
  have h2 : ¬ (s.crtc.cursor_curr.off_x ≠ s.crtc.cursor_curr.off_x ∨
      s.crtc.cursor_curr.off_y ≠ s.crtc.cursor_curr.off_y) := by simp
  have h3 : drm_crtc_update_cursor K s
      (some { s.crtc.cursor_curr with
        request := int_and s.crtc.cursor_curr.request (int_not REQ_MOVE_CURSOR),
        fb := s.crtc.cursor_curr.fb }) =
      (0, { s with crtc := { s.crtc with
        cursor_curr := { s.crtc.cursor_curr with
          request := int_and s.crtc.cursor_curr.request (int_not REQ_MOVE_CURSOR) } } }) := by
    unfold drm_crtc_update_cursor
    simp only [and_self, if_true]
  unfold drm_crtc_thread_handle_move
  rw [if_pos hm]
  simp only []
  rw [if_neg hh, if_neg h2, h3]
  simp only [Int.lt_irrefl, if_false]

theorem drm_crtc_thread_verify_shown (s : World) (hfb : s.crtc.cursor_curr.fb ≠ 0) :
    (drm_crtc_thread_verify s).crtc.verified = true ∧
    (drm_crtc_thread_verify s).crtc.cursor_curr = s.crtc.cursor_curr ∧
    (drm_crtc_thread_verify s).log = s.log := by
  unfold drm_crtc_thread_verify
  by_cases hv : s.crtc.verified = false
  · rw [if_pos ⟨hv, hfb⟩]
    exact ⟨rfl, rfl, rfl⟩
  · rw [if_neg (fun h => hv h.1)]
    exact ⟨by simpa using hv, rfl, rfl⟩

theorem drm_crtc_thread_next_converts (K : Kernel) (s : World) :
    converts (drm_crtc_thread_next K s).log = converts s.log := by
  unfold drm_crtc_thread_next
  simp only []
  rw [converts_cons_other _ _ (by rfl)]
  split_ifs
  · rw [converts_cons_other _ _ (by rfl), converts_cons_other _ _ (by rfl)]
  · rw [converts_cons_other _ _ (by rfl)]

theorem drm_crtc_thread_error_converts (K : Kernel) (s : World) :
    converts (drm_crtc_thread_error K s).log = converts s.log := by
  unfold drm_crtc_thread_error drm_crtc_disable_cursor
  simp only []
  rw [drm_crtc_update_cursor_converts]
  split_ifs
  · exact converts_cons_other _ _ (by rfl)
  · rfl

/-- No iteration of the worker loop, the labels `next` and `error` included,
calls `egl_convert_fb` more than once. -/
theorem drm_crtc_thread_iter_count (K : Kernel) (s s1 : World)
    (hiter : drm_crtc_thread_iter K s = some s1) :
    (converts s1.log).length ≤ (converts s.log).length + 1 := by
  unfold drm_crtc_thread_iter at hiter
  rcases hturn : drm_crtc_thread_turn K s with _ | f
  · rw [hturn] at hiter
    cases hiter
  · rw [hturn] at hiter
    obtain ⟨-, hf⟩ := drm_crtc_thread_turn_pending K s f hturn
    have hc := drm_crtc_thread_body_count K
      { s with crtc := { s.crtc with
          cursor_next := { s.crtc.cursor_next with request := 0 }
          state := drm_thread_state.IDLE } } s.crtc.cursor_next
    rw [← hf] at hc
    cases f with
    | fallthrough w cs =>
      simp only [Option.some.injEq] at hiter
      rw [← hiter, drm_crtc_thread_next_converts]
      exact hc
    | goto_next w =>
      simp only [Option.some.injEq] at hiter
      rw [← hiter, drm_crtc_thread_next_converts]
      exact hc
    | goto_error w =>
      simp only [Option.some.injEq] at hiter
      rw [← hiter, drm_crtc_thread_error_converts]
      exact hc

theorem enables_cons_other (e : Event) (log : List Event) (he : e.is_enable = false) :
    enables (e :: log) = enables log := by
  unfold enables
  rw [List.filter_cons]
  simp only [he, Bool.false_eq_true, if_false]

theorem drm_crtc_thread_next_enables (K : Kernel) (s : World) :
    enables (drm_crtc_thread_next K s).log = enables s.log := by
  unfold drm_crtc_thread_next
  simp only []
  rw [enables_cons_other _ _ (by rfl)]
  split_ifs
  · rw [enables_cons_other _ _ (by rfl), enables_cons_other _ _ (by rfl)]
  · rw [enables_cons_other _ _ (by rfl)]

/-- The label `error` commits nothing but the removal of the cursor. -/
theorem drm_crtc_thread_error_enables (K : Kernel) (s : World) :
    enables (drm_crtc_thread_error K s).log = enables s.log := by
  unfold drm_crtc_thread_error
  simp only []
  rw [enables_of_observe, (drm_crtc_disable_cursor_spec K _).2.2.2, List.filter_append,
    ← enables_of_observe]
  have h0 : List.filter Event.is_enable
      (if (if s.crtc.egl_ctx = true then { s with log := Event.egl_free_ctx :: s.log }
          else s).crtc.cursor_curr.fb ≠ 0 then
        [Event.drm_set_plane (if s.crtc.egl_ctx = true then
          { s with log := Event.egl_free_ctx :: s.log } else s).plane.plane_id 0 0 0 0 0]
      else []) = [] := by
    split_ifs <;> rfl
  rw [h0, List.nil_append]
  split_ifs
  · exact enables_cons_other _ _ (by rfl)
  · rfl

/-- An iteration is a turn followed by the label `next` or `error`, neither of
which converts or issues an enabling commit. -/
theorem drm_crtc_thread_iter_of_turn (K : Kernel) (s : World) (f : flow)
    (hturn : drm_crtc_thread_turn K s = some f) :
    ∃ s1, drm_crtc_thread_iter K s = some s1 ∧
      enables s1.log = enables f.world.log ∧ converts s1.log = converts f.world.log := by
  unfold drm_crtc_thread_iter
  rw [hturn]
  cases f with
  | fallthrough w cs =>
    exact ⟨_, rfl, drm_crtc_thread_next_enables K w, drm_crtc_thread_next_converts K w⟩
  | goto_next w =>
    exact ⟨_, rfl, drm_crtc_thread_next_enables K w, drm_crtc_thread_next_converts K w⟩
  | goto_error w =>
    exact ⟨_, rfl, drm_crtc_thread_error_enables K w, drm_crtc_thread_error_converts K w⟩

theorem drm_crtc_thread_iter_enables (K : Kernel) (s : World) (f : flow) (n : Nat)
    (hturn : drm_crtc_thread_turn K s = some f) (hE : (enables f.world.log).length ≤ n) :
    ∃ s1, drm_crtc_thread_iter K s = some s1 ∧ (enables s1.log).length ≤ n := by
  obtain ⟨s1, hiter, he, -⟩ := drm_crtc_thread_iter_of_turn K s f hturn
  exact ⟨s1, hiter, by rw [he]; exact hE⟩

/-- The block of `REQ_SET_CURSOR` for a pending `SET` with a non-null handle
whose conversion went through: the world after `drm_crtc_create_fb`, and the
jump that follows the result of `drm_crtc_update_cursor`. -/
theorem drm_crtc_thread_handle_set_converted (K : Kernel) (s : World)
    (hset : int_and s.crtc.cursor_next.request REQ_SET_CURSOR ≠ 0)
    (hh : s.crtc.cursor_next.handle ≠ 0)
    (hok : create_fb_init_fails K (turn_start K s) (set_state K s) = false)
    (hz : converted K (turn_start K s) (set_state K s) ≠ 0) :
    set_created K s =
      { turn_start K s with
        crtc := { (turn_start K s).crtc with egl_ctx := true }
        log := Event.egl_convert_fb (set_state K s).handle (set_state K s).width
          (set_state K s).height (set_state K s).off_x (set_state K s).off_y ::
          create_fb_log (turn_start K s) (set_state K s) } ∧
    drm_crtc_thread_handle_set K (turn_start K s) (clipped K s) =
      (if set_commit K s < 0 then
        flow.goto_error (drm_crtc_update_cursor K (set_created K s) (some (set_shown K s))).2
      else
        flow.fallthrough (drm_crtc_update_cursor K (set_created K s) (some (set_shown K s))).2
          (set_shown K s)) := by
  have hcreated : set_created K s =
      { turn_start K s with
        crtc := { (turn_start K s).crtc with egl_ctx := true }
        log := Event.egl_convert_fb (set_state K s).handle (set_state K s).width
          (set_state K s).height (set_state K s).off_x (set_state K s).off_y ::
          create_fb_log (turn_start K s) (set_state K s) } := by
    unfold set_created
    rw [drm_crtc_create_fb_converts K _ _ hok]
  refine ⟨hcreated, ?_⟩
  rw [drm_crtc_thread_handle_set_unfold K s hset hh]
  unfold set_commit
  rw [hcreated, drm_crtc_create_fb_converts K _ _ hok]
  simp only [hz, if_false, Int.lt_irrefl]
  rfl

/-- C7: a turn of the worker loop calls `egl_convert_fb` at most once,
whatever the snapshot, and so does a whole iteration, the label `next` or
`error` included.  And the turn of a connected output whose snapshot has
both `SET` and `MOVE` pending, with a non-null handle, goes as follows.  It
issues at most one enabling plane commit, and so does the whole iteration.  If the GPU backend cannot be
created, the turn jumps to `error` with no conversion and no commit, and
`cursor_curr` as it was.  Otherwise `egl_convert_fb` is called once, for the
snapshot's handle and size and the clipping offsets of the snapshot's
position; if it answers 0 the turn jumps to `error` with no commit and
`cursor_curr` as it was.  If it answers a buffer, that buffer is committed
once, at the snapshot's position less the offsets with the snapshot's size
(or not at all, when this buffer at this position is what the output shows
already), and nothing else is converted or committed; when the commit fails
the turn jumps to `error` and `cursor_curr` is the snapshot with that buffer
and the flag `SET` cleared; when it succeeds the turn ends at `next`, the
cursor is verified, and `cursor_curr` is the snapshot with that buffer and
both flags cleared: the block of `REQ_MOVE_CURSOR`, run after that of
`REQ_SET_CURSOR`, only clears its flag. -/
theorem C7_set_and_move_in_one_pass (K : Kernel) :
    (∀ (s : World) (f : flow), drm_crtc_thread_turn K s = some f →
      (converts f.world.log).length ≤ (converts s.log).length + 1) ∧
    (∀ (s s1 : World), drm_crtc_thread_iter K s = some s1 →
      (converts s1.log).length ≤ (converts s.log).length + 1) ∧
    (∀ s : World, s.crtc.state = drm_thread_state.PENDING → connected K s = true →
      int_and s.crtc.cursor_next.request REQ_SET_CURSOR ≠ 0 →
      int_and s.crtc.cursor_next.request REQ_MOVE_CURSOR ≠ 0 →
      s.crtc.cursor_next.handle ≠ 0 →
      ∃ f, drm_crtc_thread_turn K s = some f ∧
        (enables f.world.log).length ≤ (enables s.log).length + 1 ∧
        (∃ s1, drm_crtc_thread_iter K s = some s1 ∧
          (enables s1.log).length ≤ (enables s.log).length + 1) ∧
        (create_fb_init_fails K (turn_start K s) (set_state K s) = true →
          f = flow.goto_error f.world ∧
          observe f.world.log = observe s.log ∧
          f.world.crtc.cursor_curr = s.crtc.cursor_curr) ∧
        (create_fb_init_fails K (turn_start K s) (set_state K s) = false →
          converted K (turn_start K s) (set_state K s) = 0 →
          f = flow.goto_error f.world ∧
          observe f.world.log =
            Event.egl_convert_fb s.crtc.cursor_next.handle s.crtc.cursor_next.width
              s.crtc.cursor_next.height (clipped K s).off_x (clipped K s).off_y ::
            observe s.log ∧
          f.world.crtc.cursor_curr = s.crtc.cursor_curr) ∧
        (create_fb_init_fails K (turn_start K s) (set_state K s) = false →
          converted K (turn_start K s) (set_state K s) ≠ 0 →
          observe f.world.log =
            (if cursor_unchanged s.crtc (set_shown K s) = true then []
              else [Event.drm_set_plane s.plane.plane_id
                (converted K (turn_start K s) (set_state K s))
                (s.crtc.cursor_next.x - (clipped K s).off_x)
                (s.crtc.cursor_next.y - (clipped K s).off_y)
                s.crtc.cursor_next.width s.crtc.cursor_next.height]) ++
            Event.egl_convert_fb s.crtc.cursor_next.handle s.crtc.cursor_next.width
              s.crtc.cursor_next.height (clipped K s).off_x (clipped K s).off_y ::
            observe s.log ∧
          (set_commit K s < 0 →
            f = flow.goto_error f.world ∧
            f.world.crtc.cursor_curr = set_shown K s) ∧
          (¬ set_commit K s < 0 →
            f = flow.goto_next f.world ∧
            f.world.crtc.verified = true ∧
            f.world.crtc.cursor_curr =
              { set_shown K s with
                request := int_and (set_shown K s).request (int_not REQ_MOVE_CURSOR) }))) := by
  refine ⟨?_, fun s s1 hiter => drm_crtc_thread_iter_count K s s1 hiter, ?_⟩
  · intro s f hturn
    obtain ⟨-, hf⟩ := drm_crtc_thread_turn_pending K s f hturn
    rw [hf]
    exact drm_crtc_thread_body_count K _ _
  · intro s hp hc hset hmove hh
    obtain ⟨hreq, hhandle, hfb, hw, hht, hx, hy⟩ := clipped_fields K s
    have hlog0 : observe (turn_start K s).log = observe s.log := observe_cons_other _ _ rfl
    have hclog : observe (create_fb_log (turn_start K s) (set_state K s)) = observe s.log := by
      rw [create_fb_log_observe, hlog0]
    have hconv : observe (Event.egl_convert_fb (set_state K s).handle (set_state K s).width
        (set_state K s).height (set_state K s).off_x (set_state K s).off_y ::
        create_fb_log (turn_start K s) (set_state K s)) =
        Event.egl_convert_fb s.crtc.cursor_next.handle s.crtc.cursor_next.width
          s.crtc.cursor_next.height (clipped K s).off_x (clipped K s).off_y ::
        observe s.log := by
      rw [observe_cons_convert, hclog]
      show Event.egl_convert_fb (clipped K s).handle (clipped K s).width (clipped K s).height
        (clipped K s).off_x (clipped K s).off_y :: _ = _
      rw [hhandle, hw, hht]
    have hturn := drm_crtc_thread_turn_connected K s hp hc
    by_cases hfail : create_fb_init_fails K (turn_start K s) (set_state K s) = true
    · rw [drm_crtc_thread_handle_set_unfold K s hset hh,
        drm_crtc_create_fb_init_fails K _ _ hfail] at hturn
      simp only [show ((-1 : Int) < 0) from by decide, if_true] at hturn
      have hE : (enables (create_fb_log (turn_start K s) (set_state K s))).length ≤
          (enables s.log).length + 1 := by
        rw [enables_of_observe, hclog, ← enables_of_observe]
        exact Nat.le_succ _
      refine ⟨_, hturn, hE, drm_crtc_thread_iter_enables K s _ _ hturn hE,
        fun _ => ⟨rfl, hclog, rfl⟩, ?_, ?_⟩
      · intro hf2
        rw [hfail] at hf2
        cases hf2
      · intro hf2
        rw [hfail] at hf2
        cases hf2
    · have hok : create_fb_init_fails K (turn_start K s) (set_state K s) = false := by
        simpa using hfail
      by_cases hz : converted K (turn_start K s) (set_state K s) = 0
      · rw [drm_crtc_thread_handle_set_unfold K s hset hh,
          drm_crtc_create_fb_converts K _ _ hok] at hturn
        simp only [hz, if_true, show ((-1 : Int) < 0) from by decide] at hturn
        have hE : (enables (Event.egl_convert_fb (set_state K s).handle (set_state K s).width
            (set_state K s).height (set_state K s).off_x (set_state K s).off_y ::
            create_fb_log (turn_start K s) (set_state K s))).length ≤
            (enables s.log).length + 1 := by
          rw [enables_of_observe, hconv, enables_of_observe s.log,
            List.filter_cons_of_neg (by simp [Event.is_enable])]
          exact Nat.le_succ _
        exact ⟨_, hturn, hE, drm_crtc_thread_iter_enables K s _ _ hturn hE,
          fun hf2 => absurd hf2 hfail, fun _ _ => ⟨rfl, hconv, rfl⟩,
          fun _ hnz => absurd hz hnz⟩
      · obtain ⟨hcreated, hblock⟩ := drm_crtc_thread_handle_set_converted K s hset hh hok hz
        have hu := drm_crtc_update_cursor_spec K (set_created K s) (set_shown K s)
        have hun : cursor_unchanged (set_created K s).crtc (set_shown K s) =
            cursor_unchanged s.crtc (set_shown K s) := by
          rw [hcreated]
          rfl
        have hpid : (set_created K s).plane.plane_id = s.plane.plane_id := by
          rw [hcreated]
          rfl
        have hcl : observe (set_created K s).log =
            Event.egl_convert_fb s.crtc.cursor_next.handle s.crtc.cursor_next.width
              s.crtc.cursor_next.height (clipped K s).off_x (clipped K s).off_y ::
            observe s.log := by
          rw [hcreated]
          exact hconv
        have hobs : observe
            (drm_crtc_update_cursor K (set_created K s) (some (set_shown K s))).2.log =
            (if cursor_unchanged s.crtc (set_shown K s) = true then []
              else [Event.drm_set_plane s.plane.plane_id
                (converted K (turn_start K s) (set_state K s))
                (s.crtc.cursor_next.x - (clipped K s).off_x)
                (s.crtc.cursor_next.y - (clipped K s).off_y)
                s.crtc.cursor_next.width s.crtc.cursor_next.height]) ++
            Event.egl_convert_fb s.crtc.cursor_next.handle s.crtc.cursor_next.width
              s.crtc.cursor_next.height (clipped K s).off_x (clipped K s).off_y ::
            observe s.log := by
          rw [hu.2.2.2, hun, hpid, hcl]
          show (if cursor_unchanged s.crtc (set_shown K s) = true then []
              else [Event.drm_set_plane s.plane.plane_id
                (converted K (turn_start K s) (set_state K s))
                ((clipped K s).x - (clipped K s).off_x)
                ((clipped K s).y - (clipped K s).off_y)
                (clipped K s).width (clipped K s).height]) ++ _ = _
          rw [hx, hy, hw, hht]
        have hen : (enables
            (drm_crtc_update_cursor K (set_created K s) (some (set_shown K s))).2.log).length ≤
            (enables s.log).length + 1 := by
          rw [enables_of_observe, hobs, enables_of_observe s.log]
          by_cases hcu : cursor_unchanged s.crtc (set_shown K s) = true
          · rw [if_pos hcu]
            exact Nat.le_succ _
          · rw [if_neg hcu]
            rw [List.singleton_append, List.filter_cons,
              List.filter_cons_of_neg (by simp [Event.is_enable])]
            split_ifs
            · exact Nat.le_refl _
            · exact Nat.le_succ _
        rw [hblock] at hturn
        by_cases hneg : set_commit K s < 0
        · rw [if_pos hneg] at hturn
          refine ⟨_, hturn, hen, drm_crtc_thread_iter_enables K s _ _ hturn hen,
            fun hf2 => absurd hf2 hfail, fun _ hz2 => absurd hz2 hz,
            fun _ _ => ⟨hobs, fun _ => ⟨rfl, ?_⟩, fun hn => absurd hneg hn⟩⟩
          show (drm_crtc_update_cursor K (set_created K s) (some (set_shown K s))).2.crtc.cursor_curr
            = _
          rw [hu.1]
        · rw [if_neg hneg] at hturn
          simp only [] at hturn
          have hcurr : (drm_crtc_update_cursor K (set_created K s)
              (some (set_shown K s))).2.crtc.cursor_curr = set_shown K s := by
            rw [hu.1]
          have hm2 : int_and (set_shown K s).request REQ_MOVE_CURSOR ≠ 0 := by
            show int_and (int_and s.crtc.cursor_next.request (int_not REQ_SET_CURSOR))
              REQ_MOVE_CURSOR ≠ 0
            rw [int_and_clear_set]
            exact hmove
          have hh2 : (set_shown K s).handle ≠ 0 := by
            show (clipped K s).handle ≠ 0
            rw [hhandle]
            exact hh
          rw [drm_crtc_thread_handle_move_settled K _ _ hcurr hm2 hh2] at hturn
          simp only [] at hturn
          have hv := drm_crtc_thread_verify_shown
            { (drm_crtc_update_cursor K (set_created K s) (some (set_shown K s))).2 with
              crtc := { (drm_crtc_update_cursor K (set_created K s)
                  (some (set_shown K s))).2.crtc with
                cursor_curr := { set_shown K s with
                  request := int_and (set_shown K s).request (int_not REQ_MOVE_CURSOR) } } }
            hz
          have hE : (enables (drm_crtc_thread_verify
              { (drm_crtc_update_cursor K (set_created K s) (some (set_shown K s))).2 with
                crtc := { (drm_crtc_update_cursor K (set_created K s)
                    (some (set_shown K s))).2.crtc with
                  cursor_curr := { set_shown K s with
                    request :=
                      int_and (set_shown K s).request (int_not REQ_MOVE_CURSOR) } } }).log).length ≤
              (enables s.log).length + 1 := by
            rw [hv.2.2]
            exact hen
          refine ⟨_, hturn, hE, drm_crtc_thread_iter_enables K s _ _ hturn hE,
            fun hf2 => absurd hf2 hfail, fun _ hz2 => absurd hz2 hz,
            fun _ _ => ⟨?_, fun hn => absurd hn hneg, fun _ => ⟨rfl, hv.1, hv.2.1⟩⟩⟩
          show observe (drm_crtc_thread_verify _).log = _
          rw [hv.2.2]
          exact hobs

/-- C7, witness: the sample output showing a cursor at `(100, 100)`, after
`SetCursor(5, 64, 64)` and `MoveCursor(300, 200)` coalesced into one
snapshot: the turn converts the new image once and commits the converted
buffer once, at `(300, 200)`. -/
theorem C7_witness :
    (sample_world_set_move.crtc.state = drm_thread_state.PENDING ∧
      connected sample_kernel sample_world_set_move = true ∧
      int_and sample_world_set_move.crtc.cursor_next.request REQ_SET_CURSOR ≠ 0 ∧
      int_and sample_world_set_move.crtc.cursor_next.request REQ_MOVE_CURSOR ≠ 0 ∧
      sample_world_set_move.crtc.cursor_next.handle ≠ 0) ∧
    (create_fb_init_fails sample_kernel (turn_start sample_kernel sample_world_set_move)
        (set_state sample_kernel sample_world_set_move) = false ∧
      converted sample_kernel (turn_start sample_kernel sample_world_set_move)
        (set_state sample_kernel sample_world_set_move) = 2 ∧
      cursor_unchanged sample_world_set_move.crtc
        (set_shown sample_kernel sample_world_set_move) = false ∧
      set_commit sample_kernel sample_world_set_move = 0) ∧
    ((drm_crtc_thread_turn sample_kernel sample_world_set_move).map
          (fun f => observe f.world.log) =
        some [Event.drm_set_plane 31 2 300 200 64 64, Event.egl_convert_fb 5 64 64 0 0] ∧
      (drm_crtc_thread_turn sample_kernel sample_world_set_move).map
          (fun f => f.world.crtc.cursor_curr) =
        some { handle := 5, fb := 2, width := 64, height := 64, x := 300, y := 200,
               off_x := 0, off_y := 0, request := 0 }) ∧
    ∃ f, drm_crtc_thread_turn sample_kernel sample_world_set_move = some f ∧
      (enables f.world.log).length ≤ (enables sample_world_set_move.log).length + 1 ∧
      (∃ s1, drm_crtc_thread_iter sample_kernel sample_world_set_move = some s1 ∧
        (enables s1.log).length ≤ (enables sample_world_set_move.log).length + 1) ∧
      (create_fb_init_fails sample_kernel (turn_start sample_kernel sample_world_set_move) (set_state sample_kernel sample_world_set_move) = true →
        f = flow.goto_error f.world ∧
        observe f.world.log = observe sample_world_set_move.log ∧
        f.world.crtc.cursor_curr = sample_world_set_move.crtc.cursor_curr) ∧
      (create_fb_init_fails sample_kernel (turn_start sample_kernel sample_world_set_move) (set_state sample_kernel sample_world_set_move) = false →
        converted sample_kernel (turn_start sample_kernel sample_world_set_move) (set_state sample_kernel sample_world_set_move) = 0 →
        f = flow.goto_error f.world ∧
        observe f.world.log =
          Event.egl_convert_fb sample_world_set_move.crtc.cursor_next.handle sample_world_set_move.crtc.cursor_next.width
            sample_world_set_move.crtc.cursor_next.height (clipped sample_kernel sample_world_set_move).off_x (clipped sample_kernel sample_world_set_move).off_y ::
          observe sample_world_set_move.log ∧
        f.world.crtc.cursor_curr = sample_world_set_move.crtc.cursor_curr) ∧
      (create_fb_init_fails sample_kernel (turn_start sample_kernel sample_world_set_move) (set_state sample_kernel sample_world_set_move) = false →
        converted sample_kernel (turn_start sample_kernel sample_world_set_move) (set_state sample_kernel sample_world_set_move) ≠ 0 →
        observe f.world.log =
          (if cursor_unchanged sample_world_set_move.crtc (set_shown sample_kernel sample_world_set_move) = true then []
            else [Event.drm_set_plane sample_world_set_move.plane.plane_id
              (converted sample_kernel (turn_start sample_kernel sample_world_set_move) (set_state sample_kernel sample_world_set_move))
              (sample_world_set_move.crtc.cursor_next.x - (clipped sample_kernel sample_world_set_move).off_x)
              (sample_world_set_move.crtc.cursor_next.y - (clipped sample_kernel sample_world_set_move).off_y)
              sample_world_set_move.crtc.cursor_next.width sample_world_set_move.crtc.cursor_next.height]) ++
          Event.egl_convert_fb sample_world_set_move.crtc.cursor_next.handle sample_world_set_move.crtc.cursor_next.width
            sample_world_set_move.crtc.cursor_next.height (clipped sample_kernel sample_world_set_move).off_x (clipped sample_kernel sample_world_set_move).off_y ::
          observe sample_world_set_move.log ∧
        (set_commit sample_kernel sample_world_set_move < 0 →
          f = flow.goto_error f.world ∧
          f.world.crtc.cursor_curr = set_shown sample_kernel sample_world_set_move) ∧
        (¬ set_commit sample_kernel sample_world_set_move < 0 →
          f = flow.goto_next f.world ∧
          f.world.crtc.verified = true ∧
          f.world.crtc.cursor_curr =
            { set_shown sample_kernel sample_world_set_move with
              request := int_and (set_shown sample_kernel sample_world_set_move).request (int_not REQ_MOVE_CURSOR) })) :=
  ⟨by decide, by decide, by decide,
    (C7_set_and_move_in_one_pass sample_kernel).2.2 sample_world_set_move
      (by decide) (by decide) (by decide) (by decide) (by decide)⟩

/-! ## `ERROR` and a call whose first test races with the label `error` (C3) -/

/-- A `drm_move_cursor` call that nothing interrupts is its start followed by
its rest. -/
theorem drm_move_cursor_split (K : Kernel) (sys : Sys) (crtc_id : Nat) (x y : Int) :
    drm_move_cursor K sys crtc_id x y =
      match drm_move_cursor_begin K sys crtc_id with
      | (call_point.returned r, sys1) => (r, sys1)
      | (call_point.passed i, sys1) => drm_move_cursor_resume K sys1 i x y := by
  unfold drm_move_cursor drm_move_cursor_begin drm_move_cursor_resume
  by_cases hh : sys.ctx.hide ≠ 0
  · rw [if_pos hh, if_pos hh]
  · rw [if_neg hh, if_neg hh]
    rcases hg : drm_get_crtc K sys crtc_id with ⟨o, sys1⟩
    cases o with
    | none => rfl
    | some i =>
      simp only []
      by_cases he : (sys1.crtc i).state = drm_thread_state.ERROR
      · rw [if_pos he, if_pos he]
      · rw [if_neg he, if_neg he]

/-- A `drm_set_cursor` call that nothing interrupts is its start followed by
its rest. -/
theorem drm_set_cursor_split (K : Kernel) (sys : Sys) (crtc_id handle width height : Nat) :
    drm_set_cursor K sys crtc_id handle width height =
      match drm_set_cursor_begin K sys crtc_id with
      | (call_point.returned r, sys1) => (set_cursor_point.returned r, sys1)
      | (call_point.passed i, sys1) => drm_set_cursor_resume K sys1 i handle width height := by
  unfold drm_set_cursor drm_set_cursor_begin drm_set_cursor_resume
  by_cases hh : sys.ctx.hide ≠ 0
  · rw [if_pos hh, if_pos hh]
  · rw [if_neg hh, if_neg hh]
    rcases hg : drm_get_crtc K sys crtc_id with ⟨o, sys1⟩
    cases o with
    | none => rfl
    | some i =>
      simp only []
      by_cases he : (sys1.crtc i).state = drm_thread_state.ERROR
      · rw [if_pos he, if_pos he]
      · rw [if_neg he, if_neg he]

/-- C3, the code at the failing interleaving, in the sample program whose
first `egl_init_ctx` fails.  A `MoveCursor(50, 7, 7)` call makes its first
test of `crtc->state` while the output is `PENDING`; the worker then fails its
turn and goes through `error`, which sets `ERROR` and releases the plane; the
call goes on with `drm_crtc_prepare`, which binds the plane again, sets `IDLE`
and creates a worker; the call enqueues its request and returns 0 (a
`SetCursor` call split at the same test enqueues its request likewise).  The
output
that was in `ERROR` is now `PENDING` with a plane and a changed `cursor_next`,
a later `MoveCursor` returns 0, a later `SetCursor` enqueues its request, and
the new worker converts its image and commits the buffer. -/
theorem C3_error_left_by_racing_prepare :
    run sample_kernel_recover sample_sys
      [Action.SetCursor 50 5 64 64, Action.Worker 0, Action.Worker 0,
        Action.MoveCursor 50 (-10) 0] = sample_sys_edge ∧
    (sample_sys_edge.crtc 0).state = drm_thread_state.PENDING ∧
    drm_move_cursor_begin sample_kernel_recover sample_sys_edge 50 =
      (call_point.passed 0, sample_sys_edge) ∧
    drm_crtc_thread_step sample_kernel_recover sample_sys_edge 0 = sample_sys_error ∧
    (sample_sys_error.crtc 0).state = drm_thread_state.ERROR ∧
    (sample_sys_error.crtc 0).plane = none ∧
    observe sample_sys_error.log = [] ∧
    (drm_move_cursor_resume sample_kernel_recover sample_sys_error 0 7 7).1 = 0 ∧
    drm_set_cursor_begin sample_kernel_recover sample_sys_edge 50 =
      (call_point.passed 0, sample_sys_edge) ∧
    (drm_set_cursor_resume sample_kernel_recover sample_sys_error 0 6 32 32).1 =
      set_cursor_point.enqueued 0 ∧
    (sample_sys_raced.crtc 0).state = drm_thread_state.PENDING ∧
    (sample_sys_raced.crtc 0).plane.isSome = true ∧
    (sample_sys_raced.crtc 0).thread = thread_status.created ∧
    (sample_sys_error.crtc 0).cursor_next =
      { handle := 5, fb := 0, width := 64, height := 64, x := -10, y := 0,
        off_x := 0, off_y := 0, request := 0 } ∧
    (sample_sys_raced.crtc 0).cursor_next =
      { handle := 5, fb := 0, width := 64, height := 64, x := 7, y := 7,
        off_x := 0, off_y := 0, request := 2 } ∧
    (drm_move_cursor sample_kernel_recover sample_sys_raced 50 8 8).1 = 0 ∧
    (drm_set_cursor sample_kernel_recover sample_sys_raced 50 6 32 32).1 =
      set_cursor_point.enqueued 0 ∧
    observe (run sample_kernel_recover sample_sys_raced
      [Action.Worker 0, Action.Worker 0, Action.SetCursor 50 6 32 32, Action.Worker 0]).log =
      [Event.drm_set_plane 31 31 7 7 32 32, Event.egl_convert_fb 6 32 32 0 0] :=
  by decide

end DrmCursor
